import Mathlib

/-!
# StandaloneCgnsWriter: section building, element numbering and field scatter

A shallow embedding of `src/src/CgnsWriterCore.cpp` (the CSR entry point
`cgns_writer::WriteUnstructured`) and of the zone writer of
`src/src/CgnsWriter.cpp` (`WriteZoneUnstructured`, `WriteFlowSolutionCellData`).

Conventions of the embedding.

* `int64_t`, `vtkIdType` and `cgsize_t` values are mathematical integers (`Int`); the
  arithmetic the code performs on them (`end - start`, `id + 1`, `elem + ne - 1`)
  stays far below `2^63` for buffers that fit in memory, and `cgsize_t` is taken to
  be the 64-bit build, so the casts between the three are the identity.
* `unsigned char` shape codes and `int` node counts are natural numbers.
* A nullable pointer to a buffer is an `Option (List _)`; the list is the buffer's
  content as seen through the declared index width.
* A read outside a caller buffer is undefined behaviour in C++; the embedding makes
  it a distinct fault, `Fault.outOfBounds`, never a value.
* Calls into the grid-file library are recorded in a trace; the library's answers
  are a parameter (`CgEnv`).
* Coordinates and field values are only copied, never computed with; they are
  carried as rationals.
-/

namespace CgnsWriter

/-! ## Element types and the cell-type map (CgnsWriterCore.cpp) -/

/-- The enumerators of `ElementType_t` that the writer uses. -/
inductive ElementType where
  | ElementTypeNull
  | NODE
  | BAR_2
  | TRI_3
  | QUAD_4
  | TETRA_4
  | PYRA_5
  | PENTA_6
  | HEXA_8
  deriving DecidableEq, Repr

/-- The integer value of an enumerator, `static_cast<int>(cgnsType)`, as laid down by
the `ElementType_t` enumeration of the grid-file library's header. -/
def ElementType.toInt : ElementType → Int
  | .ElementTypeNull => 0
  | .NODE => 2
  | .BAR_2 => 3
  | .TRI_3 => 5
  | .QUAD_4 => 7
  | .TETRA_4 => 10
  | .PYRA_5 => 12
  | .PENTA_6 => 14
  | .HEXA_8 => 17

def VTK_VERTEX : Nat := 1
def VTK_LINE : Nat := 3
def VTK_TRIANGLE : Nat := 5
def VTK_QUAD : Nat := 9
def VTK_TETRA : Nat := 10
def VTK_HEXAHEDRON : Nat := 12
def VTK_WEDGE : Nat := 13
def VTK_PYRAMID : Nat := 14

/-- The core `MapVtkCellToCgns`: `some (outType, outNodes, outDim)` when the C++ function
returns `true`, `none` when it returns `false`. -/
def MapVtkCellToCgns (vtkCellType : Nat) : Option (ElementType × Nat × Nat) :=
  if vtkCellType = VTK_VERTEX then some (.NODE, 1, 0)
  else if vtkCellType = VTK_LINE then some (.BAR_2, 2, 1)
  else if vtkCellType = VTK_TRIANGLE then some (.TRI_3, 3, 2)
  else if vtkCellType = VTK_QUAD then some (.QUAD_4, 4, 2)
  else if vtkCellType = VTK_TETRA then some (.TETRA_4, 4, 3)
  else if vtkCellType = VTK_PYRAMID then some (.PYRA_5, 5, 3)
  else if vtkCellType = VTK_WEDGE then some (.PENTA_6, 6, 3)
  else if vtkCellType = VTK_HEXAHEDRON then some (.HEXA_8, 8, 3)
  else none

/-- The core `DefaultSectionName`. -/
def DefaultSectionName : ElementType → String
  | .NODE => "Nodes"
  | .BAR_2 => "Bars"
  | .TRI_3 => "Tris"
  | .QUAD_4 => "Quads"
  | .TETRA_4 => "Tets"
  | .PYRA_5 => "Pyrs"
  | .PENTA_6 => "Wedges"
  | .HEXA_8 => "Hexes"
  | .ElementTypeNull => "Elements"

/-! ## The CSR mesh and its accessors -/

/-- The C struct `UnstructuredMeshInfo` of `CgnsWriterExport.h`. -/
structure UnstructuredMeshInfo where
  points : Option (List Rat)
  num_points : Int
  connectivity : Option (List Int)
  connectivity_size : Int
  offsets : Option (List Int)
  num_cells : Int
  types : Option (List Nat)
  use_64bit_ids : Bool

/-- The C struct `CgnsWriteOptions`. -/
structure CgnsWriteOptions where
  use_hdf5 : Int
  base_name : Option String
  zone_name : Option String

/-- What the writers throw: one constructor per `throw` site of `CgnsWriterCore.cpp`
and `CgnsWriter.cpp`, carrying the numbers that the message embeds. -/
inductive WriteError where
  | outputPathNullOrEmpty
  | pointsNullOrEmpty
  | connectivityNullOrEmpty
  | offsetsNullOrEmpty
  | typesNull
  | cgFailed (what err : String)
  | invalidOffsets (cellId : Int)
  | unsupportedType (vtkType : Nat)
  | nodeCountMismatch (cellId cellSize : Int) (expected : Nat)
  | connOutOfRange (index : Int)
  | vtkUnsupportedType (vtkType : Int)
  | vtkUnexpectedPointCount (vtkType : Int)
  | vtkInputNull
  | vtkFileNameEmpty
  | vtkNoLeaves
  | vtkNotStructured
  deriving DecidableEq, Repr

/-- The text of the exception, `ex.what()`. -/
def WriteError.what : WriteError → String
  | .outputPathNullOrEmpty => "output_path is null or empty"
  | .pointsNullOrEmpty => "mesh.points is null or num_points <= 0"
  | .connectivityNullOrEmpty => "mesh.connectivity is null or connectivity_size <= 0"
  | .offsetsNullOrEmpty => "mesh.offsets is null or num_cells <= 0"
  | .typesNull => "mesh.types is null"
  | .cgFailed w e => w ++ ": " ++ e
  | .invalidOffsets c => "Invalid offsets/connectivity_size for cell " ++ toString c
  | .unsupportedType t => "Unsupported VTK cell type " ++ toString t
  | .nodeCountMismatch c sz n =>
      "Cell " ++ toString c ++ " has " ++ toString sz ++ " nodes, expected " ++ toString n
  | .connOutOfRange i => "Connectivity id out of range at index " ++ toString i
  | .vtkUnsupportedType t =>
      "Unsupported VTK cell type " ++ toString t ++ " (only a minimal subset is implemented)."
  | .vtkUnexpectedPointCount t => "Unexpected number of points for VTK cell type " ++ toString t
  | .vtkInputNull => "CgnsWriter::Write: input is null"
  | .vtkFileNameEmpty => "CgnsWriter::Write: fileName is empty"
  | .vtkNoLeaves => "No vtkDataSet leaves found in input."
  | .vtkNotStructured =>
      "Internal error: WriteZoneStructured called for non-structured dataset."

/-- How a step of the writer can stop: a thrown `std::runtime_error`, or an access
outside a buffer (undefined behaviour, not an exception). -/
inductive Fault where
  | thrown (e : WriteError)
  | outOfBounds
  deriving DecidableEq, Repr

/-- Read `buf[index]` through a possibly null pointer. -/
def readAt {α : Type} (buf : Option (List α)) (index : Int) : Except Fault α :=
  match buf with
  | none => .error .outOfBounds
  | some xs =>
    if index < 0 then .error .outOfBounds
    else
      match xs[index.toNat]? with
      | some v => .ok v
      | none => .error .outOfBounds

/-- Store `v` at `buf[index]`. -/
def writeAt {α : Type} (buf : List α) (index : Int) (v : α) : Except Fault (List α) :=
  if index < 0 then .error .outOfBounds
  else if index.toNat < buf.length then .ok (buf.set index.toNat v)
  else .error .outOfBounds

/-- The accessor `GetOffset`: both index widths read the same logical value. -/
def GetOffset (mesh : UnstructuredMeshInfo) (index : Int) : Except Fault Int :=
  if mesh.use_64bit_ids then readAt mesh.offsets index else readAt mesh.offsets index

/-- The accessor `GetConn`: both index widths read the same logical value. -/
def GetConn (mesh : UnstructuredMeshInfo) (index : Int) : Except Fault Int :=
  if mesh.use_64bit_ids then readAt mesh.connectivity index else readAt mesh.connectivity index

/-- The core `struct Section`. -/
structure Section where
  type : ElementType
  name : String
  nodesPerElem : Nat
  conn : List Int
  start : Int
  end_ : Int
  deriving DecidableEq, Repr

/-- The state of the cell loop of `WriteUnstructured`: the section vector, the
`typeToSectionIndex` map (an association list, newest entry last) and `cellDim`. -/
structure LoopState where
  sections : List Section
  typeToSectionIndex : List (Int × Nat)
  cellDim : Nat
  deriving DecidableEq, Repr

/-- The inner loop `for (i = start; i < end; ++i)` of the cell loop, run for `n`
iterations from index `i`, appending to the section's connectivity `acc`. -/
def connLoop (mesh : UnstructuredMeshInfo) : Nat → Int → List Int → Except Fault (List Int)
  | 0, _, acc => .ok acc
  | n + 1, i, acc =>
    match GetConn mesh i with
    | .error f => .error f
    | .ok id =>
      if id < 0 ∨ id ≥ mesh.num_points then .error (.thrown (.connOutOfRange i))
      else connLoop mesh n (i + 1) (acc ++ [id + 1])

/-- The lookup `typeToSectionIndex.find(key)`. -/
def findIndex (m : List (Int × Nat)) (key : Int) : Option Nat :=
  match m with
  | [] => none
  | (k, v) :: rest => if k = key then some v else findIndex rest key

/-- The section selected for the current cell: the existing one, or a new one pushed
at the back (lines 246-262). Returns the updated vector, map and `sidx`. -/
def selectSection (secs : List Section) (m : List (Int × Nat)) (cgnsType : ElementType)
    (nodesPerElem : Nat) : List Section × List (Int × Nat) × Nat :=
  match findIndex m cgnsType.toInt with
  | none =>
    let s : Section :=
      { type := cgnsType, name := DefaultSectionName cgnsType, nodesPerElem := nodesPerElem,
        conn := [], start := 0, end_ := 0 }
    (secs ++ [s], m ++ [(cgnsType.toInt, secs.length)], secs.length)
  | some sidx => (secs, m, sidx)

/-- One iteration of the cell loop (lines 218-274) for cell `cellId`. -/
def cellStep (mesh : UnstructuredMeshInfo) (cellId : Int) (st : LoopState) :
    Except Fault LoopState :=
  match GetOffset mesh cellId with
  | .error f => .error f
  | .ok start =>
    match GetOffset mesh (cellId + 1) with
    | .error f => .error f
    | .ok stop =>
      if start < 0 ∨ stop < start ∨ stop > mesh.connectivity_size then
        .error (.thrown (.invalidOffsets cellId))
      else
        match readAt mesh.types cellId with
        | .error f => .error f
        | .ok vtkType =>
          match MapVtkCellToCgns vtkType with
          | none => .error (.thrown (.unsupportedType vtkType))
          | some (cgnsType, nodesPerElem, elemDim) =>
            let cellSize := stop - start
            if cellSize ≠ (nodesPerElem : Int) then
              .error (.thrown (.nodeCountMismatch cellId cellSize nodesPerElem))
            else
              let (secs, m, sidx) :=
                selectSection st.sections st.typeToSectionIndex cgnsType nodesPerElem
              match secs[sidx]? with
              | none => .error .outOfBounds
              | some s =>
                match connLoop mesh (stop - start).toNat start s.conn with
                | .error f => .error f
                | .ok conn =>
                  .ok { sections := secs.set sidx { s with conn := conn },
                        typeToSectionIndex := m,
                        cellDim := max st.cellDim elemDim }

/-- The cell loop, run for `n` iterations from cell `cellId`. -/
def cellLoop (mesh : UnstructuredMeshInfo) : Nat → Int → LoopState → Except Fault LoopState
  | 0, _, st => .ok st
  | n + 1, cellId, st =>
    match cellStep mesh cellId st with
    | .error f => .error f
    | .ok st1 => cellLoop mesh n (cellId + 1) st1

/-- The whole cell loop of `WriteUnstructured`, from the empty section vector. -/
def buildSections (mesh : UnstructuredMeshInfo) : Except Fault LoopState :=
  cellLoop mesh mesh.num_cells.toNat 0
    { sections := [], typeToSectionIndex := [], cellDim := 0 }

/-- The range-assignment loop (lines 276-287): returns the sections with their ranges
and the final value of `elem`. The divisor `nodesPerElem` is at least 1 in every section
that the cell loop creates. -/
def assignRanges : Int → List Section → List Section × Int
  | elem, [] => ([], elem)
  | elem, s :: rest =>
    let ne : Int := ((s.conn.length / s.nodesPerElem : Nat) : Int)
    if ne = 0 then
      let r := assignRanges elem rest
      (s :: r.1, r.2)
    else
      let s1 : Section := { s with start := elem, end_ := elem + ne - 1 }
      let r := assignRanges (s1.end_ + 1) rest
      (s1 :: r.1, r.2)

/-! ## Calls into the grid-file library -/

/-- A call of the grid-file library, with the arguments the writer passes. -/
inductive CgCall where
  | cg_set_file_type (hdf5 : Bool)
  | cg_open (path : String)
  | cg_base_write (baseName : String) (cellDim physDim : Int)
  | cg_zone_write (zoneName : String) (size : List Int) (structured : Bool)
  | cg_coord_write (name : String) (data : List Rat)
  | cg_section_write (name : String) (type : ElementType) (start end_ : Int) (conn : List Int)
  | cg_sol_write (name : String) (cellCenter : Bool)
  | cg_field_write (name : String) (values : List Rat)
  | cg_close
  deriving DecidableEq

/-- The library as the writer sees it: whether its header defines `CG_FILE_HDF5`, and
the answer to the `n`-th call of a run (`none` is `CG_OK`, `some err` a failure whose
`cg_get_error()` text, or "Unknown CGNS error" for a null text, is `err`). -/
structure CgEnv where
  hdf5Macro : Bool
  answer : Nat → Option String

/-- A library that never fails. -/
def CgEnv.allOk : CgEnv := { hdf5Macro := true, answer := fun _ => none }

/-- A sequence of `CheckCg(call, what)` statements: each call is recorded; the first
failing one throws and the rest are not issued. -/
def runCalls (env : CgEnv) :
    List CgCall → List (CgCall × String) → List CgCall × Option WriteError
  | tr, [] => (tr, none)
  | tr, (c, what) :: rest =>
    match env.answer tr.length with
    | none => runCalls env (tr ++ [c]) rest
    | some err => (tr ++ [c], some (.cgFailed what err))

/-- The coordinate split (lines 202-211), run for `n` points from point `i`; the three
vectors are built in point order. -/
def coordLoop (mesh : UnstructuredMeshInfo) :
    Nat → Int → List Rat × List Rat × List Rat → Except Fault (List Rat × List Rat × List Rat)
  | 0, _, acc => .ok acc
  | n + 1, i, (x, y, z) =>
    let base := i * 3
    match readAt mesh.points (base + 0) with
    | .error f => .error f
    | .ok px =>
      match readAt mesh.points (base + 1) with
      | .error f => .error f
      | .ok py =>
        match readAt mesh.points (base + 2) with
        | .error f => .error f
        | .ok pz => coordLoop mesh n (i + 1) (x ++ [px], y ++ [py], z ++ [pz])

/-- The `cg_section_write` statements of the section loop (lines 317-326): sections
with empty connectivity are skipped. -/
def sectionCalls (secs : List Section) : List (CgCall × String) :=
  (secs.filter fun s => !s.conn.isEmpty).map fun s =>
    (CgCall.cg_section_write s.name s.type s.start s.end_ s.conn,
      "cg_section_write(" ++ s.name ++ ")")

/-- What the inner `try` block of `WriteUnstructured` computes before its first library
call: the coordinate vectors, the sections with their ranges, the zone sizes and
`cellDim`. -/
structure Prepared where
  x : List Rat
  y : List Rat
  z : List Rat
  sections : List Section
  nVerts : Int
  nCellsWritten : Int
  cellDim : Nat

/-- Lines 202-295 of `WriteUnstructured`. -/
def prepare (mesh : UnstructuredMeshInfo) : Except Fault Prepared :=
  match coordLoop mesh mesh.num_points.toNat 0 ([], [], []) with
  | .error f => .error f
  | .ok (x, y, z) =>
    match buildSections mesh with
    | .error f => .error f
    | .ok st =>
      let r := assignRanges 1 st.sections
      .ok { x := x, y := y, z := z, sections := r.1, nVerts := mesh.num_points,
            nCellsWritten := r.2 - 1,
            cellDim := if st.cellDim ≤ 0 then 3 else st.cellDim }

/-- The `CheckCg` statements of the inner `try` block (lines 297-328). -/
def bodyCalls (baseName zoneName : String) (p : Prepared) : List (CgCall × String) :=
  [ (CgCall.cg_base_write baseName p.cellDim 3, "cg_base_write"),
    (CgCall.cg_zone_write zoneName [p.nVerts, p.nCellsWritten, 0] false,
      "cg_zone_write(Unstructured)"),
    (CgCall.cg_coord_write "CoordinateX" p.x, "cg_coord_write(CoordinateX)"),
    (CgCall.cg_coord_write "CoordinateY" p.y, "cg_coord_write(CoordinateY)"),
    (CgCall.cg_coord_write "CoordinateZ" p.z, "cg_coord_write(CoordinateZ)") ]
  ++ sectionCalls p.sections ++ [ (CgCall.cg_close, "cg_close") ]

/-- The outcome of one call of `WriteUnstructured`: the return code, the last-error
string it leaves behind, and the library calls it made, in order. -/
structure RunResult where
  ret : Int
  lastError : String
  trace : List CgCall

/-- The input checks of lines 157-176: the exception thrown, if any. -/
def inputCheck (mesh : UnstructuredMeshInfo) (output_path : Option String) :
    Option WriteError :=
  if output_path = none ∨ output_path = some "" then some .outputPathNullOrEmpty
  else if mesh.points = none ∨ mesh.num_points ≤ 0 then some .pointsNullOrEmpty
  else if mesh.connectivity = none ∨ mesh.connectivity_size ≤ 0 then
    some .connectivityNullOrEmpty
  else if mesh.offsets = none ∨ mesh.num_cells ≤ 0 then some .offsetsNullOrEmpty
  else if mesh.types = none then some .typesNull
  else none

/-- The base name chosen from the options (lines 179-180). -/
def chooseBaseName (options : Option CgnsWriteOptions) : String :=
  match options with
  | some o =>
    match o.base_name with
    | some b => if b ≠ "" then b else "Base"
    | none => "Base"
  | none => "Base"

/-- The zone name chosen from the options (lines 181-182). -/
def chooseZoneName (options : Option CgnsWriteOptions) : String :=
  match options with
  | some o =>
    match o.zone_name with
    | some z => if z ≠ "" then z else "Zone0"
    | none => "Zone0"
  | none => "Zone0"

/-- The flag `useHdf5` of line 178. -/
def chooseHdf5 (options : Option CgnsWriteOptions) : Bool :=
  match options with
  | some o => o.use_hdf5 ≠ 0
  | none => true

/-- The function `cgns_writer::WriteUnstructured`. The result is `none` exactly when the run
reads outside a caller buffer (undefined behaviour); otherwise it is the return code,
the last-error string and the trace of library calls. -/
def WriteUnstructured (env : CgEnv) (mesh : UnstructuredMeshInfo)
    (output_path : Option String) (options : Option CgnsWriteOptions) : Option RunResult :=
  match inputCheck mesh output_path with
  | some e => some { ret := 1, lastError := e.what, trace := [] }
  | none =>
    let tr0 : List CgCall :=
      if env.hdf5Macro then [CgCall.cg_set_file_type (chooseHdf5 options)] else []
    let tr1 := tr0 ++ [CgCall.cg_open (output_path.getD "")]
    match env.answer tr0.length with
    | some err =>
      some { ret := 1, lastError := (WriteError.cgFailed "cg_open" err).what, trace := tr1 }
    | none =>
      match prepare mesh with
      | .error .outOfBounds => none
      | .error (.thrown e) =>
        some { ret := 1, lastError := e.what, trace := tr1 ++ [CgCall.cg_close] }
      | .ok p =>
        match runCalls env tr1 (bodyCalls (chooseBaseName options) (chooseZoneName options) p) with
        | (tr, some e) => some { ret := 1, lastError := e.what, trace := tr ++ [CgCall.cg_close] }
        | (tr, none) => some { ret := 0, lastError := "", trace := tr }

/-! ## The zone writer of CgnsWriter.cpp -/

namespace Vtk

/-- The writer options `CgnsWriterOptions` of `CgnsWriter.h`. -/
structure CgnsWriterOptions where
  useHdf5 : Bool
  skipGhostCells : Bool
  oneBasedConnectivity : Bool
  writePointData : Bool
  writeCellData : Bool
  baseName : String
  zoneNamePrefix : String

/-- The defaults of `CgnsWriterOptions{}`. -/
def CgnsWriterOptions.default : CgnsWriterOptions :=
  { useHdf5 := true, skipGhostCells := true, oneBasedConnectivity := true,
    writePointData := true, writeCellData := true, baseName := "Base",
    zoneNamePrefix := "Zone" }

/-- A cell of a dataset as the writer reads it: `GetCellType(cid)` and the id list
filled by `GetCellPoints(cid, ptIds)`. -/
structure VtkCell where
  cellType : Int
  pointIds : List Int
  deriving DecidableEq, Repr

/-- An unstructured dataset as the zone writer reads it: its point count, its cells in
cell-id order (`GetNumberOfCells()` is their number) and the one-component
ghost-indicator cell array that `GetGhostCellArray` returns, when there is one. -/
structure VtkDataSet where
  numPoints : Int
  cells : List VtkCell
  ghostArray : Option (List Nat)

/-- The zone writer's `struct Section`. -/
structure Section where
  type : ElementType
  name : String
  nodesPerElem : Nat
  vtkCellIds : List Int
  conn : List Int
  start : Int
  end_ : Int
  deriving DecidableEq, Repr

/-- The zone writer's copy of `MapVtkCellToCgns` (no dimension output); the shape codes
are `VTK_VERTEX` = 1, `VTK_LINE` = 3, `VTK_TRIANGLE` = 5, `VTK_QUAD` = 9, `VTK_TETRA` = 10,
`VTK_PYRAMID` = 14, `VTK_WEDGE` = 13 and `VTK_HEXAHEDRON` = 12. -/
def MapVtkCellToCgns (vtkCellType : Int) : Option (ElementType × Nat) :=
  if vtkCellType = 1 then some (.NODE, 1)
  else if vtkCellType = 3 then some (.BAR_2, 2)
  else if vtkCellType = 5 then some (.TRI_3, 3)
  else if vtkCellType = 9 then some (.QUAD_4, 4)
  else if vtkCellType = 10 then some (.TETRA_4, 4)
  else if vtkCellType = 14 then some (.PYRA_5, 5)
  else if vtkCellType = 13 then some (.PENTA_6, 6)
  else if vtkCellType = 12 then some (.HEXA_8, 8)
  else none

/-- The zone writer's copy of `DefaultSectionName`. -/
def DefaultSectionName : ElementType → String
  | .NODE => "Nodes"
  | .BAR_2 => "Bars"
  | .TRI_3 => "Tris"
  | .QUAD_4 => "Quads"
  | .TETRA_4 => "Tets"
  | .PYRA_5 => "Pyrs"
  | .PENTA_6 => "Wedges"
  | .HEXA_8 => "Hexes"
  | .ElementTypeNull => "Elements"

/-- The state of the cell loop of `WriteZoneUnstructured`. -/
structure ZoneState where
  sections : List Section
  typeToSectionIndex : List (Int × Nat)
  deriving DecidableEq, Repr

/-- The array `ghost` of line 553. -/
def ghostOf (opt : CgnsWriterOptions) (ds : VtkDataSet) : Option (List Nat) :=
  if opt.skipGhostCells then ds.ghostArray else none

/-- The ghost test of lines 560-567: `true` when the loop `continue`s. -/
def ghostSkip (ghost : Option (List Nat)) (nCells : Int) (cid : Int) : Except Fault Bool :=
  match ghost with
  | none => .ok false
  | some g =>
    if (g.length : Int) = nCells then
      match readAt (some g) cid with
      | .error f => .error f
      | .ok v => .ok (decide (v ≠ 0))
    else .ok false

/-- The loop `for (pi = 0; pi < nodesPerElem; ++pi)` of lines 606-614, run for `n`
iterations from `pi`, appending to the section's connectivity `acc`. -/
def ptLoop (oneBased : Bool) (ptIds : List Int) : Nat → Int → List Int → Except Fault (List Int)
  | 0, _, acc => .ok acc
  | n + 1, pi, acc =>
    match readAt (some ptIds) pi with
    | .error f => .error f
    | .ok id0 =>
      let id := if oneBased then id0 + 1 else id0
      ptLoop oneBased ptIds n (pi + 1) (acc ++ [id])

/-- The section selected for the current cell (lines 586-602). -/
def selectSection (secs : List Section) (m : List (Int × Nat)) (cgnsType : ElementType)
    (nodesPerElem : Nat) : List Section × List (Int × Nat) × Nat :=
  match findIndex m cgnsType.toInt with
  | none =>
    let s : Section :=
      { type := cgnsType, name := DefaultSectionName cgnsType, nodesPerElem := nodesPerElem,
        vtkCellIds := [], conn := [], start := 0, end_ := 0 }
    (secs ++ [s], m ++ [(cgnsType.toInt, secs.length)], secs.length)
  | some sidx => (secs, m, sidx)

/-- One iteration of the cell loop (lines 558-615) for cell `cid`. -/
def zoneCellStep (opt : CgnsWriterOptions) (ghost : Option (List Nat)) (nCells : Int)
    (cid : Int) (cell : VtkCell) (st : ZoneState) : Except Fault ZoneState :=
  match ghostSkip ghost nCells cid with
  | .error f => .error f
  | .ok true => .ok st
  | .ok false =>
    match MapVtkCellToCgns cell.cellType with
    | none => .error (.thrown (.vtkUnsupportedType cell.cellType))
    | some (cgnsType, nodesPerElem) =>
      if (cell.pointIds.length : Int) ≠ (nodesPerElem : Int) then
        .error (.thrown (.vtkUnexpectedPointCount cell.cellType))
      else
        let (secs, m, sidx) :=
          selectSection st.sections st.typeToSectionIndex cgnsType nodesPerElem
        match secs[sidx]? with
        | none => .error .outOfBounds
        | some s =>
          match ptLoop opt.oneBasedConnectivity cell.pointIds nodesPerElem 0 s.conn with
          | .error f => .error f
          | .ok conn =>
            .ok { sections :=
                    secs.set sidx { s with vtkCellIds := s.vtkCellIds ++ [cid], conn := conn },
                  typeToSectionIndex := m }

/-- The cell loop over the cells from cell id `cid` on. -/
def zoneLoop (opt : CgnsWriterOptions) (ghost : Option (List Nat)) (nCells : Int) :
    Int → List VtkCell → ZoneState → Except Fault ZoneState
  | _, [], st => .ok st
  | cid, cell :: rest, st =>
    match zoneCellStep opt ghost nCells cid cell st with
    | .error f => .error f
    | .ok st1 => zoneLoop opt ghost nCells (cid + 1) rest st1

/-- The loop of lines 629-633: `cellToElem[cid] = s.start + i` for the section's cells
from position `i` on. -/
def mapLoop (start : Int) : Int → List Int → List Int → Except Fault (List Int)
  | _, [], cellToElem => .ok cellToElem
  | i, cid :: rest, cellToElem =>
    match writeAt cellToElem cid (start + i) with
    | .error f => .error f
    | .ok c1 => mapLoop start (i + 1) rest c1

/-- The range-assignment loop of lines 617-636: the sections with their ranges, the
cell-to-element table and the final value of `elem`. -/
def assignRanges : Int → List Section → List Int → Except Fault (List Section × List Int × Int)
  | elem, [], cellToElem => .ok ([], cellToElem, elem)
  | elem, s :: rest, cellToElem =>
    let ne : Int := (s.vtkCellIds.length : Int)
    if ne = 0 then
      match assignRanges elem rest cellToElem with
      | .error f => .error f
      | .ok (secs, c, e) => .ok (s :: secs, c, e)
    else
      let s1 : Section := { s with start := elem, end_ := elem + ne - 1 }
      match mapLoop s1.start 0 s1.vtkCellIds cellToElem with
      | .error f => .error f
      | .ok c1 =>
        match assignRanges (s1.end_ + 1) rest c1 with
        | .error f => .error f
        | .ok (secs, c, e) => .ok (s1 :: secs, c, e)

/-- What `WriteZoneUnstructured` has computed when it reaches its first library call
(lines 548-644): the sections, the cell-to-element table and the zone sizes. -/
structure ZoneBuild where
  sections : List Section
  cellToElem : List Int
  nCellsWritten : Int
  nVerts : Int
  deriving DecidableEq, Repr

/-- Lines 548-644 of `WriteZoneUnstructured`. -/
def buildZone (opt : CgnsWriterOptions) (ds : VtkDataSet) : Except Fault ZoneBuild :=
  let nCells : Int := (ds.cells.length : Int)
  match zoneLoop opt (ghostOf opt ds) nCells 0 ds.cells
      { sections := [], typeToSectionIndex := [] } with
  | .error f => .error f
  | .ok st =>
    match assignRanges 1 st.sections (List.replicate nCells.toNat 0) with
    | .error f => .error f
    | .ok (secs, cellToElem, elem) =>
      .ok { sections := secs, cellToElem := cellToElem, nCellsWritten := elem - 1,
            nVerts := ds.numPoints }

/-- The scatter loop of `WriteFlowSolutionCellData` (lines 458-467) for one component,
run for `n` cells from cell `cid`; `getComponent cid` is `arr->GetComponent(cid, c)`. -/
def scatterLoop (cellToElem : List Int) (getComponent : Int → Rat) :
    Nat → Int → List Rat → Except Fault (List Rat)
  | 0, _, values => .ok values
  | n + 1, cid, values =>
    match readAt (some cellToElem) cid with
    | .error f => .error f
    | .ok elem =>
      if elem = 0 then scatterLoop cellToElem getComponent n (cid + 1) values
      else
        match writeAt values (elem - 1) (getComponent cid) with
        | .error f => .error f
        | .ok v1 => scatterLoop cellToElem getComponent n (cid + 1) v1

/-- The buffer `values` that `WriteFlowSolutionCellData` passes to `cg_field_write` for
one component of one cell array (lines 455-467). -/
def cellFieldValues (cellToElem : List Int) (nCellsWritten : Int) (nCells : Int)
    (getComponent : Int → Rat) : Except Fault (List Rat) :=
  scatterLoop cellToElem getComponent nCells.toNat 0 (List.replicate nCellsWritten.toNat 0)

end Vtk

/-! ## Specification-level notions

The words of the specification, as definitions of their own: what a valid mesh is,
which error a malformed cell gives, and how cells are grouped into sections. The proofs
below relate the code's loops to them. -/

/-- The entry `offsets[i]` of the mesh (0 when absent). -/
def offsetAt (mesh : UnstructuredMeshInfo) (i : Nat) : Int :=
  (mesh.offsets.getD []).getD i 0

/-- The shape code `types[i]` of the mesh (0 when absent). -/
def typeAt (mesh : UnstructuredMeshInfo) (i : Nat) : Nat :=
  (mesh.types.getD []).getD i 0

/-- The node-id slice `connectivity[offsets[i] .. offsets[i+1])` of cell `i`. -/
def cellSlice (mesh : UnstructuredMeshInfo) (i : Nat) : List Int :=
  ((mesh.connectivity.getD []).drop (offsetAt mesh i).toNat).take
    (offsetAt mesh (i + 1) - offsetAt mesh i).toNat

/-- The element type of cell `i` under the cell-type map, when its code is supported. -/
def cellShape (mesh : UnstructuredMeshInfo) (i : Nat) : Option ElementType :=
  (MapVtkCellToCgns (typeAt mesh i)).map fun r => r.1

/-- The caller's buffers are present and have their declared lengths: `points` holds
`3 * num_points` values, `connectivity` holds `connectivity_size`, `offsets` holds
`num_cells + 1` and `types` holds `num_cells`. -/
def buffersOk (mesh : UnstructuredMeshInfo) : Prop :=
  mesh.points.map (fun p => (p.length : Int)) = some (3 * mesh.num_points) ∧
  mesh.connectivity.map (fun p => (p.length : Int)) = some mesh.connectivity_size ∧
  mesh.offsets.map (fun p => (p.length : Int)) = some (mesh.num_cells + 1) ∧
  mesh.types.map (fun p => (p.length : Int)) = some mesh.num_cells

instance (mesh : UnstructuredMeshInfo) : Decidable (buffersOk mesh) := by
  unfold buffersOk; infer_instance

/-- The topology conditions of the connectivity validator for cell `i`: ordered offsets
within the connectivity, a supported shape code whose mandated node count is the size
of the slice, and node ids within `[0, num_points)`. -/
def cellValid (mesh : UnstructuredMeshInfo) (i : Nat) : Prop :=
  0 ≤ offsetAt mesh i ∧ offsetAt mesh i ≤ offsetAt mesh (i + 1) ∧
  offsetAt mesh (i + 1) ≤ mesh.connectivity_size ∧
  (MapVtkCellToCgns (typeAt mesh i)).map (fun r => (r.2.1 : Int))
    = some (offsetAt mesh (i + 1) - offsetAt mesh i) ∧
  ∀ v ∈ cellSlice mesh i, 0 ≤ v ∧ v < mesh.num_points

instance (mesh : UnstructuredMeshInfo) (i : Nat) : Decidable (cellValid mesh i) := by
  unfold cellValid; infer_instance

/-- Every cell of the mesh satisfies the topology conditions. -/
def allCellsValid (mesh : UnstructuredMeshInfo) : Prop :=
  ∀ i, i < mesh.num_cells.toNat → cellValid mesh i

instance (mesh : UnstructuredMeshInfo) : Decidable (allCellsValid mesh) := by
  unfold allCellsValid; infer_instance

/-- The position of the first node id of a slice outside `[0, num_points)`. -/
def firstBad (mesh : UnstructuredMeshInfo) : List Int → Option Nat
  | [] => none
  | v :: rest =>
    if v < 0 ∨ v ≥ mesh.num_points then some 0 else (firstBad mesh rest).map (· + 1)

/-- The first violated condition of cell `i`, in the order: offset ordering, unsupported
shape code, node-count mismatch, out-of-range node id at the smallest connectivity
index; `none` when the cell is valid. -/
def cellError (mesh : UnstructuredMeshInfo) (i : Nat) : Option WriteError :=
  if offsetAt mesh i < 0 ∨ offsetAt mesh (i + 1) < offsetAt mesh i
      ∨ offsetAt mesh (i + 1) > mesh.connectivity_size then
    some (.invalidOffsets i)
  else
    match MapVtkCellToCgns (typeAt mesh i) with
    | none => some (.unsupportedType (typeAt mesh i))
    | some (_, n, _) =>
      if offsetAt mesh (i + 1) - offsetAt mesh i ≠ (n : Int) then
        some (.nodeCountMismatch i (offsetAt mesh (i + 1) - offsetAt mesh i) n)
      else
        match firstBad mesh (cellSlice mesh i) with
        | some j => some (.connOutOfRange (offsetAt mesh i + j))
        | none => none

/-- The first cell from `a` on, among the next `n`, that has an error. -/
def firstError (mesh : UnstructuredMeshInfo) : Nat → Nat → Option WriteError
  | 0, _ => none
  | n + 1, a =>
    match cellError mesh a with
    | some e => some e
    | none => firstError mesh n (a + 1)

/-- The node count of an element type. -/
def nodesOf : ElementType → Nat
  | .NODE => 1
  | .BAR_2 => 2
  | .TRI_3 => 3
  | .QUAD_4 => 4
  | .TETRA_4 => 4
  | .PYRA_5 => 5
  | .PENTA_6 => 6
  | .HEXA_8 => 8
  | .ElementTypeNull => 0

/-- The topological dimension of an element type. -/
def dimOf : ElementType → Nat
  | .NODE => 0
  | .BAR_2 => 1
  | .TRI_3 => 2
  | .QUAD_4 => 2
  | .TETRA_4 => 3
  | .PYRA_5 => 3
  | .PENTA_6 => 3
  | .HEXA_8 => 3
  | .ElementTypeNull => 0

/-- The distinct values of a list, in order of first appearance. -/
def firstSeen {α : Type} [DecidableEq α] (l : List α) : List α :=
  l.foldl (fun acc a => if a ∈ acc then acc else acc ++ [a]) []

/-- The section of element type `t` for a list of kept cells, each an element type with
its one-based node tuple: the tuples of the cells of type `t`, in cell order. -/
def sectionFor (cells : List (ElementType × List Int)) (t : ElementType) : Section :=
  { type := t, name := DefaultSectionName t, nodesPerElem := nodesOf t,
    conn := ((cells.filter fun c => c.1 = t).map fun c => c.2).flatten,
    start := 0, end_ := 0 }

/-- Cells grouped into sections: one per distinct element type, in first-seen order. -/
def groupCells (cells : List (ElementType × List Int)) : List Section :=
  (firstSeen (cells.map fun c => c.1)).map (sectionFor cells)

/-- The kept cells of the mesh from cell `a` on, `n` of them: element type and one-based
node tuple. -/
def cellRecs (mesh : UnstructuredMeshInfo) (n a : Nat) : List (ElementType × List Int) :=
  (List.range' a n).map fun i =>
    ((cellShape mesh i).getD .ElementTypeNull, (cellSlice mesh i).map (· + 1))

/-- The `typeToSectionIndex` map agrees with the section types `T`: a key is bound to
`j` exactly when the `j`-th type has that integer value. -/
def mapAgrees (m : List (Int × Nat)) (T : List ElementType) : Prop :=
  ∀ k j, findIndex m k = some j ↔ ∃ t, T[j]? = some t ∧ t.toInt = k

/-- The invariant of the cell loop after the kept cells `cells`. -/
def loopInv (st : LoopState) (cells : List (ElementType × List Int)) : Prop :=
  st.sections = groupCells cells ∧
  mapAgrees st.typeToSectionIndex (firstSeen (cells.map fun c => c.1)) ∧
  st.cellDim = (cells.map fun c => dimOf c.1).foldl max 0

/-- The calls that create output: the base, a zone, coordinates or a section. -/
def CgCall.isWrite : CgCall → Bool
  | .cg_base_write _ _ _ => true
  | .cg_zone_write _ _ _ => true
  | .cg_coord_write _ _ => true
  | .cg_section_write _ _ _ _ _ => true
  | _ => false

/-- The cell index that an error message names, if it names one. -/
def WriteError.cellRef : WriteError → Option Int
  | .invalidOffsets c => some c
  | .nodeCountMismatch c _ _ => some c
  | _ => none

/-- The calls recorded up to and including `cg_open` (lines 184-198). -/
def openTrace (env : CgEnv) (output_path : Option String)
    (options : Option CgnsWriteOptions) : List CgCall :=
  (if env.hdf5Macro then [CgCall.cg_set_file_type (chooseHdf5 options)] else [])
    ++ [CgCall.cg_open (output_path.getD "")]

/-- Ranges, given as triples (start, end, number of elements) in creation order, are
dense and gap-free: the first starts at 1, each later one starts right after the end
of the one before, each has `end - start + 1` elements, and `total` is the end of the
last one (0 when there is none). -/
def rangesDense (rs : List (Int × Int × Int)) (total : Int) : Prop :=
  (∀ h : 0 < rs.length, rs[0].1 = 1) ∧
  (∀ (k : Nat) (h : k + 1 < rs.length), rs[k + 1].1 = rs[k].2.1 + 1) ∧
  (∀ r ∈ rs, r.2.1 - r.1 + 1 = r.2.2) ∧
  (∀ h : 0 < rs.length, total = rs[rs.length - 1].2.1) ∧
  (rs = [] → total = 0)

/-- The recursive form of `rangesDense`, from an arbitrary first element id. -/
def chained : Int → List (Int × Int × Int) → Int → Prop
  | first, [], total => total = first - 1
  | first, r :: rest, total =>
    r.1 = first ∧ r.2.1 - r.1 + 1 = r.2.2 ∧ chained (r.2.1 + 1) rest total

/-- The index of the first cell of the mesh whose shape is `t` (`num_cells` when there
is none). -/
def firstCell (mesh : UnstructuredMeshInfo) (t : ElementType) : Nat :=
  ((List.range mesh.num_cells.toNat).map (cellShape mesh)).indexOf (some t)

/-- The range triple of a core section: start, end and the element count
`conn.size() / nodesPerElem` that the range loop computes. -/
def Section.range (s : Section) : Int × Int × Int :=
  (s.start, s.end_, ((s.conn.length / s.nodesPerElem : Nat) : Int))

/-- The range triple of a zone-writer section: start, end and the element count
`vtkCellIds.size()` that the range loop computes. -/
def Vtk.Section.range (s : Vtk.Section) : Int × Int × Int :=
  (s.start, s.end_, (s.vtkCellIds.length : Int))

namespace Vtk

/-- The cell `i` of the dataset (a cell of type 0 without points when absent). -/
def cellAt (ds : VtkDataSet) (i : Nat) : VtkCell :=
  ds.cells.getD i { cellType := 0, pointIds := [] }

/-- Ghost filtering drops cell `i`: skipping is enabled, the dataset has a
ghost-indicator array, its length is the cell count, and its entry for `i` is not 0. -/
def isGhost (opt : CgnsWriterOptions) (ds : VtkDataSet) (i : Nat) : Bool :=
  match ghostOf opt ds with
  | some g => decide (g.length = ds.cells.length) && decide (g.getD i 0 ≠ 0)
  | none => false

/-- Cell `i` is kept: it is not dropped by ghost filtering. -/
def kept (opt : CgnsWriterOptions) (ds : VtkDataSet) (i : Nat) : Bool :=
  !isGhost opt ds i

/-- The element type of cell `i` under the zone writer's cell-type map. -/
def shapeOf (ds : VtkDataSet) (i : Nat) : Option ElementType :=
  (MapVtkCellToCgns (cellAt ds i).cellType).map fun r => r.1

/-- The node tuple that cell `i` contributes: its point ids, each plus one when
`oneBasedConnectivity` is set. -/
def tupleOf (opt : CgnsWriterOptions) (ds : VtkDataSet) (i : Nat) : List Int :=
  (cellAt ds i).pointIds.map fun id => if opt.oneBasedConnectivity then id + 1 else id

/-- The error of cell `i`, if any: none for a dropped cell; for a kept cell an
unsupported shape code, then a point count that differs from the shape's. -/
def cellErr (opt : CgnsWriterOptions) (ds : VtkDataSet) (i : Nat) : Option WriteError :=
  if isGhost opt ds i then none
  else
    match MapVtkCellToCgns (cellAt ds i).cellType with
    | none => some (.vtkUnsupportedType (cellAt ds i).cellType)
    | some (_, n) =>
      if ((cellAt ds i).pointIds.length : Int) ≠ (n : Int) then
        some (.vtkUnexpectedPointCount (cellAt ds i).cellType)
      else none

/-- The first cell from `a` on, among the next `n`, that has an error. -/
def firstErr (opt : CgnsWriterOptions) (ds : VtkDataSet) : Nat → Nat → Option WriteError
  | 0, _ => none
  | n + 1, a =>
    match cellErr opt ds a with
    | some e => some e
    | none => firstErr opt ds n (a + 1)

/-- The kept cells among the `n` cells from `a` on, in cell order: element type, cell id
and node tuple. -/
def zoneRecs (opt : CgnsWriterOptions) (ds : VtkDataSet) (a n : Nat) :
    List (ElementType × Int × List Int) :=
  ((List.range' a n).filter (kept opt ds)).map fun i =>
    ((shapeOf ds i).getD .ElementTypeNull, (i : Int), tupleOf opt ds i)

/-- The section of element type `t` for a list of kept cells: their ids and their node
tuples, in cell order. -/
def sectionFor (recs : List (ElementType × Int × List Int)) (t : ElementType) : Section :=
  { type := t, name := DefaultSectionName t, nodesPerElem := nodesOf t,
    vtkCellIds := (recs.filter fun c => c.1 = t).map fun c => c.2.1,
    conn := ((recs.filter fun c => c.1 = t).map fun c => c.2.2).flatten,
    start := 0, end_ := 0 }

/-- Kept cells grouped into sections: one per distinct element type, in first-seen
order. -/
def groupCells (recs : List (ElementType × Int × List Int)) : List Section :=
  (firstSeen (recs.map fun c => c.1)).map (sectionFor recs)

/-- The invariant of the zone writer's cell loop after the kept cells `recs`. -/
def zoneInv (st : ZoneState) (recs : List (ElementType × Int × List Int)) : Prop :=
  st.sections = groupCells recs ∧
  mapAgrees st.typeToSectionIndex (firstSeen (recs.map fun c => c.1))

/-- The merged numbering of a section list: the cell ids of the sections, section by
section; the cell at position `q` is element `q + 1`. -/
def mergedIds (secs : List Section) : List Int :=
  (secs.map fun s => s.vtkCellIds).flatten

/-- Cell `i` has a supported shape code and as many points as the shape mandates. -/
def cellSupported (ds : VtkDataSet) (i : Nat) : Prop :=
  (MapVtkCellToCgns (cellAt ds i).cellType).map (fun r => (r.2 : Int))
    = some ((cellAt ds i).pointIds.length : Int)

instance (ds : VtkDataSet) (i : Nat) : Decidable (cellSupported ds i) := by
  unfold cellSupported; infer_instance

/-- Every kept cell of the dataset is supported. -/
def zoneValid (opt : CgnsWriterOptions) (ds : VtkDataSet) : Prop :=
  ∀ i, i < ds.cells.length → kept opt ds i = true → cellSupported ds i

instance (opt : CgnsWriterOptions) (ds : VtkDataSet) : Decidable (zoneValid opt ds) := by
  unfold zoneValid; infer_instance

/-- The number of kept cells before cell `c` that have the shape of cell `c`. -/
def keptBefore (opt : CgnsWriterOptions) (ds : VtkDataSet) (c : Nat) : Nat :=
  ((List.range c).filter fun j => kept opt ds j && decide (shapeOf ds j = shapeOf ds c)).length

/-- Scenario C: three cells, the middle one flagged as ghost. -/
def dsGhost : VtkDataSet :=
  { numPoints := 5,
    cells := [⟨5, [0, 1, 2]⟩, ⟨9, [0, 1, 2, 3]⟩, ⟨5, [1, 2, 4]⟩],
    ghostArray := some [0, 1, 0] }

/-- One triangle and one quadrilateral, no ghost array. -/
def dsTriQuad : VtkDataSet :=
  { numPoints := 4, cells := [⟨5, [0, 1, 2]⟩, ⟨9, [0, 1, 3, 2]⟩], ghostArray := none }

end Vtk

/-! ## The C entry point and the last-error string (CgnsWriterCore.cpp, lines 14-19, 346-361) -/

/-- The thread-local state of the library: the string `g_last_error`. -/
structure ApiState where
  g_last_error : String
  deriving DecidableEq, Repr

/-- The function `cgns_get_last_error`. -/
def cgns_get_last_error (st : ApiState) : String := st.g_last_error

/-- The function `SetLastError`. -/
def SetLastError (_st : ApiState) (msg : String) : ApiState := { g_last_error := msg }

/-- The C entry point `cgns_write_unstructured`, for a possibly null mesh pointer, as a
run result: a null mesh returns 1 with the message "mesh is null" and makes no call. -/
def cgns_write_unstructured (env : CgEnv) (mesh : Option UnstructuredMeshInfo)
    (output_path : Option String) (options : Option CgnsWriteOptions) : Option RunResult :=
  match mesh with
  | none => some { ret := 1, lastError := "mesh is null", trace := [] }
  | some m => WriteUnstructured env m output_path options

/-- The C entry point with the library state made explicit: the return code and the
state after the call. Every path of the call ends in one `SetLastError`, whose argument
is the `lastError` of the run result. -/
def cgns_write_unstructured_st (st : ApiState) (env : CgEnv)
    (mesh : Option UnstructuredMeshInfo) (output_path : Option String)
    (options : Option CgnsWriteOptions) : Option (Int × ApiState) :=
  match cgns_write_unstructured env mesh output_path options with
  | none => none
  | some r => some (r.ret, SetLastError st r.lastError)

/-- The errors of the cell loop: the four topology violations. -/
def WriteError.isTopology : WriteError → Bool
  | .invalidOffsets _ => true
  | .unsupportedType _ => true
  | .nodeCountMismatch _ _ _ => true
  | .connOutOfRange _ => true
  | _ => false

/-- The maximum topological dimension, via the cell-type map, over the cells of the
mesh (0 when no cell has a supported shape). -/
def maxCellDim (mesh : UnstructuredMeshInfo) : Nat :=
  ((List.range mesh.num_cells.toNat).map fun i =>
    dimOf ((cellShape mesh i).getD .ElementTypeNull)).foldl max 0

/-- The `cg_section_write` calls of a trace. -/
def sectionWrites (tr : List CgCall) : List CgCall :=
  tr.filter fun c =>
    match c with
    | .cg_section_write _ _ _ _ _ => true
    | _ => false

/-- The `cg_base_write` calls of a trace. -/
def baseWrites (tr : List CgCall) : List CgCall :=
  tr.filter fun c =>
    match c with
    | .cg_base_write _ _ _ => true
    | _ => false

/-! ## The rest of CgnsWriter.cpp: datasets, coordinates, fields, zones and `Write` -/

namespace Vtk

/-- A data array as the writer reads it: `GetName()` (possibly null),
`GetNumberOfComponents()` and `GetComponent(tuple, component)`. -/
structure VtkDataArray where
  name : Option String
  numberOfComponents : Int
  getComponent : Int → Int → Rat

/-- The classes that `SafeDownCast` tells apart: the three structured classes, the other
point sets (unstructured grid, poly data) and any other dataset. -/
inductive DataSetKind where
  | imageData
  | rectilinearGrid
  | structuredGrid
  | pointSet
  | other
  deriving DecidableEq, Repr

/-- A dataset as `CgnsWriter::Write` reads it. `topo` holds what the unstructured zone
writer reads; `dims` is `GetDimensions` of a structured dataset; the three coordinate
arrays are those of a rectilinear grid, read at component 0; `getPoint` is `GetPoint`;
`pointsComponents` is the number of components of the point array of a point set that
has points; `cellDimension cid` is `GetCell(cid)->GetCellDimension()`, absent for a null
cell; `pointData` and `cellData` are the arrays of the two attribute sets, each possibly
null. -/
structure DataSet where
  topo : VtkDataSet
  kind : DataSetKind
  dims : Nat × Nat × Nat
  xCoordinates : Option (Int → Rat)
  yCoordinates : Option (Int → Rat)
  zCoordinates : Option (Int → Rat)
  getPoint : Int → Rat × Rat × Rat
  pointsComponents : Option Int
  cellDimension : Int → Option Int
  pointData : Option (List (Option VtkDataArray))
  cellData : Option (List (Option VtkDataArray))

/-- A leaf of a composite dataset: a dataset, or a data object of another class. -/
inductive Leaf where
  | dataSet (ds : DataSet)
  | other

/-- The input of `CgnsWriter::Write`: a dataset, a composite dataset, or a data object
that is neither. A composite is given by the leaf nodes in the order in which its
iterator traverses them, an empty node being `none`. -/
inductive DataObject where
  | dataSet (ds : DataSet)
  | composite (leaves : List (Option Leaf))
  | other

/-- The function `InferPhysicalDim` (its debug log left out). -/
def InferPhysicalDim (ds : DataSet) : Int :=
  let comps : Option Int :=
    match ds.kind with
    | .structuredGrid => ds.pointsComponents
    | .pointSet => ds.pointsComponents
    | _ => none
  match comps with
  | none => 3
  | some n => if n ≥ 3 then 3 else max 1 n

/-- The function `InferCellDim`. -/
def InferCellDim (ds : DataSet) : Int :=
  let cellDim : Int :=
    (List.range ds.topo.cells.length).foldl
      (fun acc cid =>
        match ds.cellDimension cid with
        | some d => max acc d
        | none => acc)
      0
  if cellDim > 0 then cellDim else 3

/-- The loop of `FlattenToZones` over the nodes that the iterator visits, from zone
index `zi` on. -/
def flattenLoop (zoneNamePrefix : String) : Nat → List Leaf → List (DataSet × String)
  | _, [] => []
  | zi, .other :: rest => flattenLoop zoneNamePrefix zi rest
  | zi, .dataSet ds :: rest =>
    (ds, zoneNamePrefix ++ toString zi) :: flattenLoop zoneNamePrefix (zi + 1) rest

/-- The function `FlattenToZones`. The iterator skips empty nodes (`SkipEmptyNodesOn`). -/
def FlattenToZones (input : Option DataObject) (opt : CgnsWriterOptions) :
    List (DataSet × String) :=
  match input with
  | none => []
  | some (.dataSet ds) => [(ds, opt.zoneNamePrefix ++ "0")]
  | some (.composite leaves) =>
    flattenLoop opt.zoneNamePrefix 0 (leaves.filterMap fun l => l)
  | some .other => []

/-- The three coordinate vectors `struct Coords`. -/
structure Coords where
  x : List Rat
  y : List Rat
  z : List Rat

/-- A value of an `int` expression: outside the range of `int` the C++ expression is
undefined. -/
def intExpr (v : Int) : Except Fault Int :=
  if -2147483648 ≤ v ∧ v < 2147483648 then .ok v else .error .outOfBounds

/-- The index `i + dims[0] * (j + dims[1] * k)` of line 202, computed in `int`. -/
def rectIndex (d0 d1 i j k : Int) : Except Fault Int :=
  match intExpr (d1 * k) with
  | .error f => .error f
  | .ok a =>
    match intExpr (j + a) with
    | .error f => .error f
    | .ok b =>
      match intExpr (d0 * b) with
      | .error f => .error f
      | .ok m => intExpr (i + m)

/-- The loop over `i` of lines 199-206, run for `n` iterations from `i`. -/
def rectLoopI (d0 d1 : Int) (xa : Option (Int → Rat)) (y z : Rat) (j k : Int) :
    Nat → Int → Coords → Except Fault Coords
  | 0, _, cs => .ok cs
  | n + 1, i, cs =>
    let x : Rat :=
      match xa with
      | some f => f i
      | none => 0
    match rectIndex d0 d1 i j k with
    | .error f => .error f
    | .ok idx =>
      match writeAt cs.x idx x with
      | .error f => .error f
      | .ok cx =>
        match writeAt cs.y idx y with
        | .error f => .error f
        | .ok cy =>
          match writeAt cs.z idx z with
          | .error f => .error f
          | .ok cz => rectLoopI d0 d1 xa y z j k n (i + 1) { x := cx, y := cy, z := cz }

/-- The loop over `j` of lines 196-207, run for `n` iterations from `j`. -/
def rectLoopJ (d0 d1 : Int) (physDim : Int) (xa ya : Option (Int → Rat)) (z : Rat) (k : Int) :
    Nat → Int → Coords → Except Fault Coords
  | 0, _, cs => .ok cs
  | n + 1, j, cs =>
    let y : Rat :=
      match ya with
      | some f => if physDim ≥ 2 then f j else 0
      | none => 0
    match rectLoopI d0 d1 xa y z j k d0.toNat 0 cs with
    | .error f => .error f
    | .ok cs1 => rectLoopJ d0 d1 physDim xa ya z k n (j + 1) cs1

/-- The loop over `k` of lines 193-208, run for `n` iterations from `k`. -/
def rectLoopK (d0 d1 : Int) (physDim : Int) (xa ya za : Option (Int → Rat)) :
    Nat → Int → Coords → Except Fault Coords
  | 0, _, cs => .ok cs
  | n + 1, k, cs =>
    let z : Rat :=
      match za with
      | some f => if physDim ≥ 3 then f k else 0
      | none => 0
    match rectLoopJ d0 d1 physDim xa ya z k d1.toNat 0 cs with
    | .error f => .error f
    | .ok cs1 => rectLoopK d0 d1 physDim xa ya za n (k + 1) cs1

/-- The function `GetStructuredCoords`: the tensor-product expansion for a rectilinear
grid, the points in their own order for the other classes. -/
def GetStructuredCoords (ds : DataSet) (dims : Nat × Nat × Nat) (physDim : Int) :
    Except Fault Coords :=
  let npts : Nat := dims.1 * dims.2.1 * dims.2.2
  match ds.kind with
  | .rectilinearGrid =>
    rectLoopK dims.1 dims.2.1 physDim ds.xCoordinates ds.yCoordinates ds.zCoordinates
      dims.2.2 0
      { x := List.replicate npts 0, y := List.replicate npts 0, z := List.replicate npts 0 }
  | _ =>
    .ok
      { x := (List.range npts).map fun id => (ds.getPoint id).1,
        y := (List.range npts).map fun id => if physDim ≥ 2 then (ds.getPoint id).2.1 else 0,
        z := (List.range npts).map fun id => if physDim ≥ 3 then (ds.getPoint id).2.2 else 0 }

/-- The function `GetUnstructuredCoords`. -/
def GetUnstructuredCoords (ds : DataSet) (physDim : Int) : Coords :=
  let npts : Nat := ds.topo.numPoints.toNat
  { x := (List.range npts).map fun id => (ds.getPoint id).1,
    y := (List.range npts).map fun id => if physDim ≥ 2 then (ds.getPoint id).2.1 else 0,
    z := (List.range npts).map fun id => if physDim ≥ 3 then (ds.getPoint id).2.2 else 0 }

/-- The function `ComponentSuffix`. -/
def ComponentSuffix (c : Int) : String :=
  if 0 ≤ c ∧ c < 4 then ["X", "Y", "Z", "W"].getD c.toNat "" else "C" ++ toString c

/-- The field name of component `c` of an array with `ncomp` components (lines 412
and 454). -/
def fieldName (baseName : String) (ncomp : Int) (c : Int) : String :=
  if ncomp = 1 then baseName else baseName ++ "_" ++ ComponentSuffix c

/-- One statement of a zone writer as the run meets it: a `CheckCg(call, what)`, or a
stop (a `throw`, or undefined behaviour) met when the statement is reached. -/
abbrev Step := Except Fault (CgCall × String)

/-- The `cg_field_write` statements for one point array (lines 406-424). -/
def pointArraySteps (npts : Int) (ai : Nat) (arr : VtkDataArray) : List Step :=
  let baseName : String := arr.name.getD ("PointArray_" ++ toString ai)
  (List.range arr.numberOfComponents.toNat).map fun c =>
    .ok (CgCall.cg_field_write (fieldName baseName arr.numberOfComponents c)
          ((List.range npts.toNat).map fun id => arr.getComponent id c),
        "cg_field_write(point:" ++ fieldName baseName arr.numberOfComponents c ++ ")")

/-- The function `WriteFlowSolutionPointData`, as its statements. -/
def WriteFlowSolutionPointData (ds : DataSet) : List Step :=
  match ds.pointData with
  | none => []
  | some arrays =>
    .ok (CgCall.cg_sol_write "PointData" false, "cg_sol_write(PointData)") ::
      (arrays.enum.map fun p =>
        match p.2 with
        | none => []
        | some arr => pointArraySteps ds.topo.numPoints p.1 arr).flatten

/-- The `cg_field_write` statements for one cell array (lines 448-473): the buffer of
each component is scattered through the cell-to-element table. -/
def cellArraySteps (cellToElem : List Int) (nCellsWritten : Int) (nCells : Int) (ai : Nat)
    (arr : VtkDataArray) : List Step :=
  let baseName : String := arr.name.getD ("CellArray_" ++ toString ai)
  (List.range arr.numberOfComponents.toNat).map fun c =>
    match cellFieldValues cellToElem nCellsWritten nCells (fun cid => arr.getComponent cid c) with
    | .error f => .error f
    | .ok values =>
      .ok (CgCall.cg_field_write (fieldName baseName arr.numberOfComponents c) values,
          "cg_field_write(cell:" ++ fieldName baseName arr.numberOfComponents c ++ ")")

/-- The function `WriteFlowSolutionCellData`, as its statements. -/
def WriteFlowSolutionCellData (ds : DataSet) (cellToElem : List Int) (nCellsWritten : Int) :
    List Step :=
  match ds.cellData with
  | none => []
  | some arrays =>
    .ok (CgCall.cg_sol_write "CellData" true, "cg_sol_write(CellData)") ::
      (arrays.enum.map fun p =>
        match p.2 with
        | none => []
        | some arr =>
          cellArraySteps cellToElem nCellsWritten (ds.topo.cells.length : Int) p.1 arr).flatten

/-- The function `WriteCoords`, as its statements. -/
def WriteCoords (cs : Coords) : List Step :=
  [ .ok (CgCall.cg_coord_write "CoordinateX" cs.x, "cg_coord_write(CoordinateX)"),
    .ok (CgCall.cg_coord_write "CoordinateY" cs.y, "cg_coord_write(CoordinateY)"),
    .ok (CgCall.cg_coord_write "CoordinateZ" cs.z, "cg_coord_write(CoordinateZ)") ]

/-- The function `IsStructured`. -/
def IsStructured (ds : DataSet) : Bool :=
  match ds.kind with
  | .imageData => true
  | .rectilinearGrid => true
  | .structuredGrid => true
  | _ => false

/-- The function `WriteZoneStructured`, as its statements. -/
def WriteZoneStructured (zoneName : String) (ds : DataSet) (opt : CgnsWriterOptions) :
    List Step :=
  if IsStructured ds then
    let dims := ds.dims
    let physDim := InferPhysicalDim ds
    let d0 : Int := dims.1
    let d1 : Int := dims.2.1
    let d2 : Int := dims.2.2
    let nCells : Nat := ds.topo.cells.length
    .ok (CgCall.cg_zone_write zoneName
          [d0, d1, d2, max (d0 - 1) 0, max (d1 - 1) 0, max (d2 - 1) 0, 0, 0, 0] true,
        "cg_zone_write(Structured)") ::
      (match GetStructuredCoords ds dims physDim with
       | .error f => [.error f]
       | .ok cs =>
         WriteCoords cs
         ++ (if opt.writePointData then WriteFlowSolutionPointData ds else [])
         ++ (if opt.writeCellData then
              WriteFlowSolutionCellData ds
                ((List.range nCells).map fun (cid : Nat) => (cid : Int) + 1) (nCells : Int)
             else []))
  else [.error (.thrown .vtkNotStructured)]

/-- The `cg_section_write` statements of lines 655-664: sections without cells are
skipped. -/
def sectionSteps (secs : List Section) : List Step :=
  (secs.filter fun s => !s.vtkCellIds.isEmpty).map fun s =>
    .ok (CgCall.cg_section_write s.name s.type s.start s.end_ s.conn,
        "cg_section_write(" ++ s.name ++ ")")

/-- The function `WriteZoneUnstructured`, as its statements. -/
def WriteZoneUnstructured (zoneName : String) (ds : DataSet) (opt : CgnsWriterOptions) :
    List Step :=
  let physDim := InferPhysicalDim ds
  match buildZone opt ds.topo with
  | .error f => [.error f]
  | .ok zb =>
    .ok (CgCall.cg_zone_write zoneName [zb.nVerts, zb.nCellsWritten, 0] false,
        "cg_zone_write(Unstructured)") ::
      (WriteCoords (GetUnstructuredCoords ds physDim)
       ++ sectionSteps zb.sections
       ++ (if opt.writePointData then WriteFlowSolutionPointData ds else [])
       ++ (if opt.writeCellData then
            WriteFlowSolutionCellData ds zb.cellToElem zb.nCellsWritten
           else []))

/-- The statements of one iteration of the zone loop of `Write` (lines 730-746). -/
def zoneSteps (opt : CgnsWriterOptions) (z : DataSet × String) : List Step :=
  if IsStructured z.1 then WriteZoneStructured z.2 z.1 opt
  else WriteZoneUnstructured z.2 z.1 opt

/-- The statements of the `try` block of `Write` (lines 715-748). -/
def writeSteps (input : Option DataObject) (opt : CgnsWriterOptions) : List Step :=
  match FlattenToZones input opt with
  | [] => [.error (.thrown .vtkNoLeaves)]
  | first :: rest =>
    .ok (CgCall.cg_base_write opt.baseName (InferCellDim first.1) (InferPhysicalDim first.1),
        "cg_base_write") ::
      ((first :: rest).map (zoneSteps opt)).flatten
      ++ [.ok (CgCall.cg_close, "cg_close")]

/-- Running statements in order from the trace `tr`: each call is recorded; the run stops
at the first stop or failing call. The result is the trace and what stopped the run. -/
def runSteps (env : CgEnv) : List CgCall → List Step → List CgCall × Option Fault
  | tr, [] => (tr, none)
  | tr, .error f :: _ => (tr, some f)
  | tr, .ok (c, what) :: rest =>
    match env.answer tr.length with
    | none => runSteps env (tr ++ [c]) rest
    | some err => (tr ++ [c], some (.thrown (.cgFailed what err)))

/-- The outcome of one call of `CgnsWriter::Write`: the exception it throws, if any, and
the library calls it made. -/
structure WriteOutcome where
  error : Option WriteError
  trace : List CgCall

/-- The function `CgnsWriter::Write`. The result is `none` when the run meets undefined
behaviour. -/
def Write (env : CgEnv) (input : Option DataObject) (fileName : String)
    (opt : CgnsWriterOptions) : Option WriteOutcome :=
  match input with
  | none => some { error := some .vtkInputNull, trace := [] }
  | some _ =>
    if fileName = "" then some { error := some .vtkFileNameEmpty, trace := [] }
    else
      let tr0 : List CgCall :=
        if env.hdf5Macro then [CgCall.cg_set_file_type opt.useHdf5] else []
      let tr1 := tr0 ++ [CgCall.cg_open fileName]
      match env.answer tr0.length with
      | some err => some { error := some (.cgFailed "cg_open" err), trace := tr1 }
      | none =>
        match runSteps env tr1 (writeSteps input opt) with
        | (tr, none) => some { error := none, trace := tr }
        | (tr, some (.thrown e)) => some { error := some e, trace := tr ++ [CgCall.cg_close] }
        | (_, some .outOfBounds) => none

end Vtk

namespace Vtk

/-- The dataset of a leaf, when it is one. -/
def Leaf.dataSet? : Leaf → Option DataSet
  | .dataSet ds => some ds
  | .other => none

/-- The flat index `i + nx * (j + ny * k)` of the grid point `(i, j, k)`. -/
def idx3 (nx ny i j k : Nat) : Nat := i + nx * (j + ny * k)

/-- The position of `cg_open` in the trace of a run: 1 when the library header defines
`CG_FILE_HDF5` (a `cg_set_file_type` precedes it), else 0. -/
def openIndex (env : CgEnv) : Nat := if env.hdf5Macro then 1 else 0

/-- The calls recorded by `Write` up to and including `cg_open` (lines 698-711). -/
def openTraceV (env : CgEnv) (fileName : String) (opt : CgnsWriterOptions) : List CgCall :=
  (if env.hdf5Macro then [CgCall.cg_set_file_type opt.useHdf5] else [])
    ++ [CgCall.cg_open fileName]

/-- The shape of the trace of a run that failed after `cg_open` succeeded: the calls
`pre` up to the open, then calls of which all but the last succeeded, then the
`cg_close` of the handler and nothing after it. -/
def closedAfterFailure (env : CgEnv) (pre tr : List CgCall) : Prop :=
  ∃ mid, tr = pre ++ mid ++ [CgCall.cg_close] ∧
    ∀ k, pre.length ≤ k → k + 1 < pre.length + mid.length → env.answer k = none

/-- A two-component cell array named "Velocity". -/
def arrVelocity : VtkDataArray :=
  { name := some "Velocity", numberOfComponents := 2,
    getComponent := fun cid c =>
      if c = 0 then ([1, 2] : List Rat).getD cid.toNat 0
      else ([3, 4] : List Rat).getD cid.toNat 0 }

/-- Scenario F: two triangles with the cell array "Velocity". -/
def dsVelocity : DataSet :=
  { topo := { numPoints := 4, cells := [⟨5, [0, 1, 2]⟩, ⟨5, [1, 2, 3]⟩], ghostArray := none },
    kind := .pointSet, dims := (0, 0, 0),
    xCoordinates := none, yCoordinates := none, zCoordinates := none,
    getPoint := fun _ => (0, 0, 0), pointsComponents := some 3,
    cellDimension := fun _ => some 2,
    pointData := some [], cellData := some [some arrVelocity] }

/-- A library whose call number `n` fails with the text "io", every other call
succeeding. -/
def envFailAt (n : Nat) : CgEnv :=
  { hdf5Macro := true, answer := fun k => if k = n then some "io" else none }

/-- A rectilinear grid of 2 x 3 x 2 points. -/
def dsRect : DataSet :=
  { topo := { numPoints := 12, cells := [], ghostArray := none },
    kind := .rectilinearGrid, dims := (2, 3, 2),
    xCoordinates := some fun i => ([10, 11] : List Rat).getD i.toNat 0,
    yCoordinates := some fun j => ([20, 21, 22] : List Rat).getD j.toNat 0,
    zCoordinates := some fun k => ([30, 31] : List Rat).getD k.toNat 0,
    getPoint := fun _ => (0, 0, 0), pointsComponents := none,
    cellDimension := fun _ => none,
    pointData := none, cellData := none }

end Vtk

/-! ## The connectivity reads of the cell loop

The cell loop with its reads of `connectivity` made visible: the same control flow as
`connLoop` and `cellStep`, returning the indices passed to `GetConn`. -/

/-- The connectivity indices read by the inner loop of lines 265-273, run for `n`
iterations from index `i`: the loop reads `i`, stops if the read or the range check
fails, and otherwise goes on from `i + 1`. -/
def connReads (mesh : UnstructuredMeshInfo) : Nat → Int → List Int
  | 0, _ => []
  | n + 1, i =>
    match GetConn mesh i with
    | .error _ => [i]
    | .ok id =>
      if id < 0 ∨ id ≥ mesh.num_points then [i]
      else i :: connReads mesh n (i + 1)

/-- The connectivity indices read by one iteration of the cell loop (lines 218-274) for
cell `cellId`: none when the iteration stops at the offset, shape or node-count check,
which all precede the inner loop. -/
def cellConnReads (mesh : UnstructuredMeshInfo) (cellId : Int) : List Int :=
  match GetOffset mesh cellId with
  | .error _ => []
  | .ok start =>
    match GetOffset mesh (cellId + 1) with
    | .error _ => []
    | .ok stop =>
      if start < 0 ∨ stop < start ∨ stop > mesh.connectivity_size then []
      else
        match readAt mesh.types cellId with
        | .error _ => []
        | .ok vtkType =>
          match MapVtkCellToCgns vtkType with
          | none => []
          | some (_, nodesPerElem, _) =>
            if stop - start ≠ (nodesPerElem : Int) then []
            else connReads mesh (stop - start).toNat start

/-! ## Example inputs -/

/-- Scenario B: one triangle and one quadrilateral on four points. -/
def meshTriQuad : UnstructuredMeshInfo :=
  { points := some [0, 0, 0, 1, 0, 0, 0, 1, 0, 1, 1, 0], num_points := 4,
    connectivity := some [0, 1, 2, 0, 1, 3, 2], connectivity_size := 7,
    offsets := some [0, 3, 7], num_cells := 2, types := some [5, 9],
    use_64bit_ids := true }

/-- Scenario D: offsets `[0,3,3,7]`, so that cell 1, a triangle, has no nodes. -/
def meshEmptyCell : UnstructuredMeshInfo :=
  { points := some [0, 0, 0, 1, 0, 0, 0, 1, 0, 1, 1, 0], num_points := 4,
    connectivity := some [0, 1, 2, 0, 1, 3, 2], connectivity_size := 7,
    offsets := some [0, 3, 3, 7], num_cells := 3, types := some [5, 5, 9],
    use_64bit_ids := true }

/-- Two line cells on two points; the second node of cell 1, at connectivity index 3,
is the id 9, outside `[0, 2)`. -/
def meshBadNode : UnstructuredMeshInfo :=
  { points := some [0, 0, 0, 1, 0, 0], num_points := 2,
    connectivity := some [0, 1, 0, 9], connectivity_size := 4,
    offsets := some [0, 2, 4], num_cells := 2, types := some [3, 3],
    use_64bit_ids := false }

/-- One triangle whose slice starts at `offsets[0] = 1`. -/
def meshShifted : UnstructuredMeshInfo :=
  { points := some [0, 0, 0, 1, 0, 0, 0, 1, 0], num_points := 3,
    connectivity := some [7, 0, 1, 2], connectivity_size := 4,
    offsets := some [1, 4], num_cells := 1, types := some [5],
    use_64bit_ids := true }

/-- Scenario A: one tetrahedron on the nodes 0, 1, 2, 3. -/
def meshTet : UnstructuredMeshInfo :=
  { points := some [0, 0, 0, 1, 0, 0, 0, 1, 0, 0, 0, 1], num_points := 4,
    connectivity := some [0, 1, 2, 3], connectivity_size := 4,
    offsets := some [0, 4], num_cells := 1, types := some [10],
    use_64bit_ids := true }

/-- Two vertex cells on two points: every cell has topological dimension 0. -/
def meshVertices : UnstructuredMeshInfo :=
  { points := some [0, 0, 0, 1, 0, 0], num_points := 2,
    connectivity := some [0, 1], connectivity_size := 2,
    offsets := some [0, 1, 2], num_cells := 2, types := some [1, 1],
    use_64bit_ids := true }

/-- The zero-initialised mesh of `ExampleErrorHandling`: every pointer null, every
count 0. -/
def meshZero : UnstructuredMeshInfo :=
  { points := none, num_points := 0, connectivity := none, connectivity_size := 0,
    offsets := none, num_cells := 0, types := none, use_64bit_ids := false }

/-- Three cells with a ghost-indicator array of length 2, flagging cell 1. -/
def Vtk.dsShortGhost : Vtk.VtkDataSet :=
  { numPoints := 5,
    cells := [⟨5, [0, 1, 2]⟩, ⟨9, [0, 1, 2, 3]⟩, ⟨5, [1, 2, 4]⟩],
    ghostArray := some [0, 1] }

/-- The default options with `oneBasedConnectivity` cleared. -/
def Vtk.optZeroBased : Vtk.CgnsWriterOptions :=
  { Vtk.CgnsWriterOptions.default with oneBasedConnectivity := false }

namespace Vtk

/-- A composite with two dataset leaves, an empty node and a leaf that is no dataset. -/
def leavesMixed : List (Option Leaf) :=
  [some (.dataSet dsVelocity), none, some .other, some (.dataSet dsRect)]

end Vtk

namespace Vtk

/-- The effect of the expansion loops of `GetStructuredCoords` on the three vectors:
after the grid points `(i, j, k)` of `T` were processed, the vectors `cs1` hold the
values `xv i`, `yv j`, `zv k` at the flat index of each such point, and agree with the
vectors `cs` from before everywhere else. -/
def rectPost (nx ny : Nat) (xv yv zv : Nat → Rat) (T : Nat → Nat → Nat → Prop)
    (cs cs1 : Coords) : Prop :=
  cs1.x.length = cs.x.length ∧ cs1.y.length = cs.y.length ∧ cs1.z.length = cs.z.length ∧
  (∀ i j k, T i j k →
    cs1.x[idx3 nx ny i j k]? = some (xv i) ∧ cs1.y[idx3 nx ny i j k]? = some (yv j) ∧
      cs1.z[idx3 nx ny i j k]? = some (zv k)) ∧
  (∀ p, (∀ i j k, T i j k → p ≠ idx3 nx ny i j k) →
    cs1.x[p]? = cs.x[p]? ∧ cs1.y[p]? = cs.y[p]? ∧ cs1.z[p]? = cs.z[p]?)

/-- The value written to `x` for the grid column `i` (line 200). -/
def rectX (xa : Option (Int → Rat)) (i : Nat) : Rat :=
  match xa with
  | some f => f i
  | none => 0

/-- The value written to `y` for the grid row `j` (line 197). -/
def rectY (physDim : Int) (ya : Option (Int → Rat)) (j : Nat) : Rat :=
  match ya with
  | some f => if physDim ≥ 2 then f j else 0
  | none => 0

/-- The value written to `z` for the grid plane `k` (line 194). -/
def rectZ (physDim : Int) (za : Option (Int → Rat)) (k : Nat) : Rat :=
  match za with
  | some f => if physDim ≥ 3 then f k else 0
  | none => 0

/-- A rectilinear grid of 1 x 2^30 x 3 points: every dimension fits an `int`, the
number of points does not. -/
def dsHuge : DataSet :=
  { topo := { numPoints := 3221225472, cells := [], ghostArray := none },
    kind := .rectilinearGrid, dims := (1, 1073741824, 3),
    xCoordinates := some fun _ => 0,
    yCoordinates := some fun _ => 0,
    zCoordinates := some fun _ => 0,
    getPoint := fun _ => (0, 0, 0), pointsComponents := none,
    cellDimension := fun _ => none,
    pointData := none, cellData := none }

end Vtk

namespace Vtk

/-- The library call of a statement, when the statement is one. -/
def stepCall : Step → Option CgCall
  | .ok (c, _) => some c
  | .error _ => none

/-- The library calls of a list of statements, in order. -/
def stepCalls (steps : List Step) : List CgCall := steps.filterMap stepCall

/-- Whether a statement stops the run by undefined behaviour. -/
def isUndefinedStop : Step → Bool
  | .error .outOfBounds => true
  | _ => false

/-- A run that opened the file with the calls `pre` and then failed at statement `n` of
`steps` with the error `e`: the statements before `n` were calls and each succeeded;
statement `n` is a `throw` of `e`, or a call that failed, `e` being its `CheckCg` error;
the trace is `pre`, the calls of the statements before `n`, the failing call if
statement `n` is one, and then the `cg_close` of the handler, with nothing after it. -/
def stoppedAt (env : CgEnv) (pre : List CgCall) (steps : List Step) (n : Nat)
    (e : WriteError) (tr : List CgCall) : Prop :=
  n < steps.length ∧
  (∀ s ∈ steps.take n, ∃ c w, s = .ok (c, w)) ∧
  (∀ k, pre.length ≤ k → k < pre.length + n → env.answer k = none) ∧
  ((steps[n]? = some (.error (.thrown e)) ∧
      tr = pre ++ stepCalls (steps.take n) ++ [CgCall.cg_close]) ∨
   (∃ c w err, steps[n]? = some (.ok (c, w)) ∧ env.answer (pre.length + n) = some err ∧
      e = .cgFailed w err ∧
      tr = pre ++ stepCalls (steps.take n) ++ [c, CgCall.cg_close]))

end Vtk

/-- A mesh with several violations: cell 0 is a valid triangle; cell 1 has the
unsupported shape code 7 and the node id 9 on four points; cell 2 is a quadrilateral
with three nodes. -/
def meshSeveralBad : UnstructuredMeshInfo :=
  { points := some [0, 0, 0, 1, 0, 0, 0, 1, 0, 1, 1, 0], num_points := 4,
    connectivity := some [0, 1, 2, 0, 9, 1, 2, 3], connectivity_size := 8,
    offsets := some [0, 3, 5, 8], num_cells := 3, types := some [5, 7, 9],
    use_64bit_ids := true }

namespace Vtk

/-- The dataset without the cells that ghost filtering drops: the kept cells in cell
order, and no ghost array. -/
def dropGhosts (opt : CgnsWriterOptions) (ds : VtkDataSet) : VtkDataSet :=
  { numPoints := ds.numPoints,
    cells := ((List.range ds.cells.length).filter (kept opt ds)).map (cellAt ds),
    ghostArray := none }

/-- Three cells, the middle one flagged as ghost and of the unsupported shape code 7
(a polygon) with five points. -/
def dsGhostPolygon : VtkDataSet :=
  { numPoints := 5,
    cells := [⟨5, [0, 1, 2]⟩, ⟨7, [0, 1, 2, 3, 4]⟩, ⟨5, [1, 2, 4]⟩],
    ghostArray := some [0, 1, 0] }

end Vtk

namespace Vtk

/-- The names of the zones created by a run: the names passed to its `cg_zone_write`
calls, in order. -/
def zoneNames (tr : List CgCall) : List String :=
  tr.filterMap fun c =>
    match c with
    | .cg_zone_write zoneName _ _ => some zoneName
    | _ => none

/-- A zone that its writer writes in full when the library does not fail: a structured
dataset (a rectilinear one with fewer than 2^31 points), or a dataset of another class
whose kept cells are all supported. -/
def zoneWritable (opt : CgnsWriterOptions) (ds : DataSet) : Prop :=
  if IsStructured ds = true then
    ds.kind = .rectilinearGrid → ds.dims.1 * ds.dims.2.1 * ds.dims.2.2 < 2147483648
  else zoneValid opt ds.topo

instance (opt : CgnsWriterOptions) (ds : DataSet) : Decidable (zoneWritable opt ds) := by
  unfold zoneWritable; infer_instance

/-- A zone with one cell of the unsupported shape code 7 (a polygon). -/
def dsPolygonZone : DataSet :=
  { topo := { numPoints := 5, cells := [⟨7, [0, 1, 2, 3, 4]⟩], ghostArray := none },
    kind := .pointSet, dims := (0, 0, 0),
    xCoordinates := none, yCoordinates := none, zCoordinates := none,
    getPoint := fun _ => (0, 0, 0), pointsComponents := some 3,
    cellDimension := fun _ => some 2,
    pointData := none, cellData := none }

/-- A composite of two zones: the two triangles of `dsVelocity`, then the polygon. -/
def leavesPolygon : List (Option Leaf) :=
  [some (.dataSet dsVelocity), some (.dataSet dsPolygonZone)]

end Vtk

namespace Vtk

/-- An image of 2 x 2 x 2 points: a structured dataset whose one cell is a voxel, shape
code 11, which the cell-type map does not support. -/
def dsImageVoxel : DataSet :=
  { topo := { numPoints := 8, cells := [⟨11, [0, 1, 2, 3, 4, 5, 6, 7]⟩], ghostArray := none },
    kind := .imageData, dims := (2, 2, 2),
    xCoordinates := none, yCoordinates := none, zCoordinates := none,
    getPoint := fun _ => (0, 0, 0), pointsComponents := none,
    cellDimension := fun _ => some 3,
    pointData := none, cellData := none }

end Vtk

namespace Vtk

/-- The triangle and the quadrilateral of `dsTriQuad` as a point set without field
data. -/
def dsTriQuadZone : DataSet :=
  { topo := dsTriQuad,
    kind := .pointSet, dims := (0, 0, 0),
    xCoordinates := none, yCoordinates := none, zCoordinates := none,
    getPoint := fun _ => (0, 0, 0), pointsComponents := some 3,
    cellDimension := fun _ => some 2,
    pointData := none, cellData := none }

/-- A one-component cell array "Temperature" with the values 10, 11, 12. -/
def arrTemperature : VtkDataArray :=
  { name := some "Temperature", numberOfComponents := 1,
    getComponent := fun cid _ => ([10, 11, 12] : List Rat).getD cid.toNat 0 }

/-- Scenario C with a cell field: the three cells of `dsGhost`, the middle one a ghost,
and the cell array "Temperature". -/
def dsGhostFields : DataSet :=
  { topo := dsGhost,
    kind := .pointSet, dims := (0, 0, 0),
    xCoordinates := none, yCoordinates := none, zCoordinates := none,
    getPoint := fun _ => (0, 0, 0), pointsComponents := some 3,
    cellDimension := fun _ => some 2,
    pointData := none, cellData := some [some arrTemperature] }

end Vtk

end CgnsWriter

/-! # Proofs -/

namespace CgnsWriter

theorem readAt_some_nat {α : Type} (xs : List α) (k : Nat) :
    readAt (some xs) (k : Int) =
      match xs[k]? with
      | some v => .ok v
      | none => .error .outOfBounds := by
  unfold readAt
  have h : ¬ ((k : Int) < 0) := by omega
  simp only [h, if_false, Int.toNat_ofNat]

theorem readAt_some_get {α : Type} (xs : List α) (k : Nat) (h : k < xs.length) :
    readAt (some xs) (k : Int) = .ok xs[k] := by
  rw [readAt_some_nat]
  simp [List.getElem?_eq_getElem h]

theorem GetConn_eq (mesh : UnstructuredMeshInfo) (i : Int) :
    GetConn mesh i = readAt mesh.connectivity i := by
  unfold GetConn; split <;> rfl

theorem GetOffset_eq (mesh : UnstructuredMeshInfo) (i : Int) :
    GetOffset mesh i = readAt mesh.offsets i := by
  unfold GetOffset; split <;> rfl

theorem connLoop_eq (mesh : UnstructuredMeshInfo) (cs : List Int)
    (hc : mesh.connectivity = some cs) :
    ∀ (n a : Nat) (acc : List Int), a + n ≤ cs.length →
      connLoop mesh n (a : Int) acc =
        match firstBad mesh ((cs.drop a).take n) with
        | some j => .error (.thrown (.connOutOfRange ((a : Int) + (j : Int))))
        | none => .ok (acc ++ ((cs.drop a).take n).map (· + 1)) := by
  intro n
  induction n with
  | zero => intro a acc _; simp [connLoop, firstBad]
  | succ n ih =>
    intro a acc hlen
    have ha : a < cs.length := by omega
    have hd : cs.drop a = cs[a] :: cs.drop (a + 1) := by
      rw [List.drop_eq_getElem_cons ha]
    rw [hd, List.take_succ_cons]
    unfold connLoop
    rw [GetConn_eq, hc, readAt_some_get cs a ha]
    simp only [firstBad]
    by_cases hb : cs[a] < 0 ∨ cs[a] ≥ mesh.num_points
    · simp [hb]
    · simp only [hb, if_false]
      have h1 := ih (a + 1) (acc ++ [cs[a] + 1]) (by omega)
      rw [show ((a : Int) + 1) = ((a + 1 : Nat) : Int) by push_cast; rfl, h1]
      cases hfb : firstBad mesh (List.take n (List.drop (a + 1) cs)) with
      | none => simp
      | some j =>
        simp only [Option.map_some']
        congr 3
        push_cast
        ring

theorem map_nodes_dim {v : Nat} {t : ElementType} {n d : Nat}
    (h : MapVtkCellToCgns v = some (t, n, d)) :
    n = nodesOf t ∧ d = dimOf t ∧ t ≠ .ElementTypeNull := by
  unfold MapVtkCellToCgns at h
  split_ifs at h <;> simp at h <;> obtain ⟨rfl, rfl, rfl⟩ := h <;> simp [nodesOf, dimOf]

theorem toInt_injective {s t : ElementType} (h : s.toInt = t.toInt) : s = t := by
  cases s <;> cases t <;> simp [ElementType.toInt] at h <;> rfl

theorem findIndex_append (m : List (Int × Nat)) (k0 : Int) (v0 : Nat) (k : Int) :
    findIndex (m ++ [(k0, v0)]) k =
      match findIndex m k with
      | some j => some j
      | none => if k0 = k then some v0 else none := by
  induction m with
  | nil => simp [findIndex]
  | cons p m ih =>
    obtain ⟨k1, v1⟩ := p
    simp only [List.cons_append, findIndex]
    by_cases h : k1 = k
    · simp [h]
    · simp [h, ih]

section FirstSeen
variable {α : Type} [DecidableEq α]

theorem firstSeen_nil : firstSeen ([] : List α) = [] := rfl

theorem firstSeen_snoc (l : List α) (a : α) :
    firstSeen (l ++ [a]) = if a ∈ firstSeen l then firstSeen l else firstSeen l ++ [a] := by
  simp [firstSeen, List.foldl_append]

theorem mem_firstSeen (l : List α) (a : α) : a ∈ firstSeen l ↔ a ∈ l := by
  induction l using List.reverseRecOn with
  | nil => simp [firstSeen]
  | append_singleton l b ih =>
    rw [firstSeen_snoc]
    by_cases hb : b ∈ firstSeen l
    · simp only [hb, if_true, List.mem_append, List.mem_singleton]
      constructor
      · intro h; exact Or.inl (ih.1 h)
      · rintro (h | h)
        · exact ih.2 h
        · rw [h]; exact hb
    · simp only [hb, if_false, List.mem_append, List.mem_singleton, ih]

theorem firstSeen_snoc_mem (l : List α) (a : α) :
    firstSeen (l ++ [a]) = if a ∈ l then firstSeen l else firstSeen l ++ [a] := by
  rw [firstSeen_snoc]
  by_cases h : a ∈ l
  · simp [h, (mem_firstSeen l a).2 h]
  · have : a ∉ firstSeen l := fun h1 => h ((mem_firstSeen l a).1 h1)
    simp [h, this]

theorem nodup_firstSeen (l : List α) : (firstSeen l).Nodup := by
  induction l using List.reverseRecOn with
  | nil => simp [firstSeen]
  | append_singleton l b ih =>
    rw [firstSeen_snoc]
    by_cases hb : b ∈ firstSeen l
    · simpa [hb] using ih
    · simp only [hb, if_false]
      rw [List.nodup_append]
      refine ⟨ih, by simp, ?_⟩
      intro x hx hx1
      simp at hx1
      subst hx1
      exact hb hx

theorem firstSeen_order (l : List α) :
    ∀ (a b : Nat) (ha : a < (firstSeen l).length) (hb : b < (firstSeen l).length), a < b →
      l.indexOf (firstSeen l)[a] < l.indexOf (firstSeen l)[b] := by
  induction l using List.reverseRecOn with
  | nil => intro a b ha; simp [firstSeen] at ha
  | append_singleton l x ih =>
    have key : ∀ (a : Nat) (ha : a < (firstSeen l).length),
        (l ++ [x]).indexOf (firstSeen l)[a] = l.indexOf (firstSeen l)[a] ∧
        l.indexOf (firstSeen l)[a] < l.length := by
      intro a ha
      have hm : (firstSeen l)[a] ∈ l := (mem_firstSeen l _).1 (List.getElem_mem ha)
      exact ⟨List.indexOf_append_of_mem hm, List.indexOf_lt_length.2 hm⟩
    by_cases hx : x ∈ l
    · have e : firstSeen (l ++ [x]) = firstSeen l := by rw [firstSeen_snoc_mem]; simp [hx]
      intro a b ha hb hab
      simp only [e] at ha hb ⊢
      rw [(key a ha).1, (key b hb).1]
      exact ih a b ha hb hab
    · have e : firstSeen (l ++ [x]) = firstSeen l ++ [x] := by
        rw [firstSeen_snoc_mem]; simp [hx]
      intro a b ha hb hab
      simp only [e] at ha hb ⊢
      simp only [List.length_append, List.length_singleton] at ha hb
      have ha1 : a < (firstSeen l).length := by omega
      rw [List.getElem_append_left ha1]
      by_cases hb1 : b < (firstSeen l).length
      · rw [List.getElem_append_left hb1, (key a ha1).1, (key b hb1).1]
        exact ih a b ha1 hb1 hab
      · have hb2 : b = (firstSeen l).length := by omega
        subst hb2
        rw [List.getElem_append_right (by omega)]
        simp only [Nat.sub_self, List.getElem_cons_zero]
        rw [(key a ha1).1, List.indexOf_append_of_not_mem hx, List.indexOf_cons_self]
        have := (key a ha1).2
        omega

end FirstSeen

theorem sectionFor_snoc_ne (cells : List (ElementType × List Int)) (t t1 : ElementType)
    (tuple : List Int) (h : t1 ≠ t) :
    sectionFor (cells ++ [(t, tuple)]) t1 = sectionFor cells t1 := by
  have : ¬ (t = t1) := fun e => h e.symm
  simp [sectionFor, List.filter_append, List.filter_cons, this]

theorem sectionFor_snoc_eq (cells : List (ElementType × List Int)) (t : ElementType)
    (tuple : List Int) :
    sectionFor (cells ++ [(t, tuple)]) t =
      { sectionFor cells t with conn := (sectionFor cells t).conn ++ tuple } := by
  simp [sectionFor, List.filter_append, List.filter_cons]

theorem sectionFor_conn_of_not_mem (cells : List (ElementType × List Int)) (t : ElementType)
    (h : t ∉ cells.map fun c => c.1) : (sectionFor cells t).conn = [] := by
  have : cells.filter (fun c => decide (c.1 = t)) = [] := by
    rw [List.filter_eq_nil_iff]
    intro c hc hct
    simp at hct
    exact h (List.mem_map.2 ⟨c, hc, hct⟩)
  simp [sectionFor, this]

theorem foldl_max_snoc (l : List Nat) (d : Nat) :
    (l ++ [d]).foldl max 0 = max (l.foldl max 0) d := by
  simp [List.foldl_append]

theorem push_inv (st : LoopState) (cells : List (ElementType × List Int)) (t : ElementType)
    (tuple : List Int) (hinv : loopInv st cells) :
    ∃ s, (selectSection st.sections st.typeToSectionIndex t (nodesOf t)).1[
            (selectSection st.sections st.typeToSectionIndex t (nodesOf t)).2.2]? = some s ∧
      loopInv
        { sections :=
            (selectSection st.sections st.typeToSectionIndex t (nodesOf t)).1.set
              (selectSection st.sections st.typeToSectionIndex t (nodesOf t)).2.2
              { s with conn := s.conn ++ tuple },
          typeToSectionIndex :=
            (selectSection st.sections st.typeToSectionIndex t (nodesOf t)).2.1,
          cellDim := max st.cellDim (dimOf t) }
        (cells ++ [(t, tuple)]) := by
  obtain ⟨hsec, hmap, hdim⟩ := hinv
  have hlen : st.sections.length = (firstSeen (cells.map fun c => c.1)).length := by
    rw [hsec]; simp [groupCells]
  have hdim' : max st.cellDim (dimOf t)
      = ((cells ++ [(t, tuple)]).map fun c => dimOf c.1).foldl max 0 := by
    rw [hdim, List.map_append, List.map_singleton, foldl_max_snoc]
  have hmapT : (cells ++ [(t, tuple)]).map (fun c => c.1) = cells.map (fun c => c.1) ++ [t] := by
    simp
  cases hf : findIndex st.typeToSectionIndex t.toInt with
  | none =>
    have hnot : t ∉ firstSeen (cells.map fun c => c.1) := by
      intro hm
      obtain ⟨j, hj, hjt⟩ := List.getElem_of_mem hm
      have := (hmap t.toInt j).2 ⟨t, by rw [List.getElem?_eq_getElem hj, hjt], rfl⟩
      rw [hf] at this
      cases this
    have hnot' : t ∉ cells.map fun c => c.1 := fun h => hnot ((mem_firstSeen _ _).2 h)
    have hsel : selectSection st.sections st.typeToSectionIndex t (nodesOf t) =
        (st.sections ++ [{ type := t, name := DefaultSectionName t, nodesPerElem := nodesOf t,
                            conn := [], start := 0, end_ := 0 }],
          st.typeToSectionIndex ++ [(t.toInt, st.sections.length)], st.sections.length) := by
      simp [selectSection, hf]
    rw [hsel]
    refine ⟨{ type := t, name := DefaultSectionName t, nodesPerElem := nodesOf t,
              conn := [], start := 0, end_ := 0 }, by simp, ?_⟩
    refine ⟨?_, ?_, hdim'⟩
    · simp only [groupCells, hmapT]
      rw [firstSeen_snoc_mem]
      simp only [hnot', if_false, List.map_append, List.map_singleton]
      rw [List.set_append_right _ _ (le_refl _)]
      simp only [Nat.sub_self, List.set_cons_zero, List.nil_append]
      congr 1
      · rw [hsec, groupCells]
        apply List.map_congr_left
        intro t1 ht1
        rw [sectionFor_snoc_ne]
        intro e; subst e; exact hnot ht1
      · rw [sectionFor_snoc_eq]
        have := sectionFor_conn_of_not_mem cells t hnot'
        rw [this]
        simp [sectionFor]
    · simp only [hmapT]
      rw [firstSeen_snoc_mem]
      simp only [hnot', if_false]
      intro k j
      rw [findIndex_append]
      constructor
      · intro h
        cases hk : findIndex st.typeToSectionIndex k with
        | some j1 =>
          rw [hk] at h
          simp at h
          subst h
          obtain ⟨t1, ht1, ht1k⟩ := (hmap k j1).1 hk
          refine ⟨t1, ?_, ht1k⟩
          have hj1 : j1 < (firstSeen (cells.map fun c => c.1)).length := by
            by_contra hcon
            rw [List.getElem?_eq_none (by omega)] at ht1
            cases ht1
          rw [List.getElem?_append_left hj1]
          exact ht1
        | none =>
          rw [hk] at h
          simp at h
          obtain ⟨hk0, hj0⟩ := h
          refine ⟨t, ?_, hk0⟩
          rw [← hj0, hlen]
          simp
      · rintro ⟨t1, ht1, ht1k⟩
        by_cases hj : j < (firstSeen (cells.map fun c => c.1)).length
        · rw [List.getElem?_append_left hj] at ht1
          have := (hmap k j).2 ⟨t1, ht1, ht1k⟩
          rw [this]
        · have hj2 : j = (firstSeen (cells.map fun c => c.1)).length := by
            by_contra hcon
            rw [List.getElem?_eq_none (by simp; omega)] at ht1
            cases ht1
          subst hj2
          simp at ht1
          subst ht1
          have hnone : findIndex st.typeToSectionIndex k = none := by
            cases hk : findIndex st.typeToSectionIndex k with
            | none => rfl
            | some j1 =>
              exfalso
              obtain ⟨t2, ht2, ht2k⟩ := (hmap k j1).1 hk
              have : t2 = t := toInt_injective (by rw [ht2k, ht1k])
              subst this
              exact hnot (List.getElem?_mem ht2)
          rw [hnone]
          simp [ht1k, hlen]
  | some j =>
    obtain ⟨t1, ht1, ht1k⟩ := (hmap t.toInt j).1 hf
    have : t1 = t := toInt_injective ht1k
    subst this
    have hmem : t1 ∈ cells.map fun c => c.1 :=
      (mem_firstSeen _ _).1 (List.getElem?_mem ht1)
    have hj : j < (firstSeen (cells.map fun c => c.1)).length := by
      by_contra hcon
      rw [List.getElem?_eq_none (by omega)] at ht1
      cases ht1
    have hTj : (firstSeen (cells.map fun c => c.1))[j] = t1 := by
      rw [List.getElem?_eq_getElem hj] at ht1
      exact Option.some.inj ht1
    have hsel : selectSection st.sections st.typeToSectionIndex t1 (nodesOf t1) =
        (st.sections, st.typeToSectionIndex, j) := by
      simp [selectSection, hf]
    rw [hsel]
    have hsj : st.sections[j]? = some (sectionFor cells t1) := by
      rw [hsec, groupCells, List.getElem?_map, ht1]
      rfl
    refine ⟨_, hsj, ?_⟩
    refine ⟨?_, ?_, hdim'⟩
    · simp only [groupCells, hmapT]
      rw [firstSeen_snoc_mem]
      simp only [hmem, if_true]
      apply List.ext_getElem
      · simp [hsec, groupCells]
      · intro i h1 h2
        simp only [List.length_set] at h1
        rw [List.getElem_set]
        simp only [List.getElem_map]
        by_cases hij : j = i
        · subst hij
          simp only [if_true, hTj]
          rw [sectionFor_snoc_eq]
        · simp only [hij, if_false]
          have hne : (firstSeen (cells.map fun c => c.1))[i] ≠ t1 := by
            intro e
            rw [← hTj] at e
            have := (List.Nodup.getElem_inj_iff (nodup_firstSeen _)).1 e
            exact hij this.symm
          rw [sectionFor_snoc_ne _ _ _ _ hne]
          simp [hsec, groupCells]
    · simp only [hmapT]
      rw [firstSeen_snoc_mem]
      simp only [hmem, if_true]
      exact hmap

theorem GetOffset_ok (mesh : UnstructuredMeshInfo) (os : List Int)
    (h : mesh.offsets = some os) (k : Nat) (hk : k < os.length) :
    GetOffset mesh (k : Int) = .ok (offsetAt mesh k) := by
  rw [GetOffset_eq, h, readAt_some_get os k hk]
  simp [offsetAt, h, List.getElem?_eq_getElem hk]

theorem readTypes_ok (mesh : UnstructuredMeshInfo) (ts : List Nat)
    (h : mesh.types = some ts) (k : Nat) (hk : k < ts.length) :
    readAt mesh.types (k : Int) = .ok (typeAt mesh k) := by
  rw [h, readAt_some_get ts k hk]
  simp [typeAt, h, List.getElem?_eq_getElem hk]

theorem buffersOk_lists {mesh : UnstructuredMeshInfo} (hb : buffersOk mesh) :
    ∃ pts cs os ts, mesh.points = some pts ∧ mesh.connectivity = some cs ∧
      mesh.offsets = some os ∧ mesh.types = some ts ∧
      (pts.length : Int) = 3 * mesh.num_points ∧ (cs.length : Int) = mesh.connectivity_size ∧
      (os.length : Int) = mesh.num_cells + 1 ∧ (ts.length : Int) = mesh.num_cells := by
  obtain ⟨h1, h2, h3, h4⟩ := hb
  rw [Option.map_eq_some'] at h1 h2 h3 h4
  obtain ⟨pts, hp, hpl⟩ := h1
  obtain ⟨cs, hc, hcl⟩ := h2
  obtain ⟨os, ho, hol⟩ := h3
  obtain ⟨ts, ht, htl⟩ := h4
  exact ⟨pts, cs, os, ts, hp, hc, ho, ht, hpl, hcl, hol, htl⟩

theorem cellRecs_one (mesh : UnstructuredMeshInfo) (i : Nat) :
    cellRecs mesh 1 i =
      [((cellShape mesh i).getD .ElementTypeNull, (cellSlice mesh i).map (· + 1))] := by
  simp [cellRecs, List.range']

theorem cellStep_spec (mesh : UnstructuredMeshInfo) (hb : buffersOk mesh) (i : Nat)
    (hi : i < mesh.num_cells.toNat) (st : LoopState) (cells : List (ElementType × List Int))
    (hinv : loopInv st cells) :
    match cellError mesh i with
    | some e => cellStep mesh (i : Int) st = .error (.thrown e)
    | none => ∃ st1, cellStep mesh (i : Int) st = .ok st1 ∧
        loopInv st1 (cells ++ cellRecs mesh 1 i) := by
  obtain ⟨pts, cs, os, ts, hp, hc, ho, ht, hpl, hcl, hol, htl⟩ := buffersOk_lists hb
  have hi0 : i < os.length := by omega
  have hi1 : i + 1 < os.length := by omega
  have hit : i < ts.length := by omega
  unfold cellStep cellError
  rw [GetOffset_ok mesh os ho i hi0,
    show ((i : Int) + 1) = ((i + 1 : Nat) : Int) by push_cast; rfl,
    GetOffset_ok mesh os ho (i + 1) hi1, readTypes_ok mesh ts ht i hit]
  simp only
  by_cases hoff : offsetAt mesh i < 0 ∨ offsetAt mesh (i + 1) < offsetAt mesh i
      ∨ offsetAt mesh (i + 1) > mesh.connectivity_size
  · simp only [hoff, if_true]
  · simp only [hoff, if_false]
    cases hm : MapVtkCellToCgns (typeAt mesh i) with
    | none => simp only
    | some r =>
      obtain ⟨t, n, d⟩ := r
      obtain ⟨hn, hd, _⟩ := map_nodes_dim hm
      subst hn hd
      dsimp only
      by_cases hsz : offsetAt mesh (i + 1) - offsetAt mesh i ≠ (nodesOf t : Int)
      · rw [if_pos hsz, if_pos hsz]
      · rw [if_neg hsz, if_neg hsz]
        obtain ⟨s, hs, hpush⟩ :=
          push_inv st cells t ((cellSlice mesh i).map (· + 1)) hinv
        generalize hr : selectSection st.sections st.typeToSectionIndex t (nodesOf t) = r at hs hpush ⊢
        obtain ⟨secs, m, sidx⟩ := r
        simp only at hs hpush ⊢
        rw [hs]
        simp only
        have hstart : offsetAt mesh i = (((offsetAt mesh i).toNat : Nat) : Int) := by
          rw [Int.toNat_of_nonneg]; omega
        have hslice : cellSlice mesh i =
            (cs.drop (offsetAt mesh i).toNat).take
              (offsetAt mesh (i + 1) - offsetAt mesh i).toNat := by
          simp [cellSlice, hc]
        have hbound : (offsetAt mesh i).toNat + (offsetAt mesh (i + 1) - offsetAt mesh i).toNat
            ≤ cs.length := by omega
        have hloop := connLoop_eq mesh cs hc (offsetAt mesh (i + 1) - offsetAt mesh i).toNat
          (offsetAt mesh i).toNat s.conn hbound
        rw [← hstart, ← hslice] at hloop
        rw [hloop]
        cases hfb : firstBad mesh (cellSlice mesh i) with
        | some j => simp only
        | none =>
          simp only
          refine ⟨_, rfl, ?_⟩
          rw [cellRecs_one]
          simp only [cellShape, hm, Option.map_some', Option.getD_some]
          exact hpush

theorem cellRecs_succ (mesh : UnstructuredMeshInfo) (n a : Nat) :
    cellRecs mesh (n + 1) a = cellRecs mesh 1 a ++ cellRecs mesh n (a + 1) := by
  simp [cellRecs, List.range']

theorem cellLoop_spec (mesh : UnstructuredMeshInfo) (hb : buffersOk mesh) :
    ∀ (n a : Nat) (st : LoopState) (cells : List (ElementType × List Int)),
      a + n ≤ mesh.num_cells.toNat → loopInv st cells →
      match firstError mesh n a with
      | some e => cellLoop mesh n (a : Int) st = .error (.thrown e)
      | none => ∃ st1, cellLoop mesh n (a : Int) st = .ok st1 ∧
          loopInv st1 (cells ++ cellRecs mesh n a) := by
  intro n
  induction n with
  | zero =>
    intro a st cells _ hinv
    simp only [firstError, cellLoop]
    exact ⟨st, rfl, by simpa [cellRecs] using hinv⟩
  | succ n ih =>
    intro a st cells hle hinv
    have hstep := cellStep_spec mesh hb a (by omega) st cells hinv
    unfold firstError cellLoop
    cases hce : cellError mesh a with
    | some e =>
      rw [hce] at hstep
      dsimp only at hstep ⊢
      rw [hstep]
    | none =>
      rw [hce] at hstep
      dsimp only at hstep ⊢
      obtain ⟨st1, hst1, hinv1⟩ := hstep
      rw [hst1]
      dsimp only
      have := ih (a + 1) st1 _ (by omega) hinv1
      rw [show ((a : Int) + 1) = ((a + 1 : Nat) : Int) by push_cast; rfl]
      rw [cellRecs_succ, ← List.append_assoc]
      exact this

theorem loopInv_init :
    loopInv { sections := [], typeToSectionIndex := [], cellDim := 0 } [] := by
  refine ⟨by simp [groupCells, firstSeen], ?_, by simp⟩
  intro k j
  simp [findIndex, firstSeen]

theorem buildSections_spec (mesh : UnstructuredMeshInfo) (hb : buffersOk mesh) :
    match firstError mesh mesh.num_cells.toNat 0 with
    | some e => buildSections mesh = .error (.thrown e)
    | none => ∃ st, buildSections mesh = .ok st ∧
        loopInv st (cellRecs mesh mesh.num_cells.toNat 0) := by
  have := cellLoop_spec mesh hb mesh.num_cells.toNat 0 _ [] (by omega) loopInv_init
  simpa [buildSections] using this

theorem firstBad_none_iff (mesh : UnstructuredMeshInfo) (l : List Int) :
    firstBad mesh l = none ↔ ∀ v ∈ l, 0 ≤ v ∧ v < mesh.num_points := by
  induction l with
  | nil => simp [firstBad]
  | cons v l ih =>
    simp only [firstBad, List.mem_cons, forall_eq_or_imp]
    by_cases h : v < 0 ∨ v ≥ mesh.num_points
    · simp only [h, if_true]
      constructor
      · intro h1; cases h1
      · rintro ⟨h1, _⟩; omega
    · simp only [h, if_false, Option.map_eq_none', ih]
      constructor
      · intro h1; exact ⟨by omega, h1⟩
      · rintro ⟨_, h1⟩; exact h1

theorem cellError_none_iff (mesh : UnstructuredMeshInfo) (i : Nat) :
    cellError mesh i = none ↔ cellValid mesh i := by
  unfold cellError cellValid
  by_cases hoff : offsetAt mesh i < 0 ∨ offsetAt mesh (i + 1) < offsetAt mesh i
      ∨ offsetAt mesh (i + 1) > mesh.connectivity_size
  · rw [if_pos hoff]
    constructor
    · intro h; cases h
    · rintro ⟨h1, h2, h3, _⟩; omega
  · rw [if_neg hoff]
    cases hm : MapVtkCellToCgns (typeAt mesh i) with
    | none =>
      dsimp only
      constructor
      · intro h; cases h
      · rintro ⟨_, _, _, h4, _⟩
        simp at h4
    | some r =>
      obtain ⟨t, n, d⟩ := r
      dsimp only
      by_cases hsz : offsetAt mesh (i + 1) - offsetAt mesh i ≠ (n : Int)
      · rw [if_pos hsz]
        constructor
        · intro h; cases h
        · rintro ⟨_, _, _, h4, _⟩
          simp at h4
          exact absurd h4.symm hsz
      · rw [if_neg hsz]
        have hsz' : offsetAt mesh (i + 1) - offsetAt mesh i = (n : Int) := by
          by_contra h; exact hsz h
        constructor
        · intro h
          refine ⟨by omega, by omega, by omega, by simp [hsz'], ?_⟩
          apply (firstBad_none_iff mesh _).1
          cases hfb : firstBad mesh (cellSlice mesh i) with
          | none => rfl
          | some j => rw [hfb] at h; cases h
        · rintro ⟨_, _, _, _, h5⟩
          rw [(firstBad_none_iff mesh _).2 h5]

theorem firstError_none_iff (mesh : UnstructuredMeshInfo) :
    ∀ n a, firstError mesh n a = none ↔ ∀ i, a ≤ i → i < a + n → cellValid mesh i := by
  intro n
  induction n with
  | zero => intro a; simp only [firstError, true_iff]; intro i h1 h2; omega
  | succ n ih =>
    intro a
    unfold firstError
    cases hce : cellError mesh a with
    | some e =>
      dsimp only
      constructor
      · intro h; cases h
      · intro h
        have := (cellError_none_iff mesh a).2 (h a (le_refl _) (by omega))
        rw [hce] at this; cases this
    | none =>
      dsimp only
      rw [ih (a + 1)]
      constructor
      · intro h i h1 h2
        by_cases e : i = a
        · subst e; exact (cellError_none_iff mesh i).1 hce
        · exact h i (by omega) (by omega)
      · intro h i h1 h2
        exact h i (by omega) (by omega)

theorem firstError_none_iff_valid (mesh : UnstructuredMeshInfo) :
    firstError mesh mesh.num_cells.toNat 0 = none ↔ allCellsValid mesh := by
  rw [firstError_none_iff]
  unfold allCellsValid
  constructor
  · intro h i hi; exact h i (Nat.zero_le _) (by omega)
  · intro h i _ hi; exact h i (by omega)

theorem coordLoop_ok (mesh : UnstructuredMeshInfo) (pts : List Rat)
    (hp : mesh.points = some pts) :
    ∀ (n a : Nat) (acc : List Rat × List Rat × List Rat), 3 * (a + n) ≤ pts.length →
      ∃ r, coordLoop mesh n (a : Int) acc = .ok r := by
  intro n
  induction n with
  | zero => intro a acc _; exact ⟨acc, rfl⟩
  | succ n ih =>
    intro a acc hlen
    obtain ⟨x, y, z⟩ := acc
    unfold coordLoop
    rw [hp]
    dsimp only
    rw [show ((a : Int) * 3 + 0) = ((3 * a : Nat) : Int) by push_cast; ring,
      show ((a : Int) * 3 + 1) = ((3 * a + 1 : Nat) : Int) by push_cast; ring,
      show ((a : Int) * 3 + 2) = ((3 * a + 2 : Nat) : Int) by push_cast; ring,
      readAt_some_get pts (3 * a) (by omega), readAt_some_get pts (3 * a + 1) (by omega),
      readAt_some_get pts (3 * a + 2) (by omega)]
    dsimp only
    rw [show ((a : Int) + 1) = ((a + 1 : Nat) : Int) by push_cast; rfl]
    exact ih (a + 1) _ (by omega)

theorem runCalls_ok (env : CgEnv) (hok : ∀ n, env.answer n = none) :
    ∀ (calls : List (CgCall × String)) (tr : List CgCall),
      runCalls env tr calls = (tr ++ calls.map (fun c => c.1), none) := by
  intro calls
  induction calls with
  | nil => intro tr; simp [runCalls]
  | cons c calls ih =>
    intro tr
    obtain ⟨c1, w⟩ := c
    simp only [runCalls, hok, ih, List.map_cons, List.append_assoc, List.singleton_append]

theorem prepare_spec (mesh : UnstructuredMeshInfo) (hb : buffersOk mesh) :
    match firstError mesh mesh.num_cells.toNat 0 with
    | some e => prepare mesh = .error (.thrown e)
    | none => ∃ p st, prepare mesh = .ok p ∧ buildSections mesh = .ok st ∧
        loopInv st (cellRecs mesh mesh.num_cells.toNat 0) ∧
        p.sections = (assignRanges 1 st.sections).1 ∧
        p.nCellsWritten = (assignRanges 1 st.sections).2 - 1 ∧
        p.nVerts = mesh.num_points ∧
        p.cellDim = (if st.cellDim ≤ 0 then 3 else st.cellDim) := by
  obtain ⟨pts, cs, os, ts, hp, hc, ho, ht, hpl, hcl, hol, htl⟩ := buffersOk_lists hb
  obtain ⟨r, hr⟩ := coordLoop_ok mesh pts hp mesh.num_points.toNat 0 ([], [], []) (by omega)
  have hbs := buildSections_spec mesh hb
  unfold prepare
  simp only [Nat.cast_zero] at hr
  rw [hr]
  obtain ⟨x, y, z⟩ := r
  dsimp only
  cases hfe : firstError mesh mesh.num_cells.toNat 0 with
  | some e =>
    rw [hfe] at hbs
    dsimp only at hbs ⊢
    rw [hbs]
  | none =>
    rw [hfe] at hbs
    dsimp only at hbs ⊢
    obtain ⟨st, hst, hinv⟩ := hbs
    rw [hst]
    exact ⟨_, st, rfl, rfl, hinv, rfl, rfl, rfl, rfl⟩

theorem WriteUnstructured_invalid (env : CgEnv) (mesh : UnstructuredMeshInfo)
    (output_path : Option String) (options : Option CgnsWriteOptions)
    (hb : buffersOk mesh) (hin : inputCheck mesh output_path = none)
    (hopen : env.answer (openTrace env output_path options).length.pred = none)
    (e : WriteError) (he : firstError mesh mesh.num_cells.toNat 0 = some e) :
    WriteUnstructured env mesh output_path options =
      some { ret := 1, lastError := e.what,
             trace := openTrace env output_path options ++ [CgCall.cg_close] } := by
  have hprep := prepare_spec mesh hb
  rw [he] at hprep
  dsimp only at hprep
  unfold WriteUnstructured
  rw [hin]
  dsimp only
  have hopen' : env.answer
      (if env.hdf5Macro then [CgCall.cg_set_file_type (chooseHdf5 options)] else []).length
        = none := by
    simpa [openTrace] using hopen
  rw [hopen', hprep]
  rfl

theorem WriteUnstructured_valid (env : CgEnv) (mesh : UnstructuredMeshInfo)
    (output_path : Option String) (options : Option CgnsWriteOptions)
    (hb : buffersOk mesh) (hin : inputCheck mesh output_path = none)
    (hok : ∀ n, env.answer n = none)
    (he : firstError mesh mesh.num_cells.toNat 0 = none) :
    ∃ p, prepare mesh = .ok p ∧
      WriteUnstructured env mesh output_path options =
        some { ret := 0, lastError := "",
               trace := openTrace env output_path options ++
                 (bodyCalls (chooseBaseName options) (chooseZoneName options) p).map
                   (fun c => c.1) } := by
  have hprep := prepare_spec mesh hb
  rw [he] at hprep
  dsimp only at hprep
  obtain ⟨p, st, hp, _⟩ := hprep
  refine ⟨p, hp, ?_⟩
  unfold WriteUnstructured
  rw [hin]
  dsimp only
  rw [hok, hp]
  dsimp only
  rw [runCalls_ok env hok]
  rfl

theorem firstError_eq_of_first (mesh : UnstructuredMeshInfo) (e : WriteError) :
    ∀ (n a i : Nat), a ≤ i → i < a + n → (∀ j, a ≤ j → j < i → cellValid mesh j) →
      cellError mesh i = some e → firstError mesh n a = some e := by
  intro n
  induction n with
  | zero => intro a i h1 h2; omega
  | succ n ih =>
    intro a i h1 h2 hprev he
    unfold firstError
    by_cases hai : a = i
    · subst hai
      rw [he]
    · have hv := (cellError_none_iff mesh a).2 (hprev a (le_refl _) (by omega))
      rw [hv]
      dsimp only
      exact ih (a + 1) i (by omega) (by omega) (fun j hj1 hj2 => hprev j (by omega) hj2) he

theorem firstBad_some_spec (mesh : UnstructuredMeshInfo) :
    ∀ (l : List Int) (j : Nat), firstBad mesh l = some j →
      ∃ v, l[j]? = some v ∧ ¬ (0 ≤ v ∧ v < mesh.num_points) := by
  intro l
  induction l with
  | nil => intro j h; simp [firstBad] at h
  | cons v l ih =>
    intro j h
    simp only [firstBad] at h
    by_cases hb : v < 0 ∨ v ≥ mesh.num_points
    · rw [if_pos hb] at h
      cases h
      exact ⟨v, by simp, by omega⟩
    · rw [if_neg hb] at h
      cases hfb : firstBad mesh l with
      | none => rw [hfb] at h; cases h
      | some j1 =>
        rw [hfb] at h
        simp at h
        subst h
        obtain ⟨w, hw, hwb⟩ := ih j1 hfb
        exact ⟨w, by simpa using hw, hwb⟩

/-- C8: the core cell-type map succeeds exactly on the eight codes 1, 3, 5, 9, 10, 14, 13, 12 and
returns there the element type, node count and topological dimension of the table;
every other code is rejected. -/
theorem C8_cell_type_map_table (code : Nat) :
    MapVtkCellToCgns 1 = some (.NODE, 1, 0) ∧
    MapVtkCellToCgns 3 = some (.BAR_2, 2, 1) ∧
    MapVtkCellToCgns 5 = some (.TRI_3, 3, 2) ∧
    MapVtkCellToCgns 9 = some (.QUAD_4, 4, 2) ∧
    MapVtkCellToCgns 10 = some (.TETRA_4, 4, 3) ∧
    MapVtkCellToCgns 14 = some (.PYRA_5, 5, 3) ∧
    MapVtkCellToCgns 13 = some (.PENTA_6, 6, 3) ∧
    MapVtkCellToCgns 12 = some (.HEXA_8, 8, 3) ∧
    ((MapVtkCellToCgns code).isSome = true ↔ code ∈ [1, 3, 5, 9, 10, 14, 13, 12]) ∧
    (MapVtkCellToCgns code = none ↔ code ∉ [1, 3, 5, 9, 10, 14, 13, 12]) := by
  refine ⟨rfl, rfl, rfl, rfl, rfl, rfl, rfl, rfl, ?_, ?_⟩
  · unfold MapVtkCellToCgns VTK_VERTEX VTK_LINE VTK_TRIANGLE VTK_QUAD VTK_TETRA VTK_PYRAMID
      VTK_WEDGE VTK_HEXAHEDRON
    split_ifs <;> simp_all
  · unfold MapVtkCellToCgns VTK_VERTEX VTK_LINE VTK_TRIANGLE VTK_QUAD VTK_TETRA VTK_PYRAMID
      VTK_WEDGE VTK_HEXAHEDRON
    split_ifs <;> simp_all

/-- C5: for a mesh that passes the input checks and whose buffers have their declared
lengths, with a grid library that never fails, `WriteUnstructured` returns, and it
returns 0 exactly when every cell index `i` in `[0, num_cells)` has ordered offsets
within the connectivity, a supported shape code whose node count is the slice size, and
node ids within `[0, num_points)`; nothing else is asked of the topology. -/
theorem C5_returns_zero_iff_cells_valid (env : CgEnv) (mesh : UnstructuredMeshInfo)
    (output_path : Option String) (options : Option CgnsWriteOptions)
    (hb : buffersOk mesh) (hin : inputCheck mesh output_path = none)
    (hok : ∀ n, env.answer n = none) :
    ∃ r, WriteUnstructured env mesh output_path options = some r ∧
      (r.ret = 0 ↔ ∀ i : Nat, (i : Int) < mesh.num_cells → cellValid mesh i) := by
  have hiff : (∀ i : Nat, (i : Int) < mesh.num_cells → cellValid mesh i) ↔ allCellsValid mesh := by
    unfold allCellsValid
    constructor
    · intro h i hi; exact h i (by omega)
    · intro h i hi; exact h i (by omega)
  rw [hiff, ← firstError_none_iff_valid]
  cases he : firstError mesh mesh.num_cells.toNat 0 with
  | none =>
    obtain ⟨p, _, hw⟩ := WriteUnstructured_valid env mesh output_path options hb hin hok he
    exact ⟨_, hw, by simp⟩
  | some e =>
    have hw := WriteUnstructured_invalid env mesh output_path options hb hin (hok _) e he
    exact ⟨_, hw, by simp⟩

theorem C5_witness :
    (buffersOk meshShifted ∧ inputCheck meshShifted (some "out.cgns") = none ∧
      offsetAt meshShifted 0 = 1) ∧
    ∃ r, WriteUnstructured CgEnv.allOk meshShifted (some "out.cgns") none = some r ∧
      (r.ret = 0 ↔ ∀ i : Nat, (i : Int) < meshShifted.num_cells → cellValid meshShifted i) :=
  ⟨⟨by decide, by decide, by decide⟩,
    C5_returns_zero_iff_cells_valid CgEnv.allOk meshShifted (some "out.cgns") none
      (by decide) (by decide) (fun _ => rfl)⟩

/-- C7: when some cell of the mesh fails validation, `WriteUnstructured` fails and the
trace of its library calls holds no `cg_base_write`, `cg_zone_write`, `cg_coord_write`
or `cg_section_write`, whatever the library answers. -/
theorem C7_invalid_mesh_writes_nothing (env : CgEnv) (mesh : UnstructuredMeshInfo)
    (output_path : Option String) (options : Option CgnsWriteOptions)
    (hb : buffersOk mesh) (i : Nat) (hi : (i : Int) < mesh.num_cells)
    (hbad : ¬ cellValid mesh i) :
    ∃ r, WriteUnstructured env mesh output_path options = some r ∧ r.ret = 1 ∧
      ∀ c ∈ r.trace, c.isWrite = false := by
  have hne : firstError mesh mesh.num_cells.toNat 0 ≠ none := by
    intro h
    exact hbad ((firstError_none_iff_valid mesh).1 h i (by omega))
  obtain ⟨e, he⟩ := Option.ne_none_iff_exists'.1 hne
  have hprep := prepare_spec mesh hb
  rw [he] at hprep
  dsimp only at hprep
  unfold WriteUnstructured
  cases hin : inputCheck mesh output_path with
  | some e0 => exact ⟨_, rfl, rfl, by simp⟩
  | none =>
    dsimp only
    cases hopen : env.answer
        (if env.hdf5Macro then [CgCall.cg_set_file_type (chooseHdf5 options)] else []).length with
    | some err =>
      refine ⟨_, rfl, rfl, ?_⟩
      intro c hc
      by_cases hm : env.hdf5Macro <;> simp [hm] at hc <;> rcases hc with rfl | rfl <;> rfl
    | none =>
      rw [hprep]
      refine ⟨_, rfl, rfl, ?_⟩
      intro c hc
      by_cases hm : env.hdf5Macro <;> simp [hm] at hc <;> rcases hc with rfl | rfl | rfl <;> rfl

theorem C7_witness :
    (buffersOk meshEmptyCell ∧ ((1 : Nat) : Int) < meshEmptyCell.num_cells ∧
      ¬ cellValid meshEmptyCell 1) ∧
    ∃ r, WriteUnstructured CgEnv.allOk meshEmptyCell (some "out.cgns") none = some r ∧
      r.ret = 1 ∧ ∀ c ∈ r.trace, c.isWrite = false :=
  ⟨⟨by decide, by decide, by decide⟩,
    C7_invalid_mesh_writes_nothing CgEnv.allOk meshEmptyCell (some "out.cgns") none
      (by decide) 1 (by decide) (by decide)⟩

theorem cellError_cases (mesh : UnstructuredMeshInfo) (i : Nat) (e : WriteError)
    (he : cellError mesh i = some e) :
    (e = .invalidOffsets i ∧
        (offsetAt mesh i < 0 ∨ offsetAt mesh (i + 1) < offsetAt mesh i
          ∨ offsetAt mesh (i + 1) > mesh.connectivity_size)) ∨
    (e = .unsupportedType (typeAt mesh i) ∧ MapVtkCellToCgns (typeAt mesh i) = none) ∨
    (∃ t n d, MapVtkCellToCgns (typeAt mesh i) = some (t, n, d) ∧
        offsetAt mesh (i + 1) - offsetAt mesh i ≠ (n : Int) ∧
        e = .nodeCountMismatch i (offsetAt mesh (i + 1) - offsetAt mesh i) n) ∨
    (∃ (j : Nat) (v : Int), e = .connOutOfRange (offsetAt mesh i + j) ∧
        (cellSlice mesh i)[j]? = some v ∧ ¬ (0 ≤ v ∧ v < mesh.num_points)) := by
  unfold cellError at he
  by_cases hoff : offsetAt mesh i < 0 ∨ offsetAt mesh (i + 1) < offsetAt mesh i
      ∨ offsetAt mesh (i + 1) > mesh.connectivity_size
  · rw [if_pos hoff] at he
    left
    exact ⟨(Option.some.inj he).symm, hoff⟩
  · rw [if_neg hoff] at he
    cases hm : MapVtkCellToCgns (typeAt mesh i) with
    | none =>
      rw [hm] at he
      right; left
      exact ⟨(Option.some.inj he).symm, rfl⟩
    | some r =>
      obtain ⟨t, n, d⟩ := r
      rw [hm] at he
      dsimp only at he
      by_cases hsz : offsetAt mesh (i + 1) - offsetAt mesh i ≠ (n : Int)
      · rw [if_pos hsz] at he
        right; right; left
        exact ⟨t, n, d, rfl, hsz, (Option.some.inj he).symm⟩
      · rw [if_neg hsz] at he
        right; right; right
        cases hfb : firstBad mesh (cellSlice mesh i) with
        | none => rw [hfb] at he; cases he
        | some j =>
          rw [hfb] at he
          obtain ⟨v, hv, hvb⟩ := firstBad_some_spec mesh _ j hfb
          exact ⟨j, v, (Option.some.inj he).symm, hv, hvb⟩

/-- C6 (as amended): when cell `i` is the first cell that violates a topology condition,
`WriteUnstructured` fails with the message of exactly one of: bad offset ordering,
naming cell `i`; unsupported shape code, naming the code; node-count mismatch, naming
cell `i`, the slice size and the mandated count; or out-of-range node id, naming the
position in the connectivity array of the first bad node of the cell's slice (not the
cell index). -/
theorem C6_error_names_violation (env : CgEnv) (mesh : UnstructuredMeshInfo)
    (output_path : Option String) (options : Option CgnsWriteOptions)
    (hb : buffersOk mesh) (hin : inputCheck mesh output_path = none)
    (hok : ∀ n, env.answer n = none)
    (i : Nat) (hi : (i : Int) < mesh.num_cells)
    (hprev : ∀ j, j < i → cellValid mesh j) (hbad : ¬ cellValid mesh i) :
    ∃ (r : RunResult) (e : WriteError), WriteUnstructured env mesh output_path options = some r ∧ r.ret = 1 ∧
      r.lastError = e.what ∧
      ((e = .invalidOffsets i ∧
          (offsetAt mesh i < 0 ∨ offsetAt mesh (i + 1) < offsetAt mesh i
            ∨ offsetAt mesh (i + 1) > mesh.connectivity_size)) ∨
       (e = .unsupportedType (typeAt mesh i) ∧ MapVtkCellToCgns (typeAt mesh i) = none) ∨
       (∃ t n d, MapVtkCellToCgns (typeAt mesh i) = some (t, n, d) ∧
          offsetAt mesh (i + 1) - offsetAt mesh i ≠ (n : Int) ∧
          e = .nodeCountMismatch i (offsetAt mesh (i + 1) - offsetAt mesh i) n) ∨
       (∃ (j : Nat) (v : Int), e = .connOutOfRange (offsetAt mesh i + j) ∧
          (cellSlice mesh i)[j]? = some v ∧ ¬ (0 ≤ v ∧ v < mesh.num_points))) := by
  have hne : cellError mesh i ≠ none := fun h => hbad ((cellError_none_iff mesh i).1 h)
  obtain ⟨e, he⟩ := Option.ne_none_iff_exists'.1 hne
  have hfe := firstError_eq_of_first mesh e mesh.num_cells.toNat 0 i (Nat.zero_le _) (by omega)
    (fun j _ hj => hprev j hj) he
  have hw := WriteUnstructured_invalid env mesh output_path options hb hin (hok _) e hfe
  exact ⟨_, e, hw, rfl, rfl, cellError_cases mesh i e he⟩

theorem C6_witness :
    (buffersOk meshEmptyCell ∧ inputCheck meshEmptyCell (some "out.cgns") = none ∧
      cellValid meshEmptyCell 0 ∧ ¬ cellValid meshEmptyCell 1) ∧
    ∃ (r : RunResult) (e : WriteError), WriteUnstructured CgEnv.allOk meshEmptyCell (some "out.cgns") none = some r ∧
      r.ret = 1 ∧ r.lastError = e.what ∧
      ((e = .invalidOffsets (1 : Nat) ∧
          (offsetAt meshEmptyCell 1 < 0 ∨ offsetAt meshEmptyCell (1 + 1) < offsetAt meshEmptyCell 1
            ∨ offsetAt meshEmptyCell (1 + 1) > meshEmptyCell.connectivity_size)) ∨
       (e = .unsupportedType (typeAt meshEmptyCell 1) ∧
          MapVtkCellToCgns (typeAt meshEmptyCell 1) = none) ∨
       (∃ t n d, MapVtkCellToCgns (typeAt meshEmptyCell 1) = some (t, n, d) ∧
          offsetAt meshEmptyCell (1 + 1) - offsetAt meshEmptyCell 1 ≠ (n : Int) ∧
          e = .nodeCountMismatch (1 : Nat)
                (offsetAt meshEmptyCell (1 + 1) - offsetAt meshEmptyCell 1) n) ∨
       (∃ (j : Nat) (v : Int), e = .connOutOfRange (offsetAt meshEmptyCell 1 + j) ∧
          (cellSlice meshEmptyCell 1)[j]? = some v ∧ ¬ (0 ≤ v ∧ v < meshEmptyCell.num_points))) :=
  ⟨⟨by decide, by decide, by decide, by decide⟩,
    C6_error_names_violation CgEnv.allOk meshEmptyCell (some "out.cgns") none
      (by decide) (by decide) (fun _ => rfl) 1 (by decide)
      (fun j hj => by
        have : j = 0 := by omega
        subst this
        decide)
      (by decide)⟩

/-- C6 (counterexample): in `meshBadNode` cell 0 is valid and cell 1 holds the node id 9,
outside `[0, 2)`; the run fails with "Connectivity id out of range at index 3", which
names connectivity position 3 and no cell index, while Scenario D's mesh does get a
message naming cell 1. -/
theorem C6_counterexample :
    buffersOk meshBadNode ∧ cellValid meshBadNode 0 ∧ ¬ cellValid meshBadNode 1 ∧
    cellError meshBadNode 1 = some (.connOutOfRange 3) ∧
    (WriteError.connOutOfRange 3).cellRef = none ∧
    (WriteUnstructured CgEnv.allOk meshBadNode (some "out.cgns") none).map
        (fun r => (r.ret, r.lastError))
      = some (1, "Connectivity id out of range at index 3") ∧
    (WriteUnstructured CgEnv.allOk meshEmptyCell (some "out.cgns") none).map
        (fun r => (r.ret, r.lastError))
      = some (1, "Cell 1 has 0 nodes, expected 3") := by
  refine ⟨by decide, by decide, by decide, by decide, rfl, by decide, by decide⟩

theorem chained_dense : ∀ (rs : List (Int × Int × Int)) (first total : Int),
    chained first rs total →
      (∀ h : 0 < rs.length, rs[0].1 = first) ∧
      (∀ (k : Nat) (h : k + 1 < rs.length), rs[k + 1].1 = rs[k].2.1 + 1) ∧
      (∀ r ∈ rs, r.2.1 - r.1 + 1 = r.2.2) ∧
      (∀ h : 0 < rs.length, total = rs[rs.length - 1].2.1) ∧
      (rs = [] → total = first - 1) := by
  intro rs
  induction rs with
  | nil =>
    intro first total h
    simp only [chained] at h
    refine ⟨fun h0 => absurd h0 (by simp), fun k hk => absurd hk (by simp), by simp,
      fun h0 => absurd h0 (by simp), fun _ => h⟩
  | cons r rest ih =>
    intro first total h
    simp only [chained] at h
    obtain ⟨h1, h2, h3⟩ := h
    obtain ⟨i1, i2, i3, i4, i5⟩ := ih _ _ h3
    refine ⟨fun _ => h1, ?_, ?_, ?_, fun h0 => absurd h0 (by simp)⟩
    · intro k hk
      cases k with
      | zero =>
        simp only [List.length_cons] at hk
        simpa using i1 (by omega)
      | succ k =>
        simp only [List.length_cons] at hk
        simpa using i2 k (by omega)
    · intro x hx
      rcases List.mem_cons.1 hx with rfl | hx
      · exact h2
      · exact i3 x hx
    · intro _
      cases rest with
      | nil =>
        have := i5 rfl
        simp only [List.length_singleton, Nat.sub_self, List.getElem_cons_zero]
        omega
      | cons r2 rest2 =>
        have := i4 (by simp)
        simpa using this

theorem chained_rangesDense (rs : List (Int × Int × Int)) (total : Int)
    (h : chained 1 rs total) : rangesDense rs total := by
  obtain ⟨h1, h2, h3, h4, h5⟩ := chained_dense rs 1 total h
  exact ⟨h1, h2, h3, h4, fun e => by have := h5 e; omega⟩

theorem assignRanges_keeps : ∀ (secs : List Section) (e : Int),
    (assignRanges e secs).1.map (fun s => (s.type, s.name, s.nodesPerElem, s.conn)) =
      secs.map (fun s => (s.type, s.name, s.nodesPerElem, s.conn)) := by
  intro secs
  induction secs with
  | nil => intro e; simp [assignRanges]
  | cons s rest ih =>
    intro e
    simp only [assignRanges]
    split_ifs <;> simp [ih]

theorem assignRanges_chained : ∀ (secs : List Section) (e : Int),
    (∀ s ∈ secs, 1 ≤ s.conn.length / s.nodesPerElem) →
      chained e ((assignRanges e secs).1.map Section.range) ((assignRanges e secs).2 - 1) := by
  intro secs
  induction secs with
  | nil => intro e _; simp [assignRanges, chained]
  | cons s rest ih =>
    intro e hall
    have hs := hall s (List.mem_cons_self _ _)
    have hne : ¬ (((s.conn.length / s.nodesPerElem : Nat) : Int) = 0) := by omega
    simp only [assignRanges, hne, if_false, List.map_cons, chained]
    refine ⟨rfl, ?_, ?_⟩
    · simp only [Section.range]; omega
    · exact ih _ (fun s1 h1 => hall s1 (List.mem_cons_of_mem _ h1))

theorem nodesOf_pos {t : ElementType} (h : t ≠ .ElementTypeNull) : 1 ≤ nodesOf t := by
  cases t <;> simp [nodesOf] at h ⊢

theorem cellValid_rec (mesh : UnstructuredMeshInfo) (hb : buffersOk mesh) (i : Nat)
    (hv : cellValid mesh i) :
    ∃ t, cellShape mesh i = some t ∧ (cellSlice mesh i).length = nodesOf t ∧
      1 ≤ nodesOf t ∧
      ((cellSlice mesh i).length : Int) = offsetAt mesh (i + 1) - offsetAt mesh i := by
  obtain ⟨pts, cs, os, ts, hp, hc, ho, ht, hpl, hcl, hol, htl⟩ := buffersOk_lists hb
  obtain ⟨h1, h2, h3, h4, h5⟩ := hv
  cases hm : MapVtkCellToCgns (typeAt mesh i) with
  | none => rw [hm] at h4; simp at h4
  | some r =>
    obtain ⟨t, n, d⟩ := r
    rw [hm] at h4
    simp only [Option.map_some', Option.some.injEq] at h4
    obtain ⟨hn, _, hnull⟩ := map_nodes_dim hm
    subst hn
    have hlen : (cellSlice mesh i).length = (offsetAt mesh (i + 1) - offsetAt mesh i).toNat := by
      simp only [cellSlice, hc, Option.getD_some, List.length_take, List.length_drop]
      omega
    refine ⟨t, by simp [cellShape, hm], by omega, nodesOf_pos hnull, by omega⟩

theorem cellRecs_valid (mesh : UnstructuredMeshInfo) (hb : buffersOk mesh) :
    ∀ (n a : Nat), (∀ i, a ≤ i → i < a + n → cellValid mesh i) →
      ∀ c ∈ cellRecs mesh n a, c.2.length = nodesOf c.1 ∧ 1 ≤ nodesOf c.1 := by
  intro n a hall c hc
  simp only [cellRecs, List.mem_map, List.mem_range'_1] at hc
  obtain ⟨i, ⟨hi1, hi2⟩, rfl⟩ := hc
  obtain ⟨t, ht, hl, hpos, _⟩ := cellValid_rec mesh hb i (hall i hi1 hi2)
  simp [ht, hl, hpos]

theorem sectionFor_conn_length (cells : List (ElementType × List Int)) (t : ElementType)
    (h : ∀ c ∈ cells, c.2.length = nodesOf c.1) :
    (sectionFor cells t).conn.length = (cells.filter fun c => c.1 = t).length * nodesOf t := by
  induction cells with
  | nil => simp [sectionFor]
  | cons c cells ih =>
    have ih1 := ih (fun c1 h1 => h c1 (List.mem_cons_of_mem _ h1))
    have hc := h c (List.mem_cons_self _ _)
    simp only [sectionFor] at ih1 ⊢
    by_cases hct : c.1 = t
    · simp only [List.filter_cons, hct, decide_True, if_true, List.map_cons, List.flatten_cons,
        List.length_append, List.length_cons, ih1]
      rw [hc, hct]; ring
    · rw [List.filter_cons_of_neg (by simpa using hct)]
      exact ih1

theorem filter_pos_of_mem (cells : List (ElementType × List Int)) (t : ElementType)
    (h : t ∈ cells.map fun c => c.1) : 1 ≤ (cells.filter fun c => c.1 = t).length := by
  obtain ⟨c, hc, hct⟩ := List.mem_map.1 h
  have : c ∈ cells.filter fun c => c.1 = t := List.mem_filter.2 ⟨hc, by simpa using hct⟩
  exact List.length_pos_of_mem this

theorem groupCells_elem_count (cells : List (ElementType × List Int))
    (h : ∀ c ∈ cells, c.2.length = nodesOf c.1 ∧ 1 ≤ nodesOf c.1) :
    ∀ s ∈ groupCells cells,
      s.nodesPerElem = nodesOf s.type ∧ 1 ≤ s.nodesPerElem ∧
      s.conn.length = (cells.filter fun c => c.1 = s.type).length * s.nodesPerElem ∧
      s.conn.length / s.nodesPerElem = (cells.filter fun c => c.1 = s.type).length ∧
      1 ≤ (cells.filter fun c => c.1 = s.type).length := by
  intro s hs
  simp only [groupCells, List.mem_map] at hs
  obtain ⟨t, ht, rfl⟩ := hs
  have htm : t ∈ cells.map fun c => c.1 := (mem_firstSeen _ _).1 ht
  obtain ⟨c, hc, hct⟩ := List.mem_map.1 htm
  have hpos : 1 ≤ nodesOf t := by rw [← hct]; exact (h c hc).2
  have hlen := sectionFor_conn_length cells t (fun c hc => (h c hc).1)
  have hcnt := filter_pos_of_mem cells t htm
  refine ⟨rfl, hpos, hlen, ?_, hcnt⟩
  show (sectionFor cells t).conn.length / nodesOf t = _
  rw [hlen]
  exact Nat.mul_div_cancel _ (by omega)

theorem prepare_ok_inv (mesh : UnstructuredMeshInfo) (hb : buffersOk mesh) (p : Prepared)
    (hp : prepare mesh = .ok p) :
    allCellsValid mesh ∧ ∃ st, buildSections mesh = .ok st ∧
      loopInv st (cellRecs mesh mesh.num_cells.toNat 0) ∧
      p.sections = (assignRanges 1 st.sections).1 ∧
      p.nCellsWritten = (assignRanges 1 st.sections).2 - 1 ∧
      p.nVerts = mesh.num_points ∧
      p.cellDim = (if st.cellDim ≤ 0 then 3 else st.cellDim) := by
  have h := prepare_spec mesh hb
  cases hfe : firstError mesh mesh.num_cells.toNat 0 with
  | some e =>
    rw [hfe] at h
    dsimp only at h
    rw [h] at hp
    cases hp
  | none =>
    rw [hfe] at h
    dsimp only at h
    obtain ⟨p1, st, hp1, hst, hinv, h1, h2, h3, h4⟩ := h
    rw [hp1] at hp
    cases hp
    exact ⟨(firstError_none_iff_valid mesh).1 hfe, st, hst, hinv, h1, h2, h3, h4⟩

theorem prepare_of_valid (mesh : UnstructuredMeshInfo) (hb : buffersOk mesh)
    (hv : allCellsValid mesh) : ∃ p, prepare mesh = .ok p := by
  have h := prepare_spec mesh hb
  rw [(firstError_none_iff_valid mesh).2 hv] at h
  obtain ⟨p, _, hp, _⟩ := h
  exact ⟨p, hp⟩

theorem recs_valid_all (mesh : UnstructuredMeshInfo) (hb : buffersOk mesh)
    (hv : allCellsValid mesh) :
    ∀ c ∈ cellRecs mesh mesh.num_cells.toNat 0, c.2.length = nodesOf c.1 ∧ 1 ≤ nodesOf c.1 :=
  cellRecs_valid mesh hb _ 0 (fun i _ hi => hv i (by omega))

theorem prepared_types (mesh : UnstructuredMeshInfo) (hb : buffersOk mesh) (p : Prepared)
    (hp : prepare mesh = .ok p) :
    p.sections.map (fun s => (s.type, s.name, s.nodesPerElem, s.conn)) =
      (groupCells (cellRecs mesh mesh.num_cells.toNat 0)).map
        (fun s => (s.type, s.name, s.nodesPerElem, s.conn)) := by
  obtain ⟨_, st, _, hinv, h1, _⟩ := prepare_ok_inv mesh hb p hp
  rw [h1, assignRanges_keeps, hinv.1]

theorem indexOf_map_some {α : Type} [DecidableEq α] (l : List α) (a : α) :
    (l.map some).indexOf (some a) = l.indexOf a := by
  induction l with
  | nil => simp
  | cons b l ih =>
    simp only [List.map_cons, List.indexOf_cons, ih]
    by_cases h : b = a
    · simp [h]
    · have : ¬ (some b = some a) := fun e => h (Option.some.inj e)
      simp [h, this]

theorem shapes_eq (mesh : UnstructuredMeshInfo) (hb : buffersOk mesh)
    (hv : allCellsValid mesh) :
    (List.range mesh.num_cells.toNat).map (cellShape mesh) =
      ((cellRecs mesh mesh.num_cells.toNat 0).map fun c => c.1).map some := by
  simp only [cellRecs, List.map_map, List.range_eq_range']
  apply List.map_congr_left
  intro i hi
  simp only [List.mem_range'_1] at hi
  obtain ⟨t, ht, _⟩ := cellValid_rec mesh hb i (hv i (by omega))
  simp [ht]

theorem groupCells_types (cells : List (ElementType × List Int)) :
    (groupCells cells).map (fun s => s.type) = firstSeen (cells.map fun c => c.1) := by
  simp only [groupCells, List.map_map]
  conv_rhs => rw [← List.map_id (firstSeen (cells.map fun c => c.1))]
  apply List.map_congr_left
  intro t _
  rfl

/-- C2: for a valid mesh the section list of `WriteUnstructured` has one section per
distinct cell shape of the mesh, no two sections share an element type, and section
`a` precedes section `b` exactly when the first cell of `a`'s shape has the smaller
cell index. -/
theorem C2_one_section_per_shape_in_first_seen_order (mesh : UnstructuredMeshInfo)
    (hb : buffersOk mesh) (hv : allCellsValid mesh) :
    ∃ p, prepare mesh = .ok p ∧
      (p.sections.map fun s => s.type).Nodup ∧
      (∀ t, t ∈ (p.sections.map fun s => s.type) ↔
        ∃ i, i < mesh.num_cells.toNat ∧ cellShape mesh i = some t) ∧
      (∀ (a b : Nat) (ha : a < p.sections.length) (hb : b < p.sections.length),
        a < b ↔ firstCell mesh p.sections[a].type < firstCell mesh p.sections[b].type) := by
  obtain ⟨p, hp⟩ := prepare_of_valid mesh hb hv
  refine ⟨p, hp, ?_⟩
  have hty : (p.sections.map fun s => s.type) =
      firstSeen ((cellRecs mesh mesh.num_cells.toNat 0).map fun c => c.1) := by
    have h := congrArg (List.map fun q : ElementType × String × Nat × List Int => q.1)
      (prepared_types mesh hb p hp)
    simp only [List.map_map] at h
    rw [← groupCells_types]
    exact h
  have hshape := shapes_eq mesh hb hv
  have hfc : ∀ t, firstCell mesh t =
      ((cellRecs mesh mesh.num_cells.toNat 0).map fun c => c.1).indexOf t := by
    intro t
    rw [firstCell, hshape, indexOf_map_some]
  have hlen : p.sections.length =
      (firstSeen ((cellRecs mesh mesh.num_cells.toNat 0).map fun c => c.1)).length := by
    rw [← hty, List.length_map]
  have hget : ∀ (a : Nat) (ha : a < p.sections.length)
      (ha2 : a < (firstSeen ((cellRecs mesh mesh.num_cells.toNat 0).map fun c => c.1)).length),
      p.sections[a].type =
        (firstSeen ((cellRecs mesh mesh.num_cells.toNat 0).map fun c => c.1))[a] := by
    intro a ha ha2
    have h2 : a < (p.sections.map fun s => s.type).length := by simpa using ha
    have : (p.sections.map fun s => s.type)[a] = p.sections[a].type := by
      simp
    rw [← this]
    congr 1
  refine ⟨?_, ?_, ?_⟩
  · rw [hty]; exact nodup_firstSeen _
  · intro t
    rw [hty, mem_firstSeen]
    constructor
    · intro h
      have h1 : some t ∈ (List.range mesh.num_cells.toNat).map (cellShape mesh) := by
        rw [hshape]; exact List.mem_map_of_mem _ h
      obtain ⟨i, hi, hit⟩ := List.mem_map.1 h1
      exact ⟨i, List.mem_range.1 hi, hit⟩
    · rintro ⟨i, hi, hit⟩
      have h1 : some t ∈ (List.range mesh.num_cells.toNat).map (cellShape mesh) :=
        List.mem_map.2 ⟨i, List.mem_range.2 hi, hit⟩
      rw [hshape] at h1
      obtain ⟨t1, ht1, e⟩ := List.mem_map.1 h1
      cases e
      exact ht1
  · intro a b ha hb'
    have ha2 : a < (firstSeen ((cellRecs mesh mesh.num_cells.toNat 0).map fun c => c.1)).length :=
      hlen ▸ ha
    have hb2 : b < (firstSeen ((cellRecs mesh mesh.num_cells.toNat 0).map fun c => c.1)).length :=
      hlen ▸ hb'
    rw [hfc, hfc, hget a ha ha2, hget b hb' hb2]
    have ord := firstSeen_order ((cellRecs mesh mesh.num_cells.toNat 0).map fun c => c.1)
    constructor
    · intro hab
      exact ord a b ha2 hb2 hab
    · intro hlt
      by_contra hnot
      rcases Nat.lt_or_ge b a with hba | hba
      · have := ord b a hb2 ha2 hba
        omega
      · have : a = b := by omega
        subst this
        omega

theorem C2_witness :
    (buffersOk meshTriQuad ∧ allCellsValid meshTriQuad ∧
      (prepare meshTriQuad).toOption.map
          (fun p => p.sections.map fun s => (s.name, s.start, s.end_))
        = some [("Tris", 1, 1), ("Quads", 2, 2)]) ∧
    ∃ p, prepare meshTriQuad = .ok p ∧
      (p.sections.map fun s => s.type).Nodup ∧
      (∀ t, t ∈ (p.sections.map fun s => s.type) ↔
        ∃ i, i < meshTriQuad.num_cells.toNat ∧ cellShape meshTriQuad i = some t) ∧
      (∀ (a b : Nat) (ha : a < p.sections.length) (hb : b < p.sections.length),
        a < b ↔
          firstCell meshTriQuad p.sections[a].type < firstCell meshTriQuad p.sections[b].type) :=
  ⟨⟨by decide, by decide, by decide⟩,
    C2_one_section_per_shape_in_first_seen_order meshTriQuad (by decide) (by decide)⟩

theorem prepared_ranges (mesh : UnstructuredMeshInfo) (hb : buffersOk mesh) (p : Prepared)
    (hp : prepare mesh = .ok p) :
    rangesDense (p.sections.map Section.range) p.nCellsWritten := by
  obtain ⟨hv, st, _, hinv, h1, h2, _⟩ := prepare_ok_inv mesh hb p hp
  rw [h1, h2]
  apply chained_rangesDense
  apply assignRanges_chained
  intro s hs
  rw [hinv.1] at hs
  obtain ⟨_, _, _, h4, h5⟩ :=
    groupCells_elem_count _ (recs_valid_all mesh hb hv) s hs
  omega

theorem mapAgrees_none {m : List (Int × Nat)} {T : List ElementType} (h : mapAgrees m T)
    {t : ElementType} (hf : findIndex m t.toInt = none) : t ∉ T := by
  intro hm
  obtain ⟨j, hj, hjt⟩ := List.getElem_of_mem hm
  have := (h t.toInt j).2 ⟨t, by rw [List.getElem?_eq_getElem hj, hjt], rfl⟩
  rw [hf] at this
  cases this

theorem mapAgrees_some {m : List (Int × Nat)} {T : List ElementType} (h : mapAgrees m T)
    {t : ElementType} {j : Nat} (hf : findIndex m t.toInt = some j) : T[j]? = some t := by
  obtain ⟨t1, ht1, ht1k⟩ := (h t.toInt j).1 hf
  have : t1 = t := toInt_injective ht1k
  rw [← this]; exact ht1

theorem mapAgrees_snoc {m : List (Int × Nat)} {T : List ElementType} (h : mapAgrees m T)
    {t : ElementType} (hnot : t ∉ T) :
    mapAgrees (m ++ [(t.toInt, T.length)]) (T ++ [t]) := by
  intro k j
  rw [findIndex_append]
  constructor
  · intro hk0
    cases hk : findIndex m k with
    | some j1 =>
      rw [hk] at hk0
      simp at hk0
      subst hk0
      obtain ⟨t1, ht1, ht1k⟩ := (h k j1).1 hk
      refine ⟨t1, ?_, ht1k⟩
      have hj1 : j1 < T.length := by
        by_contra hcon
        rw [List.getElem?_eq_none (by omega)] at ht1
        cases ht1
      rw [List.getElem?_append_left hj1]
      exact ht1
    | none =>
      rw [hk] at hk0
      simp at hk0
      obtain ⟨hk1, hj0⟩ := hk0
      refine ⟨t, ?_, hk1⟩
      rw [← hj0]
      simp
  · rintro ⟨t1, ht1, ht1k⟩
    by_cases hj : j < T.length
    · rw [List.getElem?_append_left hj] at ht1
      have := (h k j).2 ⟨t1, ht1, ht1k⟩
      rw [this]
    · have hj2 : j = T.length := by
        by_contra hcon
        rw [List.getElem?_eq_none (by simp; omega)] at ht1
        cases ht1
      subst hj2
      simp at ht1
      subst ht1
      have hnone : findIndex m k = none := by
        cases hk : findIndex m k with
        | none => rfl
        | some j1 =>
          exfalso
          obtain ⟨t2, ht2, ht2k⟩ := (h k j1).1 hk
          have : t2 = t := toInt_injective (by rw [ht2k, ht1k])
          subst this
          exact hnot (List.getElem?_mem ht2)
      rw [hnone]
      simp [ht1k]

theorem set_map_of_agree {β : Type} (T : List ElementType) (hT : T.Nodup) (f g : ElementType → β)
    (j : Nat) (t : ElementType) (hj : T[j]? = some t)
    (hfg : ∀ t1 ∈ T, t1 ≠ t → g t1 = f t1) :
    (T.map f).set j (g t) = T.map g := by
  have hjl : j < T.length := by
    by_contra hcon
    rw [List.getElem?_eq_none (by omega)] at hj
    cases hj
  have hTj : T[j] = t := by
    rw [List.getElem?_eq_getElem hjl] at hj
    exact Option.some.inj hj
  apply List.ext_getElem
  · simp
  · intro i h1 h2
    simp only [List.length_set, List.length_map] at h1
    rw [List.getElem_set]
    simp only [List.getElem_map]
    by_cases hij : j = i
    · subst hij
      simp only [if_true, hTj]
    · simp only [hij, if_false]
      have hne : T[i] ≠ t := by
        intro e
        rw [← hTj] at e
        have := (List.Nodup.getElem_inj_iff hT).1 e
        exact hij this.symm
      rw [hfg _ (List.getElem_mem _) hne]

namespace Vtk

theorem map_nodes {v : Int} {t : ElementType} {n : Nat}
    (h : MapVtkCellToCgns v = some (t, n)) : n = nodesOf t ∧ t ≠ .ElementTypeNull := by
  unfold MapVtkCellToCgns at h
  split_ifs at h <;> simp at h <;> obtain ⟨rfl, rfl⟩ := h <;> simp [nodesOf]

theorem ptLoop_eq (oneBased : Bool) (ptIds : List Int) :
    ∀ (n a : Nat) (acc : List Int), a + n ≤ ptIds.length →
      ptLoop oneBased ptIds n (a : Int) acc =
        .ok (acc ++ ((ptIds.drop a).take n).map
          fun id => if oneBased then id + 1 else id) := by
  intro n
  induction n with
  | zero => intro a acc _; simp [ptLoop]
  | succ n ih =>
    intro a acc hlen
    have ha : a < ptIds.length := by omega
    have hd : ptIds.drop a = ptIds[a] :: ptIds.drop (a + 1) := by
      rw [List.drop_eq_getElem_cons ha]
    rw [hd, List.take_succ_cons]
    unfold ptLoop
    rw [readAt_some_get ptIds a ha]
    dsimp only
    rw [show ((a : Int) + 1) = ((a + 1 : Nat) : Int) by push_cast; rfl,
      ih (a + 1) _ (by omega)]
    simp

theorem zoneSectionFor_snoc_ne (recs : List (ElementType × Int × List Int)) (t t1 : ElementType)
    (cid : Int) (tuple : List Int) (h : t1 ≠ t) :
    sectionFor (recs ++ [(t, cid, tuple)]) t1 = sectionFor recs t1 := by
  have : ¬ (t = t1) := fun e => h e.symm
  simp [sectionFor, List.filter_append, List.filter_cons, this]

theorem zoneSectionFor_snoc_eq (recs : List (ElementType × Int × List Int)) (t : ElementType)
    (cid : Int) (tuple : List Int) :
    sectionFor (recs ++ [(t, cid, tuple)]) t =
      { sectionFor recs t with
        vtkCellIds := (sectionFor recs t).vtkCellIds ++ [cid],
        conn := (sectionFor recs t).conn ++ tuple } := by
  simp [sectionFor, List.filter_append, List.filter_cons]

theorem sectionFor_of_not_mem (recs : List (ElementType × Int × List Int)) (t : ElementType)
    (h : t ∉ recs.map fun c => c.1) :
    (sectionFor recs t).conn = [] ∧ (sectionFor recs t).vtkCellIds = [] := by
  have : recs.filter (fun c => decide (c.1 = t)) = [] := by
    rw [List.filter_eq_nil_iff]
    intro c hc hct
    simp at hct
    exact h (List.mem_map.2 ⟨c, hc, hct⟩)
  simp [sectionFor, this]

theorem zone_push_inv (st : ZoneState) (recs : List (ElementType × Int × List Int))
    (t : ElementType) (cid : Int) (tuple : List Int) (hinv : zoneInv st recs) :
    ∃ s, (selectSection st.sections st.typeToSectionIndex t (nodesOf t)).1[
            (selectSection st.sections st.typeToSectionIndex t (nodesOf t)).2.2]? = some s ∧
      zoneInv
        { sections :=
            (selectSection st.sections st.typeToSectionIndex t (nodesOf t)).1.set
              (selectSection st.sections st.typeToSectionIndex t (nodesOf t)).2.2
              { s with vtkCellIds := s.vtkCellIds ++ [cid], conn := s.conn ++ tuple },
          typeToSectionIndex :=
            (selectSection st.sections st.typeToSectionIndex t (nodesOf t)).2.1 }
        (recs ++ [(t, cid, tuple)]) := by
  obtain ⟨hsec, hmap⟩ := hinv
  have hlen : st.sections.length = (firstSeen (recs.map fun c => c.1)).length := by
    rw [hsec]; simp [groupCells]
  have hmapT : (recs ++ [(t, cid, tuple)]).map (fun c => c.1) = recs.map (fun c => c.1) ++ [t] := by
    simp
  cases hf : findIndex st.typeToSectionIndex t.toInt with
  | none =>
    have hnot := mapAgrees_none hmap hf
    have hnot' : t ∉ recs.map fun c => c.1 := fun h => hnot ((mem_firstSeen _ _).2 h)
    have hsel : selectSection st.sections st.typeToSectionIndex t (nodesOf t) =
        (st.sections ++ [{ type := t, name := DefaultSectionName t, nodesPerElem := nodesOf t,
                            vtkCellIds := [], conn := [], start := 0, end_ := 0 }],
          st.typeToSectionIndex ++ [(t.toInt, st.sections.length)], st.sections.length) := by
      simp [selectSection, hf]
    rw [hsel]
    refine ⟨{ type := t, name := DefaultSectionName t, nodesPerElem := nodesOf t,
              vtkCellIds := [], conn := [], start := 0, end_ := 0 }, by simp, ?_⟩
    refine ⟨?_, ?_⟩
    · simp only [groupCells, hmapT]
      rw [firstSeen_snoc_mem]
      simp only [hnot', if_false, List.map_append, List.map_singleton]
      rw [List.set_append_right _ _ (le_refl _)]
      simp only [Nat.sub_self, List.set_cons_zero, List.nil_append]
      congr 1
      · rw [hsec, groupCells]
        apply List.map_congr_left
        intro t1 ht1
        rw [zoneSectionFor_snoc_ne]
        intro e; subst e; exact hnot ht1
      · rw [zoneSectionFor_snoc_eq]
        obtain ⟨h1, h2⟩ := sectionFor_of_not_mem recs t hnot'
        rw [h1, h2]
        simp [sectionFor]
    · simp only [hmapT]
      rw [firstSeen_snoc_mem]
      simp only [hnot', if_false]
      rw [hlen]
      exact mapAgrees_snoc hmap hnot
  | some j =>
    have ht1 := mapAgrees_some hmap hf
    have hmem : t ∈ recs.map fun c => c.1 :=
      (mem_firstSeen _ _).1 (List.getElem?_mem ht1)
    have hsel : selectSection st.sections st.typeToSectionIndex t (nodesOf t) =
        (st.sections, st.typeToSectionIndex, j) := by
      simp [selectSection, hf]
    rw [hsel]
    have hsj : st.sections[j]? = some (sectionFor recs t) := by
      rw [hsec, groupCells, List.getElem?_map, ht1]
      rfl
    refine ⟨_, hsj, ?_⟩
    refine ⟨?_, ?_⟩
    · simp only [groupCells, hmapT]
      rw [firstSeen_snoc_mem]
      simp only [hmem, if_true]
      rw [hsec, groupCells, ← zoneSectionFor_snoc_eq]
      exact set_map_of_agree _ (nodup_firstSeen _) _ _ j t ht1
        (fun t1 _ hne => zoneSectionFor_snoc_ne recs t t1 cid tuple hne)
    · simp only [hmapT]
      rw [firstSeen_snoc_mem]
      simp only [hmem, if_true]
      exact hmap

theorem ghostSkip_eq (opt : CgnsWriterOptions) (ds : VtkDataSet) (i : Nat)
    (hi : i < ds.cells.length) :
    ghostSkip (ghostOf opt ds) (ds.cells.length : Int) (i : Int) = .ok (isGhost opt ds i) := by
  unfold ghostSkip isGhost
  cases hg : ghostOf opt ds with
  | none => rfl
  | some g =>
    dsimp only
    by_cases hl : (g.length : Int) = (ds.cells.length : Int)
    · have hl2 : g.length = ds.cells.length := by omega
      rw [if_pos hl, readAt_some_get g i (by omega)]
      simp [hl2, List.getElem?_eq_getElem (show i < g.length by omega)]
    · have hl2 : ¬ (g.length = ds.cells.length) := by omega
      rw [if_neg hl]
      simp [hl2]

theorem zoneRecs_one (opt : CgnsWriterOptions) (ds : VtkDataSet) (i : Nat) :
    zoneRecs opt ds i 1 =
      if kept opt ds i then
        [((shapeOf ds i).getD .ElementTypeNull, (i : Int), tupleOf opt ds i)]
      else [] := by
  by_cases h : kept opt ds i <;> simp [zoneRecs, List.range', h]

theorem zoneRecs_succ (opt : CgnsWriterOptions) (ds : VtkDataSet) (a n : Nat) :
    zoneRecs opt ds a (n + 1) = zoneRecs opt ds a 1 ++ zoneRecs opt ds (a + 1) n := by
  by_cases h : kept opt ds a <;> simp [zoneRecs, List.range', h, List.filter_cons]

theorem zoneCellStep_spec (opt : CgnsWriterOptions) (ds : VtkDataSet) (i : Nat)
    (hi : i < ds.cells.length) (st : ZoneState) (recs : List (ElementType × Int × List Int))
    (hinv : zoneInv st recs) :
    match cellErr opt ds i with
    | some e =>
      zoneCellStep opt (ghostOf opt ds) (ds.cells.length : Int) (i : Int) (cellAt ds i) st
        = .error (.thrown e)
    | none => ∃ st1,
      zoneCellStep opt (ghostOf opt ds) (ds.cells.length : Int) (i : Int) (cellAt ds i) st
        = .ok st1 ∧ zoneInv st1 (recs ++ zoneRecs opt ds i 1) := by
  unfold zoneCellStep cellErr
  rw [ghostSkip_eq opt ds i hi, zoneRecs_one]
  cases hgh : isGhost opt ds i with
  | true =>
    simp only [kept, hgh, if_true]
    exact ⟨st, rfl, by simpa using hinv⟩
  | false =>
    simp only [kept, hgh]
    cases hm : MapVtkCellToCgns (cellAt ds i).cellType with
    | none => simp
    | some r =>
      obtain ⟨t, n⟩ := r
      obtain ⟨hn, _⟩ := map_nodes hm
      subst hn
      dsimp only
      by_cases hsz : ((cellAt ds i).pointIds.length : Int) ≠ (nodesOf t : Int)
      · rw [if_pos hsz]
        simp [hsz]
      · rw [if_neg hsz, if_neg hsz]
        have hsz2 : (cellAt ds i).pointIds.length = nodesOf t := by
          by_contra h; exact hsz (by omega)
        obtain ⟨s, hs, hpush⟩ := zone_push_inv st recs t (i : Int) (tupleOf opt ds i) hinv
        generalize hr : selectSection st.sections st.typeToSectionIndex t (nodesOf t) = r
          at hs hpush ⊢
        obtain ⟨secs, m, sidx⟩ := r
        simp only at hs hpush ⊢
        rw [hs]
        dsimp only
        have hloop := ptLoop_eq opt.oneBasedConnectivity (cellAt ds i).pointIds (nodesOf t) 0
          s.conn (by omega)
        simp only [Nat.cast_zero, List.drop_zero] at hloop
        rw [List.take_of_length_le (by omega)] at hloop
        rw [hloop]
        simp only [Bool.not_false, if_true]
        refine ⟨_, rfl, ?_⟩
        simp only [shapeOf, hm, Option.map_some', Option.getD_some]
        exact hpush

theorem drop_eq_cellAt_cons (ds : VtkDataSet) (a : Nat) (ha : a < ds.cells.length) :
    ds.cells.drop a = cellAt ds a :: ds.cells.drop (a + 1) := by
  rw [List.drop_eq_getElem_cons ha]
  simp [cellAt, List.getElem?_eq_getElem ha]

theorem zoneLoop_spec (opt : CgnsWriterOptions) (ds : VtkDataSet) :
    ∀ (n a : Nat) (st : ZoneState) (recs : List (ElementType × Int × List Int)),
      a + n = ds.cells.length → zoneInv st recs →
      match firstErr opt ds n a with
      | some e =>
        zoneLoop opt (ghostOf opt ds) (ds.cells.length : Int) (a : Int) (ds.cells.drop a) st
          = .error (.thrown e)
      | none => ∃ st1,
        zoneLoop opt (ghostOf opt ds) (ds.cells.length : Int) (a : Int) (ds.cells.drop a) st
          = .ok st1 ∧ zoneInv st1 (recs ++ zoneRecs opt ds a n) := by
  intro n
  induction n with
  | zero =>
    intro a st recs ha hinv
    have : ds.cells.drop a = [] := List.drop_eq_nil_of_le (by omega)
    rw [this]
    simp only [firstErr, zoneLoop]
    exact ⟨st, rfl, by simpa [zoneRecs] using hinv⟩
  | succ n ih =>
    intro a st recs ha hinv
    have hstep := zoneCellStep_spec opt ds a (by omega) st recs hinv
    rw [drop_eq_cellAt_cons ds a (by omega)]
    unfold firstErr zoneLoop
    cases hce : cellErr opt ds a with
    | some e =>
      rw [hce] at hstep
      dsimp only at hstep ⊢
      rw [hstep]
    | none =>
      rw [hce] at hstep
      dsimp only at hstep ⊢
      obtain ⟨st1, hst1, hinv1⟩ := hstep
      rw [hst1]
      dsimp only
      have := ih (a + 1) st1 _ (by omega) hinv1
      rw [show ((a : Int) + 1) = ((a + 1 : Nat) : Int) by push_cast; rfl]
      rw [zoneRecs_succ, ← List.append_assoc]
      exact this

theorem zoneInv_init : zoneInv { sections := [], typeToSectionIndex := [] } [] := by
  refine ⟨by simp [groupCells, firstSeen], ?_⟩
  intro k j
  simp [findIndex, firstSeen]

theorem zoneLoop_all (opt : CgnsWriterOptions) (ds : VtkDataSet) :
    match firstErr opt ds ds.cells.length 0 with
    | some e =>
      zoneLoop opt (ghostOf opt ds) (ds.cells.length : Int) 0 ds.cells
          { sections := [], typeToSectionIndex := [] }
        = .error (.thrown e)
    | none => ∃ st1,
      zoneLoop opt (ghostOf opt ds) (ds.cells.length : Int) 0 ds.cells
          { sections := [], typeToSectionIndex := [] }
        = .ok st1 ∧ zoneInv st1 (zoneRecs opt ds 0 ds.cells.length) := by
  have := zoneLoop_spec opt ds ds.cells.length 0 _ [] (by omega) zoneInv_init
  simpa using this

theorem writeAt_ok {α : Type} (buf : List α) (x : Int) (v : α) (h0 : 0 ≤ x)
    (h1 : x.toNat < buf.length) : writeAt buf x v = .ok (buf.set x.toNat v) := by
  unfold writeAt
  rw [if_neg (by omega), if_pos h1]

theorem mapLoop_spec (start : Int) :
    ∀ (ids : List Int) (i : Int) (buf : List Int),
      (∀ x ∈ ids, 0 ≤ x ∧ x.toNat < buf.length) → ids.Nodup →
      ∃ buf1, mapLoop start i ids buf = .ok buf1 ∧ buf1.length = buf.length ∧
        (∀ (q : Nat) (hq : q < ids.length), buf1[ids[q].toNat]? = some (start + i + q)) ∧
        (∀ x : Nat, (x : Int) ∉ ids → buf1[x]? = buf[x]?) := by
  intro ids
  induction ids with
  | nil =>
    intro i buf _ _
    exact ⟨buf, rfl, rfl, fun q hq => absurd hq (by simp), fun _ _ => rfl⟩
  | cons cid rest ih =>
    intro i buf hb hnd
    obtain ⟨h0, h1⟩ := hb cid (List.mem_cons_self _ _)
    obtain ⟨hnot, hnd1⟩ := List.nodup_cons.1 hnd
    unfold mapLoop
    rw [writeAt_ok buf cid (start + i) h0 h1]
    dsimp only
    obtain ⟨buf1, hbuf1, hlen, hpos, hother⟩ := ih (i + 1) (buf.set cid.toNat (start + i))
      (fun x hx => by
        have := hb x (List.mem_cons_of_mem _ hx)
        simpa using this)
      hnd1
    refine ⟨buf1, hbuf1, by simpa using hlen, ?_, ?_⟩
    · intro q hq
      cases q with
      | zero =>
        simp only [List.getElem_cons_zero, Nat.cast_zero, add_zero]
        have hx : ((cid.toNat : Nat) : Int) ∉ rest := by
          rw [Int.toNat_of_nonneg h0]; exact hnot
        rw [hother cid.toNat hx]
        simp [List.getElem?_set_self h1]
      | succ q =>
        simp only [List.length_cons] at hq
        simp only [List.getElem_cons_succ]
        rw [hpos q (by omega)]
        congr 1
        push_cast
        ring
    · intro x hx
      have hx1 : (x : Int) ∉ rest := fun h => hx (List.mem_cons_of_mem _ h)
      have hx2 : cid.toNat ≠ x := by
        intro e
        apply hx
        rw [← e, Int.toNat_of_nonneg h0]
        exact List.mem_cons_self _ _
      rw [hother x hx1, List.getElem?_set_ne hx2]

theorem mergedIds_cons (s : Section) (rest : List Section) :
    mergedIds (s :: rest) = s.vtkCellIds ++ mergedIds rest := rfl

theorem assignRanges_spec :
    ∀ (secs : List Section) (e : Int) (buf : List Int),
      (∀ x ∈ mergedIds secs, 0 ≤ x ∧ x.toNat < buf.length) →
      (mergedIds secs).Nodup →
      ∃ secs1 buf1 e1, assignRanges e secs buf = .ok (secs1, buf1, e1) ∧ buf1.length = buf.length ∧
        e1 = e + ((mergedIds secs).length : Int) ∧
        secs1.map (fun s => (s.type, s.name, s.nodesPerElem, s.vtkCellIds, s.conn))
          = secs.map (fun s => (s.type, s.name, s.nodesPerElem, s.vtkCellIds, s.conn)) ∧
        (∀ (q : Nat) (hq : q < (mergedIds secs).length),
          buf1[((mergedIds secs)[q]).toNat]? = some (e + q)) ∧
        (∀ x : Nat, (x : Int) ∉ mergedIds secs → buf1[x]? = buf[x]?) ∧
        (∀ s ∈ secs1, ∀ (q : Nat) (hq : q < s.vtkCellIds.length),
          buf1[(s.vtkCellIds[q]).toNat]? = some (s.start + q)) ∧
        ((∀ s ∈ secs, s.vtkCellIds ≠ []) →
          chained e (secs1.map Section.range) (e1 - 1)) := by
  intro secs
  induction secs with
  | nil =>
    intro e buf _ _
    refine ⟨[], buf, e, rfl, rfl, by simp [mergedIds], rfl,
      fun q hq => absurd hq (by simp [mergedIds]),
      fun _ _ => rfl, fun s hs => absurd hs (by simp), fun _ => ?_⟩
    simp [chained]
  | cons s rest ih =>
    intro e buf hb hnd
    simp only [mergedIds_cons] at hb hnd ⊢
    obtain ⟨hnd_s, hnd_r, hdisj⟩ := List.nodup_append.1 hnd
    by_cases hne : (s.vtkCellIds.length : Int) = 0
    · have hnil : s.vtkCellIds = [] := by
        have : s.vtkCellIds.length = 0 := by omega
        exact List.length_eq_zero.1 this
      obtain ⟨secs1, buf1, e1, hr, hlen, he1, hkeep, hpos, hother, hsec, hch⟩ :=
        ih e buf (fun x hx => hb x (List.mem_append_right _ hx)) hnd_r
      unfold assignRanges
      rw [if_pos hne, hr]
      dsimp only
      refine ⟨s :: secs1, buf1, e1, rfl, hlen, by simp [hnil, he1], by simp [hkeep], ?_, ?_, ?_, ?_⟩
      · intro q hq
        simp only [hnil, List.nil_append] at hq ⊢
        exact hpos q hq
      · intro x hx
        simp only [hnil, List.nil_append] at hx
        exact hother x hx
      · intro s1 hs1 q hq
        rcases List.mem_cons.1 hs1 with rfl | hs1
        · rw [hnil] at hq; exact absurd hq (by simp)
        · exact hsec s1 hs1 q hq
      · intro hall
        exact absurd hnil (hall s (List.mem_cons_self _ _))
    · obtain ⟨buf0, hbuf0, hlen0, hpos0, hother0⟩ := mapLoop_spec e s.vtkCellIds 0 buf
        (fun x hx => hb x (List.mem_append_left _ hx)) hnd_s
      obtain ⟨secs1, buf1, e1, hr, hlen, he1, hkeep, hpos, hother, hsec, hch⟩ :=
        ih (e + (s.vtkCellIds.length : Int) - 1 + 1) buf0
          (fun x hx => by
            have := hb x (List.mem_append_right _ hx)
            rw [hlen0]; exact this)
          hnd_r
      unfold assignRanges
      rw [if_neg hne]
      dsimp only
      rw [hbuf0]
      dsimp only
      rw [hr]
      dsimp only
      have hfresh : ∀ (q : Nat) (hq : q < s.vtkCellIds.length),
          buf1[(s.vtkCellIds[q]).toNat]? = some (e + q) := by
        intro q hq
        have hmem : s.vtkCellIds[q] ∈ s.vtkCellIds := List.getElem_mem _
        have h0 := (hb _ (List.mem_append_left _ hmem)).1
        have hx : (((s.vtkCellIds[q]).toNat : Nat) : Int) ∉
            mergedIds rest := by
          rw [Int.toNat_of_nonneg h0]
          exact fun h => hdisj hmem h
        rw [hother _ hx, hpos0 q hq]
        simp
      refine ⟨_, buf1, e1, rfl, by rw [hlen, hlen0], ?_, by simp [hkeep], ?_, ?_, ?_, ?_⟩
      · rw [he1]; simp only [List.length_append]; push_cast; ring
      · intro q hq
        by_cases hq1 : q < s.vtkCellIds.length
        · rw [List.getElem_append_left hq1]
          exact hfresh q hq1
        · simp only [List.length_append] at hq
          rw [List.getElem_append_right (by omega)]
          rw [hpos (q - s.vtkCellIds.length) (by omega)]
          congr 1
          have : ((q - s.vtkCellIds.length : Nat) : Int) = (q : Int) - s.vtkCellIds.length := by
            omega
          rw [this]; ring
      · intro x hx
        rw [List.mem_append, not_or] at hx
        rw [hother x hx.2, hother0 x hx.1]
      · intro s1 hs1 q hq
        rcases List.mem_cons.1 hs1 with rfl | hs1
        · exact hfresh q hq
        · exact hsec s1 hs1 q hq
      · intro hall
        simp only [List.map_cons, chained]
        refine ⟨rfl, by simp only [Section.range]; omega, ?_⟩
        exact hch (fun s1 hs1 => hall s1 (List.mem_cons_of_mem _ hs1))

theorem mem_mergedIds_groupCells (recs : List (ElementType × Int × List Int)) (x : Int) :
    x ∈ mergedIds (groupCells recs) ↔ x ∈ recs.map fun r => r.2.1 := by
  simp only [mergedIds, groupCells, List.map_map, List.mem_flatten, List.mem_map,
    Function.comp_apply, sectionFor]
  constructor
  · rintro ⟨l, ⟨t, _, rfl⟩, hx⟩
    obtain ⟨r, hr, hrx⟩ := List.mem_map.1 hx
    exact ⟨r, (List.mem_filter.1 hr).1, hrx⟩
  · rintro ⟨r, hr, hrx⟩
    refine ⟨_, ⟨r.1, (mem_firstSeen _ _).2 (List.mem_map_of_mem _ hr), rfl⟩, ?_⟩
    exact List.mem_map.2 ⟨r, List.mem_filter.2 ⟨hr, by simp⟩, hrx⟩

theorem nodup_mergedIds_groupCells (recs : List (ElementType × Int × List Int))
    (hnd : (recs.map fun r => r.2.1).Nodup) : (mergedIds (groupCells recs)).Nodup := by
  simp only [mergedIds, groupCells, List.map_map]
  rw [List.nodup_flatten]
  constructor
  · intro l hl
    obtain ⟨t, _, rfl⟩ := List.mem_map.1 hl
    simp only [Function.comp_apply, sectionFor]
    exact List.Nodup.sublist (List.Sublist.map _ (List.filter_sublist _)) hnd
  · rw [List.pairwise_map]
    have hT := nodup_firstSeen (recs.map fun c => c.1)
    apply List.Pairwise.imp _ hT
    intro t1 t2 hne
    simp only [Function.comp_apply, sectionFor]
    intro x hx1 hx2
    obtain ⟨r1, hr1, hr1x⟩ := List.mem_map.1 hx1
    obtain ⟨r2, hr2, hr2x⟩ := List.mem_map.1 hx2
    have h1 := List.mem_filter.1 hr1
    have h2 := List.mem_filter.1 hr2
    have : r1 = r2 := List.inj_on_of_nodup_map hnd h1.1 h2.1 (by rw [hr1x, hr2x])
    subst this
    have e1 : r1.1 = t1 := by simpa using h1.2
    have e2 : r1.1 = t2 := by simpa using h2.2
    exact hne (e1.symm.trans e2)

theorem zoneRecs_ids (opt : CgnsWriterOptions) (ds : VtkDataSet) (a n : Nat) :
    (zoneRecs opt ds a n).map (fun r => r.2.1) =
      ((List.range' a n).filter (kept opt ds)).map fun (i : Nat) => (i : Int) := by
  simp [zoneRecs, List.map_map, Function.comp_def]

theorem nodup_zoneRecs_ids (opt : CgnsWriterOptions) (ds : VtkDataSet) (a n : Nat) :
    ((zoneRecs opt ds a n).map fun r => r.2.1).Nodup := by
  rw [zoneRecs_ids]
  apply List.Nodup.map
  · intro i j h; exact Int.ofNat.inj h
  · exact List.Nodup.filter _ (List.nodup_range' a n)

theorem mem_zoneRecs_ids (opt : CgnsWriterOptions) (ds : VtkDataSet) (n : Nat) (x : Int) :
    x ∈ (zoneRecs opt ds 0 n).map (fun r => r.2.1) ↔
      ∃ i : Nat, i < n ∧ kept opt ds i = true ∧ x = (i : Int) := by
  rw [zoneRecs_ids]
  simp only [List.mem_map, List.mem_filter, List.mem_range'_1]
  constructor
  · rintro ⟨i, ⟨⟨_, hi⟩, hk⟩, rfl⟩
    exact ⟨i, by omega, hk, rfl⟩
  · rintro ⟨i, hi, hk, rfl⟩
    exact ⟨i, ⟨⟨Nat.zero_le _, by omega⟩, hk⟩, rfl⟩

theorem groupCells_ids_ne_nil (recs : List (ElementType × Int × List Int)) :
    ∀ s ∈ groupCells recs, s.vtkCellIds ≠ [] := by
  intro s hs
  simp only [groupCells, List.mem_map] at hs
  obtain ⟨t, ht, rfl⟩ := hs
  obtain ⟨r, hr, hrt⟩ := List.mem_map.1 ((mem_firstSeen _ _).1 ht)
  have : r.2.1 ∈ (sectionFor recs t).vtkCellIds :=
    List.mem_map.2 ⟨r, List.mem_filter.2 ⟨hr, by simpa using hrt⟩, rfl⟩
  exact List.ne_nil_of_mem this

theorem mergedIds_congr (secs1 secs2 : List Section)
    (h : secs1.map (fun s => (s.type, s.name, s.nodesPerElem, s.vtkCellIds, s.conn))
      = secs2.map (fun s => (s.type, s.name, s.nodesPerElem, s.vtkCellIds, s.conn))) :
    mergedIds secs1 = mergedIds secs2 := by
  have := congrArg (List.map fun q : ElementType × String × Nat × List Int × List Int => q.2.2.2.1) h
  simp only [List.map_map, Function.comp_def] at this
  simp only [mergedIds, this]

/-- What a successful `buildZone` has computed, in terms of the kept cells. -/
theorem buildZone_spec (opt : CgnsWriterOptions) (ds : VtkDataSet) :
    match firstErr opt ds ds.cells.length 0 with
    | some e => buildZone opt ds = .error (.thrown e)
    | none => ∃ zb, buildZone opt ds = .ok zb ∧
        zb.sections.map (fun s => (s.type, s.name, s.nodesPerElem, s.vtkCellIds, s.conn))
          = (groupCells (zoneRecs opt ds 0 ds.cells.length)).map
              (fun s => (s.type, s.name, s.nodesPerElem, s.vtkCellIds, s.conn)) ∧
        zb.cellToElem.length = ds.cells.length ∧
        zb.nCellsWritten = ((mergedIds zb.sections).length : Int) ∧
        (∀ (q : Nat) (hq : q < (mergedIds zb.sections).length),
          zb.cellToElem[((mergedIds zb.sections)[q]).toNat]? = some (1 + (q : Int))) ∧
        (∀ x : Nat, x < ds.cells.length → (x : Int) ∉ mergedIds zb.sections →
          zb.cellToElem[x]? = some 0) ∧
        (∀ s ∈ zb.sections, ∀ (q : Nat) (hq : q < s.vtkCellIds.length),
          zb.cellToElem[(s.vtkCellIds[q]).toNat]? = some (s.start + q)) ∧
        rangesDense (zb.sections.map Section.range) zb.nCellsWritten ∧
        zb.nVerts = ds.numPoints := by
  have hloop := zoneLoop_all opt ds
  unfold buildZone
  dsimp only
  cases hfe : firstErr opt ds ds.cells.length 0 with
  | some e =>
    rw [hfe] at hloop
    dsimp only at hloop ⊢
    rw [hloop]
  | none =>
    rw [hfe] at hloop
    dsimp only at hloop ⊢
    obtain ⟨st, hst, hinv⟩ := hloop
    rw [hst]
    dsimp only
    have hF : ∀ x, x ∈ mergedIds st.sections ↔
        ∃ i : Nat, i < ds.cells.length ∧ kept opt ds i = true ∧ x = (i : Int) := by
      intro x
      rw [hinv.1, mem_mergedIds_groupCells, mem_zoneRecs_ids]
    have hnd : (mergedIds st.sections).Nodup := by
      rw [hinv.1]
      exact nodup_mergedIds_groupCells _ (nodup_zoneRecs_ids opt ds 0 _)
    obtain ⟨secs1, buf1, e1, hr, hlen, he1, hkeep, hpos, hother, hsec, hch⟩ :=
      assignRanges_spec st.sections 1 (List.replicate (ds.cells.length : Int).toNat 0)
        (fun x hx => by
          obtain ⟨i, hi, _, rfl⟩ := (hF x).1 hx
          simp only [List.length_replicate, Int.toNat_ofNat]
          omega)
        hnd
    rw [hr]
    dsimp only
    have hm : mergedIds secs1 = mergedIds st.sections := mergedIds_congr _ _ hkeep
    refine ⟨_, rfl, ?_, ?_, ?_, ?_, ?_, ?_, ?_, rfl⟩
    · dsimp only; rw [hkeep, hinv.1]
    · dsimp only; simpa using hlen
    · dsimp only; rw [he1, hm]; ring
    · dsimp only
      intro q hq
      have hq2 : q < (mergedIds st.sections).length := hm ▸ hq
      have := hpos q hq2
      simp only [hm]
      exact this
    · dsimp only
      intro x hx hnot
      rw [hm] at hnot
      rw [hother x hnot]
      simp [List.getElem?_replicate, hx]
    · exact hsec
    · dsimp only
      apply chained_rangesDense
      exact hch (by rw [hinv.1]; exact groupCells_ids_ne_nil _)

theorem filter_range_pos (P : Nat → Bool) (n c : Nat) (hc : c < n) (hP : P c = true) :
    ((List.range' 0 n).filter P)[((List.range c).filter P).length]? = some c := by
  have h1 : List.range' 0 n = List.range' 0 c ++ List.range' c (n - c) := by
    have := List.range'_append_1 0 c (n - c)
    simp only [Nat.zero_add] at this
    rw [this]
    congr 1
    omega
  have h2 : List.range' c (n - c) = c :: List.range' (c + 1) (n - c - 1) := by
    have : n - c = (n - c - 1) + 1 := by omega
    rw [this, List.range'_succ]
    simp
  rw [h1, h2, List.filter_append, List.range_eq_range',
    List.getElem?_append_right (le_refl _), List.filter_cons, hP]
  simp

theorem flatten_drop_take {α : Type} (k : Nat) :
    ∀ (L : List (List α)) (q : Nat) (x : List α), (∀ l ∈ L, l.length = k) →
      L[q]? = some x → (L.flatten.drop (q * k)).take k = x := by
  intro L
  induction L with
  | nil => intro q x _ h; simp at h
  | cons l L ih =>
    intro q x hall h
    have hl := hall l (List.mem_cons_self _ _)
    cases q with
    | zero =>
      simp only [List.getElem?_cons_zero, Option.some.injEq] at h
      subst h
      simp only [Nat.zero_mul, List.drop_zero, List.flatten_cons]
      rw [List.take_append_of_le_length (by omega), List.take_of_length_le (by omega)]
    | succ q =>
      simp only [List.getElem?_cons_succ] at h
      have := ih q x (fun l1 h1 => hall l1 (List.mem_cons_of_mem _ h1)) h
      simp only [List.flatten_cons]
      rw [show (q + 1) * k = l.length + q * k by rw [hl]; ring, ← List.drop_drop,
        List.drop_left]
      exact this

theorem cellErr_none_iff (opt : CgnsWriterOptions) (ds : VtkDataSet) (i : Nat) :
    cellErr opt ds i = none ↔ (kept opt ds i = true → cellSupported ds i) := by
  unfold cellErr kept cellSupported
  cases hg : isGhost opt ds i with
  | true => simp
  | false =>
    simp only [Bool.false_eq_true, if_false, Bool.not_false, true_implies]
    cases hm : MapVtkCellToCgns (cellAt ds i).cellType with
    | none => simp
    | some r =>
      obtain ⟨t, n⟩ := r
      dsimp only
      by_cases hsz : ((cellAt ds i).pointIds.length : Int) ≠ (n : Int)
      · rw [if_pos hsz]
        simp only [Option.map_some', Option.some.injEq]
        constructor
        · intro h; cases h
        · intro h; exact absurd h.symm hsz
      · rw [if_neg hsz]
        simp only [Option.map_some', Option.some.injEq, true_iff]
        by_contra h
        exact hsz (fun e => h e.symm)

theorem firstErr_none_iff (opt : CgnsWriterOptions) (ds : VtkDataSet) :
    ∀ n a, firstErr opt ds n a = none ↔
      ∀ i, a ≤ i → i < a + n → kept opt ds i = true → cellSupported ds i := by
  intro n
  induction n with
  | zero => intro a; simp only [firstErr, true_iff]; intro i h1 h2; omega
  | succ n ih =>
    intro a
    unfold firstErr
    cases hce : cellErr opt ds a with
    | some e =>
      dsimp only
      constructor
      · intro h; cases h
      · intro h
        have := (cellErr_none_iff opt ds a).2 (h a (le_refl _) (by omega))
        rw [hce] at this; cases this
    | none =>
      dsimp only
      rw [ih (a + 1)]
      constructor
      · intro h i h1 h2
        by_cases e : i = a
        · subst e; exact (cellErr_none_iff opt ds i).1 hce
        · exact h i (by omega) (by omega)
      · intro h i h1 h2
        exact h i (by omega) (by omega)

theorem firstErr_none_iff_valid (opt : CgnsWriterOptions) (ds : VtkDataSet) :
    firstErr opt ds ds.cells.length 0 = none ↔ zoneValid opt ds := by
  rw [firstErr_none_iff]
  unfold zoneValid
  constructor
  · intro h i hi; exact h i (Nat.zero_le _) (by omega)
  · intro h i _ hi; exact h i (by omega)

theorem supported_shape (ds : VtkDataSet) (i : Nat) (h : cellSupported ds i) :
    ∃ t, shapeOf ds i = some t ∧ t ≠ .ElementTypeNull ∧
      (cellAt ds i).pointIds.length = nodesOf t := by
  unfold cellSupported at h
  cases hm : MapVtkCellToCgns (cellAt ds i).cellType with
  | none => rw [hm] at h; simp at h
  | some r =>
    obtain ⟨t, n⟩ := r
    rw [hm] at h
    simp only [Option.map_some', Option.some.injEq] at h
    obtain ⟨hn, hnull⟩ := map_nodes hm
    subst hn
    exact ⟨t, by simp [shapeOf, hm], hnull, by omega⟩

theorem recs_filter_type (opt : CgnsWriterOptions) (ds : VtkDataSet) (n : Nat)
    (t : ElementType) :
    (zoneRecs opt ds 0 n).filter (fun r => decide (r.1 = t)) =
      ((List.range' 0 n).filter fun j =>
          decide ((shapeOf ds j).getD .ElementTypeNull = t) && kept opt ds j).map
        fun i => ((shapeOf ds i).getD .ElementTypeNull, (i : Int), tupleOf opt ds i) := by
  simp only [zoneRecs, List.filter_map, List.filter_filter]
  rfl

theorem keptBefore_eq (opt : CgnsWriterOptions) (ds : VtkDataSet) (c : Nat) (t : ElementType)
    (ht : shapeOf ds c = some t) (hnull : t ≠ .ElementTypeNull) :
    keptBefore opt ds c =
      ((List.range c).filter fun j =>
        decide ((shapeOf ds j).getD .ElementTypeNull = t) && kept opt ds j).length := by
  unfold keptBefore
  congr 1
  apply List.filter_congr
  intro j _
  rw [ht]
  cases hj : shapeOf ds j with
  | none =>
    have : ¬ (ElementType.ElementTypeNull = t) := fun e => hnull e.symm
    simp [this]
  | some t1 =>
    by_cases e : t1 = t
    · simp [e, Bool.and_comm]
    · simp [e]

/-- The section of a kept, supported cell `c`: `c` sits in its id list, and its tuple in
its tuple list, at position `keptBefore c`. -/
theorem sectionFor_pos (opt : CgnsWriterOptions) (ds : VtkDataSet) (c : Nat)
    (hc : c < ds.cells.length) (hk : kept opt ds c = true) (t : ElementType)
    (ht : shapeOf ds c = some t) (hnull : t ≠ .ElementTypeNull) :
    (sectionFor (zoneRecs opt ds 0 ds.cells.length) t).vtkCellIds[keptBefore opt ds c]?
        = some (c : Int) ∧
      (((zoneRecs opt ds 0 ds.cells.length).filter fun r => decide (r.1 = t)).map
          fun r => r.2.2)[keptBefore opt ds c]?
        = some (tupleOf opt ds c) := by
  have hP : (decide ((shapeOf ds c).getD .ElementTypeNull = t) && kept opt ds c) = true := by
    simp [ht, hk]
  have hpos := filter_range_pos
    (fun j => decide ((shapeOf ds j).getD .ElementTypeNull = t) && kept opt ds j)
    ds.cells.length c hc hP
  rw [← keptBefore_eq opt ds c t ht hnull] at hpos
  simp only [sectionFor, recs_filter_type, List.map_map, List.getElem?_map, hpos,
    Option.map_some', Function.comp_apply, and_self]

theorem mem_mergedIds_zone (opt : CgnsWriterOptions) (ds : VtkDataSet) (secs : List Section)
    (hkeep : secs.map (fun s => (s.type, s.name, s.nodesPerElem, s.vtkCellIds, s.conn))
      = (groupCells (zoneRecs opt ds 0 ds.cells.length)).map
          (fun s => (s.type, s.name, s.nodesPerElem, s.vtkCellIds, s.conn))) :
    (mergedIds secs).Nodup ∧
    ∀ x, x ∈ mergedIds secs ↔
      ∃ i : Nat, i < ds.cells.length ∧ kept opt ds i = true ∧ x = (i : Int) := by
  rw [mergedIds_congr _ _ hkeep]
  refine ⟨nodup_mergedIds_groupCells _ (nodup_zoneRecs_ids opt ds 0 _), ?_⟩
  intro x
  rw [mem_mergedIds_groupCells, mem_zoneRecs_ids]

/-- The cell-to-element table of a valid zone: kept cells get the ids `1 .. nCellsWritten`,
one each, and dropped cells get 0. -/
theorem zone_table (opt : CgnsWriterOptions) (ds : VtkDataSet) (hv : zoneValid opt ds) :
    ∃ zb, buildZone opt ds = .ok zb ∧
      zb.sections.map (fun s => (s.type, s.name, s.nodesPerElem, s.vtkCellIds, s.conn))
        = (groupCells (zoneRecs opt ds 0 ds.cells.length)).map
            (fun s => (s.type, s.name, s.nodesPerElem, s.vtkCellIds, s.conn)) ∧
      zb.cellToElem.length = ds.cells.length ∧
      0 ≤ zb.nCellsWritten ∧
      zb.nCellsWritten = ((mergedIds zb.sections).length : Int) ∧
      (∀ s ∈ zb.sections, ∀ (q : Nat) (hq : q < s.vtkCellIds.length),
        zb.cellToElem[(s.vtkCellIds[q]).toNat]? = some (s.start + q)) ∧
      (∀ c, c < ds.cells.length → kept opt ds c = true →
        ∃ q : Nat, (q : Int) < zb.nCellsWritten ∧ zb.cellToElem[c]? = some (1 + (q : Int))) ∧
      (∀ c, c < ds.cells.length → kept opt ds c = false → zb.cellToElem[c]? = some 0) ∧
      (∀ c1 c2, c1 < ds.cells.length → c2 < ds.cells.length → kept opt ds c1 = true →
        kept opt ds c2 = true → zb.cellToElem[c1]? = zb.cellToElem[c2]? → c1 = c2) ∧
      (∀ q : Nat, (q : Int) < zb.nCellsWritten →
        ∃ c, c < ds.cells.length ∧ kept opt ds c = true ∧
          zb.cellToElem[c]? = some (1 + (q : Int))) := by
  have h := buildZone_spec opt ds
  rw [(firstErr_none_iff_valid opt ds).2 hv] at h
  dsimp only at h
  obtain ⟨zb, hzb, hkeep, hlen, hN, hpos, hzero, hsec, _, _⟩ := h
  obtain ⟨hnd, hF⟩ := mem_mergedIds_zone opt ds zb.sections hkeep
  have hposOf : ∀ c, c < ds.cells.length → kept opt ds c = true →
      ∃ (q : Nat) (hq : q < (mergedIds zb.sections).length),
        (mergedIds zb.sections)[q] = (c : Int) := by
    intro c hc hk
    exact List.getElem_of_mem ((hF c).2 ⟨c, hc, hk, rfl⟩)
  refine ⟨zb, hzb, hkeep, hlen, by omega, hN, hsec, ?_, ?_, ?_, ?_⟩
  · intro c hc hk
    obtain ⟨q, hq, hqc⟩ := hposOf c hc hk
    refine ⟨q, by omega, ?_⟩
    have := hpos q hq
    rw [hqc] at this
    simpa using this
  · intro c hc hk
    apply hzero c hc
    intro hmem
    obtain ⟨i, _, hki, e⟩ := (hF c).1 hmem
    have : c = i := by omega
    subst this
    rw [hk] at hki
    cases hki
  · intro c1 c2 h1 h2 hk1 hk2 heq
    obtain ⟨q1, hq1, hqc1⟩ := hposOf c1 h1 hk1
    obtain ⟨q2, hq2, hqc2⟩ := hposOf c2 h2 hk2
    have e1 := hpos q1 hq1
    have e2 := hpos q2 hq2
    rw [hqc1] at e1
    rw [hqc2] at e2
    simp only [Int.toNat_ofNat] at e1 e2
    rw [e1, e2] at heq
    have : q1 = q2 := by
      have := Option.some.inj heq
      omega
    subst this
    have : (c1 : Int) = (c2 : Int) := by rw [← hqc1, ← hqc2]
    omega
  · intro q hq
    have hq2 : q < (mergedIds zb.sections).length := by omega
    obtain ⟨i, hi, hki, e⟩ := (hF _).1 (List.getElem_mem hq2)
    refine ⟨i, hi, hki, ?_⟩
    have := hpos q hq2
    rw [e] at this
    simpa using this

theorem zone_section_of_type (opt : CgnsWriterOptions) (ds : VtkDataSet) (secs : List Section)
    (hkeep : secs.map (fun s => (s.type, s.name, s.nodesPerElem, s.vtkCellIds, s.conn))
      = (groupCells (zoneRecs opt ds 0 ds.cells.length)).map
          (fun s => (s.type, s.name, s.nodesPerElem, s.vtkCellIds, s.conn)))
    (t : ElementType)
    (ht : t ∈ (zoneRecs opt ds 0 ds.cells.length).map fun r => r.1) :
    ∃ s ∈ secs, s.type = t ∧ s.nodesPerElem = nodesOf t ∧
      s.vtkCellIds = (sectionFor (zoneRecs opt ds 0 ds.cells.length) t).vtkCellIds ∧
      s.conn = (sectionFor (zoneRecs opt ds 0 ds.cells.length) t).conn := by
  have hmem : (t, DefaultSectionName t, nodesOf t,
      (sectionFor (zoneRecs opt ds 0 ds.cells.length) t).vtkCellIds,
      (sectionFor (zoneRecs opt ds 0 ds.cells.length) t).conn) ∈
      (groupCells (zoneRecs opt ds 0 ds.cells.length)).map
        (fun s => (s.type, s.name, s.nodesPerElem, s.vtkCellIds, s.conn)) := by
    apply List.mem_map.2
    refine ⟨sectionFor (zoneRecs opt ds 0 ds.cells.length) t, ?_, rfl⟩
    exact List.mem_map.2 ⟨t, (mem_firstSeen _ _).2 ht, rfl⟩
  rw [← hkeep] at hmem
  obtain ⟨s, hs, e⟩ := List.mem_map.1 hmem
  simp only [Prod.mk.injEq] at e
  exact ⟨s, hs, e.1, e.2.2.1, e.2.2.2.1, e.2.2.2.2⟩

theorem rec_mem_of_kept (opt : CgnsWriterOptions) (ds : VtkDataSet) (c : Nat)
    (hc : c < ds.cells.length) (hk : kept opt ds c = true) (t : ElementType)
    (ht : shapeOf ds c = some t) :
    t ∈ (zoneRecs opt ds 0 ds.cells.length).map fun r => r.1 := by
  simp only [zoneRecs, List.map_map, List.mem_map, List.mem_filter, List.mem_range'_1,
    Function.comp_apply]
  exact ⟨c, ⟨⟨Nat.zero_le _, by omega⟩, hk⟩, by simp [ht]⟩

theorem tuples_length (opt : CgnsWriterOptions) (ds : VtkDataSet) (hv : zoneValid opt ds)
    (t : ElementType) :
    ∀ l ∈ ((zoneRecs opt ds 0 ds.cells.length).filter fun r => decide (r.1 = t)).map
        (fun r => r.2.2), l.length = nodesOf t := by
  intro l hl
  obtain ⟨r, hr, rfl⟩ := List.mem_map.1 hl
  obtain ⟨hr1, hr2⟩ := List.mem_filter.1 hr
  simp only [zoneRecs, List.mem_map, List.mem_filter, List.mem_range'_1] at hr1
  obtain ⟨i, ⟨⟨_, hi⟩, hk⟩, rfl⟩ := hr1
  obtain ⟨t1, ht1, _, hlen⟩ := supported_shape ds i (hv i (by omega) hk)
  simp only [ht1, Option.getD_some, decide_eq_true_eq] at hr2
  subst hr2
  simp [tupleOf, hlen]

/-- C4: after the range loop of `WriteZoneUnstructured` the cell-to-element table has one
entry per cell; a kept cell `c` gets the start of the section of its shape plus the
number of kept cells of that shape before it, and the node tuple at that element
position of the section is `c`'s; the table maps the kept cells one-to-one onto
`1 .. nCellsWritten`. -/
theorem C4_cell_to_elem_is_position_in_merged_numbering (opt : CgnsWriterOptions)
    (ds : VtkDataSet) (hv : zoneValid opt ds) :
    ∃ zb, buildZone opt ds = .ok zb ∧
      zb.cellToElem.length = ds.cells.length ∧
      (∀ c, c < ds.cells.length → kept opt ds c = true →
        ∃ s ∈ zb.sections, shapeOf ds c = some s.type ∧
          zb.cellToElem[c]? = some (s.start + (keptBefore opt ds c : Int)) ∧
          (s.conn.drop (keptBefore opt ds c * s.nodesPerElem)).take s.nodesPerElem
            = tupleOf opt ds c) ∧
      (∀ c, c < ds.cells.length → kept opt ds c = true →
        ∃ e, zb.cellToElem[c]? = some e ∧ 1 ≤ e ∧ e ≤ zb.nCellsWritten) ∧
      (∀ c1 c2, c1 < ds.cells.length → c2 < ds.cells.length → kept opt ds c1 = true →
        kept opt ds c2 = true → zb.cellToElem[c1]? = zb.cellToElem[c2]? → c1 = c2) ∧
      (∀ e : Int, 1 ≤ e → e ≤ zb.nCellsWritten →
        ∃ c, c < ds.cells.length ∧ kept opt ds c = true ∧ zb.cellToElem[c]? = some e) := by
  obtain ⟨zb, hzb, hkeep, hlen, _, hN, hsec, hkept, _, hinj, hsurj⟩ := zone_table opt ds hv
  refine ⟨zb, hzb, hlen, ?_, ?_, hinj, ?_⟩
  · intro c hc hk
    obtain ⟨t, ht, hnull, _⟩ := supported_shape ds c (hv c hc hk)
    obtain ⟨s, hs, hst, hnpe, hids, hconn⟩ :=
      zone_section_of_type opt ds zb.sections hkeep t (rec_mem_of_kept opt ds c hc hk t ht)
    obtain ⟨hp1, hp2⟩ := sectionFor_pos opt ds c hc hk t ht hnull
    refine ⟨s, hs, by rw [hst]; exact ht, ?_, ?_⟩
    · rw [← hids] at hp1
      obtain ⟨hq, hqc⟩ := List.getElem?_eq_some_iff.1 hp1
      have := hsec s hs (keptBefore opt ds c) hq
      rw [hqc] at this
      simpa using this
    · rw [hconn, hnpe]
      exact flatten_drop_take (nodesOf t) _ _ _ (tuples_length opt ds hv t) hp2
  · intro c hc hk
    obtain ⟨q, hq, hqc⟩ := hkept c hc hk
    exact ⟨_, hqc, by omega, by omega⟩
  · intro e h1 h2
    obtain ⟨c, hc, hk, hce⟩ := hsurj (e - 1).toNat (by omega)
    refine ⟨c, hc, hk, ?_⟩
    rw [hce]
    congr 1
    omega

theorem C4_witness :
    (zoneValid CgnsWriterOptions.default dsGhost ∧
      (buildZone CgnsWriterOptions.default dsGhost).toOption.map (fun zb => zb.cellToElem)
        = some [1, 0, 2]) ∧
    ∃ zb, buildZone CgnsWriterOptions.default dsGhost = .ok zb ∧
      zb.cellToElem.length = dsGhost.cells.length ∧
      (∀ c, c < dsGhost.cells.length → kept CgnsWriterOptions.default dsGhost c = true →
        ∃ s ∈ zb.sections, shapeOf dsGhost c = some s.type ∧
          zb.cellToElem[c]? = some (s.start + (keptBefore CgnsWriterOptions.default dsGhost c : Int)) ∧
          (s.conn.drop (keptBefore CgnsWriterOptions.default dsGhost c * s.nodesPerElem)).take
              s.nodesPerElem
            = tupleOf CgnsWriterOptions.default dsGhost c) ∧
      (∀ c, c < dsGhost.cells.length → kept CgnsWriterOptions.default dsGhost c = true →
        ∃ e, zb.cellToElem[c]? = some e ∧ 1 ≤ e ∧ e ≤ zb.nCellsWritten) ∧
      (∀ c1 c2, c1 < dsGhost.cells.length → c2 < dsGhost.cells.length →
        kept CgnsWriterOptions.default dsGhost c1 = true →
        kept CgnsWriterOptions.default dsGhost c2 = true →
        zb.cellToElem[c1]? = zb.cellToElem[c2]? → c1 = c2) ∧
      (∀ e : Int, 1 ≤ e → e ≤ zb.nCellsWritten →
        ∃ c, c < dsGhost.cells.length ∧ kept CgnsWriterOptions.default dsGhost c = true ∧
          zb.cellToElem[c]? = some e) :=
  ⟨⟨by decide, by decide⟩,
    C4_cell_to_elem_is_position_in_merged_numbering CgnsWriterOptions.default dsGhost
      (by decide)⟩

theorem kept_eq_of_ghost (opt : CgnsWriterOptions) (ds : VtkDataSet) (g : List Nat)
    (hskip : opt.skipGhostCells = true) (hg : ds.ghostArray = some g)
    (hlen : g.length = ds.cells.length) (i : Nat) :
    kept opt ds i = decide (g.getD i 0 = 0) := by
  simp [kept, isGhost, ghostOf, hskip, hg, hlen]

theorem scatterLoop_spec (tbl : List Int) (g : Int → Rat) (N : Nat)
    (hrange : ∀ (i : Nat) (e : Int), tbl[i]? = some e → e = 0 ∨ (1 ≤ e ∧ e ≤ (N : Int)))
    (hinj : ∀ (i j : Nat) (e : Int), tbl[i]? = some e → tbl[j]? = some e → e ≠ 0 → i = j) :
    ∀ (n a : Nat) (values : List Rat), a + n ≤ tbl.length → values.length = N →
      ∃ buf, scatterLoop tbl g n (a : Int) values = .ok buf ∧ buf.length = N ∧
        (∀ (i : Nat) (e : Int), a ≤ i → i < a + n → tbl[i]? = some e → e ≠ 0 →
          buf[(e - 1).toNat]? = some (g i)) ∧
        (∀ p : Nat, (∀ i : Nat, a ≤ i → i < a + n → tbl[i]? ≠ some ((p : Int) + 1)) →
          buf[p]? = values[p]?) := by
  intro n
  induction n with
  | zero =>
    intro a values _ hlen
    refine ⟨values, rfl, hlen, ?_, fun _ _ => rfl⟩
    intro i e h1 h2
    omega
  | succ n ih =>
    intro a values hle hlen
    have ha : a < tbl.length := by omega
    unfold scatterLoop
    rw [readAt_some_get tbl a ha]
    dsimp only
    have hta : tbl[a]? = some tbl[a] := List.getElem?_eq_getElem ha
    by_cases h0 : tbl[a] = 0
    · rw [if_pos h0, show ((a : Int) + 1) = ((a + 1 : Nat) : Int) by push_cast; rfl]
      obtain ⟨buf, hbuf, hbl, hval, hrest⟩ := ih (a + 1) values (by omega) hlen
      refine ⟨buf, hbuf, hbl, ?_, ?_⟩
      · intro i e h1 h2 hie hne
        by_cases hia : i = a
        · subst hia
          rw [hta] at hie
          exact absurd ((Option.some.inj hie).symm.trans h0) hne
        · exact hval i e (by omega) (by omega) hie hne
      · intro p hp
        exact hrest p (fun i h1 h2 => hp i (by omega) (by omega))
    · rw [if_neg h0]
      have hr := (hrange a tbl[a] hta).resolve_left h0
      rw [writeAt_ok values (tbl[a] - 1) (g a) (by omega) (by omega)]
      dsimp only
      rw [show ((a : Int) + 1) = ((a + 1 : Nat) : Int) by push_cast; rfl]
      obtain ⟨buf, hbuf, hbl, hval, hrest⟩ :=
        ih (a + 1) (values.set (tbl[a] - 1).toNat (g a)) (by omega) (by simpa using hlen)
      refine ⟨buf, hbuf, hbl, ?_, ?_⟩
      · intro i e h1 h2 hie hne
        by_cases hia : i = a
        · subst hia
          rw [hta] at hie
          have hee := Option.some.inj hie
          subst hee
          rw [hrest (tbl[i] - 1).toNat ?_]
          · exact List.getElem?_set_self (by omega)
          · intro j hj1 hj2 hcon
            have e2 : (((tbl[i] - 1).toNat : Nat) : Int) + 1 = tbl[i] := by omega
            rw [e2] at hcon
            have := hinj j i tbl[i] hcon hta h0
            omega
        · exact hval i e (by omega) (by omega) hie hne
      · intro p hp
        rw [hrest p (fun i h1 h2 => hp i (by omega) (by omega))]
        apply List.getElem?_set_ne
        intro e
        apply hp a (le_refl _) (by omega)
        rw [hta]
        congr 1
        omega

end Vtk

theorem zone_ranges (opt : Vtk.CgnsWriterOptions) (ds : Vtk.VtkDataSet) (zb : Vtk.ZoneBuild)
    (hz : Vtk.buildZone opt ds = .ok zb) :
    rangesDense (zb.sections.map Vtk.Section.range) zb.nCellsWritten := by
  have h := Vtk.buildZone_spec opt ds
  cases hfe : Vtk.firstErr opt ds ds.cells.length 0 with
  | some e =>
    rw [hfe] at h
    dsimp only at h
    rw [h] at hz
    cases hz
  | none =>
    rw [hfe] at h
    dsimp only at h
    obtain ⟨zb1, hzb1, _, _, _, _, _, _, hdense, _⟩ := h
    rw [hzb1] at hz
    cases hz
    exact hdense

theorem inputCheck_some_of_missing (mesh : UnstructuredMeshInfo) (output_path : Option String)
    (h : output_path = none ∨ output_path = some "" ∨ mesh.points = none ∨ mesh.num_points ≤ 0 ∨
      mesh.connectivity = none ∨ mesh.connectivity_size ≤ 0 ∨ mesh.offsets = none ∨
      mesh.num_cells ≤ 0 ∨ mesh.types = none) :
    ∃ e, inputCheck mesh output_path = some e := by
  unfold inputCheck
  split_ifs with h1 h2 h3 h4 h5
  · exact ⟨_, rfl⟩
  · exact ⟨_, rfl⟩
  · exact ⟨_, rfl⟩
  · exact ⟨_, rfl⟩
  · exact ⟨_, rfl⟩
  · exfalso
    rcases h with h | h | h | h | h | h | h | h | h
    · exact h1 (Or.inl h)
    · exact h1 (Or.inr h)
    · exact h2 (Or.inl h)
    · exact h2 (Or.inr h)
    · exact h3 (Or.inl h)
    · exact h3 (Or.inr h)
    · exact h4 (Or.inl h)
    · exact h4 (Or.inr h)
    · exact h5 h

/-- C11: when a required input is missing or non-positive (null or empty path, null
points, connectivity, offsets or types, or a count that is not positive),
`WriteUnstructured` returns non-zero and makes no library call at all, so the file is
never opened; and `cgns_write_unstructured` returns non-zero for a null mesh pointer. -/
theorem C11_missing_input_fails_before_open (env : CgEnv) (mesh : UnstructuredMeshInfo)
    (output_path : Option String) (options : Option CgnsWriteOptions)
    (h : output_path = none ∨ output_path = some "" ∨ mesh.points = none ∨ mesh.num_points ≤ 0 ∨
      mesh.connectivity = none ∨ mesh.connectivity_size ≤ 0 ∨ mesh.offsets = none ∨
      mesh.num_cells ≤ 0 ∨ mesh.types = none) :
    (∃ r, WriteUnstructured env mesh output_path options = some r ∧ r.ret = 1 ∧
      r.trace = [] ∧ ∀ c ∈ r.trace, ∀ path, c ≠ CgCall.cg_open path) ∧
    (∃ r, cgns_write_unstructured env (some mesh) output_path options = some r ∧ r.ret = 1 ∧
      r.trace = []) ∧
    (∃ r, cgns_write_unstructured env none output_path options = some r ∧ r.ret = 1 ∧
      r.trace = []) := by
  obtain ⟨e, he⟩ := inputCheck_some_of_missing mesh output_path h
  have hw : WriteUnstructured env mesh output_path options
      = some { ret := 1, lastError := e.what, trace := [] } := by
    unfold WriteUnstructured
    rw [he]
  refine ⟨⟨_, hw, rfl, rfl, ?_⟩, ⟨_, hw, rfl, rfl⟩, ⟨_, rfl, rfl, rfl⟩⟩
  intro c hc
  cases hc

theorem C11_witness :
    (meshZero.points = none ∧ meshZero.num_points = 0) ∧
    (∃ r, WriteUnstructured CgEnv.allOk meshZero (some "invalid.cgns") none = some r ∧
      r.ret = 1 ∧ r.trace = [] ∧ ∀ c ∈ r.trace, ∀ path, c ≠ CgCall.cg_open path) ∧
    (∃ r, cgns_write_unstructured CgEnv.allOk (some meshZero) (some "invalid.cgns") none
        = some r ∧ r.ret = 1 ∧ r.trace = []) ∧
    (∃ r, cgns_write_unstructured CgEnv.allOk none (some "invalid.cgns") none = some r ∧
      r.ret = 1 ∧ r.trace = []) :=
  ⟨⟨rfl, rfl⟩,
    C11_missing_input_fails_before_open CgEnv.allOk meshZero (some "invalid.cgns") none
      (Or.inr (Or.inr (Or.inl rfl)))⟩

theorem append_ne_empty (a b : String) (h : a ≠ "") : a ++ b ≠ "" := by
  intro e
  have hl := congrArg String.length e
  rw [String.length_append] at hl
  have h0 : a.length = 0 := by
    simp only [String.length] at hl ⊢
    simp at hl
    simp [hl.1]
  apply h
  apply String.ext
  have : a.data.length = 0 := h0
  simpa using List.length_eq_zero.1 this

theorem what_ne_empty (e : WriteError) (h : ∀ w err, e = .cgFailed w err → w ≠ "") :
    e.what ≠ "" := by
  cases e with
  | cgFailed w err =>
    simp only [WriteError.what]
    rw [String.append_assoc]
    exact append_ne_empty _ _ (h w err rfl)
  | invalidOffsets c => exact append_ne_empty _ _ (by decide)
  | unsupportedType t => exact append_ne_empty _ _ (by decide)
  | nodeCountMismatch c sz n =>
    simp only [WriteError.what, String.append_assoc]
    exact append_ne_empty _ _ (by decide)
  | connOutOfRange i => exact append_ne_empty _ _ (by decide)
  | vtkUnsupportedType t =>
    simp only [WriteError.what, String.append_assoc]
    exact append_ne_empty _ _ (by decide)
  | vtkUnexpectedPointCount t => exact append_ne_empty _ _ (by decide)
  | outputPathNullOrEmpty => decide
  | pointsNullOrEmpty => decide
  | connectivityNullOrEmpty => decide
  | offsetsNullOrEmpty => decide
  | typesNull => decide
  | vtkInputNull => decide
  | vtkFileNameEmpty => decide
  | vtkNoLeaves => decide
  | vtkNotStructured => decide

theorem runCalls_error_what (env : CgEnv) :
    ∀ (calls : List (CgCall × String)) (tr : List CgCall) (tr1 : List CgCall) (e : WriteError),
      (∀ c ∈ calls, c.2 ≠ "") → runCalls env tr calls = (tr1, some e) → e.what ≠ "" := by
  intro calls
  induction calls with
  | nil => intro tr tr1 e _ h; simp [runCalls] at h
  | cons c calls ih =>
    intro tr tr1 e hall h
    obtain ⟨c1, w⟩ := c
    unfold runCalls at h
    cases ha : env.answer tr.length with
    | none =>
      rw [ha] at h
      exact ih _ _ _ (fun c hc => hall c (List.mem_cons_of_mem _ hc)) h
    | some err =>
      rw [ha] at h
      simp only [Prod.mk.injEq, Option.some.injEq] at h
      rw [← h.2]
      apply what_ne_empty
      intro w1 err1 e1
      cases e1
      exact hall _ (List.mem_cons_self _ _)

theorem bodyCalls_what_ne (b z : String) (p : Prepared) :
    ∀ c ∈ bodyCalls b z p, c.2 ≠ "" := by
  intro c hc
  simp only [bodyCalls, sectionCalls, List.mem_append, List.mem_cons, List.mem_singleton,
    List.mem_map, List.not_mem_nil, or_false] at hc
  rcases hc with (((h | h | h | h | h) | ⟨s, _, h⟩) | h)
  · rw [h]; exact (by decide : ("cg_base_write" : String) ≠ "")
  · rw [h]; exact (by decide : ("cg_zone_write(Unstructured)" : String) ≠ "")
  · rw [h]; exact (by decide : ("cg_coord_write(CoordinateX)" : String) ≠ "")
  · rw [h]; exact (by decide : ("cg_coord_write(CoordinateY)" : String) ≠ "")
  · rw [h]; exact (by decide : ("cg_coord_write(CoordinateZ)" : String) ≠ "")
  · rw [← h]
    simp only [String.append_assoc]
    exact append_ne_empty _ _ (by decide)
  · rw [h]; exact (by decide : ("cg_close" : String) ≠ "")

theorem connLoop_error_topology (mesh : UnstructuredMeshInfo) :
    ∀ (n : Nat) (i : Int) (acc : List Int) (e : WriteError),
      connLoop mesh n i acc = .error (.thrown e) → e.isTopology = true := by
  intro n
  induction n with
  | zero => intro i acc e h; simp [connLoop] at h
  | succ n ih =>
    intro i acc e h
    unfold connLoop at h
    cases hg : GetConn mesh i with
    | error f =>
      rw [hg] at h
      rw [GetConn_eq] at hg
      have : f = Fault.outOfBounds := by
        unfold readAt at hg
        split at hg
        · cases hg; rfl
        · split at hg
          · cases hg; rfl
          · split at hg
            · cases hg
            · cases hg; rfl
      subst this
      cases h
    | ok id =>
      rw [hg] at h
      dsimp only at h
      split at h
      · cases h; rfl
      · exact ih _ _ _ h

theorem readAt_error {α : Type} (buf : Option (List α)) (i : Int) (f : Fault)
    (h : readAt buf i = .error f) : f = .outOfBounds := by
  unfold readAt at h
  split at h
  · cases h; rfl
  · split at h
    · cases h; rfl
    · split at h
      · cases h
      · cases h; rfl

theorem cellStep_error_topology (mesh : UnstructuredMeshInfo) (cellId : Int) (st : LoopState)
    (e : WriteError) (h : cellStep mesh cellId st = .error (.thrown e)) :
    e.isTopology = true := by
  unfold cellStep at h
  cases h1 : GetOffset mesh cellId with
  | error f =>
    rw [h1] at h
    rw [GetOffset_eq] at h1
    have := readAt_error _ _ _ h1
    subst this; cases h
  | ok start =>
    rw [h1] at h
    dsimp only at h
    cases h2 : GetOffset mesh (cellId + 1) with
    | error f =>
      rw [h2] at h
      rw [GetOffset_eq] at h2
      have := readAt_error _ _ _ h2
      subst this; cases h
    | ok stop =>
      rw [h2] at h
      dsimp only at h
      by_cases hoff : start < 0 ∨ stop < start ∨ stop > mesh.connectivity_size
      · rw [if_pos hoff] at h
        cases h; rfl
      · rw [if_neg hoff] at h
        cases h3 : readAt mesh.types cellId with
        | error f =>
          rw [h3] at h
          have := readAt_error _ _ _ h3
          subst this; cases h
        | ok vtkType =>
          rw [h3] at h
          dsimp only at h
          cases h4 : MapVtkCellToCgns vtkType with
          | none =>
            rw [h4] at h
            cases h; rfl
          | some r =>
            obtain ⟨t, n, d⟩ := r
            rw [h4] at h
            dsimp only at h
            by_cases hsz : stop - start ≠ (n : Int)
            · rw [if_pos hsz] at h
              cases h; rfl
            · rw [if_neg hsz] at h
              cases h5 : (selectSection st.sections st.typeToSectionIndex t n).1[
                  (selectSection st.sections st.typeToSectionIndex t n).2.2]? with
              | none => rw [h5] at h; cases h
              | some s =>
                rw [h5] at h
                dsimp only at h
                cases h6 : connLoop mesh (stop - start).toNat start s.conn with
                | error f =>
                  rw [h6] at h
                  cases h
                  exact connLoop_error_topology _ _ _ _ _ h6
                | ok conn => rw [h6] at h; cases h

theorem cellLoop_error_topology (mesh : UnstructuredMeshInfo) :
    ∀ (n : Nat) (cellId : Int) (st : LoopState) (e : WriteError),
      cellLoop mesh n cellId st = .error (.thrown e) → e.isTopology = true := by
  intro n
  induction n with
  | zero => intro c st e h; simp [cellLoop] at h
  | succ n ih =>
    intro c st e h
    unfold cellLoop at h
    split at h
    · rename_i f hf
      cases h
      exact cellStep_error_topology _ _ _ _ hf
    · exact ih _ _ _ h

theorem coordLoop_error (mesh : UnstructuredMeshInfo) :
    ∀ (n : Nat) (i : Int) (acc : List Rat × List Rat × List Rat) (f : Fault),
      coordLoop mesh n i acc = .error f → f = .outOfBounds := by
  intro n
  induction n with
  | zero => intro i acc f h; simp [coordLoop] at h
  | succ n ih =>
    intro i acc f h
    obtain ⟨x, y, z⟩ := acc
    unfold coordLoop at h
    dsimp only at h
    split at h
    · rename_i f1 hf; cases h; exact readAt_error _ _ _ hf
    · split at h
      · rename_i f1 hf; cases h; exact readAt_error _ _ _ hf
      · split at h
        · rename_i f1 hf; cases h; exact readAt_error _ _ _ hf
        · exact ih _ _ _ h

theorem prepare_error_topology (mesh : UnstructuredMeshInfo) (e : WriteError)
    (h : prepare mesh = .error (.thrown e)) : e.isTopology = true := by
  unfold prepare at h
  split at h
  · rename_i f hf
    have := coordLoop_error _ _ _ _ _ hf
    subst this; cases h
  · split at h
    · rename_i f hf
      cases h
      exact cellLoop_error_topology _ _ _ _ _ hf
    · cases h

theorem topology_what_ne (e : WriteError) (h : e.isTopology = true) : e.what ≠ "" := by
  apply what_ne_empty
  intro w err he
  subst he
  cases h

theorem WriteUnstructured_lastError (env : CgEnv) (mesh : UnstructuredMeshInfo)
    (output_path : Option String) (options : Option CgnsWriteOptions) (r : RunResult)
    (h : WriteUnstructured env mesh output_path options = some r) :
    (r.ret = 0 ∧ r.lastError = "") ∨ (r.ret = 1 ∧ r.lastError ≠ "") := by
  unfold WriteUnstructured at h
  split at h
  · rename_i e he
    cases h
    right
    refine ⟨rfl, what_ne_empty _ ?_⟩
    intro w err hw
    subst hw
    unfold inputCheck at he
    split_ifs at he <;> cases he
  · dsimp only at h
    split at h
    · cases h
      right
      refine ⟨rfl, ?_⟩
      dsimp only
      apply what_ne_empty
      intro w err hw
      cases hw
      decide
    · split at h
      · cases h
      · rename_i e he
        cases h
        right
        exact ⟨rfl, topology_what_ne _ (prepare_error_topology _ _ he)⟩
      · rename_i p hp
        split at h
        · rename_i tr e hr
          cases h
          right
          exact ⟨rfl, runCalls_error_what env _ _ _ _ (bodyCalls_what_ne _ _ _) hr⟩
        · cases h
          left
          exact ⟨rfl, rfl⟩

/-- C13: a call of `cgns_write_unstructured` leaves the same return code and last-error
string whatever the string held before; the return code is 0 exactly when the string
left behind is empty, and after a failing call the string is that call's own non-empty
message. -/
theorem C13_last_error_overwritten_by_every_call (st1 st2 : ApiState) (env : CgEnv)
    (mesh : Option UnstructuredMeshInfo) (output_path : Option String)
    (options : Option CgnsWriteOptions) (ret : Int) (st3 : ApiState)
    (h : cgns_write_unstructured_st st1 env mesh output_path options = some (ret, st3)) :
    cgns_write_unstructured_st st2 env mesh output_path options = some (ret, st3) ∧
    (ret = 0 ↔ cgns_get_last_error st3 = "") ∧
    (ret ≠ 0 → ∃ r, cgns_write_unstructured env mesh output_path options = some r ∧
      r.ret = ret ∧ cgns_get_last_error st3 = r.lastError ∧ r.lastError ≠ "") := by
  unfold cgns_write_unstructured_st at h ⊢
  cases hr : cgns_write_unstructured env mesh output_path options with
  | none => rw [hr] at h; cases h
  | some r =>
    rw [hr] at h
    simp only [Option.some.injEq, Prod.mk.injEq] at h
    obtain ⟨h1, h2⟩ := h
    subst h1 h2
    have hcase : (r.ret = 0 ∧ r.lastError = "") ∨ (r.ret = 1 ∧ r.lastError ≠ "") := by
      cases mesh with
      | none =>
        simp only [cgns_write_unstructured, Option.some.injEq] at hr
        subst hr
        exact Or.inr ⟨rfl, by decide⟩
      | some m => exact WriteUnstructured_lastError env m output_path options r hr
    refine ⟨rfl, ?_, ?_⟩
    · simp only [cgns_get_last_error, SetLastError]
      rcases hcase with ⟨h1, h2⟩ | ⟨h1, h2⟩
      · simp [h1, h2]
      · simp [h1, h2]
    · intro hne
      refine ⟨r, rfl, rfl, rfl, ?_⟩
      rcases hcase with ⟨h1, _⟩ | ⟨_, h2⟩
      · exact absurd h1 hne
      · exact h2

theorem C13_witness :
    (cgns_write_unstructured_st { g_last_error := "stale" } CgEnv.allOk (some meshZero)
        (some "invalid.cgns") none
      = some (1, { g_last_error := "mesh.points is null or num_points <= 0" }) ∧
     cgns_write_unstructured_st { g_last_error := "stale" } CgEnv.allOk (some meshTet)
        (some "out.cgns") none
      = some (0, { g_last_error := "" })) ∧
    (cgns_write_unstructured_st { g_last_error := "" } CgEnv.allOk (some meshZero)
        (some "invalid.cgns") none
      = some (1, { g_last_error := "mesh.points is null or num_points <= 0" }) ∧
    ((1 : Int) = 0 ↔
      cgns_get_last_error { g_last_error := "mesh.points is null or num_points <= 0" } = "") ∧
    ((1 : Int) ≠ 0 → ∃ r, cgns_write_unstructured CgEnv.allOk (some meshZero)
        (some "invalid.cgns") none = some r ∧
      r.ret = 1 ∧
      cgns_get_last_error { g_last_error := "mesh.points is null or num_points <= 0" }
        = r.lastError ∧ r.lastError ≠ "")) :=
  ⟨⟨by decide, by decide⟩,
    C13_last_error_overwritten_by_every_call { g_last_error := "stale" }
      { g_last_error := "" } CgEnv.allOk (some meshZero) (some "invalid.cgns") none 1
      { g_last_error := "mesh.points is null or num_points <= 0" } (by decide)⟩

theorem firstSeen_of_all_eq {α : Type} [DecidableEq α] (l : List α) (t : α) (hne : l ≠ [])
    (hall : ∀ x ∈ l, x = t) : firstSeen l = [t] := by
  have hnd := nodup_firstSeen l
  have hmem : ∀ x, x ∈ firstSeen l ↔ x ∈ l := mem_firstSeen l
  obtain ⟨a, ha⟩ := List.exists_mem_of_ne_nil l hne
  have hat : a = t := hall a ha
  subst hat
  have hin : a ∈ firstSeen l := (hmem a).2 ha
  cases hfs : firstSeen l with
  | nil => rw [hfs] at hin; cases hin
  | cons x rest =>
    rw [hfs] at hnd hmem
    have hx : x = a := hall x ((hmem x).1 (List.mem_cons_self _ _))
    subst hx
    cases rest with
    | nil => rfl
    | cons y rest2 =>
      exfalso
      have hy : y = x := hall y ((hmem y).1 (List.mem_cons_of_mem _ (List.mem_cons_self _ _)))
      subst hy
      have := (List.nodup_cons.1 hnd).1
      exact this (List.mem_cons_self _ _)

theorem sectionWrites_openTrace (env : CgEnv) (output_path : Option String)
    (options : Option CgnsWriteOptions) (l : List CgCall) :
    sectionWrites (openTrace env output_path options ++ l) = sectionWrites l := by
  unfold sectionWrites openTrace
  by_cases h : env.hdf5Macro <;> simp [h, List.filter_cons]

theorem baseWrites_openTrace (env : CgEnv) (output_path : Option String)
    (options : Option CgnsWriteOptions) (l : List CgCall) :
    baseWrites (openTrace env output_path options ++ l) = baseWrites l := by
  unfold baseWrites openTrace
  by_cases h : env.hdf5Macro <;> simp [h, List.filter_cons]

theorem sectionWrites_bodyCalls (b z : String) (p : Prepared) :
    sectionWrites ((bodyCalls b z p).map fun c => c.1)
      = (p.sections.filter fun s => !s.conn.isEmpty).map fun s =>
          CgCall.cg_section_write s.name s.type s.start s.end_ s.conn := by
  simp only [sectionWrites, bodyCalls, sectionCalls, List.map_append, List.map_cons,
    List.map_nil, List.filter_append, List.filter_cons, List.filter_nil, List.map_map]
  simp only [Bool.false_eq_true, if_false, List.nil_append, List.append_nil]
  rw [List.filter_eq_self.2]
  · rfl
  · intro c hc
    obtain ⟨s, _, rfl⟩ := List.mem_map.1 hc
    rfl

theorem baseWrites_bodyCalls (b z : String) (p : Prepared) :
    baseWrites ((bodyCalls b z p).map fun c => c.1)
      = [CgCall.cg_base_write b p.cellDim 3] := by
  simp only [baseWrites, bodyCalls, sectionCalls, List.map_append, List.map_cons,
    List.map_nil, List.filter_append, List.filter_cons, List.filter_nil, List.map_map]
  simp only [Bool.false_eq_true, if_false, if_true, List.append_nil, List.cons_append,
    List.nil_append, List.cons.injEq, true_and]
  rw [List.filter_eq_nil_iff]
  intro c hc
  obtain ⟨s, _, rfl⟩ := List.mem_map.1 hc
  simp

theorem recs_fst_of_same (mesh : UnstructuredMeshInfo) (t : ElementType)
    (hsame : ∀ i, i < mesh.num_cells.toNat → cellShape mesh i = some t) :
    ∀ c ∈ cellRecs mesh mesh.num_cells.toNat 0, c.1 = t := by
  intro c hc
  simp only [cellRecs, List.mem_map, List.mem_range'_1] at hc
  obtain ⟨i, ⟨_, hi⟩, rfl⟩ := hc
  simp [hsame i (by omega)]

/-- C14: for a valid mesh whose cells all have the shape `t`, `WriteUnstructured` writes
exactly one section: its name is the fixed default name of `t`, its range is
`[1, num_cells]` and its connectivity is the node ids of the cells, in cell order, each
plus one. -/
theorem C14_single_shape_gives_one_named_section (env : CgEnv) (mesh : UnstructuredMeshInfo)
    (output_path : Option String) (options : Option CgnsWriteOptions) (t : ElementType)
    (hb : buffersOk mesh) (hin : inputCheck mesh output_path = none)
    (hok : ∀ n, env.answer n = none) (hv : allCellsValid mesh)
    (hsame : ∀ i, i < mesh.num_cells.toNat → cellShape mesh i = some t) :
    (DefaultSectionName .NODE = "Nodes" ∧ DefaultSectionName .BAR_2 = "Bars" ∧
      DefaultSectionName .TRI_3 = "Tris" ∧ DefaultSectionName .QUAD_4 = "Quads" ∧
      DefaultSectionName .TETRA_4 = "Tets" ∧ DefaultSectionName .PYRA_5 = "Pyrs" ∧
      DefaultSectionName .PENTA_6 = "Wedges" ∧ DefaultSectionName .HEXA_8 = "Hexes") ∧
    ∃ p s r, prepare mesh = .ok p ∧ p.sections = [s] ∧ s.type = t ∧
      s.name = DefaultSectionName t ∧ s.start = 1 ∧ s.end_ = mesh.num_cells ∧
      s.conn = ((List.range mesh.num_cells.toNat).map
        fun i => (cellSlice mesh i).map (· + 1)).flatten ∧
      WriteUnstructured env mesh output_path options = some r ∧ r.ret = 0 ∧
      sectionWrites r.trace
        = [CgCall.cg_section_write (DefaultSectionName t) t 1 mesh.num_cells s.conn] := by
  refine ⟨⟨rfl, rfl, rfl, rfl, rfl, rfl, rfl, rfl⟩, ?_⟩
  have hfe := (firstError_none_iff_valid mesh).2 hv
  obtain ⟨p, hp, hw⟩ := WriteUnstructured_valid env mesh output_path options hb hin hok hfe
  have hn : 0 < mesh.num_cells := by
    unfold inputCheck at hin
    split_ifs at hin with h1 h2 h3 h4 h5
    omega
  have hrecs := recs_fst_of_same mesh t hsame
  have hlen : (cellRecs mesh mesh.num_cells.toNat 0).length = mesh.num_cells.toNat := by
    simp [cellRecs]
  have hne : (cellRecs mesh mesh.num_cells.toNat 0).map (fun c => c.1) ≠ [] := by
    intro e
    have := congrArg List.length e
    simp only [List.length_map, hlen, List.length_nil] at this
    omega
  have hfs := firstSeen_of_all_eq _ t hne (fun x hx => by
    obtain ⟨c, hc, rfl⟩ := List.mem_map.1 hx
    exact hrecs c hc)
  have hgroup : groupCells (cellRecs mesh mesh.num_cells.toNat 0)
      = [sectionFor (cellRecs mesh mesh.num_cells.toNat 0) t] := by
    simp [groupCells, hfs]
  have hty := prepared_types mesh hb p hp
  rw [hgroup] at hty
  have hfilter : (cellRecs mesh mesh.num_cells.toNat 0).filter (fun c => decide (c.1 = t))
      = cellRecs mesh mesh.num_cells.toNat 0 := by
    rw [List.filter_eq_self]
    intro c hc
    simpa using hrecs c hc
  cases hsec : p.sections with
  | nil => rw [hsec] at hty; simp at hty
  | cons s rest =>
    rw [hsec] at hty
    simp only [List.map_cons, List.map_nil, List.cons.injEq, List.map_eq_nil_iff,
      Prod.mk.injEq] at hty
    obtain ⟨⟨h1, h2, h3, h4⟩, hrest⟩ := hty
    subst hrest
    have hdense := prepared_ranges mesh hb p hp
    rw [hsec] at hdense
    obtain ⟨d1, _, d3, _, _⟩ := hdense
    have hstart : s.start = 1 := by
      have := d1 (by simp)
      simpa [Section.range] using this
    have hcount := groupCells_elem_count _ (recs_valid_all mesh hb hv)
      (sectionFor (cellRecs mesh mesh.num_cells.toNat 0) t) (by rw [hgroup]; simp)
    obtain ⟨_, _, _, hc4, _⟩ := hcount
    have hne_s : s.conn.length / s.nodesPerElem = mesh.num_cells.toNat := by
      rw [h4, h3]
      rw [hc4]
      show ((cellRecs mesh mesh.num_cells.toNat 0).filter fun c => decide (c.1 = t)).length = _
      rw [hfilter, hlen]
    have hend : s.end_ = mesh.num_cells := by
      have := d3 (Section.range s) (by simp)
      simp only [Section.range, hne_s] at this
      omega
    have hconn : s.conn = ((List.range mesh.num_cells.toNat).map
        fun i => (cellSlice mesh i).map (· + 1)).flatten := by
      rw [h4]
      simp only [sectionFor, hfilter]
      simp [cellRecs, List.map_map, Function.comp_def, List.range_eq_range']
    have hnonempty : s.conn.isEmpty = false := by
      have hpos : 0 < s.conn.length := by
        by_contra hcon
        have : s.conn.length = 0 := by omega
        rw [this, Nat.zero_div] at hne_s
        omega
      cases hcs : s.conn with
      | nil => rw [hcs] at hpos; simp at hpos
      | cons a l => rfl
    have ht : s.type = t := h1
    have hname : s.name = DefaultSectionName t := h2
    refine ⟨p, s, _, hp, hsec, ht, hname, hstart, hend, hconn, hw, rfl, ?_⟩
    dsimp only
    rw [sectionWrites_openTrace, sectionWrites_bodyCalls, hsec]
    simp [List.filter_cons, hnonempty, ht, hname, hstart, hend]

theorem C14_witness :
    (buffersOk meshTet ∧ inputCheck meshTet (some "out.cgns") = none ∧ allCellsValid meshTet ∧
      (prepare meshTet).toOption.map
          (fun p => p.sections.map fun s => (s.name, s.start, s.end_, s.conn))
        = some [("Tets", 1, 1, [1, 2, 3, 4])]) ∧
    (DefaultSectionName .NODE = "Nodes" ∧ DefaultSectionName .BAR_2 = "Bars" ∧
      DefaultSectionName .TRI_3 = "Tris" ∧ DefaultSectionName .QUAD_4 = "Quads" ∧
      DefaultSectionName .TETRA_4 = "Tets" ∧ DefaultSectionName .PYRA_5 = "Pyrs" ∧
      DefaultSectionName .PENTA_6 = "Wedges" ∧ DefaultSectionName .HEXA_8 = "Hexes") ∧
    ∃ p s r, prepare meshTet = .ok p ∧ p.sections = [s] ∧ s.type = .TETRA_4 ∧
      s.name = DefaultSectionName .TETRA_4 ∧ s.start = 1 ∧ s.end_ = meshTet.num_cells ∧
      s.conn = ((List.range meshTet.num_cells.toNat).map
        fun i => (cellSlice meshTet i).map (· + 1)).flatten ∧
      WriteUnstructured CgEnv.allOk meshTet (some "out.cgns") none = some r ∧ r.ret = 0 ∧
      sectionWrites r.trace
        = [CgCall.cg_section_write (DefaultSectionName .TETRA_4) .TETRA_4 1 meshTet.num_cells
            s.conn] :=
  ⟨⟨by decide, by decide, by decide, by decide⟩,
    C14_single_shape_gives_one_named_section CgEnv.allOk meshTet (some "out.cgns") none
      .TETRA_4 (by decide) (by decide) (fun _ => rfl) (by decide) (by decide)⟩

theorem cellDim_eq_max (mesh : UnstructuredMeshInfo) :
    ((cellRecs mesh mesh.num_cells.toNat 0).map fun c => dimOf c.1).foldl max 0
      = maxCellDim mesh := by
  simp [maxCellDim, cellRecs, List.map_map, Function.comp_def, List.range_eq_range']

/-- C15 (as amended): for a valid mesh, the cell dimension that `WriteUnstructured` passes
to the base record is the maximum topological dimension over the cells of the mesh when
that maximum is at least 1, and 3 when it is 0 (every cell is a point). -/
theorem C15_cell_dim_is_max_or_three (env : CgEnv) (mesh : UnstructuredMeshInfo)
    (output_path : Option String) (options : Option CgnsWriteOptions)
    (hb : buffersOk mesh) (hin : inputCheck mesh output_path = none)
    (hok : ∀ n, env.answer n = none) (hv : allCellsValid mesh) :
    ∃ r, WriteUnstructured env mesh output_path options = some r ∧ r.ret = 0 ∧
      baseWrites r.trace =
        [CgCall.cg_base_write (chooseBaseName options)
          (((if maxCellDim mesh = 0 then 3 else maxCellDim mesh : Nat) : Nat) : Int) 3] := by
  have hfe := (firstError_none_iff_valid mesh).2 hv
  obtain ⟨p, hp, hw⟩ := WriteUnstructured_valid env mesh output_path options hb hin hok hfe
  obtain ⟨_, st, _, hinv, _, _, _, hdim⟩ := prepare_ok_inv mesh hb p hp
  refine ⟨_, hw, rfl, ?_⟩
  dsimp only
  rw [baseWrites_openTrace, baseWrites_bodyCalls, hdim, hinv.2.2, cellDim_eq_max]
  by_cases h0 : maxCellDim mesh = 0
  · simp [h0]
  · have : ¬ (maxCellDim mesh ≤ 0) := by omega
    simp [h0, this]

theorem C15_witness :
    (buffersOk meshTriQuad ∧ inputCheck meshTriQuad (some "out.cgns") = none ∧
      allCellsValid meshTriQuad ∧ maxCellDim meshTriQuad = 2) ∧
    ∃ r, WriteUnstructured CgEnv.allOk meshTriQuad (some "out.cgns") none = some r ∧ r.ret = 0 ∧
      baseWrites r.trace =
        [CgCall.cg_base_write (chooseBaseName none)
          (((if maxCellDim meshTriQuad = 0 then 3 else maxCellDim meshTriQuad : Nat) : Nat) : Int)
          3] :=
  ⟨⟨by decide, by decide, by decide, by decide⟩,
    C15_cell_dim_is_max_or_three CgEnv.allOk meshTriQuad (some "out.cgns") none
      (by decide) (by decide) (fun _ => rfl) (by decide)⟩

/-- C15 (counterexample): `meshVertices` is valid and has two cells, both points, so the
maximum topological dimension over its cells is 0; the base record is written with
cell dimension 3. -/
theorem C15_counterexample :
    buffersOk meshVertices ∧ inputCheck meshVertices (some "out.cgns") = none ∧
    allCellsValid meshVertices ∧ meshVertices.num_cells = 2 ∧ maxCellDim meshVertices = 0 ∧
    (WriteUnstructured CgEnv.allOk meshVertices (some "out.cgns") none).map
        (fun r => (r.ret, baseWrites r.trace))
      = some (0, [CgCall.cg_base_write "Base" 3 3]) := by
  refine ⟨by decide, by decide, by decide, rfl, by decide, by decide⟩

namespace Vtk

theorem zoneCellStep_congr (opt1 opt2 : CgnsWriterOptions)
    (h : opt1.oneBasedConnectivity = opt2.oneBasedConnectivity)
    (g1 g2 : Option (List Nat)) (n cid : Int) (cell : VtkCell) (st : ZoneState)
    (hg : ghostSkip g1 n cid = ghostSkip g2 n cid) :
    zoneCellStep opt1 g1 n cid cell st = zoneCellStep opt2 g2 n cid cell st := by
  unfold zoneCellStep
  rw [hg, h]

theorem zoneLoop_congr (opt1 opt2 : CgnsWriterOptions)
    (h : opt1.oneBasedConnectivity = opt2.oneBasedConnectivity)
    (g1 g2 : Option (List Nat)) (n : Int)
    (hg : ∀ cid, ghostSkip g1 n cid = ghostSkip g2 n cid) :
    ∀ (cells : List VtkCell) (cid : Int) (st : ZoneState),
      zoneLoop opt1 g1 n cid cells st = zoneLoop opt2 g2 n cid cells st := by
  intro cells
  induction cells with
  | nil => intro cid st; rfl
  | cons cell rest ih =>
    intro cid st
    unfold zoneLoop
    rw [zoneCellStep_congr opt1 opt2 h g1 g2 n cid cell st (hg cid)]
    cases zoneCellStep opt2 g2 n cid cell st with
    | error f => rfl
    | ok st1 => exact ih _ _

theorem ghostSkip_wrong_length (g : List Nat) (n cid : Int) (h : (g.length : Int) ≠ n) :
    ghostSkip (some g) n cid = .ok false := by
  unfold ghostSkip
  dsimp only
  rw [if_neg h]

theorem ghostSkip_ignored (opt : CgnsWriterOptions) (ds : VtkDataSet) (g : List Nat)
    (hg : ds.ghostArray = some g) (hlen : g.length ≠ ds.cells.length) (cid : Int) :
    ghostSkip (ghostOf opt ds) (ds.cells.length : Int) cid = .ok false := by
  unfold ghostOf
  rw [hg]
  split
  · exact ghostSkip_wrong_length g _ cid (by omega)
  · rfl

/-- C19: a ghost-indicator array whose length differs from the cell count is ignored:
`WriteZoneUnstructured` builds the same sections, ranges, element count and
cell-to-element table as for the dataset without a ghost array, and as with
`skipGhostCells` disabled; every cell is kept. -/
theorem C19_wrong_length_ghost_array_is_ignored (opt : CgnsWriterOptions) (ds : VtkDataSet)
    (g : List Nat) (hg : ds.ghostArray = some g) (hlen : g.length ≠ ds.cells.length) :
    buildZone opt ds = buildZone opt { ds with ghostArray := none } ∧
    buildZone opt ds = buildZone { opt with skipGhostCells := false } ds ∧
    ∀ i, kept opt ds i = true := by
  have hskip := ghostSkip_ignored opt ds g hg hlen
  refine ⟨?_, ?_, ?_⟩
  · unfold buildZone
    dsimp only
    rw [zoneLoop_congr opt opt rfl (ghostOf opt ds)
      (ghostOf opt { ds with ghostArray := none }) (ds.cells.length : Int)
      (fun cid => by
        rw [hskip cid]
        simp [ghostOf, ghostSkip])]
  · unfold buildZone
    dsimp only
    rw [zoneLoop_congr opt { opt with skipGhostCells := false } rfl (ghostOf opt ds)
      (ghostOf { opt with skipGhostCells := false } ds) (ds.cells.length : Int)
      (fun cid => by
        rw [hskip cid]
        simp [ghostOf, ghostSkip])]
  · intro i
    unfold kept isGhost ghostOf
    rw [hg]
    split
    · rename_i g1 h1
      split at h1
      · cases h1
        simp [hlen]
      · cases h1
    · rfl

theorem C19_witness :
    (dsShortGhost.ghostArray = some [0, 1] ∧ [0, 1].length ≠ dsShortGhost.cells.length ∧
      (buildZone CgnsWriterOptions.default dsShortGhost).toOption.map
          (fun zb => (zb.nCellsWritten, zb.cellToElem))
        = some (3, [1, 3, 2])) ∧
    buildZone CgnsWriterOptions.default dsShortGhost
      = buildZone CgnsWriterOptions.default { dsShortGhost with ghostArray := none } ∧
    buildZone CgnsWriterOptions.default dsShortGhost
      = buildZone { CgnsWriterOptions.default with skipGhostCells := false } dsShortGhost ∧
    ∀ i, kept CgnsWriterOptions.default dsShortGhost i = true :=
  ⟨⟨rfl, by decide, by decide⟩,
    C19_wrong_length_ghost_array_is_ignored CgnsWriterOptions.default dsShortGhost [0, 1] rfl
      (by decide)⟩

end Vtk

namespace Vtk

theorem flattenLoop_spec (pfx : String) :
    ∀ (leaves : List Leaf) (zi : Nat),
      (flattenLoop pfx zi leaves).map (fun z => z.1) = leaves.filterMap Leaf.dataSet? ∧
      (flattenLoop pfx zi leaves).map (fun z => z.2)
        = (List.range' zi (leaves.filterMap Leaf.dataSet?).length).map
            (fun n => pfx ++ toString n) := by
  intro leaves
  induction leaves with
  | nil => intro zi; simp [flattenLoop]
  | cons l rest ih =>
    intro zi
    cases l with
    | other =>
      simp only [flattenLoop, List.filterMap_cons, Leaf.dataSet?]
      exact ih zi
    | dataSet ds =>
      obtain ⟨h1, h2⟩ := ih (zi + 1)
      simp only [flattenLoop, List.filterMap_cons, Leaf.dataSet?, List.length_cons,
        List.map_cons, List.range'_succ, h1, h2, and_self]

/-- C18: for a single dataset `FlattenToZones` returns exactly one pair, the dataset
named prefix + "0"; for a composite it returns the dataset leaves in traversal order,
empty nodes and leaves that are not datasets being skipped, and the n-th returned pair
(n counted from 0) is named prefix + decimal(n), so that the indices used are exactly
0, 1, ..., number of zones - 1. -/
theorem C18_flatten_names_by_running_index (opt : CgnsWriterOptions)
    (leaves : List (Option Leaf)) :
    (∀ ds, FlattenToZones (some (.dataSet ds)) opt = [(ds, opt.zoneNamePrefix ++ "0")]) ∧
    (FlattenToZones (some (.composite leaves)) opt).map (fun z => z.1)
      = (leaves.filterMap fun l => l).filterMap Leaf.dataSet? ∧
    (FlattenToZones (some (.composite leaves)) opt).map (fun z => z.2)
      = (List.range (FlattenToZones (some (.composite leaves)) opt).length).map
          (fun n => opt.zoneNamePrefix ++ toString n) ∧
    (∀ n, n < (FlattenToZones (some (.composite leaves)) opt).length →
      ((FlattenToZones (some (.composite leaves)) opt).map (fun z => z.2))[n]?
        = some (opt.zoneNamePrefix ++ toString n)) := by
  obtain ⟨h1, h2⟩ := flattenLoop_spec opt.zoneNamePrefix (leaves.filterMap fun l => l) 0
  have hlen : (flattenLoop opt.zoneNamePrefix 0 (leaves.filterMap fun l => l)).length
      = ((leaves.filterMap fun l => l).filterMap Leaf.dataSet?).length := by
    rw [← h1, List.length_map]
  have h3 : (FlattenToZones (some (.composite leaves)) opt).map (fun z => z.2)
      = (List.range (FlattenToZones (some (.composite leaves)) opt).length).map
          (fun n => opt.zoneNamePrefix ++ toString n) := by
    simp only [FlattenToZones]
    rw [h2, hlen, List.range_eq_range']
  refine ⟨fun ds => rfl, ?_, h3, ?_⟩
  · simp only [FlattenToZones]
    exact h1
  · intro n hn
    rw [h3, List.getElem?_map, List.getElem?_range hn]
    rfl

theorem C18_witness :
    (FlattenToZones (some (.composite leavesMixed)) CgnsWriterOptions.default).map (fun z => z.2)
      = ["Zone0", "Zone1"] ∧
    ((FlattenToZones (some (.composite leavesMixed)) CgnsWriterOptions.default).map
      (fun z => z.2))[1]? = some (CgnsWriterOptions.default.zoneNamePrefix ++ toString 1) :=
  ⟨rfl, (C18_flatten_names_by_running_index CgnsWriterOptions.default leavesMixed).2.2.2 1
    (by decide)⟩

theorem liftRange (l : List Nat) :
    (do let a ← l; pure (a : Int) : List Int) = l.map (fun (a : Nat) => (a : Int)) := by
  induction l with
  | nil => rfl
  | cons a l ih =>
    have h : (do let a ← (a :: l); pure (a : Int) : List Int)
        = (a : Int) :: (do let a ← l; pure (a : Int) : List Int) := rfl
    rw [h, ih]
    rfl

theorem zone_scatter_ok (opt : CgnsWriterOptions) (ds : VtkDataSet) (hv : zoneValid opt ds) :
    ∃ zb, buildZone opt ds = .ok zb ∧
      ∀ g : Int → Rat, ∃ buf,
        cellFieldValues zb.cellToElem zb.nCellsWritten (ds.cells.length : Int) g = .ok buf := by
  obtain ⟨zb, hzb, _, hlen, hN0, _, _, hkept, hdrop, hinj, _⟩ := zone_table opt ds hv
  have hentry : ∀ (i : Nat) (e : Int), zb.cellToElem[i]? = some e →
      i < ds.cells.length ∧ ((kept opt ds i = false ∧ e = 0) ∨
        (kept opt ds i = true ∧ 1 ≤ e ∧ e ≤ zb.nCellsWritten)) := by
    intro i e hie
    have hi : i < ds.cells.length := by
      rw [← hlen]
      exact (List.getElem?_eq_some_iff.1 hie).1
    refine ⟨hi, ?_⟩
    cases hk : kept opt ds i with
    | false =>
      have := hdrop i hi hk
      rw [hie] at this
      exact Or.inl ⟨rfl, Option.some.inj this⟩
    | true =>
      obtain ⟨q, hq, hqe⟩ := hkept i hi hk
      rw [hie] at hqe
      have := Option.some.inj hqe
      exact Or.inr ⟨rfl, by omega, by omega⟩
  refine ⟨zb, hzb, ?_⟩
  intro g
  obtain ⟨buf, hbuf, _⟩ :=
    scatterLoop_spec zb.cellToElem g zb.nCellsWritten.toNat
      (fun i e hie => by
        rcases (hentry i e hie).2 with ⟨_, h⟩ | ⟨_, h1, h2⟩
        · exact Or.inl h
        · exact Or.inr ⟨h1, by omega⟩)
      (fun i j e hi hj hne => by
        obtain ⟨hil, hi2⟩ := hentry i e hi
        obtain ⟨hjl, hj2⟩ := hentry j e hj
        rcases hi2 with ⟨_, h⟩ | ⟨hki, _, _⟩
        · exact absurd h hne
        · rcases hj2 with ⟨_, h⟩ | ⟨hkj, _, _⟩
          · exact absurd h hne
          · exact hinj i j hil hjl hki hkj (by rw [hi, hj]))
      ds.cells.length 0 (List.replicate zb.nCellsWritten.toNat 0) (by omega) (by simp)
  exact ⟨buf, by simpa [cellFieldValues] using hbuf⟩

end Vtk

namespace Vtk

theorem idx3_inj (nx ny : Nat) (i j k i' j' k' : Nat) (hi : i < nx) (hj : j < ny)
    (hi' : i' < nx) (hj' : j' < ny) (h : idx3 nx ny i j k = idx3 nx ny i' j' k') :
    i = i' ∧ j = j' ∧ k = k' := by
  unfold idx3 at h
  have h1 : (i + nx * (j + ny * k)) % nx = i := by
    rw [Nat.add_mul_mod_self_left, Nat.mod_eq_of_lt hi]
  have h1' : (i' + nx * (j' + ny * k')) % nx = i' := by
    rw [Nat.add_mul_mod_self_left, Nat.mod_eq_of_lt hi']
  have hnx : 0 < nx := by omega
  have hny : 0 < ny := by omega
  have h2 : (i + nx * (j + ny * k)) / nx = j + ny * k := by
    rw [Nat.add_mul_div_left _ _ hnx, Nat.div_eq_of_lt hi, Nat.zero_add]
  have h2' : (i' + nx * (j' + ny * k')) / nx = j' + ny * k' := by
    rw [Nat.add_mul_div_left _ _ hnx, Nat.div_eq_of_lt hi', Nat.zero_add]
  have e1 : i = i' := by rw [← h1, ← h1', h]
  have e2 : j + ny * k = j' + ny * k' := by rw [← h2, ← h2', h]
  have h3 : (j + ny * k) % ny = j := by
    rw [Nat.add_mul_mod_self_left, Nat.mod_eq_of_lt hj]
  have h3' : (j' + ny * k') % ny = j' := by
    rw [Nat.add_mul_mod_self_left, Nat.mod_eq_of_lt hj']
  have h4 : (j + ny * k) / ny = k := by
    rw [Nat.add_mul_div_left _ _ hny, Nat.div_eq_of_lt hj, Nat.zero_add]
  have h4' : (j' + ny * k') / ny = k' := by
    rw [Nat.add_mul_div_left _ _ hny, Nat.div_eq_of_lt hj', Nat.zero_add]
  exact ⟨e1, by rw [← h3, ← h3', e2], by rw [← h4, ← h4', e2]⟩

theorem idx3_lt (nx ny nz : Nat) (i j k : Nat) (hi : i < nx) (hj : j < ny) (hk : k < nz) :
    idx3 nx ny i j k < nx * ny * nz := by
  unfold idx3
  have h1 : j + ny * k + 1 ≤ ny * nz := by
    have : ny * (k + 1) ≤ ny * nz := Nat.mul_le_mul_left ny hk
    rw [Nat.mul_add, Nat.mul_one] at this
    omega
  have h2 : nx * (j + ny * k + 1) ≤ nx * (ny * nz) := Nat.mul_le_mul_left nx h1
  rw [Nat.mul_add, Nat.mul_one] at h2
  rw [Nat.mul_assoc]
  omega

theorem idx3_surj (nx ny nz : Nat) (p : Nat) (hp : p < nx * ny * nz) :
    ∃ i j k, i < nx ∧ j < ny ∧ k < nz ∧ idx3 nx ny i j k = p := by
  have hnx : 0 < nx := by
    rcases Nat.eq_zero_or_pos nx with h | h
    · rw [h] at hp; simp at hp
    · exact h
  have hny : 0 < ny := by
    rcases Nat.eq_zero_or_pos ny with h | h
    · rw [h] at hp; simp at hp
    · exact h
  refine ⟨p % nx, (p / nx) % ny, p / nx / ny, Nat.mod_lt _ hnx, Nat.mod_lt _ hny, ?_, ?_⟩
  · rw [Nat.div_div_eq_div_mul]
    exact Nat.div_lt_of_lt_mul hp
  · unfold idx3
    rw [Nat.mod_add_div (p / nx) ny, Nat.mod_add_div p nx]

theorem intExpr_ok (v : Int) (h0 : 0 ≤ v) (h1 : v < 2147483648) : intExpr v = .ok v := by
  unfold intExpr
  rw [if_pos ⟨by omega, h1⟩]

theorem rectIndex_eq (d0 d1 i j k : Int) (a b m : Int) (ha : intExpr (d1 * k) = .ok a)
    (hb : intExpr (j + a) = .ok b) (hm : intExpr (d0 * b) = .ok m) :
    rectIndex d0 d1 i j k = intExpr (i + m) := by
  unfold rectIndex
  rw [ha]
  dsimp only
  rw [hb]
  dsimp only
  rw [hm]

theorem rectIndex_ok (nx ny i j k : Nat) (hi : i < nx)
    (h : idx3 nx ny i j k < 2147483648) :
    rectIndex nx ny i j k = .ok ((idx3 nx ny i j k : Nat) : Int) := by
  have h' : i + nx * (j + ny * k) < 2147483648 := h
  have hnx : 0 < nx := by omega
  have h1 : j + ny * k ≤ nx * (j + ny * k) := Nat.le_mul_of_pos_left _ hnx
  have ha : intExpr ((ny : Int) * (k : Int)) = .ok ((ny * k : Nat) : Int) := by
    rw [← Nat.cast_mul]
    exact intExpr_ok _ (Int.ofNat_nonneg _) (by omega)
  have hb : intExpr ((j : Int) + ((ny * k : Nat) : Int)) = .ok ((j + ny * k : Nat) : Int) := by
    rw [← Nat.cast_add]
    exact intExpr_ok _ (Int.ofNat_nonneg _) (by omega)
  have hm : intExpr ((nx : Int) * ((j + ny * k : Nat) : Int))
      = .ok ((nx * (j + ny * k) : Nat) : Int) := by
    rw [← Nat.cast_mul]
    exact intExpr_ok _ (Int.ofNat_nonneg _) (by omega)
  rw [rectIndex_eq _ _ _ _ _ _ _ _ ha hb hm, ← Nat.cast_add]
  exact intExpr_ok _ (Int.ofNat_nonneg _) (by omega)

theorem rectLoopI_step (d0 d1 : Int) (xa : Option (Int → Rat)) (y z : Rat) (j k : Int)
    (n : Nat) (i : Int) (cs : Coords) (idx : Int) (p : Nat)
    (h : rectIndex d0 d1 i j k = .ok idx)
    (hx : ∀ v, writeAt cs.x idx v = .ok (cs.x.set p v))
    (hy : ∀ v, writeAt cs.y idx v = .ok (cs.y.set p v))
    (hz : ∀ v, writeAt cs.z idx v = .ok (cs.z.set p v)) :
    rectLoopI d0 d1 xa y z j k (n + 1) i cs
      = rectLoopI d0 d1 xa y z j k n (i + 1)
          { x := cs.x.set p (match xa with | some f => f i | none => 0),
            y := cs.y.set p y, z := cs.z.set p z } := by
  rw [rectLoopI.eq_def]
  cases xa <;> simp only [h, hx, hy, hz]

theorem rectLoopI_step_nat (nx ny : Nat) (xa : Option (Int → Rat)) (y z : Rat) (j k : Nat)
    (n : Nat) (i : Nat) (cs : Coords) (L : Nat) (hi : i < nx)
    (h1 : idx3 nx ny i j k < 2147483648) (h2 : idx3 nx ny i j k < L)
    (hx : cs.x.length = L) (hy : cs.y.length = L) (hz : cs.z.length = L) :
    rectLoopI nx ny xa y z j k (n + 1) i cs
      = rectLoopI nx ny xa y z j k n ((i + 1 : Nat) : Int)
          { x := cs.x.set (idx3 nx ny i j k) (rectX xa i),
            y := cs.y.set (idx3 nx ny i j k) y, z := cs.z.set (idx3 nx ny i j k) z } := by
  have hw : ∀ (buf : List Rat), buf.length = L → ∀ v : Rat,
      writeAt buf ((idx3 nx ny i j k : Nat) : Int) v = .ok (buf.set (idx3 nx ny i j k) v) := by
    intro buf hl v
    have := writeAt_ok buf ((idx3 nx ny i j k : Nat) : Int) v (Int.ofNat_nonneg _)
      (by rw [Int.toNat_ofNat, hl]; exact h2)
    rw [this, Int.toNat_ofNat]
  rw [rectLoopI_step nx ny xa y z j k n i cs _ (idx3 nx ny i j k)
    (rectIndex_ok nx ny i j k hi h1) (hw _ hx) (hw _ hy) (hw _ hz), Nat.cast_succ]
  cases xa <;> rfl

theorem rectPost_trans (nx ny : Nat) (xv yv zv : Nat → Rat) (T1 T2 : Nat → Nat → Nat → Prop)
    (cs cs1 cs2 : Coords) (h1 : rectPost nx ny xv yv zv T1 cs cs1)
    (h2 : rectPost nx ny xv yv zv T2 cs1 cs2)
    (hd : ∀ i j k i' j' k', T1 i j k → T2 i' j' k' →
      idx3 nx ny i j k ≠ idx3 nx ny i' j' k') :
    rectPost nx ny xv yv zv (fun i j k => T1 i j k ∨ T2 i j k) cs cs2 := by
  obtain ⟨a1, a2, a3, a4, a5⟩ := h1
  obtain ⟨b1, b2, b3, b4, b5⟩ := h2
  refine ⟨by rw [b1, a1], by rw [b2, a2], by rw [b3, a3], ?_, ?_⟩
  · intro i j k hT
    rcases hT with hT | hT
    · obtain ⟨e1, e2, e3⟩ := b5 (idx3 nx ny i j k) (fun i' j' k' hT' => hd i j k i' j' k' hT hT')
      rw [e1, e2, e3]
      exact a4 i j k hT
    · exact b4 i j k hT
  · intro p hp
    obtain ⟨e1, e2, e3⟩ := b5 p (fun i j k hT => hp i j k (Or.inr hT))
    obtain ⟨f1, f2, f3⟩ := a5 p (fun i j k hT => hp i j k (Or.inl hT))
    rw [e1, e2, e3]
    exact ⟨f1, f2, f3⟩

theorem rectPost_congr (nx ny : Nat) (xv yv zv : Nat → Rat) (T T' : Nat → Nat → Nat → Prop)
    (cs cs1 : Coords) (h : rectPost nx ny xv yv zv T cs cs1)
    (hT : ∀ i j k, T' i j k ↔ T i j k) : rectPost nx ny xv yv zv T' cs cs1 := by
  obtain ⟨a1, a2, a3, a4, a5⟩ := h
  exact ⟨a1, a2, a3, fun i j k h => a4 i j k ((hT i j k).1 h),
    fun p hp => a5 p (fun i j k h => hp i j k ((hT i j k).2 h))⟩

theorem rectPost_refl (nx ny : Nat) (xv yv zv : Nat → Rat) (T : Nat → Nat → Nat → Prop)
    (cs : Coords) (hT : ∀ i j k, ¬ T i j k) : rectPost nx ny xv yv zv T cs cs :=
  ⟨rfl, rfl, rfl, fun i j k h => absurd h (hT i j k), fun _ _ => ⟨rfl, rfl, rfl⟩⟩

theorem set_getElem?_self {α : Type} (l : List α) (n : Nat) (v : α) (h : n < l.length) :
    (l.set n v)[n]? = some v := by
  rw [List.getElem?_set_self h]

theorem rectLoopI_spec (nx ny : Nat) (physDim : Int) (xa ya za : Option (Int → Rat))
    (j k L : Nat) :
    ∀ (n i : Nat) (cs : Coords), i + n ≤ nx →
      (∀ i', i ≤ i' → i' < i + n →
        idx3 nx ny i' j k < 2147483648 ∧ idx3 nx ny i' j k < L) →
      cs.x.length = L → cs.y.length = L → cs.z.length = L → j < ny →
      ∃ cs1, rectLoopI nx ny xa (rectY physDim ya j) (rectZ physDim za k) j k n i cs = .ok cs1 ∧
        rectPost nx ny (rectX xa) (rectY physDim ya) (rectZ physDim za)
          (fun i' j' k' => (i ≤ i' ∧ i' < i + n) ∧ j' = j ∧ k' = k) cs cs1 := by
  intro n
  induction n with
  | zero =>
    intro i cs _ _ _ _ _ _
    exact ⟨cs, rfl, rectPost_refl _ _ _ _ _ _ _ (by intro i' j' k' h; omega)⟩
  | succ n ih =>
    intro i cs hn hb hx hy hz hj
    obtain ⟨hb1, hb2⟩ := hb i (Nat.le_refl _) (by omega)
    obtain ⟨cs1, hrun, hpost⟩ := ih (i + 1)
      { x := cs.x.set (idx3 nx ny i j k) (rectX xa i),
        y := cs.y.set (idx3 nx ny i j k) (rectY physDim ya j),
        z := cs.z.set (idx3 nx ny i j k) (rectZ physDim za k) }
      (by omega) (fun i' h1 h2 => hb i' (by omega) (by omega))
      (by simp [hx]) (by simp [hy]) (by simp [hz]) hj
    refine ⟨cs1, ?_, ?_⟩
    · rw [rectLoopI_step_nat nx ny xa _ _ j k n i cs L (by omega) hb1 hb2 hx hy hz]
      exact hrun
    · have hsingle : rectPost nx ny (rectX xa) (rectY physDim ya) (rectZ physDim za)
          (fun i' j' k' => i' = i ∧ j' = j ∧ k' = k) cs
          { x := cs.x.set (idx3 nx ny i j k) (rectX xa i),
            y := cs.y.set (idx3 nx ny i j k) (rectY physDim ya j),
            z := cs.z.set (idx3 nx ny i j k) (rectZ physDim za k) } := by
        refine ⟨by simp, by simp, by simp, ?_, ?_⟩
        · rintro i' j' k' ⟨rfl, rfl, rfl⟩
          exact ⟨set_getElem?_self _ _ _ (by rw [hx]; exact hb2),
            set_getElem?_self _ _ _ (by rw [hy]; exact hb2),
            set_getElem?_self _ _ _ (by rw [hz]; exact hb2)⟩
        · intro p hp
          have hne : idx3 nx ny i j k ≠ p := fun e => hp i j k ⟨rfl, rfl, rfl⟩ e.symm
          exact ⟨List.getElem?_set_ne hne, List.getElem?_set_ne hne, List.getElem?_set_ne hne⟩
      have := rectPost_trans nx ny _ _ _ _ _ cs _ cs1 hsingle hpost (by
        rintro i1 j1 k1 i2 j2 k2 ⟨rfl, rfl, rfl⟩ ⟨⟨h1, h2⟩, rfl, rfl⟩ e
        have := (idx3_inj nx ny _ _ _ _ _ _ (by omega) hj (by omega) hj e).1
        omega)
      exact rectPost_congr _ _ _ _ _ _ _ _ _ this (by
        intro i' j' k'
        constructor
        · rintro ⟨⟨h1, h2⟩, h3, h4⟩
          by_cases e : i' = i
          · exact Or.inl ⟨e, h3, h4⟩
          · exact Or.inr ⟨⟨by omega, by omega⟩, h3, h4⟩
        · rintro (⟨h1, h3, h4⟩ | ⟨⟨h1, h2⟩, h3, h4⟩)
          · exact ⟨⟨by omega, by omega⟩, h3, h4⟩
          · exact ⟨⟨by omega, by omega⟩, h3, h4⟩)

theorem rectLoopJ_step_ok (d0 d1 : Int) (physDim : Int) (xa ya : Option (Int → Rat))
    (z : Rat) (k : Int) (n : Nat) (j : Int) (cs cs1 : Coords)
    (h : rectLoopI d0 d1 xa
      (match ya with | some f => if physDim ≥ 2 then f j else 0 | none => 0)
      z j k d0.toNat 0 cs = .ok cs1) :
    rectLoopJ d0 d1 physDim xa ya z k (n + 1) j cs
      = rectLoopJ d0 d1 physDim xa ya z k n (j + 1) cs1 := by
  rw [rectLoopJ.eq_def]
  cases ya <;> simp only [h]

theorem rectLoopJ_step_error (d0 d1 : Int) (physDim : Int) (xa ya : Option (Int → Rat))
    (z : Rat) (k : Int) (n : Nat) (j : Int) (cs : Coords) (f : Fault)
    (h : rectLoopI d0 d1 xa
      (match ya with | some f => if physDim ≥ 2 then f j else 0 | none => 0)
      z j k d0.toNat 0 cs = .error f) :
    rectLoopJ d0 d1 physDim xa ya z k (n + 1) j cs = .error f := by
  rw [rectLoopJ.eq_def]
  cases ya <;> simp only [h]

theorem rectLoopK_step_ok (d0 d1 : Int) (physDim : Int) (xa ya za : Option (Int → Rat))
    (n : Nat) (k : Int) (cs cs1 : Coords)
    (h : rectLoopJ d0 d1 physDim xa ya
      (match za with | some f => if physDim ≥ 3 then f k else 0 | none => 0)
      k d1.toNat 0 cs = .ok cs1) :
    rectLoopK d0 d1 physDim xa ya za (n + 1) k cs
      = rectLoopK d0 d1 physDim xa ya za n (k + 1) cs1 := by
  rw [rectLoopK.eq_def]
  cases za <;> simp only [h]

theorem rectLoopK_step_error (d0 d1 : Int) (physDim : Int) (xa ya za : Option (Int → Rat))
    (n : Nat) (k : Int) (cs : Coords) (f : Fault)
    (h : rectLoopJ d0 d1 physDim xa ya
      (match za with | some f => if physDim ≥ 3 then f k else 0 | none => 0)
      k d1.toNat 0 cs = .error f) :
    rectLoopK d0 d1 physDim xa ya za (n + 1) k cs = .error f := by
  rw [rectLoopK.eq_def]
  cases za <;> simp only [h]

theorem rectLoopI_step_error (d0 d1 : Int) (xa : Option (Int → Rat)) (y z : Rat) (j k : Int)
    (n : Nat) (i : Int) (cs : Coords) (f : Fault)
    (h : rectIndex d0 d1 i j k = .error f) :
    rectLoopI d0 d1 xa y z j k (n + 1) i cs = .error f := by
  rw [rectLoopI.eq_def]
  simp only [h]

theorem rectLoopJ_spec (nx ny : Nat) (physDim : Int) (xa ya za : Option (Int → Rat))
    (k L : Nat) :
    ∀ (n j : Nat) (cs : Coords), j + n ≤ ny →
      (∀ i' j', i' < nx → j ≤ j' → j' < j + n →
        idx3 nx ny i' j' k < 2147483648 ∧ idx3 nx ny i' j' k < L) →
      cs.x.length = L → cs.y.length = L → cs.z.length = L →
      ∃ cs1, rectLoopJ nx ny physDim xa ya (rectZ physDim za k) k n j cs = .ok cs1 ∧
        rectPost nx ny (rectX xa) (rectY physDim ya) (rectZ physDim za)
          (fun i' j' k' => i' < nx ∧ (j ≤ j' ∧ j' < j + n) ∧ k' = k) cs cs1 := by
  intro n
  induction n with
  | zero =>
    intro j cs _ _ _ _ _
    exact ⟨cs, rfl, rectPost_refl _ _ _ _ _ _ _ (by intro i' j' k' h; omega)⟩
  | succ n ih =>
    intro j cs hn hb hx hy hz
    obtain ⟨cs1, hrun1, hpost1⟩ := rectLoopI_spec nx ny physDim xa ya za j k L nx 0 cs
      (by omega) (fun i' _ h2 => hb i' j (by omega) (Nat.le_refl _) (by omega)) hx hy hz
      (by omega)
    have hl := hpost1
    unfold rectPost at hl
    obtain ⟨l1, l2, l3, _, _⟩ := hl
    obtain ⟨cs2, hrun2, hpost2⟩ := ih (j + 1) cs1 (by omega)
      (fun i' j' h1 h2 h3 => hb i' j' h1 (by omega) (by omega))
      (by rw [l1, hx]) (by rw [l2, hy]) (by rw [l3, hz])
    refine ⟨cs2, ?_, ?_⟩
    · have hstep := rectLoopJ_step_ok nx ny physDim xa ya (rectZ physDim za k) k n j cs cs1 (by
        rw [Int.toNat_ofNat]
        rw [Nat.cast_zero] at hrun1
        cases ya <;> exact hrun1)
      rw [hstep, ← Nat.cast_succ]
      exact hrun2
    · have := rectPost_trans nx ny _ _ _ _ _ cs cs1 cs2 hpost1 hpost2 (by
        rintro i1 j1 k1 i2 j2 k2 ⟨⟨_, h1⟩, rfl, rfl⟩ ⟨h2, ⟨h3, h4⟩, rfl⟩ e
        have := (idx3_inj nx ny _ _ _ _ _ _ (by omega) (by omega) h2 (by omega) e).2.1
        omega)
      exact rectPost_congr _ _ _ _ _ _ _ _ _ this (by
        intro i' j' k'
        constructor
        · rintro ⟨h0, ⟨h1, h2⟩, h3⟩
          by_cases e : j' = j
          · exact Or.inl ⟨⟨by omega, by omega⟩, e, h3⟩
          · exact Or.inr ⟨h0, ⟨by omega, by omega⟩, h3⟩
        · rintro (⟨⟨_, h1⟩, h3, h4⟩ | ⟨h0, ⟨h1, h2⟩, h3⟩)
          · exact ⟨by omega, ⟨by omega, by omega⟩, h4⟩
          · exact ⟨h0, ⟨by omega, by omega⟩, h3⟩)

theorem rectLoopK_spec (nx ny : Nat) (physDim : Int) (xa ya za : Option (Int → Rat))
    (L : Nat) :
    ∀ (n k : Nat) (cs : Coords),
      (∀ i' j' k', i' < nx → j' < ny → k ≤ k' → k' < k + n →
        idx3 nx ny i' j' k' < 2147483648 ∧ idx3 nx ny i' j' k' < L) →
      cs.x.length = L → cs.y.length = L → cs.z.length = L →
      ∃ cs1, rectLoopK nx ny physDim xa ya za n k cs = .ok cs1 ∧
        rectPost nx ny (rectX xa) (rectY physDim ya) (rectZ physDim za)
          (fun i' j' k' => i' < nx ∧ j' < ny ∧ (k ≤ k' ∧ k' < k + n)) cs cs1 := by
  intro n
  induction n with
  | zero =>
    intro k cs _ _ _ _
    exact ⟨cs, rfl, rectPost_refl _ _ _ _ _ _ _ (by intro i' j' k' h; omega)⟩
  | succ n ih =>
    intro k cs hb hx hy hz
    obtain ⟨cs1, hrun1, hpost1⟩ := rectLoopJ_spec nx ny physDim xa ya za k L ny 0 cs
      (by omega) (fun i' j' h1 _ h2 => hb i' j' k h1 (by omega) (Nat.le_refl _) (by omega))
      hx hy hz
    have hl := hpost1
    unfold rectPost at hl
    obtain ⟨l1, l2, l3, _, _⟩ := hl
    obtain ⟨cs2, hrun2, hpost2⟩ := ih (k + 1) cs1
      (fun i' j' k' h1 h2 h3 h4 => hb i' j' k' h1 h2 (by omega) (by omega))
      (by rw [l1, hx]) (by rw [l2, hy]) (by rw [l3, hz])
    refine ⟨cs2, ?_, ?_⟩
    · have hstep := rectLoopK_step_ok nx ny physDim xa ya za n k cs cs1 (by
        rw [Int.toNat_ofNat]
        rw [Nat.cast_zero] at hrun1
        cases za <;> exact hrun1)
      rw [hstep, ← Nat.cast_succ]
      exact hrun2
    · have := rectPost_trans nx ny _ _ _ _ _ cs cs1 cs2 hpost1 hpost2 (by
        rintro i1 j1 k1 i2 j2 k2 ⟨h1, ⟨_, h2⟩, rfl⟩ ⟨h3, h4, ⟨h5, h6⟩⟩ e
        have := (idx3_inj nx ny _ _ _ _ _ _ h1 (by omega) h3 h4 e).2.2
        omega)
      exact rectPost_congr _ _ _ _ _ _ _ _ _ this (by
        intro i' j' k'
        constructor
        · rintro ⟨h0, h1, ⟨h2, h3⟩⟩
          by_cases e : k' = k
          · exact Or.inl ⟨h0, ⟨by omega, by omega⟩, e⟩
          · exact Or.inr ⟨h0, h1, ⟨by omega, by omega⟩⟩
        · rintro (⟨h0, ⟨_, h1⟩, h3⟩ | ⟨h0, h1, ⟨h2, h3⟩⟩)
          · exact ⟨h0, by omega, ⟨by omega, by omega⟩⟩
          · exact ⟨h0, h1, ⟨by omega, by omega⟩⟩)

theorem intExpr_error (v : Int) (h : 2147483648 ≤ v) : intExpr v = .error .outOfBounds := by
  unfold intExpr
  rw [if_neg (by omega)]

theorem rectIndex_error (d0 d1 i j k : Int) (f : Fault) (h : intExpr (d1 * k) = .error f) :
    rectIndex d0 d1 i j k = .error f := by
  unfold rectIndex
  rw [h]

theorem rectLoopJ_overflow (nx ny : Nat) (physDim : Int) (xa ya : Option (Int → Rat))
    (z : Rat) (K : Nat) (cs : Coords) (hnx : 0 < nx) (hny : 0 < ny)
    (hK : 2147483648 ≤ ny * K) :
    rectLoopJ nx ny physDim xa ya z K ny 0 cs = .error .outOfBounds := by
  obtain ⟨m, rfl⟩ := Nat.exists_eq_succ_of_ne_zero (Nat.pos_iff_ne_zero.1 hnx)
  obtain ⟨n, rfl⟩ := Nat.exists_eq_succ_of_ne_zero (Nat.pos_iff_ne_zero.1 hny)
  apply rectLoopJ_step_error
  rw [Int.toNat_ofNat]
  apply rectLoopI_step_error
  apply rectIndex_error
  apply intExpr_error
  rw [← Nat.cast_mul]
  omega

theorem rectLoopK_overflow (nx ny : Nat) (physDim : Int) (xa ya za : Option (Int → Rat))
    (L K : Nat) (hnx : 0 < nx) (hny : 0 < ny) (hK : 2147483648 ≤ ny * K) :
    ∀ (n k : Nat) (cs : Coords), k ≤ K → K < k + n →
      (∀ i' j' k', i' < nx → j' < ny → k ≤ k' → k' < K →
        idx3 nx ny i' j' k' < 2147483648 ∧ idx3 nx ny i' j' k' < L) →
      cs.x.length = L → cs.y.length = L → cs.z.length = L →
      rectLoopK nx ny physDim xa ya za n k cs = .error .outOfBounds := by
  intro n
  induction n with
  | zero => intro k cs h1 h2; omega
  | succ n ih =>
    intro k cs h1 h2 hb hx hy hz
    by_cases hk : k = K
    · subst hk
      apply rectLoopK_step_error
      rw [Int.toNat_ofNat]
      exact rectLoopJ_overflow nx ny physDim xa ya _ k cs hnx hny hK
    · obtain ⟨cs1, hrun1, hpost1⟩ := rectLoopJ_spec nx ny physDim xa ya za k L ny 0 cs
        (by omega) (fun i' j' h1 _ h2 => hb i' j' k h1 (by omega) (Nat.le_refl _) (by omega))
        hx hy hz
      unfold rectPost at hpost1
      obtain ⟨l1, l2, l3, _, _⟩ := hpost1
      have hstep := rectLoopK_step_ok nx ny physDim xa ya za n k cs cs1 (by
        rw [Int.toNat_ofNat]
        rw [Nat.cast_zero] at hrun1
        cases za <;> exact hrun1)
      rw [hstep, ← Nat.cast_succ]
      exact ih (k + 1) cs1 (by omega) (by omega)
        (fun i' j' k' h1 h2 h3 h4 => hb i' j' k' h1 h2 (by omega) h4)
        (by rw [l1, hx]) (by rw [l2, hy]) (by rw [l3, hz])

/-- For a rectilinear grid of fewer than 2^31 points `GetStructuredCoords` returns
vectors of `nx * ny * nz` entries holding, at the flat index of each grid point
`(i, j, k)`, the values taken from the three axes. -/
theorem GetStructuredCoords_rectilinear (ds : DataSet) (nx ny nz : Nat) (physDim : Int)
    (hk : ds.kind = .rectilinearGrid) (hsize : nx * ny * nz < 2147483648) :
    ∃ cs, GetStructuredCoords ds (nx, ny, nz) physDim = .ok cs ∧
      cs.x.length = nx * ny * nz ∧ cs.y.length = nx * ny * nz ∧
      cs.z.length = nx * ny * nz ∧
      ∀ i j k, i < nx → j < ny → k < nz →
        cs.x[idx3 nx ny i j k]? = some (rectX ds.xCoordinates i) ∧
        cs.y[idx3 nx ny i j k]? = some (rectY physDim ds.yCoordinates j) ∧
        cs.z[idx3 nx ny i j k]? = some (rectZ physDim ds.zCoordinates k) := by
  obtain ⟨cs, hrun, hpost⟩ := rectLoopK_spec nx ny physDim ds.xCoordinates ds.yCoordinates
    ds.zCoordinates (nx * ny * nz) nz 0
    { x := List.replicate (nx * ny * nz) 0, y := List.replicate (nx * ny * nz) 0,
      z := List.replicate (nx * ny * nz) 0 }
    (fun i j k hi hj _ hk2 => by
      have := idx3_lt nx ny nz i j k hi hj (by omega)
      exact ⟨by omega, this⟩)
    (List.length_replicate _ _) (List.length_replicate _ _) (List.length_replicate _ _)
  unfold rectPost at hpost
  obtain ⟨l1, l2, l3, hv, _⟩ := hpost
  refine ⟨cs, ?_, ?_, ?_, ?_, ?_⟩
  · unfold GetStructuredCoords
    rw [hk]
    exact hrun
  · rw [l1]; exact List.length_replicate _ _
  · rw [l2]; exact List.length_replicate _ _
  · rw [l3]; exact List.length_replicate _ _
  · intro i j k hi hj hk2
    exact hv i j k ⟨hi, hj, Nat.zero_le _, by omega⟩

end Vtk

namespace Vtk

/-- C17: on a rectilinear grid of 1 x 2^30 x 3 points the flat index of the grid point
`(0, 0, 2)` is 2^31, within the `3 * 2^30` entries of the result, but the index expression
of `GetStructuredCoords` is evaluated in `int` and leaves its range at that point, so the
run does not return the coordinate vectors. -/
theorem C17_index_overflows_int_on_large_grid :
    dsHuge.kind = DataSetKind.rectilinearGrid ∧
    idx3 1 1073741824 0 0 2 = 2147483648 ∧
    idx3 1 1073741824 0 0 2 < 1 * 1073741824 * 3 ∧
    rectIndex 1 1073741824 0 0 2 = .error .outOfBounds ∧
    GetStructuredCoords dsHuge (1, 1073741824, 3) 3 = .error .outOfBounds := by
  refine ⟨rfl, by decide, by decide, rfl, ?_⟩
  unfold GetStructuredCoords
  rw [show dsHuge.kind = DataSetKind.rectilinearGrid from rfl]
  dsimp only
  exact rectLoopK_overflow 1 1073741824 3 _ _ _ (1 * 1073741824 * 3) 2 (by decide)
    (by decide) (by decide) 3 0 _ (by decide) (by decide)
    (fun i j k hi hj _ hk => by unfold idx3; omega)
    (List.length_replicate _ _) (List.length_replicate _ _) (List.length_replicate _ _)

end Vtk

namespace Vtk

theorem stepCalls_cons_ok (c : CgCall) (w : String) (rest : List Step) :
    stepCalls (.ok (c, w) :: rest) = c :: stepCalls rest := rfl

theorem runSteps_spec (env : CgEnv) :
    ∀ (steps : List Step) (tr : List CgCall),
      (runSteps env tr steps = (tr ++ stepCalls steps, none) ∧
        (∀ s ∈ steps, ∃ c w, s = .ok (c, w)) ∧
        ∀ k, tr.length ≤ k → k < tr.length + steps.length → env.answer k = none) ∨
      ∃ n, n < steps.length ∧ (∀ s ∈ steps.take n, ∃ c w, s = .ok (c, w)) ∧
        (∀ k, tr.length ≤ k → k < tr.length + n → env.answer k = none) ∧
        ((∃ f, steps[n]? = some (.error f) ∧
            runSteps env tr steps = (tr ++ stepCalls (steps.take n), some f)) ∨
         (∃ c w err, steps[n]? = some (.ok (c, w)) ∧ env.answer (tr.length + n) = some err ∧
            runSteps env tr steps
              = (tr ++ stepCalls (steps.take n) ++ [c], some (.thrown (.cgFailed w err))))) := by
  intro steps
  induction steps with
  | nil =>
    intro tr
    left
    refine ⟨by simp [runSteps, stepCalls], by simp, ?_⟩
    intro k h1 h2
    simp at h2
    omega
  | cons s rest ih =>
    intro tr
    cases s with
    | error f =>
      right
      refine ⟨0, by simp, by simp, by intro k h1 h2; omega, Or.inl ⟨f, by simp, ?_⟩⟩
      simp [runSteps, stepCalls]
    | ok cw =>
      obtain ⟨c, w⟩ := cw
      cases ha : env.answer tr.length with
      | some err =>
        right
        refine ⟨0, by simp, by simp, by intro k h1 h2; omega, Or.inr ⟨c, w, err, by simp, ha, ?_⟩⟩
        simp [runSteps, stepCalls, ha]
      | none =>
        have hrun : runSteps env tr (.ok (c, w) :: rest) = runSteps env (tr ++ [c]) rest := by
          simp only [runSteps, ha]
        have hlen : (tr ++ [c]).length = tr.length + 1 := by simp
        rcases ih (tr ++ [c]) with ⟨h1, h2, h3⟩ | ⟨n, hn, h2, h3, h4⟩
        · left
          refine ⟨?_, ?_, ?_⟩
          · rw [hrun, h1, stepCalls_cons_ok, List.append_assoc, List.singleton_append]
          · intro s hs
            rcases List.mem_cons.1 hs with rfl | hs
            · exact ⟨c, w, rfl⟩
            · exact h2 s hs
          · intro k hk1 hk2
            by_cases hk : k = tr.length
            · rw [hk]; exact ha
            · exact h3 k (by rw [hlen]; omega) (by rw [hlen]; simp at hk2; omega)
        · right
          refine ⟨n + 1, by simp; omega, ?_, ?_, ?_⟩
          · intro s hs
            rw [List.take_succ_cons] at hs
            rcases List.mem_cons.1 hs with rfl | hs
            · exact ⟨c, w, rfl⟩
            · exact h2 s hs
          · intro k hk1 hk2
            by_cases hk : k = tr.length
            · rw [hk]; exact ha
            · exact h3 k (by rw [hlen]; omega) (by rw [hlen]; omega)
          · rcases h4 with ⟨f, hf1, hf2⟩ | ⟨c1, w1, err, hf1, hf2, hf3⟩
            · left
              refine ⟨f, by simpa using hf1, ?_⟩
              rw [hrun, hf2, List.take_succ_cons, stepCalls_cons_ok, List.append_assoc,
                List.singleton_append]
            · right
              refine ⟨c1, w1, err, by simpa using hf1, ?_, ?_⟩
              · rw [hlen] at hf2
                rw [← hf2]
                congr 1
                omega
              · rw [hrun, hf3, List.take_succ_cons, stepCalls_cons_ok]
                simp

theorem runSteps_of_calls (env : CgEnv) :
    ∀ (calls : List (CgCall × String)) (tr : List CgCall),
      runSteps env tr (calls.map Except.ok)
        = ((runCalls env tr calls).1, (runCalls env tr calls).2.map Fault.thrown) := by
  intro calls
  induction calls with
  | nil => intro tr; rfl
  | cons cw rest ih =>
    intro tr
    obtain ⟨c, w⟩ := cw
    cases ha : env.answer tr.length with
    | some err => simp [runSteps, runCalls, ha]
    | none =>
      simp only [List.map_cons, runSteps, runCalls, ha]
      exact ih _

end Vtk

theorem openIndex_eq (env : CgEnv) (b : Bool) :
    (if env.hdf5Macro then [CgCall.cg_set_file_type b] else []).length = Vtk.openIndex env := by
  unfold Vtk.openIndex
  cases env.hdf5Macro <;> rfl

theorem openTrace_length (env : CgEnv) (output_path : Option String)
    (options : Option CgnsWriteOptions) :
    (openTrace env output_path options).length = Vtk.openIndex env + 1 := by
  unfold openTrace Vtk.openIndex
  cases env.hdf5Macro <;> rfl

theorem stepCalls_map_ok (calls : List (CgCall × String)) :
    Vtk.stepCalls (calls.map Except.ok) = calls.map (fun c => c.1) := by
  induction calls with
  | nil => rfl
  | cons c rest ih =>
    obtain ⟨c1, w⟩ := c
    rw [List.map_cons, Vtk.stepCalls_cons_ok, ih]
    rfl

theorem WriteUnstructured_closes (env : CgEnv) (mesh : UnstructuredMeshInfo)
    (output_path : Option String) (options : Option CgnsWriteOptions)
    (hb : buffersOk mesh) (hin : inputCheck mesh output_path = none) :
    ∃ r, WriteUnstructured env mesh output_path options = some r ∧
      (∀ err, env.answer (Vtk.openIndex env) = some err →
        r.ret = 1 ∧ r.lastError = (WriteError.cgFailed "cg_open" err).what ∧
          r.trace = openTrace env output_path options) ∧
      (env.answer (Vtk.openIndex env) = none →
        (∃ e, firstError mesh mesh.num_cells.toNat 0 = some e ∧ r.ret = 1 ∧
          r.lastError = e.what ∧
          r.trace = openTrace env output_path options ++ [CgCall.cg_close]) ∨
        (∃ p n e, prepare mesh = .ok p ∧
          Vtk.stoppedAt env (openTrace env output_path options)
            ((bodyCalls (chooseBaseName options) (chooseZoneName options) p).map Except.ok)
            n e r.trace ∧
          r.ret = 1 ∧ r.lastError = e.what) ∨
        (∃ p, prepare mesh = .ok p ∧ r.ret = 0 ∧
          r.trace = openTrace env output_path options ++
            (bodyCalls (chooseBaseName options) (chooseZoneName options) p).map
              (fun c => c.1) ∧
          ∀ k, (openTrace env output_path options).length ≤ k → k < r.trace.length →
            env.answer k = none)) := by
  have hprep := prepare_spec mesh hb
  unfold WriteUnstructured
  rw [hin]
  dsimp only
  rw [openIndex_eq]
  cases hopen : env.answer (Vtk.openIndex env) with
  | some err =>
    refine ⟨_, rfl, ?_, ?_⟩
    · intro err1 h1
      cases h1
      exact ⟨rfl, rfl, rfl⟩
    · intro h; cases h
  | none =>
    dsimp only
    cases he : firstError mesh mesh.num_cells.toNat 0 with
    | some e =>
      rw [he] at hprep
      dsimp only at hprep
      rw [hprep]
      refine ⟨_, rfl, ?_, ?_⟩
      · intro err h; cases h
      · intro _
        exact Or.inl ⟨e, rfl, rfl, rfl, rfl⟩
    | none =>
      rw [he] at hprep
      dsimp only at hprep
      obtain ⟨p, st, hp, _⟩ := hprep
      rw [hp]
      dsimp only
      have hs := Vtk.runSteps_spec env
        ((bodyCalls (chooseBaseName options) (chooseZoneName options) p).map Except.ok)
        (openTrace env output_path options)
      rw [Vtk.runSteps_of_calls] at hs
      have hot : (if env.hdf5Macro = true then [CgCall.cg_set_file_type (chooseHdf5 options)]
          else []) ++ [CgCall.cg_open (output_path.getD "")]
          = openTrace env output_path options := rfl
      rw [hot]
      cases hrc : runCalls env (openTrace env output_path options)
          (bodyCalls (chooseBaseName options) (chooseZoneName options) p) with
      | mk tr res =>
        rw [hrc] at hs
        rcases hs with ⟨h1, h2, h3⟩ | ⟨n, hn, h2, h3, h4⟩
        · simp only [Prod.mk.injEq, Option.map_eq_none'] at h1
          obtain ⟨h1a, h1b⟩ := h1
          subst h1b
          refine ⟨_, rfl, ?_, ?_⟩
          · intro err h; cases h
          · intro _
            refine Or.inr (Or.inr ⟨p, rfl, rfl, ?_, ?_⟩)
            · dsimp only
              rw [h1a, stepCalls_map_ok]
            · intro k hk1 hk2
              dsimp only at hk2
              rw [h1a, List.length_append, stepCalls_map_ok, List.length_map] at hk2
              exact h3 k hk1 (by rw [List.length_map]; exact hk2)
        · rcases h4 with ⟨f, hf1, _⟩ | ⟨c, w, err, hf1, hf2, hf3⟩
          · simp at hf1
          · simp only [Prod.mk.injEq] at hf3
            obtain ⟨h3a, h3b⟩ := hf3
            cases res with
            | none => simp at h3b
            | some e =>
              simp only [Option.map_some', Option.some.injEq, Fault.thrown.injEq] at h3b
              subst h3b
              refine ⟨_, rfl, ?_, ?_⟩
              · intro err h; cases h
              · intro _
                refine Or.inr (Or.inl ⟨p, n, _, rfl, ⟨hn, h2, h3, Or.inr ⟨c, w, err, hf1, hf2, rfl, ?_⟩⟩,
                  rfl, rfl⟩)
                dsimp only
                rw [h3a]
                simp

namespace Vtk

theorem stepCalls_length_of_ok (steps : List Step) (h : ∀ s ∈ steps, ∃ c w, s = .ok (c, w)) :
    (stepCalls steps).length = steps.length := by
  induction steps with
  | nil => rfl
  | cons s rest ih =>
    obtain ⟨c, w, rfl⟩ := h s (List.mem_cons_self _ _)
    rw [stepCalls_cons_ok, List.length_cons, List.length_cons,
      ih (fun s hs => h s (List.mem_cons_of_mem _ hs))]

theorem Write_closes (env : CgEnv) (input : DataObject) (fileName : String)
    (opt : CgnsWriterOptions) (hname : fileName ≠ "")
    (hdef : ∀ s ∈ writeSteps (some input) opt, isUndefinedStop s = false) :
    ∃ out, Write env (some input) fileName opt = some out ∧
      (∀ err, env.answer (openIndex env) = some err →
        out.error = some (.cgFailed "cg_open" err) ∧
          out.trace = openTraceV env fileName opt) ∧
      (env.answer (openIndex env) = none →
        (∃ n e, stoppedAt env (openTraceV env fileName opt) (writeSteps (some input) opt)
            n e out.trace ∧ out.error = some e) ∨
        (out.error = none ∧ (∀ s ∈ writeSteps (some input) opt, ∃ c w, s = .ok (c, w)) ∧
          out.trace = openTraceV env fileName opt ++ stepCalls (writeSteps (some input) opt) ∧
          ∀ k, (openTraceV env fileName opt).length ≤ k → k < out.trace.length →
            env.answer k = none)) := by
  unfold Write
  dsimp only
  rw [if_neg hname]
  have hidx : (if env.hdf5Macro = true then [CgCall.cg_set_file_type opt.useHdf5]
      else []).length = openIndex env := by
    unfold openIndex
    cases env.hdf5Macro <;> rfl
  rw [hidx]
  cases hopen : env.answer (openIndex env) with
  | some err =>
    refine ⟨_, rfl, ?_, ?_⟩
    · intro err1 h1
      cases h1
      exact ⟨rfl, rfl⟩
    · intro h; cases h
  | none =>
    dsimp only
    have hot : (if env.hdf5Macro = true then [CgCall.cg_set_file_type opt.useHdf5]
        else []) ++ [CgCall.cg_open fileName] = openTraceV env fileName opt := rfl
    rw [hot]
    rcases runSteps_spec env (writeSteps (some input) opt) (openTraceV env fileName opt) with
      ⟨h1, h2, h3⟩ | ⟨n, hn, h2, h3, h4⟩
    · rw [h1]
      refine ⟨_, rfl, ?_, ?_⟩
      · intro err h; cases h
      · intro _
        refine Or.inr ⟨rfl, h2, rfl, ?_⟩
        intro k hk1 hk2
        dsimp only at hk2
        rw [List.length_append, stepCalls_length_of_ok _ h2] at hk2
        exact h3 k hk1 hk2
    · rcases h4 with ⟨f, hf1, hf2⟩ | ⟨c, w, err, hf1, hf2, hf3⟩
      · rw [hf2]
        cases f with
        | outOfBounds =>
          have hmem : (Except.error Fault.outOfBounds : Step) ∈ writeSteps (some input) opt :=
            List.getElem?_mem hf1
          have := hdef _ hmem
          cases this
        | thrown e =>
          refine ⟨_, rfl, ?_, ?_⟩
          · intro err h; cases h
          · intro _
            exact Or.inl ⟨n, e, ⟨hn, h2, h3, Or.inl ⟨hf1, rfl⟩⟩, rfl⟩
      · rw [hf3]
        refine ⟨_, rfl, ?_, ?_⟩
        · intro err h; cases h
        · intro _
          refine Or.inl ⟨n, _, ⟨hn, h2, h3, Or.inr ⟨c, w, err, hf1, hf2, rfl, ?_⟩⟩, rfl⟩
          dsimp only
          simp

end Vtk

namespace Vtk

theorem defined_append (a b : List Step) (ha : ∀ s ∈ a, isUndefinedStop s = false)
    (hb : ∀ s ∈ b, isUndefinedStop s = false) : ∀ s ∈ a ++ b, isUndefinedStop s = false := by
  intro s hs
  rcases List.mem_append.1 hs with h | h
  · exact ha s h
  · exact hb s h

theorem defined_cons (x : Step) (b : List Step) (hx : isUndefinedStop x = false)
    (hb : ∀ s ∈ b, isUndefinedStop s = false) : ∀ s ∈ x :: b, isUndefinedStop s = false := by
  intro s hs
  rcases List.mem_cons.1 hs with h | h
  · rw [h]; exact hx
  · exact hb s h

theorem defined_flatten (l : List (List Step))
    (h : ∀ a ∈ l, ∀ s ∈ a, isUndefinedStop s = false) :
    ∀ s ∈ l.flatten, isUndefinedStop s = false := by
  intro s hs
  obtain ⟨a, ha, hsa⟩ := List.mem_flatten.1 hs
  exact h a ha s hsa

theorem defined_nil : ∀ s ∈ ([] : List Step), isUndefinedStop s = false := by
  intro s hs; cases hs

theorem defined_ite (b : Bool) (a : List Step) (ha : ∀ s ∈ a, isUndefinedStop s = false) :
    ∀ s ∈ (if b = true then a else []), isUndefinedStop s = false := by
  cases b
  · exact defined_nil
  · exact ha

theorem pointData_defined (ds : DataSet) :
    ∀ s ∈ WriteFlowSolutionPointData ds, isUndefinedStop s = false := by
  unfold WriteFlowSolutionPointData
  cases ds.pointData with
  | none => exact defined_nil
  | some arrays =>
    dsimp only
    refine defined_cons _ _ (by rfl) ?_
    apply defined_flatten
    intro a ha
    obtain ⟨p, _, rfl⟩ := List.mem_map.1 ha
    cases p.2 with
    | none => exact defined_nil
    | some arr =>
      dsimp only
      intro s hs
      unfold pointArraySteps at hs
      obtain ⟨c, _, rfl⟩ := List.mem_map.1 hs
      rfl

theorem cellData_defined (ds : DataSet) (tbl : List Int) (n : Int)
    (h : ∀ g : Int → Rat, ∃ buf, cellFieldValues tbl n (ds.topo.cells.length : Int) g = .ok buf) :
    ∀ s ∈ WriteFlowSolutionCellData ds tbl n, isUndefinedStop s = false := by
  unfold WriteFlowSolutionCellData
  cases ds.cellData with
  | none => exact defined_nil
  | some arrays =>
    dsimp only
    refine defined_cons _ _ (by rfl) ?_
    apply defined_flatten
    intro a ha
    obtain ⟨p, _, rfl⟩ := List.mem_map.1 ha
    cases p.2 with
    | none => exact defined_nil
    | some arr =>
      dsimp only
      intro s hs
      unfold cellArraySteps at hs
      obtain ⟨c, _, rfl⟩ := List.mem_map.1 hs
      obtain ⟨buf, hbuf⟩ := h (fun cid => arr.getComponent cid c)
      rw [hbuf]
      rfl

theorem identity_scatter_ok (nCells : Nat) (g : Int → Rat) :
    ∃ buf, cellFieldValues ((List.range nCells).map fun (cid : Nat) => (cid : Int) + 1)
      (nCells : Int) (nCells : Int) g = .ok buf := by
  have hget : ∀ (i : Nat) (e : Int),
      ((List.range nCells).map fun (cid : Nat) => (cid : Int) + 1)[i]? = some e →
        i < nCells ∧ e = (i : Int) + 1 := by
    intro i e h
    rw [List.getElem?_map] at h
    by_cases hi : i < nCells
    · rw [List.getElem?_range hi] at h
      exact ⟨hi, (Option.some.inj h).symm⟩
    · rw [List.getElem?_eq_none (by simp; omega)] at h
      cases h
  obtain ⟨buf, hbuf, _⟩ :=
    scatterLoop_spec ((List.range nCells).map fun (cid : Nat) => (cid : Int) + 1) g nCells
      (fun i e h => by
        obtain ⟨h1, h2⟩ := hget i e h
        exact Or.inr ⟨by omega, by omega⟩)
      (fun i j e hi hj _ => by
        obtain ⟨_, h2⟩ := hget i e hi
        obtain ⟨_, h3⟩ := hget j e hj
        omega)
      nCells 0 (List.replicate nCells 0) (by simp) (by simp)
  exact ⟨buf, by simpa [cellFieldValues] using hbuf⟩

theorem coords_defined (cs : Coords) : ∀ s ∈ WriteCoords cs, isUndefinedStop s = false := by
  intro s hs
  unfold WriteCoords at hs
  simp only [List.mem_cons, List.mem_singleton, List.not_mem_nil, or_false] at hs
  rcases hs with rfl | rfl | rfl <;> rfl

theorem sections_defined (secs : List Section) :
    ∀ s ∈ sectionSteps secs, isUndefinedStop s = false := by
  intro s hs
  unfold sectionSteps at hs
  obtain ⟨x, _, rfl⟩ := List.mem_map.1 hs
  rfl

theorem WriteZoneUnstructured_defined (zoneName : String) (ds : DataSet)
    (opt : CgnsWriterOptions) :
    ∀ s ∈ WriteZoneUnstructured zoneName ds opt, isUndefinedStop s = false := by
  have hspec := buildZone_spec opt ds.topo
  unfold WriteZoneUnstructured
  dsimp only
  cases hfe : firstErr opt ds.topo ds.topo.cells.length 0 with
  | some e =>
    rw [hfe] at hspec
    dsimp only at hspec
    rw [hspec]
    exact defined_cons _ _ (by rfl) defined_nil
  | none =>
    obtain ⟨zb, hzb, hs⟩ := zone_scatter_ok opt ds.topo
      ((firstErr_none_iff_valid opt ds.topo).1 hfe)
    rw [hzb]
    dsimp only
    refine defined_cons _ _ (by rfl) ?_
    apply defined_append
    · apply defined_append
      · apply defined_append
        · exact coords_defined _
        · exact sections_defined _
      · exact defined_ite _ _ (pointData_defined ds)
    · exact defined_ite _ _ (cellData_defined ds _ _ hs)

theorem WriteZoneStructured_defined (zoneName : String) (ds : DataSet)
    (opt : CgnsWriterOptions)
    (hsmall : ds.kind = .rectilinearGrid →
      ds.dims.1 * ds.dims.2.1 * ds.dims.2.2 < 2147483648) :
    ∀ s ∈ WriteZoneStructured zoneName ds opt, isUndefinedStop s = false := by
  unfold WriteZoneStructured
  cases IsStructured ds with
  | false => exact defined_cons _ _ (by rfl) defined_nil
  | true =>
    rw [if_pos rfl]
    dsimp only
    refine defined_cons _ _ (by rfl) ?_
    have hc : ∃ cs, GetStructuredCoords ds ds.dims (InferPhysicalDim ds) = .ok cs := by
      by_cases hk : ds.kind = .rectilinearGrid
      · obtain ⟨cs, h, _⟩ := GetStructuredCoords_rectilinear ds ds.dims.1 ds.dims.2.1
          ds.dims.2.2 (InferPhysicalDim ds) hk (hsmall hk)
        exact ⟨cs, h⟩
      · unfold GetStructuredCoords
        cases hkind : ds.kind with
        | rectilinearGrid => exact absurd hkind hk
        | imageData => exact ⟨_, rfl⟩
        | structuredGrid => exact ⟨_, rfl⟩
        | pointSet => exact ⟨_, rfl⟩
        | other => exact ⟨_, rfl⟩
    obtain ⟨cs, hcs⟩ := hc
    rw [hcs]
    dsimp only
    apply defined_append
    · apply defined_append
      · exact coords_defined _
      · exact defined_ite _ _ (pointData_defined ds)
    · exact defined_ite _ _
        (cellData_defined ds _ _ (fun g => identity_scatter_ok ds.topo.cells.length g))

theorem writeSteps_defined (input : Option DataObject) (opt : CgnsWriterOptions)
    (hsmall : ∀ z ∈ FlattenToZones input opt, z.1.kind = .rectilinearGrid →
      z.1.dims.1 * z.1.dims.2.1 * z.1.dims.2.2 < 2147483648) :
    ∀ s ∈ writeSteps input opt, isUndefinedStop s = false := by
  unfold writeSteps
  cases hz : FlattenToZones input opt with
  | nil => exact defined_cons _ _ (by rfl) defined_nil
  | cons first rest =>
    dsimp only
    rw [hz] at hsmall
    refine defined_cons _ _ (by rfl) ?_
    apply defined_append
    · apply defined_flatten
      intro a ha
      obtain ⟨z, hzm, rfl⟩ := List.mem_map.1 ha
      unfold zoneSteps
      cases IsStructured z.1 with
      | true =>
        rw [if_pos rfl]
        exact WriteZoneStructured_defined _ _ _ (hsmall z hzm)
      | false => exact WriteZoneUnstructured_defined _ _ _
    · exact defined_cons _ _ (by rfl) defined_nil

end Vtk

theorem openTrace_no_write (env : CgEnv) (output_path : Option String)
    (options : Option CgnsWriteOptions) :
    CgCall.cg_close ∉ openTrace env output_path options ∧
      ∀ c ∈ openTrace env output_path options, c.isWrite = false := by
  unfold openTrace
  cases env.hdf5Macro <;> simp [CgCall.isWrite]

theorem openTraceV_no_write (env : CgEnv) (fileName : String) (opt : Vtk.CgnsWriterOptions) :
    CgCall.cg_close ∉ Vtk.openTraceV env fileName opt ∧
      ∀ c ∈ Vtk.openTraceV env fileName opt,
        c = .cg_set_file_type opt.useHdf5 ∨ c = .cg_open fileName := by
  unfold Vtk.openTraceV
  cases env.hdf5Macro <;> simp

/-- C12: a run of `WriteUnstructured` on buffers of their declared lengths, and a run of
`CgnsWriter::Write` whose rectilinear zones have fewer than 2^31 points, returns. When `cg_open` fails the call reports failure and
the trace is the calls up to the open: no write and no `cg_close`. When the open succeeds
and a later step fails, a validation error or a failing library call, the call reports
that failure, the calls before the failing step all succeeded, and the trace ends with
the failing call, if the step is one, followed by `cg_close` and nothing else. A call
reports success only when no statement threw and every call succeeded. -/
theorem C12_failure_closes_the_file_and_stops (env : CgEnv) (mesh : UnstructuredMeshInfo)
    (output_path : Option String) (options : Option CgnsWriteOptions)
    (input : Vtk.DataObject) (fileName : String) (opt : Vtk.CgnsWriterOptions)
    (hb : buffersOk mesh) (hin : inputCheck mesh output_path = none)
    (hname : fileName ≠ "")
    (hsmall : ∀ z ∈ Vtk.FlattenToZones (some input) opt, z.1.kind = .rectilinearGrid →
      z.1.dims.1 * z.1.dims.2.1 * z.1.dims.2.2 < 2147483648) :
    (∃ r, WriteUnstructured env mesh output_path options = some r ∧
      (r.ret = 1 → r.lastError ≠ "") ∧
      (∀ err, env.answer (Vtk.openIndex env) = some err →
        r.ret = 1 ∧ r.trace = openTrace env output_path options ∧
          CgCall.cg_close ∉ r.trace ∧ ∀ c ∈ r.trace, c.isWrite = false) ∧
      (env.answer (Vtk.openIndex env) = none →
        (∃ e, firstError mesh mesh.num_cells.toNat 0 = some e ∧ r.ret = 1 ∧
          r.lastError = e.what ∧
          r.trace = openTrace env output_path options ++ [CgCall.cg_close]) ∨
        (∃ p n e, prepare mesh = .ok p ∧
          Vtk.stoppedAt env (openTrace env output_path options)
            ((bodyCalls (chooseBaseName options) (chooseZoneName options) p).map Except.ok)
            n e r.trace ∧
          r.ret = 1 ∧ r.lastError = e.what) ∨
        (∃ p, prepare mesh = .ok p ∧ r.ret = 0 ∧
          r.trace = openTrace env output_path options ++
            (bodyCalls (chooseBaseName options) (chooseZoneName options) p).map
              (fun c => c.1) ∧
          ∀ k, (openTrace env output_path options).length ≤ k → k < r.trace.length →
            env.answer k = none))) ∧
    (∃ out, Vtk.Write env (some input) fileName opt = some out ∧
      (∀ err, env.answer (Vtk.openIndex env) = some err →
        out.error = some (.cgFailed "cg_open" err) ∧
          out.trace = Vtk.openTraceV env fileName opt ∧
          CgCall.cg_close ∉ out.trace ∧
          ∀ c ∈ out.trace, c = .cg_set_file_type opt.useHdf5 ∨ c = .cg_open fileName) ∧
      (env.answer (Vtk.openIndex env) = none →
        (∃ n e, Vtk.stoppedAt env (Vtk.openTraceV env fileName opt)
            (Vtk.writeSteps (some input) opt) n e out.trace ∧ out.error = some e) ∨
        (out.error = none ∧
          (∀ s ∈ Vtk.writeSteps (some input) opt, ∃ c w, s = .ok (c, w)) ∧
          out.trace = Vtk.openTraceV env fileName opt ++
            Vtk.stepCalls (Vtk.writeSteps (some input) opt) ∧
          ∀ k, (Vtk.openTraceV env fileName opt).length ≤ k → k < out.trace.length →
            env.answer k = none))) := by
  obtain ⟨r, hr, h1, h2⟩ := WriteUnstructured_closes env mesh output_path options hb hin
  obtain ⟨out, ho, h3, h4⟩ := Vtk.Write_closes env input fileName opt hname
    (Vtk.writeSteps_defined (some input) opt hsmall)
  refine ⟨⟨r, hr, ?_, ?_, h2⟩, ⟨out, ho, ?_, h4⟩⟩
  · intro hret
    rcases WriteUnstructured_lastError env mesh output_path options r hr with ⟨h0, _⟩ | ⟨_, h⟩
    · rw [h0] at hret; cases hret
    · exact h
  · intro err he
    obtain ⟨a, _, b⟩ := h1 err he
    refine ⟨a, b, ?_⟩
    rw [b]
    exact openTrace_no_write env output_path options
  · intro err he
    obtain ⟨a, b⟩ := h3 err he
    refine ⟨a, b, ?_⟩
    rw [b]
    exact openTraceV_no_write env fileName opt

theorem C12_witness :
    (buffersOk meshTet ∧ inputCheck meshTet (some "o.cgns") = none ∧
      ("o.cgns" : String) ≠ "" ∧
      (∀ z ∈ Vtk.FlattenToZones (some (Vtk.DataObject.dataSet Vtk.dsVelocity))
          Vtk.CgnsWriterOptions.default, z.1.kind = .rectilinearGrid →
        z.1.dims.1 * z.1.dims.2.1 * z.1.dims.2.2 < 2147483648) ∧
      (Vtk.envFailAt 3).answer 3 = some "io") ∧
    (∃ r, WriteUnstructured (Vtk.envFailAt 3) meshTet (some "o.cgns") none = some r ∧
      (r.ret = 1 → r.lastError ≠ "") ∧
      (∀ err, (Vtk.envFailAt 3).answer (Vtk.openIndex (Vtk.envFailAt 3)) = some err →
        r.ret = 1 ∧ r.trace = openTrace (Vtk.envFailAt 3) (some "o.cgns") none ∧
          CgCall.cg_close ∉ r.trace ∧ ∀ c ∈ r.trace, c.isWrite = false) ∧
      ((Vtk.envFailAt 3).answer (Vtk.openIndex (Vtk.envFailAt 3)) = none →
        (∃ e, firstError meshTet meshTet.num_cells.toNat 0 = some e ∧ r.ret = 1 ∧
          r.lastError = e.what ∧
          r.trace = openTrace (Vtk.envFailAt 3) (some "o.cgns") none ++ [CgCall.cg_close]) ∨
        (∃ p n e, prepare meshTet = .ok p ∧
          Vtk.stoppedAt (Vtk.envFailAt 3) (openTrace (Vtk.envFailAt 3) (some "o.cgns") none)
            ((bodyCalls (chooseBaseName none) (chooseZoneName none) p).map Except.ok)
            n e r.trace ∧
          r.ret = 1 ∧ r.lastError = e.what) ∨
        (∃ p, prepare meshTet = .ok p ∧ r.ret = 0 ∧
          r.trace = openTrace (Vtk.envFailAt 3) (some "o.cgns") none ++
            (bodyCalls (chooseBaseName none) (chooseZoneName none) p).map
              (fun c => c.1) ∧
          ∀ k, (openTrace (Vtk.envFailAt 3) (some "o.cgns") none).length ≤ k → k < r.trace.length →
            (Vtk.envFailAt 3).answer k = none))) ∧
    (∃ out, Vtk.Write (Vtk.envFailAt 3) (some (Vtk.DataObject.dataSet Vtk.dsVelocity)) "o.cgns" Vtk.CgnsWriterOptions.default = some out ∧
      (∀ err, (Vtk.envFailAt 3).answer (Vtk.openIndex (Vtk.envFailAt 3)) = some err →
        out.error = some (.cgFailed "cg_open" err) ∧
          out.trace = Vtk.openTraceV (Vtk.envFailAt 3) "o.cgns" Vtk.CgnsWriterOptions.default ∧
          CgCall.cg_close ∉ out.trace ∧
          ∀ c ∈ out.trace, c = .cg_set_file_type Vtk.CgnsWriterOptions.default.useHdf5 ∨ c = .cg_open "o.cgns") ∧
      ((Vtk.envFailAt 3).answer (Vtk.openIndex (Vtk.envFailAt 3)) = none →
        (∃ n e, Vtk.stoppedAt (Vtk.envFailAt 3) (Vtk.openTraceV (Vtk.envFailAt 3) "o.cgns" Vtk.CgnsWriterOptions.default)
            (Vtk.writeSteps (some (Vtk.DataObject.dataSet Vtk.dsVelocity)) Vtk.CgnsWriterOptions.default) n e out.trace ∧ out.error = some e) ∨
        (out.error = none ∧
          (∀ s ∈ Vtk.writeSteps (some (Vtk.DataObject.dataSet Vtk.dsVelocity)) Vtk.CgnsWriterOptions.default, ∃ c w, s = .ok (c, w)) ∧
          out.trace = Vtk.openTraceV (Vtk.envFailAt 3) "o.cgns" Vtk.CgnsWriterOptions.default ++
            Vtk.stepCalls (Vtk.writeSteps (some (Vtk.DataObject.dataSet Vtk.dsVelocity)) Vtk.CgnsWriterOptions.default) ∧
          ∀ k, (Vtk.openTraceV (Vtk.envFailAt 3) "o.cgns" Vtk.CgnsWriterOptions.default).length ≤ k → k < out.trace.length →
            (Vtk.envFailAt 3).answer k = none))) :=
  ⟨⟨by decide, by decide, by decide, by decide, rfl⟩,
    C12_failure_closes_the_file_and_stops (Vtk.envFailAt 3) meshTet (some "o.cgns") none
      (Vtk.DataObject.dataSet Vtk.dsVelocity) "o.cgns" Vtk.CgnsWriterOptions.default
      (by decide) (by decide) (by decide) (by decide)⟩

theorem firstBad_min (mesh : UnstructuredMeshInfo) :
    ∀ (l : List Int) (j : Nat), firstBad mesh l = some j →
      ∀ j', j' < j → ∀ v, l[j']? = some v → 0 ≤ v ∧ v < mesh.num_points := by
  intro l
  induction l with
  | nil => intro j h; simp [firstBad] at h
  | cons a l ih =>
    intro j h j' hj v hv
    simp only [firstBad] at h
    split_ifs at h with hc
    · simp at h; omega
    · cases hfb : firstBad mesh l with
      | none => rw [hfb] at h; simp at h
      | some k =>
        rw [hfb] at h
        simp only [Option.map_some', Option.some.injEq] at h
        cases j' with
        | zero =>
          simp only [List.getElem?_cons_zero, Option.some.injEq] at hv
          subst hv
          constructor <;> omega
        | succ m =>
          simp only [List.getElem?_cons_succ] at hv
          exact ih k hfb m (by omega) v hv

/-- C23: with the open succeeding, let `i` be the smallest cell index that violates a
topology condition (every earlier cell being fully valid, node-id ranges included).
Whatever other violations the mesh has, in cell `i` or in later cells,
`WriteUnstructured` fails with the error of cell `i`, chosen in the order: offset
ordering; else unsupported shape code; else node-count mismatch; else the out-of-range
node id at the smallest connectivity index of the cell. -/
theorem C23_first_violation_in_check_order (env : CgEnv) (mesh : UnstructuredMeshInfo)
    (output_path : Option String) (options : Option CgnsWriteOptions)
    (hb : buffersOk mesh) (hin : inputCheck mesh output_path = none)
    (hopen : env.answer (Vtk.openIndex env) = none)
    (i : Nat) (hi : (i : Int) < mesh.num_cells)
    (hprev : ∀ j, j < i → cellValid mesh j) (hbad : ¬ cellValid mesh i) :
    ∃ (r : RunResult) (e : WriteError),
      WriteUnstructured env mesh output_path options = some r ∧ r.ret = 1 ∧
      r.lastError = e.what ∧
      ((offsetAt mesh i < 0 ∨ offsetAt mesh (i + 1) < offsetAt mesh i
          ∨ offsetAt mesh (i + 1) > mesh.connectivity_size) → e = .invalidOffsets i) ∧
      (¬ (offsetAt mesh i < 0 ∨ offsetAt mesh (i + 1) < offsetAt mesh i
          ∨ offsetAt mesh (i + 1) > mesh.connectivity_size) →
        (MapVtkCellToCgns (typeAt mesh i) = none → e = .unsupportedType (typeAt mesh i)) ∧
        (∀ t n d, MapVtkCellToCgns (typeAt mesh i) = some (t, n, d) →
          (offsetAt mesh (i + 1) - offsetAt mesh i ≠ (n : Int) →
            e = .nodeCountMismatch i (offsetAt mesh (i + 1) - offsetAt mesh i) n) ∧
          (offsetAt mesh (i + 1) - offsetAt mesh i = (n : Int) →
            ∃ (j : Nat) (v : Int), e = .connOutOfRange (offsetAt mesh i + j) ∧
              (cellSlice mesh i)[j]? = some v ∧ ¬ (0 ≤ v ∧ v < mesh.num_points) ∧
              ∀ j', j' < j → ∀ v', (cellSlice mesh i)[j']? = some v' →
                0 ≤ v' ∧ v' < mesh.num_points))) := by
  have hne : cellError mesh i ≠ none := fun h => hbad ((cellError_none_iff mesh i).1 h)
  obtain ⟨e, he⟩ := Option.ne_none_iff_exists'.1 hne
  have hfe : firstError mesh mesh.num_cells.toNat 0 = some e :=
    firstError_eq_of_first mesh e _ 0 i (Nat.zero_le _) (by omega)
      (fun j _ hj => hprev j hj) he
  have hw := WriteUnstructured_invalid env mesh output_path options hb hin
    (by rw [openTrace_length]; exact hopen) e hfe
  refine ⟨_, e, hw, rfl, rfl, ?_, ?_⟩
  · intro hoff
    unfold cellError at he
    rw [if_pos hoff] at he
    exact (Option.some.inj he).symm
  · intro hoff
    unfold cellError at he
    rw [if_neg hoff] at he
    refine ⟨?_, ?_⟩
    · intro hm
      rw [hm] at he
      exact (Option.some.inj he).symm
    · intro t n d hm
      rw [hm] at he
      dsimp only at he
      refine ⟨?_, ?_⟩
      · intro hsz
        rw [if_pos hsz] at he
        exact (Option.some.inj he).symm
      · intro hsz
        rw [if_neg (not_not.2 hsz)] at he
        cases hfb : firstBad mesh (cellSlice mesh i) with
        | none => rw [hfb] at he; cases he
        | some j =>
          rw [hfb] at he
          obtain ⟨v, hv1, hv2⟩ := firstBad_some_spec mesh _ j hfb
          exact ⟨j, v, (Option.some.inj he).symm, hv1, hv2, firstBad_min mesh _ j hfb⟩

theorem C23_witness :
    (buffersOk meshSeveralBad ∧ inputCheck meshSeveralBad (some "out.cgns") = none ∧
      CgEnv.allOk.answer (Vtk.openIndex CgEnv.allOk) = none ∧
      ((1 : Nat) : Int) < meshSeveralBad.num_cells ∧
      (∀ j, j < 1 → cellValid meshSeveralBad j) ∧ ¬ cellValid meshSeveralBad 1 ∧
      ¬ cellValid meshSeveralBad 2 ∧
      (WriteUnstructured CgEnv.allOk meshSeveralBad (some "out.cgns") none).map
          (fun r => (r.ret, r.lastError))
        = some (1, "Unsupported VTK cell type 7")) ∧
    ∃ (r : RunResult) (e : WriteError),
      WriteUnstructured CgEnv.allOk meshSeveralBad (some "out.cgns") none = some r ∧
      r.ret = 1 ∧ r.lastError = e.what ∧
      ((offsetAt meshSeveralBad 1 < 0 ∨ offsetAt meshSeveralBad (1 + 1) < offsetAt meshSeveralBad 1
          ∨ offsetAt meshSeveralBad (1 + 1) > meshSeveralBad.connectivity_size) →
        e = .invalidOffsets (1 : Nat)) ∧
      (¬ (offsetAt meshSeveralBad 1 < 0 ∨
            offsetAt meshSeveralBad (1 + 1) < offsetAt meshSeveralBad 1
          ∨ offsetAt meshSeveralBad (1 + 1) > meshSeveralBad.connectivity_size) →
        (MapVtkCellToCgns (typeAt meshSeveralBad 1) = none →
          e = .unsupportedType (typeAt meshSeveralBad 1)) ∧
        (∀ t n d, MapVtkCellToCgns (typeAt meshSeveralBad 1) = some (t, n, d) →
          (offsetAt meshSeveralBad (1 + 1) - offsetAt meshSeveralBad 1 ≠ (n : Int) →
            e = .nodeCountMismatch (1 : Nat)
              (offsetAt meshSeveralBad (1 + 1) - offsetAt meshSeveralBad 1) n) ∧
          (offsetAt meshSeveralBad (1 + 1) - offsetAt meshSeveralBad 1 = (n : Int) →
            ∃ (j : Nat) (v : Int), e = .connOutOfRange (offsetAt meshSeveralBad 1 + j) ∧
              (cellSlice meshSeveralBad 1)[j]? = some v ∧
              ¬ (0 ≤ v ∧ v < meshSeveralBad.num_points) ∧
              ∀ j', j' < j → ∀ v', (cellSlice meshSeveralBad 1)[j']? = some v' →
                0 ≤ v' ∧ v' < meshSeveralBad.num_points))) :=
  ⟨⟨by decide, by decide, rfl, by decide, by decide, by decide, by decide, by decide⟩,
    C23_first_violation_in_check_order CgEnv.allOk meshSeveralBad (some "out.cgns") none
      (by decide) (by decide) rfl 1 (by decide) (by decide) (by decide)⟩

theorem connReads_range (mesh : UnstructuredMeshInfo) :
    ∀ (n : Nat) (i : Int), ∀ j ∈ connReads mesh n i, i ≤ j ∧ j < i + n := by
  intro n
  induction n with
  | zero => intro i j hj; simp [connReads] at hj
  | succ n ih =>
    intro i j hj
    unfold connReads at hj
    cases hg : GetConn mesh i with
    | error f =>
      rw [hg] at hj
      simp only [List.mem_singleton] at hj
      subst hj
      constructor <;> push_cast <;> omega
    | ok id =>
      rw [hg] at hj
      dsimp only at hj
      split_ifs at hj with hc
      · simp only [List.mem_singleton] at hj
        subst hj
        constructor <;> push_cast <;> omega
      · rcases List.mem_cons.1 hj with rfl | hj
        · constructor <;> push_cast <;> omega
        · have := ih (i + 1) j hj
          constructor <;> push_cast <;> omega

theorem connLoop_fault_logged (mesh : UnstructuredMeshInfo) :
    ∀ (n : Nat) (i : Int) (acc : List Int), connLoop mesh n i acc = .error .outOfBounds →
      ∃ j ∈ connReads mesh n i, GetConn mesh j = .error .outOfBounds := by
  intro n
  induction n with
  | zero => intro i acc h; simp [connLoop] at h
  | succ n ih =>
    intro i acc h
    unfold connLoop at h
    unfold connReads
    cases hg : GetConn mesh i with
    | error f =>
      rw [hg] at h
      dsimp only at h
      cases h
      exact ⟨i, by simp, hg⟩
    | ok id =>
      rw [hg] at h
      dsimp only at h ⊢
      split_ifs at h ⊢ with hc
      · cases h
      · obtain ⟨j, hj, hjf⟩ := ih (i + 1) _ h
        exact ⟨j, List.mem_cons_of_mem _ hj, hjf⟩

theorem WriteUnstructured_returns (env : CgEnv) (mesh : UnstructuredMeshInfo)
    (output_path : Option String) (options : Option CgnsWriteOptions) (hb : buffersOk mesh) :
    ∃ r, WriteUnstructured env mesh output_path options = some r := by
  cases hin : inputCheck mesh output_path with
  | some e =>
    unfold WriteUnstructured
    rw [hin]
    exact ⟨_, rfl⟩
  | none =>
    obtain ⟨r, hr, _⟩ := WriteUnstructured_closes env mesh output_path options hb hin
    exact ⟨r, hr⟩

theorem cellConnReads_spec (mesh : UnstructuredMeshInfo) (hb : buffersOk mesh) (c : Nat)
    (hc : (c : Int) < mesh.num_cells) :
    GetOffset mesh (c : Int) = .ok (offsetAt mesh c) ∧
    GetOffset mesh ((c : Int) + 1) = .ok (offsetAt mesh (c + 1)) ∧
    readAt mesh.types (c : Int) = .ok (typeAt mesh c) ∧
    ∀ i ∈ cellConnReads mesh (c : Int),
      0 ≤ offsetAt mesh c ∧ offsetAt mesh c ≤ i ∧ i < offsetAt mesh (c + 1) ∧
      offsetAt mesh (c + 1) ≤ mesh.connectivity_size ∧ ∃ v, GetConn mesh i = .ok v := by
  obtain ⟨pts, cs, os, ts, hp, hcs, ho, ht, hpl, hcl, hol, htl⟩ := buffersOk_lists hb
  have h1 := GetOffset_ok mesh os ho c (by omega)
  have h2 : GetOffset mesh ((c : Int) + 1) = .ok (offsetAt mesh (c + 1)) := by
    have := GetOffset_ok mesh os ho (c + 1) (by omega)
    rw [Nat.cast_succ] at this
    exact this
  have h3 := readTypes_ok mesh ts ht c (by omega)
  refine ⟨h1, h2, h3, ?_⟩
  intro i hi
  unfold cellConnReads at hi
  rw [h1] at hi
  dsimp only at hi
  rw [h2] at hi
  dsimp only at hi
  split_ifs at hi with hoff
  · cases hi
  · rw [h3] at hi
    dsimp only at hi
    cases hm : MapVtkCellToCgns (typeAt mesh c) with
    | none => rw [hm] at hi; cases hi
    | some r =>
      obtain ⟨t, n, d⟩ := r
      rw [hm] at hi
      dsimp only at hi
      split_ifs at hi with hsz
      · cases hi
      · obtain ⟨ha, hb2⟩ := connReads_range mesh _ _ i hi
        have hlt : i < offsetAt mesh (c + 1) := by
          have : (((offsetAt mesh (c + 1) - offsetAt mesh c).toNat : Nat) : Int)
              = offsetAt mesh (c + 1) - offsetAt mesh c := Int.toNat_of_nonneg (by omega)
          omega
        refine ⟨by omega, ha, hlt, by omega, ?_⟩
        have hidx : i.toNat < cs.length := by omega
        have hi0 : i = ((i.toNat : Nat) : Int) := (Int.toNat_of_nonneg (by omega)).symm
        rw [GetConn_eq, hcs, hi0, readAt_some_get cs i.toNat hidx]
        exact ⟨_, rfl⟩

/-- C24: when the caller's buffers have their declared lengths, `WriteUnstructured`
returns for every content of the buffers, malformed topologies included, so no read is
outside a buffer: the reads of `offsets[c]`, `offsets[c+1]` and `types[c]` succeed for
every cell `c`, every read of `points` below `3 * num_points` succeeds, and every
connectivity index `i` read for cell `c` satisfies
`0 <= offsets[c] <= i < offsets[c+1] <= connectivity_size` and succeeds. -/
theorem C24_every_read_in_bounds (env : CgEnv) (mesh : UnstructuredMeshInfo)
    (output_path : Option String) (options : Option CgnsWriteOptions) (hb : buffersOk mesh) :
    (∃ r, WriteUnstructured env mesh output_path options = some r) ∧
    (∀ c : Nat, (c : Int) < mesh.num_cells →
      GetOffset mesh (c : Int) = .ok (offsetAt mesh c) ∧
      GetOffset mesh ((c : Int) + 1) = .ok (offsetAt mesh (c + 1)) ∧
      readAt mesh.types (c : Int) = .ok (typeAt mesh c) ∧
      ∀ i ∈ cellConnReads mesh (c : Int),
        0 ≤ offsetAt mesh c ∧ offsetAt mesh c ≤ i ∧ i < offsetAt mesh (c + 1) ∧
        offsetAt mesh (c + 1) ≤ mesh.connectivity_size ∧ ∃ v, GetConn mesh i = .ok v) ∧
    (∀ k : Nat, (k : Int) < 3 * mesh.num_points → ∃ v, readAt mesh.points (k : Int) = .ok v) ∧
    (∀ (n : Nat) (i : Int) (acc : List Int), connLoop mesh n i acc = .error .outOfBounds →
      ∃ j ∈ connReads mesh n i, GetConn mesh j = .error .outOfBounds) := by
  refine ⟨WriteUnstructured_returns env mesh output_path options hb,
    fun c hc => cellConnReads_spec mesh hb c hc, ?_, connLoop_fault_logged mesh⟩
  intro k hk
  obtain ⟨pts, cs, os, ts, hp, hcs, ho, ht, hpl, hcl, hol, htl⟩ := buffersOk_lists hb
  rw [hp, readAt_some_get pts k (by omega)]
  exact ⟨_, rfl⟩

theorem C24_witness :
    (buffersOk meshSeveralBad ∧ ¬ allCellsValid meshSeveralBad ∧
      cellConnReads meshSeveralBad 0 = [0, 1, 2] ∧ cellConnReads meshSeveralBad 1 = []) ∧
    (∃ r, WriteUnstructured CgEnv.allOk meshSeveralBad (some "out.cgns") none = some r) ∧
    (∀ c : Nat, (c : Int) < meshSeveralBad.num_cells →
      GetOffset meshSeveralBad (c : Int) = .ok (offsetAt meshSeveralBad c) ∧
      GetOffset meshSeveralBad ((c : Int) + 1) = .ok (offsetAt meshSeveralBad (c + 1)) ∧
      readAt meshSeveralBad.types (c : Int) = .ok (typeAt meshSeveralBad c) ∧
      ∀ i ∈ cellConnReads meshSeveralBad (c : Int),
        0 ≤ offsetAt meshSeveralBad c ∧ offsetAt meshSeveralBad c ≤ i ∧
        i < offsetAt meshSeveralBad (c + 1) ∧
        offsetAt meshSeveralBad (c + 1) ≤ meshSeveralBad.connectivity_size ∧
        ∃ v, GetConn meshSeveralBad i = .ok v) ∧
    (∀ k : Nat, (k : Int) < 3 * meshSeveralBad.num_points →
      ∃ v, readAt meshSeveralBad.points (k : Int) = .ok v) ∧
    (∀ (n : Nat) (i : Int) (acc : List Int),
      connLoop meshSeveralBad n i acc = .error .outOfBounds →
      ∃ j ∈ connReads meshSeveralBad n i, GetConn meshSeveralBad j = .error .outOfBounds) :=
  ⟨⟨by decide, by decide, by decide, by decide⟩,
    C24_every_read_in_bounds CgEnv.allOk meshSeveralBad (some "out.cgns") none (by decide)⟩

theorem rangesDense_unique (rs rs' : List (Int × Int × Int)) (total total' : Int)
    (h : rangesDense rs total) (h' : rangesDense rs' total')
    (hc : rs.map (fun r => r.2.2) = rs'.map (fun r => r.2.2)) :
    rs = rs' ∧ total = total' := by
  obtain ⟨a1, a2, a3, a4, a5⟩ := h
  obtain ⟨b1, b2, b3, b4, b5⟩ := h'
  have hlen : rs.length = rs'.length := by
    have := congrArg List.length hc
    simpa using this
  have hcount : ∀ (k : Nat) (hk : k < rs.length) (hk' : k < rs'.length),
      rs[k].2.2 = rs'[k].2.2 := by
    intro k hk hk'
    have h1 : (rs.map (fun r => r.2.2))[k]? = (rs'.map (fun r => r.2.2))[k]? := by rw [hc]
    rw [List.getElem?_map, List.getElem?_map, List.getElem?_eq_getElem hk,
      List.getElem?_eq_getElem hk'] at h1
    exact Option.some.inj h1
  have hall : ∀ (k : Nat) (hk : k < rs.length) (hk' : k < rs'.length), rs[k] = rs'[k] := by
    intro k
    induction k with
    | zero =>
      intro hk hk'
      have e1 : rs[0].1 = rs'[0].1 := by rw [a1 hk, b1 hk']
      have e3 := hcount 0 hk hk'
      have c1 := a3 rs[0] (List.getElem_mem _)
      have c2 := b3 rs'[0] (List.getElem_mem _)
      have e2 : rs[0].2.1 = rs'[0].2.1 := by omega
      exact Prod.ext e1 (Prod.ext e2 e3)
    | succ k ih =>
      intro hk hk'
      have hprev := ih (by omega) (by omega)
      have e1 : rs[k + 1].1 = rs'[k + 1].1 := by rw [a2 k hk, b2 k hk', hprev]
      have e3 := hcount (k + 1) hk hk'
      have c1 := a3 rs[k + 1] (List.getElem_mem _)
      have c2 := b3 rs'[k + 1] (List.getElem_mem _)
      have e2 : rs[k + 1].2.1 = rs'[k + 1].2.1 := by omega
      exact Prod.ext e1 (Prod.ext e2 e3)
  have heq : rs = rs' := List.ext_getElem hlen (fun k hk hk' => hall k hk hk')
  refine ⟨heq, ?_⟩
  subst heq
  cases hrs : rs with
  | nil => rw [a5 hrs, b5 hrs]
  | cons r rest =>
    have hpos : 0 < rs.length := by rw [hrs]; simp
    rw [a4 hpos, b4 hpos]

theorem map_pair_eq {α β γ δ : Type} (f1 : α → γ) (f2 : β → γ) (g1 : α → δ) (g2 : β → δ) :
    ∀ (l1 : List α) (l2 : List β), l1.map f1 = l2.map f2 → l1.map g1 = l2.map g2 →
      l1.map (fun x => (f1 x, g1 x)) = l2.map (fun x => (f2 x, g2 x)) := by
  intro l1
  induction l1 with
  | nil =>
    intro l2 h _
    cases l2 with
    | nil => rfl
    | cons b l2 => simp at h
  | cons a l1 ih =>
    intro l2 h1 h2
    cases l2 with
    | nil => simp at h1
    | cons b l2 =>
      simp only [List.map_cons, List.cons.injEq] at h1 h2 ⊢
      exact ⟨Prod.ext h1.1 h2.1, ih l2 h1.2 h2.2⟩

namespace Vtk

theorem zoneSectionFor_proj (R R' : List (ElementType × Int × List Int))
    (h : R.map (fun c => (c.1, c.2.2)) = R'.map (fun c => (c.1, c.2.2))) (t : ElementType) :
    (sectionFor R t).conn = (sectionFor R' t).conn ∧
    (sectionFor R t).vtkCellIds.length = (sectionFor R' t).vtkCellIds.length := by
  induction R generalizing R' with
  | nil =>
    cases R' with
    | nil => exact ⟨rfl, rfl⟩
    | cons b R' => simp at h
  | cons a R ih =>
    cases R' with
    | nil => simp at h
    | cons b R' =>
      simp only [List.map_cons, List.cons.injEq, Prod.mk.injEq] at h
      obtain ⟨⟨h1, h2⟩, h3⟩ := h
      obtain ⟨i1, i2⟩ := ih R' h3
      simp only [sectionFor] at i1 i2 ⊢
      by_cases ht : a.1 = t
      · have ht' : b.1 = t := by rw [← h1]; exact ht
        simp only [List.filter_cons, ht, ht', decide_True, if_true, List.map_cons,
          List.flatten_cons, List.length_cons]
        exact ⟨by rw [h2, i1], by rw [i2]⟩
      · have ht' : ¬ b.1 = t := by rw [← h1]; exact ht
        simp only [List.filter_cons, ht, ht', decide_False, Bool.false_eq_true, if_false]
        exact ⟨i1, i2⟩

theorem zoneGroupCells_proj (R R' : List (ElementType × Int × List Int))
    (h : R.map (fun c => (c.1, c.2.2)) = R'.map (fun c => (c.1, c.2.2))) :
    (groupCells R).map (fun s => (s.type, s.name, s.nodesPerElem, s.conn))
      = (groupCells R').map (fun s => (s.type, s.name, s.nodesPerElem, s.conn)) ∧
    (groupCells R).map (fun s => s.vtkCellIds.length)
      = (groupCells R').map (fun s => s.vtkCellIds.length) := by
  have ht : R.map (fun c => c.1) = R'.map (fun c => c.1) := by
    have := congrArg (List.map Prod.fst) h
    simpa [List.map_map, Function.comp_def] using this
  unfold groupCells
  rw [ht, List.map_map, List.map_map, List.map_map, List.map_map]
  constructor
  · apply List.map_congr_left
    intro t _
    simp only [Function.comp_apply]
    rw [(zoneSectionFor_proj R R' h t).1]
    rfl
  · apply List.map_congr_left
    intro t _
    exact (zoneSectionFor_proj R R' h t).2

end Vtk

namespace Vtk

theorem map_range_getD {α β : Type} (l : List α) (d : α) (G : α → β) :
    (List.range l.length).map (fun i => G (l.getD i d)) = l.map G := by
  apply List.ext_getElem
  · simp
  · intro k h1 h2
    simp only [List.length_map, List.length_range] at h1
    simp [List.getD_eq_getElem?_getD, List.getElem?_eq_getElem h1]

theorem kept_dropGhosts (opt : CgnsWriterOptions) (ds : VtkDataSet) (i : Nat) :
    kept opt (dropGhosts opt ds) i = true := by
  simp [kept, isGhost, ghostOf, dropGhosts]

theorem zoneRecs_all_kept (opt : CgnsWriterOptions) (ds : VtkDataSet)
    (hk : ∀ i, kept opt ds i = true) :
    zoneRecs opt ds 0 ds.cells.length
      = (List.range ds.cells.length).map fun i =>
          ((shapeOf ds i).getD .ElementTypeNull, (i : Int), tupleOf opt ds i) := by
  unfold zoneRecs
  rw [List.filter_eq_self.2 (fun i _ => hk i), List.range_eq_range']

theorem zoneRecs_dropGhosts (opt : CgnsWriterOptions) (ds : VtkDataSet) :
    (zoneRecs opt (dropGhosts opt ds) 0 (dropGhosts opt ds).cells.length).map
        (fun c => (c.1, c.2.2))
      = (zoneRecs opt ds 0 ds.cells.length).map (fun c => (c.1, c.2.2)) := by
  rw [zoneRecs_all_kept opt _ (kept_dropGhosts opt ds)]
  have hl : (dropGhosts opt ds).cells
      = ((List.range ds.cells.length).filter (kept opt ds)).map (cellAt ds) := rfl
  have := map_range_getD (dropGhosts opt ds).cells { cellType := 0, pointIds := [] }
    (fun (cell : VtkCell) =>
      (((MapVtkCellToCgns cell.cellType).map fun r => r.1).getD ElementType.ElementTypeNull,
        cell.pointIds.map fun id => if opt.oneBasedConnectivity then id + 1 else id))
  rw [List.map_map]
  simp only [Function.comp_def, shapeOf, tupleOf, cellAt]
  rw [this, hl, List.map_map]
  unfold zoneRecs
  rw [List.map_map, ← List.range_eq_range']
  rfl

theorem zoneValid_dropGhosts (opt : CgnsWriterOptions) (ds : VtkDataSet)
    (hv : zoneValid opt ds) : zoneValid opt (dropGhosts opt ds) := by
  intro i hi _
  have hl : (dropGhosts opt ds).cells
      = ((List.range ds.cells.length).filter (kept opt ds)).map (cellAt ds) := rfl
  have hi' : i < ((List.range ds.cells.length).filter (kept opt ds)).length := by
    rw [hl, List.length_map] at hi; exact hi
  have hcell : cellAt (dropGhosts opt ds) i
      = cellAt ds (((List.range ds.cells.length).filter (kept opt ds))[i]) := by
    unfold cellAt
    rw [hl, List.getD_eq_getElem?_getD, List.getElem?_map, List.getElem?_eq_getElem hi']
    rfl
  have hmem := List.getElem_mem hi'
  rw [List.mem_filter, List.mem_range] at hmem
  have := hv _ hmem.1 hmem.2
  unfold cellSupported at this ⊢
  rw [hcell]
  exact this

theorem zoneLoop_congr_cells (opt : CgnsWriterOptions) (ghost : Option (List Nat)) (n : Int) :
    ∀ (cells cells' : List VtkCell) (cid : Int) (st : ZoneState),
      cells.length = cells'.length →
      (∀ k : Nat, k < cells.length →
        ghostSkip ghost n (cid + k) = .ok true ∨ cells[k]? = cells'[k]?) →
      zoneLoop opt ghost n cid cells st = zoneLoop opt ghost n cid cells' st := by
  intro cells
  induction cells with
  | nil =>
    intro cells' cid st hl _
    cases cells' with
    | nil => rfl
    | cons b l => simp at hl
  | cons a rest ih =>
    intro cells' cid st hl h
    cases cells' with
    | nil => simp at hl
    | cons b rest' =>
      have hrest : zoneLoop opt ghost n (cid + 1) rest = zoneLoop opt ghost n (cid + 1) rest' := by
        funext st1
        apply ih rest' (cid + 1) st1 (by simpa using hl)
        intro k hk
        have := h (k + 1) (by simp; omega)
        simp only [List.getElem?_cons_succ] at this
        rcases this with h1 | h1
        · left
          rw [← h1]
          congr 1
          push_cast
          ring
        · right; exact h1
      have hstep : zoneCellStep opt ghost n cid a st = zoneCellStep opt ghost n cid b st := by
        have := h 0 (by simp)
        simp only [List.getElem?_cons_zero, Option.some.injEq, Nat.cast_zero, add_zero] at this
        rcases this with h1 | h1
        · unfold zoneCellStep
          rw [h1]
        · rw [h1]
      unfold zoneLoop
      rw [hstep, hrest]

theorem buildZone_congr_kept (opt : CgnsWriterOptions) (ds ds' : VtkDataSet)
    (hn : ds'.numPoints = ds.numPoints) (hg : ds'.ghostArray = ds.ghostArray)
    (hl : ds'.cells.length = ds.cells.length)
    (hc : ∀ i, kept opt ds i = true → ds'.cells[i]? = ds.cells[i]?) :
    buildZone opt ds' = buildZone opt ds := by
  have hgo : ghostOf opt ds' = ghostOf opt ds := by
    unfold ghostOf; rw [hg]
  unfold buildZone
  dsimp only
  rw [hgo, hl, hn]
  rw [zoneLoop_congr_cells opt (ghostOf opt ds) (ds.cells.length : Int) ds'.cells ds.cells 0
    _ hl (fun k hk => by
      rw [hl] at hk
      cases hkk : kept opt ds k with
      | true => right; exact hc k hkk
      | false =>
        left
        rw [zero_add, ghostSkip_eq opt ds k hk]
        unfold kept at hkk
        cases hig : isGhost opt ds k with
        | true => rfl
        | false => rw [hig] at hkk; cases hkk)]

theorem buildZone_fails_of_unsupported (opt : CgnsWriterOptions) (ds : VtkDataSet) (c : Nat)
    (hc : c < ds.cells.length) (hk : kept opt ds c = true) (hbad : ¬ cellSupported ds c) :
    ∃ e, buildZone opt ds = .error (.thrown e) := by
  have hspec := buildZone_spec opt ds
  cases hfe : firstErr opt ds ds.cells.length 0 with
  | some e =>
    rw [hfe] at hspec
    exact ⟨e, hspec⟩
  | none =>
    exact absurd ((firstErr_none_iff_valid opt ds).1 hfe c hc hk) hbad

end Vtk

namespace Vtk

theorem zone_sections_eq_of_proj (opt : CgnsWriterOptions) (ds ds' : VtkDataSet)
    (hv : zoneValid opt ds) (hv' : zoneValid opt ds')
    (hR : (zoneRecs opt ds' 0 ds'.cells.length).map (fun c => (c.1, c.2.2))
      = (zoneRecs opt ds 0 ds.cells.length).map (fun c => (c.1, c.2.2))) :
    ∃ zb zb', buildZone opt ds = .ok zb ∧ buildZone opt ds' = .ok zb' ∧
      zb'.sections.map (fun s => (s.type, s.name, s.nodesPerElem, s.conn, s.start, s.end_))
        = zb.sections.map (fun s => (s.type, s.name, s.nodesPerElem, s.conn, s.start, s.end_)) ∧
      zb'.nCellsWritten = zb.nCellsWritten := by
  obtain ⟨zb, hzb, hs, _⟩ := zone_table opt ds hv
  obtain ⟨zb', hzb', hs', _⟩ := zone_table opt ds' hv'
  obtain ⟨p1, p2⟩ := zoneGroupCells_proj _ _ hR
  have e1 : zb'.sections.map (fun s => (s.type, s.name, s.nodesPerElem, s.conn))
      = zb.sections.map (fun s => (s.type, s.name, s.nodesPerElem, s.conn)) := by
    have a := congrArg (List.map (fun (x : ElementType × String × Nat × List Int × List Int) =>
      (x.1, x.2.1, x.2.2.1, x.2.2.2.2))) hs
    have b := congrArg (List.map (fun (x : ElementType × String × Nat × List Int × List Int) =>
      (x.1, x.2.1, x.2.2.1, x.2.2.2.2))) hs'
    simp only [List.map_map, Function.comp_def] at a b
    rw [a, b]
    exact p1
  have e2 : zb'.sections.map (fun s => s.vtkCellIds.length)
      = zb.sections.map (fun s => s.vtkCellIds.length) := by
    have a := congrArg (List.map (fun (x : ElementType × String × Nat × List Int × List Int) =>
      x.2.2.2.1.length)) hs
    have b := congrArg (List.map (fun (x : ElementType × String × Nat × List Int × List Int) =>
      x.2.2.2.1.length)) hs'
    simp only [List.map_map, Function.comp_def] at a b
    rw [a, b]
    exact p2
  obtain ⟨e3, e4⟩ := rangesDense_unique _ _ _ _ (zone_ranges opt ds' zb' hzb')
    (zone_ranges opt ds zb hzb) (by
      simp only [List.map_map, Function.comp_def, Section.range]
      have := congrArg (List.map (fun (n : Nat) => (n : Int))) e2
      simpa [List.map_map, Function.comp_def] using this)
  refine ⟨zb, zb', hzb, hzb', ?_, e4⟩
  have := map_pair_eq (fun (s : Section) => (s.type, s.name, s.nodesPerElem, s.conn))
    (fun (s : Section) => (s.type, s.name, s.nodesPerElem, s.conn))
    Section.range Section.range zb'.sections zb.sections e1 e3
  have := congrArg (List.map (fun (x : (ElementType × String × Nat × List Int) × (Int × Int × Int)) =>
    (x.1.1, x.1.2.1, x.1.2.2.1, x.1.2.2.2, x.2.1, x.2.2.1))) this
  simpa [List.map_map, Function.comp_def, Section.range] using this

/-- C22: with `skipGhostCells` enabled and a ghost array of matching length, the zone
writer looks at no flagged cell. If the unflagged cells are supported the zone is built,
whatever the shape codes and point counts of the flagged cells; its sections, ranges and
element count are those of the dataset without the flagged cells, and the table entry of
each flagged cell is the sentinel 0; any dataset that differs only in flagged cells gives
the same result. With `skipGhostCells` disabled, a flagged cell that has an unsupported
shape code or a wrong point count makes the zone writer fail. -/
theorem C22_ghost_filter_precedes_shape_mapping (opt : CgnsWriterOptions) (ds : VtkDataSet)
    (g : List Nat) (hskip : opt.skipGhostCells = true) (hg : ds.ghostArray = some g)
    (hlen : g.length = ds.cells.length)
    (hv : ∀ i, i < ds.cells.length → g.getD i 0 = 0 → cellSupported ds i) :
    (∃ zb zb', buildZone opt ds = .ok zb ∧ buildZone opt (dropGhosts opt ds) = .ok zb' ∧
      zb.sections.map (fun s => (s.type, s.name, s.nodesPerElem, s.conn, s.start, s.end_))
        = zb'.sections.map
            (fun s => (s.type, s.name, s.nodesPerElem, s.conn, s.start, s.end_)) ∧
      zb.nCellsWritten = zb'.nCellsWritten ∧
      (dropGhosts opt ds).cells
        = ((List.range ds.cells.length).filter fun i => decide (g.getD i 0 = 0)).map
            (cellAt ds) ∧
      ∀ i, i < ds.cells.length → g.getD i 0 ≠ 0 → zb.cellToElem[i]? = some 0) ∧
    (∀ ds' : VtkDataSet, ds'.numPoints = ds.numPoints → ds'.ghostArray = ds.ghostArray →
      ds'.cells.length = ds.cells.length →
      (∀ i, g.getD i 0 = 0 → ds'.cells[i]? = ds.cells[i]?) →
      buildZone opt ds' = buildZone opt ds) ∧
    (∀ c, c < ds.cells.length → g.getD c 0 ≠ 0 → ¬ cellSupported ds c →
      ∃ e, buildZone { opt with skipGhostCells := false } ds = .error (.thrown e)) := by
  have hk : ∀ i, kept opt ds i = decide (g.getD i 0 = 0) :=
    fun i => kept_eq_of_ghost opt ds g hskip hg hlen i
  have hvalid : zoneValid opt ds := by
    intro i hi hki
    rw [hk i] at hki
    exact hv i hi (of_decide_eq_true hki)
  refine ⟨?_, ?_, ?_⟩
  · obtain ⟨zb, zb', h1, h2, h3, h4⟩ := zone_sections_eq_of_proj opt ds (dropGhosts opt ds)
      hvalid (zoneValid_dropGhosts opt ds hvalid) (zoneRecs_dropGhosts opt ds)
    obtain ⟨zb0, hzb0, _, _, _, _, _, _, hdrop, _⟩ := zone_table opt ds hvalid
    rw [h1] at hzb0
    cases hzb0
    refine ⟨zb, zb', h1, h2, h3.symm, h4.symm, ?_, ?_⟩
    · unfold dropGhosts
      dsimp only
      congr 1
      apply List.filter_congr
      intro i _
      exact hk i
    · intro i hi hgi
      apply hdrop i hi
      rw [hk i]
      exact decide_eq_false hgi
  · intro ds' hn hg' hl hc
    apply buildZone_congr_kept opt ds ds' hn hg' hl
    intro i hki
    rw [hk i] at hki
    exact hc i (of_decide_eq_true hki)
  · intro c hc _ hbad
    apply buildZone_fails_of_unsupported _ ds c hc _ hbad
    simp [kept, isGhost, ghostOf]

theorem C22_witness :
    (CgnsWriterOptions.default.skipGhostCells = true ∧
      dsGhostPolygon.ghostArray = some [0, 1, 0] ∧
      [0, 1, 0].length = dsGhostPolygon.cells.length ∧
      (∀ i, i < dsGhostPolygon.cells.length → [0, 1, 0].getD i 0 = 0 →
        cellSupported dsGhostPolygon i) ∧
      ¬ cellSupported dsGhostPolygon 1 ∧
      (buildZone CgnsWriterOptions.default dsGhostPolygon).toOption.map
          (fun zb => (zb.sections.map fun s => (s.name, s.conn, s.start, s.end_),
            zb.cellToElem, zb.nCellsWritten))
        = some ([("Tris", [1, 2, 3, 2, 3, 5], 1, 2)], [1, 0, 2], 2) ∧
      buildZone { CgnsWriterOptions.default with skipGhostCells := false } dsGhostPolygon
        = .error (.thrown (.vtkUnsupportedType 7))) ∧
    (∃ zb zb', buildZone CgnsWriterOptions.default dsGhostPolygon = .ok zb ∧
      buildZone CgnsWriterOptions.default (dropGhosts CgnsWriterOptions.default dsGhostPolygon)
        = .ok zb' ∧
      zb.sections.map (fun s => (s.type, s.name, s.nodesPerElem, s.conn, s.start, s.end_))
        = zb'.sections.map
            (fun s => (s.type, s.name, s.nodesPerElem, s.conn, s.start, s.end_)) ∧
      zb.nCellsWritten = zb'.nCellsWritten ∧
      (dropGhosts CgnsWriterOptions.default dsGhostPolygon).cells
        = ((List.range dsGhostPolygon.cells.length).filter
            fun i => decide ([0, 1, 0].getD i 0 = 0)).map (cellAt dsGhostPolygon) ∧
      ∀ i, i < dsGhostPolygon.cells.length → [0, 1, 0].getD i 0 ≠ 0 →
        zb.cellToElem[i]? = some 0) ∧
    (∀ ds' : VtkDataSet, ds'.numPoints = dsGhostPolygon.numPoints →
      ds'.ghostArray = dsGhostPolygon.ghostArray →
      ds'.cells.length = dsGhostPolygon.cells.length →
      (∀ i, [0, 1, 0].getD i 0 = 0 → ds'.cells[i]? = dsGhostPolygon.cells[i]?) →
      buildZone CgnsWriterOptions.default ds'
        = buildZone CgnsWriterOptions.default dsGhostPolygon) ∧
    (∀ c, c < dsGhostPolygon.cells.length → [0, 1, 0].getD c 0 ≠ 0 →
      ¬ cellSupported dsGhostPolygon c →
      ∃ e, buildZone { CgnsWriterOptions.default with skipGhostCells := false } dsGhostPolygon
        = .error (.thrown e)) :=
  ⟨⟨rfl, rfl, by decide, by decide, by decide, rfl, rfl⟩,
    C22_ghost_filter_precedes_shape_mapping CgnsWriterOptions.default dsGhostPolygon [0, 1, 0]
      rfl rfl (by decide) (by decide)⟩

end Vtk

namespace Vtk

theorem firstErr_eq_of_first (opt : CgnsWriterOptions) (ds : VtkDataSet) (e : WriteError) :
    ∀ (n a i : Nat), a ≤ i → i < a + n → (∀ j, a ≤ j → j < i → cellErr opt ds j = none) →
      cellErr opt ds i = some e → firstErr opt ds n a = some e := by
  intro n
  induction n with
  | zero => intro a i h1 h2; omega
  | succ n ih =>
    intro a i h1 h2 hprev he
    unfold firstErr
    by_cases hai : a = i
    · subst hai
      rw [he]
    · rw [hprev a (le_refl _) (by omega)]
      dsimp only
      exact ih (a + 1) i (by omega) (by omega) (fun j hj1 hj2 => hprev j (by omega) hj2) he

theorem zoneNames_append (a b : List CgCall) :
    zoneNames (a ++ b) = zoneNames a ++ zoneNames b := by
  unfold zoneNames
  rw [List.filterMap_append]

theorem stepCalls_append (a b : List Step) :
    stepCalls (a ++ b) = stepCalls a ++ stepCalls b := by
  unfold stepCalls
  rw [List.filterMap_append]

theorem stepCalls_flatten (l : List (List Step)) :
    stepCalls l.flatten = (l.map stepCalls).flatten := by
  induction l with
  | nil => rfl
  | cons a l ih => rw [List.flatten_cons, stepCalls_append, ih]; rfl

theorem zoneNames_flatten (l : List (List CgCall)) :
    zoneNames l.flatten = (l.map zoneNames).flatten := by
  induction l with
  | nil => rfl
  | cons a l ih => rw [List.flatten_cons, zoneNames_append, ih]; rfl

theorem plain_names (l : List Step)
    (h : ∀ s ∈ l, ∃ c w, s = .ok (c, w) ∧ zoneNames [c] = []) :
    (∀ s ∈ l, ∃ c w, s = .ok (c, w)) ∧ zoneNames (stepCalls l) = [] := by
  induction l with
  | nil => exact ⟨(by intro s hs; cases hs), rfl⟩
  | cons a l ih =>
    obtain ⟨c, w, rfl, hc⟩ := h _ (List.mem_cons_self _ _)
    obtain ⟨i1, i2⟩ := ih (fun s hs => h s (List.mem_cons_of_mem _ hs))
    refine ⟨?_, ?_⟩
    · intro s hs
      rcases List.mem_cons.1 hs with rfl | hs
      · exact ⟨c, w, rfl⟩
      · exact i1 s hs
    · rw [stepCalls_cons_ok]
      have : c :: stepCalls l = [c] ++ stepCalls l := rfl
      rw [this, zoneNames_append, hc, i2]
      rfl

theorem plain_append (a b : List Step)
    (ha : ∀ s ∈ a, ∃ c w, s = .ok (c, w) ∧ zoneNames [c] = [])
    (hb : ∀ s ∈ b, ∃ c w, s = .ok (c, w) ∧ zoneNames [c] = []) :
    ∀ s ∈ a ++ b, ∃ c w, s = .ok (c, w) ∧ zoneNames [c] = [] := by
  intro s hs
  rcases List.mem_append.1 hs with h | h
  · exact ha s h
  · exact hb s h

theorem plain_nil : ∀ s ∈ ([] : List Step), ∃ c w, s = .ok (c, w) ∧ zoneNames [c] = [] := by
  intro s hs; cases hs

theorem plain_ite (b : Bool) (a : List Step)
    (ha : ∀ s ∈ a, ∃ c w, s = .ok (c, w) ∧ zoneNames [c] = []) :
    ∀ s ∈ (if b = true then a else []), ∃ c w, s = .ok (c, w) ∧ zoneNames [c] = [] := by
  cases b
  · exact plain_nil
  · exact ha

theorem coords_plain (cs : Coords) :
    ∀ s ∈ WriteCoords cs, ∃ c w, s = .ok (c, w) ∧ zoneNames [c] = [] := by
  intro s hs
  unfold WriteCoords at hs
  simp only [List.mem_cons, List.mem_singleton, List.not_mem_nil, or_false] at hs
  rcases hs with rfl | rfl | rfl <;> exact ⟨_, _, rfl, rfl⟩

theorem sections_plain (secs : List Section) :
    ∀ s ∈ sectionSteps secs, ∃ c w, s = .ok (c, w) ∧ zoneNames [c] = [] := by
  intro s hs
  unfold sectionSteps at hs
  obtain ⟨x, _, rfl⟩ := List.mem_map.1 hs
  exact ⟨_, _, rfl, rfl⟩

theorem pointData_plain (ds : DataSet) :
    ∀ s ∈ WriteFlowSolutionPointData ds, ∃ c w, s = .ok (c, w) ∧ zoneNames [c] = [] := by
  unfold WriteFlowSolutionPointData
  cases ds.pointData with
  | none => exact plain_nil
  | some arrays =>
    dsimp only
    intro s hs
    rcases List.mem_cons.1 hs with rfl | hs
    · exact ⟨_, _, rfl, rfl⟩
    · obtain ⟨a, ha, hsa⟩ := List.mem_flatten.1 hs
      obtain ⟨p, _, rfl⟩ := List.mem_map.1 ha
      cases hp : p.2 with
      | none => rw [hp] at hsa; cases hsa
      | some arr =>
        rw [hp] at hsa
        dsimp only at hsa
        unfold pointArraySteps at hsa
        obtain ⟨c, _, rfl⟩ := List.mem_map.1 hsa
        exact ⟨_, _, rfl, rfl⟩

theorem cellData_plain (ds : DataSet) (tbl : List Int) (n : Int)
    (h : ∀ g : Int → Rat, ∃ buf, cellFieldValues tbl n (ds.topo.cells.length : Int) g = .ok buf) :
    ∀ s ∈ WriteFlowSolutionCellData ds tbl n, ∃ c w, s = .ok (c, w) ∧ zoneNames [c] = [] := by
  unfold WriteFlowSolutionCellData
  cases ds.cellData with
  | none => exact plain_nil
  | some arrays =>
    dsimp only
    intro s hs
    rcases List.mem_cons.1 hs with rfl | hs
    · exact ⟨_, _, rfl, rfl⟩
    · obtain ⟨a, ha, hsa⟩ := List.mem_flatten.1 hs
      obtain ⟨p, _, rfl⟩ := List.mem_map.1 ha
      cases hp : p.2 with
      | none => rw [hp] at hsa; cases hsa
      | some arr =>
        rw [hp] at hsa
        dsimp only at hsa
        unfold cellArraySteps at hsa
        obtain ⟨c, _, rfl⟩ := List.mem_map.1 hsa
        obtain ⟨buf, hbuf⟩ := h (fun cid => arr.getComponent cid c)
        rw [hbuf]
        exact ⟨_, _, rfl, rfl⟩

theorem zoneSteps_clean (opt : CgnsWriterOptions) (z : DataSet × String)
    (hw : zoneWritable opt z.1) :
    (∀ s ∈ zoneSteps opt z, ∃ c w, s = .ok (c, w)) ∧
      zoneNames (stepCalls (zoneSteps opt z)) = [z.2] := by
  unfold zoneWritable at hw
  unfold zoneSteps
  cases hst : IsStructured z.1 with
  | true =>
    rw [hst, if_pos rfl] at hw
    rw [if_pos rfl]
    unfold WriteZoneStructured
    rw [hst, if_pos rfl]
    dsimp only
    have hc : ∃ cs, GetStructuredCoords z.1 z.1.dims (InferPhysicalDim z.1) = .ok cs := by
      by_cases hk : z.1.kind = .rectilinearGrid
      · obtain ⟨cs, h, _⟩ := GetStructuredCoords_rectilinear z.1 z.1.dims.1 z.1.dims.2.1
          z.1.dims.2.2 (InferPhysicalDim z.1) hk (hw hk)
        exact ⟨cs, h⟩
      · unfold GetStructuredCoords
        cases hkind : z.1.kind with
        | rectilinearGrid => exact absurd hkind hk
        | imageData => exact ⟨_, rfl⟩
        | structuredGrid => exact ⟨_, rfl⟩
        | pointSet => exact ⟨_, rfl⟩
        | other => exact ⟨_, rfl⟩
    obtain ⟨cs, hcs⟩ := hc
    rw [hcs]
    dsimp only
    obtain ⟨p1, p2⟩ := plain_names _ (plain_append _ _
      (plain_append _ _ (coords_plain cs) (plain_ite _ _ (pointData_plain z.1)))
      (plain_ite _ _ (cellData_plain z.1 _ _
        (fun g => identity_scatter_ok z.1.topo.cells.length g))))
    refine ⟨?_, ?_⟩
    · intro s hs
      rcases List.mem_cons.1 hs with rfl | hs
      · exact ⟨_, _, rfl⟩
      · exact p1 s hs
    · rw [stepCalls_cons_ok]
      have : ∀ (c : CgCall) (l : List CgCall), c :: l = [c] ++ l := fun _ _ => rfl
      rw [this, zoneNames_append, p2]
      rfl
  | false =>
    rw [hst] at hw
    simp only [Bool.false_eq_true, if_false] at hw ⊢
    unfold WriteZoneUnstructured
    dsimp only
    obtain ⟨zb, hzb, hs⟩ := zone_scatter_ok opt z.1.topo hw
    rw [hzb]
    dsimp only
    obtain ⟨p1, p2⟩ := plain_names _ (plain_append _ _
      (plain_append _ _ (plain_append _ _ (coords_plain _) (sections_plain zb.sections))
        (plain_ite _ _ (pointData_plain z.1)))
      (plain_ite _ _ (cellData_plain z.1 _ _ hs)))
    refine ⟨?_, ?_⟩
    · intro s hs
      rcases List.mem_cons.1 hs with rfl | hs
      · exact ⟨_, _, rfl⟩
      · exact p1 s hs
    · rw [stepCalls_cons_ok]
      have : ∀ (c : CgCall) (l : List CgCall), c :: l = [c] ++ l := fun _ _ => rfl
      rw [this, zoneNames_append, p2]
      rfl

theorem zones_clean (opt : CgnsWriterOptions) :
    ∀ (pre : List (DataSet × String)), (∀ p ∈ pre, zoneWritable opt p.1) →
      (∀ s ∈ (pre.map (zoneSteps opt)).flatten, ∃ c w, s = .ok (c, w)) ∧
      zoneNames (stepCalls (pre.map (zoneSteps opt)).flatten) = pre.map (fun p => p.2) := by
  intro pre
  induction pre with
  | nil => intro _; exact ⟨(by intro s hs; cases hs), rfl⟩
  | cons p pre ih =>
    intro h
    obtain ⟨a1, a2⟩ := zoneSteps_clean opt p (h p (List.mem_cons_self _ _))
    obtain ⟨b1, b2⟩ := ih (fun q hq => h q (List.mem_cons_of_mem _ hq))
    simp only [List.map_cons, List.flatten_cons]
    refine ⟨?_, ?_⟩
    · intro s hs
      rcases List.mem_append.1 hs with hs | hs
      · exact a1 s hs
      · exact b1 s hs
    · rw [stepCalls_append, zoneNames_append, a2, b2]
      rfl

theorem runSteps_ok_prefix (env : CgEnv) (hok : ∀ n, env.answer n = none) :
    ∀ (oks : List Step) (rest : List Step) (tr : List CgCall),
      (∀ s ∈ oks, ∃ c w, s = .ok (c, w)) →
      runSteps env tr (oks ++ rest) = runSteps env (tr ++ stepCalls oks) rest := by
  intro oks
  induction oks with
  | nil => intro rest tr _; simp [stepCalls]
  | cons a oks ih =>
    intro rest tr h
    obtain ⟨c, w, rfl⟩ := h _ (List.mem_cons_self _ _)
    rw [List.cons_append, stepCalls_cons_ok]
    have : runSteps env tr (Except.ok (c, w) :: (oks ++ rest))
        = runSteps env (tr ++ [c]) (oks ++ rest) := by
      simp only [runSteps, hok]
    rw [this, ih rest (tr ++ [c]) (fun s hs => h s (List.mem_cons_of_mem _ hs))]
    simp

end Vtk

namespace Vtk

theorem cellErr_unsupported (opt : CgnsWriterOptions) (ds : VtkDataSet) (c : Nat)
    (hkept : kept opt ds c = true)
    (hbad : MapVtkCellToCgns (cellAt ds c).cellType = none) :
    cellErr opt ds c = some (.vtkUnsupportedType (cellAt ds c).cellType) := by
  unfold cellErr
  unfold kept at hkept
  cases hg : isGhost opt ds c with
  | true => rw [hg] at hkept; cases hkept
  | false =>
    simp only [Bool.false_eq_true, if_false]
    rw [hbad]

theorem zoneSteps_unsupported (opt : CgnsWriterOptions) (z : DataSet × String) (c : Nat)
    (hns : IsStructured z.1 = false) (hc : c < z.1.topo.cells.length)
    (hkept : kept opt z.1.topo c = true)
    (hbad : MapVtkCellToCgns (cellAt z.1.topo c).cellType = none)
    (hfirst : ∀ j, j < c → kept opt z.1.topo j = true → cellSupported z.1.topo j) :
    zoneSteps opt z
      = [.error (.thrown (.vtkUnsupportedType (cellAt z.1.topo c).cellType))] := by
  have hfe : firstErr opt z.1.topo z.1.topo.cells.length 0
      = some (.vtkUnsupportedType (cellAt z.1.topo c).cellType) :=
    firstErr_eq_of_first opt z.1.topo _ _ 0 c (Nat.zero_le _) (by omega)
      (fun j _ hj => (cellErr_none_iff opt z.1.topo j).2 (hfirst j hj))
      (cellErr_unsupported opt z.1.topo c hkept hbad)
  have hspec := buildZone_spec opt z.1.topo
  rw [hfe] at hspec
  dsimp only at hspec
  unfold zoneSteps
  rw [hns]
  simp only [Bool.false_eq_true, if_false]
  unfold WriteZoneUnstructured
  dsimp only
  rw [hspec]

/-- C21 (as amended): let the library calls succeed, let the zones before zone `z` be
written without failure, and let `z` be a zone of the unstructured writer whose first
failing kept cell `c` has a shape code outside the supported vocabulary. Then
`CgnsWriter::Write` fails with the unsupported-shape error for that code before zone `z`
is created: the zones created are exactly the zones before `z`, so none when `z` is the
first zone (as for a single dataset), and the last call is the `cg_close` of the
handler. -/
theorem C21_unsupported_shape_fails_before_its_zone (env : CgEnv) (input : DataObject)
    (fileName : String) (opt : CgnsWriterOptions) (pre post : List (DataSet × String))
    (z : DataSet × String) (c : Nat)
    (hok : ∀ n, env.answer n = none) (hname : fileName ≠ "")
    (hz : FlattenToZones (some input) opt = pre ++ z :: post)
    (hpre : ∀ p ∈ pre, zoneWritable opt p.1)
    (hns : IsStructured z.1 = false) (hc : c < z.1.topo.cells.length)
    (hkept : kept opt z.1.topo c = true)
    (hbad : MapVtkCellToCgns (cellAt z.1.topo c).cellType = none)
    (hfirst : ∀ j, j < c → kept opt z.1.topo j = true → cellSupported z.1.topo j) :
    ∃ out, Write env (some input) fileName opt = some out ∧
      out.error = some (.vtkUnsupportedType (cellAt z.1.topo c).cellType) ∧
      zoneNames out.trace = pre.map (fun p => p.2) ∧
      (pre = [] → zoneNames out.trace = []) ∧
      out.trace.getLast? = some CgCall.cg_close := by
  obtain ⟨c1, c2⟩ := zones_clean opt pre hpre
  have hzs := zoneSteps_unsupported opt z c hns hc hkept hbad hfirst
  obtain ⟨first, rest, hfr⟩ : ∃ first rest, pre ++ z :: post = first :: rest := by
    cases pre with
    | nil => exact ⟨z, post, rfl⟩
    | cons p pre' => exact ⟨p, pre' ++ z :: post, rfl⟩
  have hsteps : writeSteps (some input) opt
      = (Except.ok (CgCall.cg_base_write opt.baseName (InferCellDim first.1)
            (InferPhysicalDim first.1), "cg_base_write")
          :: (pre.map (zoneSteps opt)).flatten)
        ++ (Except.error (Fault.thrown (.vtkUnsupportedType (cellAt z.1.topo c).cellType))
          :: ((post.map (zoneSteps opt)).flatten
            ++ [Except.ok (CgCall.cg_close, "cg_close")])) := by
    unfold writeSteps
    rw [hz, hfr]
    dsimp only
    rw [← hfr, List.map_append, List.map_cons, List.flatten_append, List.flatten_cons, hzs]
    simp
  have hoks : ∀ s ∈ (Except.ok (CgCall.cg_base_write opt.baseName (InferCellDim first.1)
      (InferPhysicalDim first.1), "cg_base_write") : Step)
        :: (pre.map (zoneSteps opt)).flatten, ∃ c w, s = .ok (c, w) := by
    intro s hs
    rcases List.mem_cons.1 hs with rfl | hs
    · exact ⟨_, _, rfl⟩
    · exact c1 s hs
  have hrun : ∀ tr, runSteps env tr (writeSteps (some input) opt)
      = (tr ++ stepCalls ((Except.ok (CgCall.cg_base_write opt.baseName (InferCellDim first.1)
            (InferPhysicalDim first.1), "cg_base_write") : Step)
          :: (pre.map (zoneSteps opt)).flatten),
        some (Fault.thrown (.vtkUnsupportedType (cellAt z.1.topo c).cellType))) := by
    intro tr
    rw [hsteps, runSteps_ok_prefix env hok _ _ tr hoks]
    rfl
  have hnames : ∀ b : Bool, zoneNames
      (((if b = true then [CgCall.cg_set_file_type opt.useHdf5] else [])
          ++ [CgCall.cg_open fileName])
        ++ stepCalls ((Except.ok (CgCall.cg_base_write opt.baseName (InferCellDim first.1)
            (InferPhysicalDim first.1), "cg_base_write") : Step)
          :: (pre.map (zoneSteps opt)).flatten)
        ++ [CgCall.cg_close]) = pre.map (fun p => p.2) := by
    intro b
    rw [zoneNames_append, zoneNames_append, stepCalls_cons_ok]
    have h1 : zoneNames ((if b = true then [CgCall.cg_set_file_type opt.useHdf5] else [])
        ++ [CgCall.cg_open fileName]) = [] := by
      cases b <;> rfl
    have h2 : ∀ (x : CgCall) (l : List CgCall), x :: l = [x] ++ l := fun _ _ => rfl
    rw [h1, h2, zoneNames_append, c2]
    have h3 : zoneNames [CgCall.cg_base_write opt.baseName (InferCellDim first.1)
        (InferPhysicalDim first.1)] = [] := rfl
    have h4 : zoneNames [CgCall.cg_close] = [] := rfl
    rw [h3, h4]
    simp
  unfold Write
  dsimp only
  rw [if_neg hname, hok]
  dsimp only
  rw [hrun]
  dsimp only
  refine ⟨_, rfl, rfl, hnames _, ?_, ?_⟩
  · intro hp
    dsimp only
    rw [hnames, hp]
    rfl
  · dsimp only
    rw [List.getLast?_append]
    rfl

theorem C21_witness :
    ((∀ n, CgEnv.allOk.answer n = none) ∧ ("o.cgns" : String) ≠ "" ∧
      FlattenToZones (some (.composite leavesPolygon)) CgnsWriterOptions.default
        = [(dsVelocity, "Zone0")] ++ (dsPolygonZone, "Zone1") :: [] ∧
      (∀ p ∈ [(dsVelocity, "Zone0")], zoneWritable CgnsWriterOptions.default p.1) ∧
      IsStructured dsPolygonZone = false ∧ 0 < dsPolygonZone.topo.cells.length ∧
      kept CgnsWriterOptions.default dsPolygonZone.topo 0 = true ∧
      MapVtkCellToCgns (cellAt dsPolygonZone.topo 0).cellType = none ∧
      (cellAt dsPolygonZone.topo 0).cellType = 7) ∧
    ∃ out, Write CgEnv.allOk (some (.composite leavesPolygon)) "o.cgns"
        CgnsWriterOptions.default = some out ∧
      out.error = some (.vtkUnsupportedType (cellAt dsPolygonZone.topo 0).cellType) ∧
      zoneNames out.trace = [(dsVelocity, "Zone0")].map (fun p => p.2) ∧
      ([(dsVelocity, "Zone0")] = [] → zoneNames out.trace = []) ∧
      out.trace.getLast? = some CgCall.cg_close :=
  ⟨⟨fun _ => rfl, by decide, rfl, by decide, rfl, by decide, rfl, rfl, rfl⟩,
    C21_unsupported_shape_fails_before_its_zone CgEnv.allOk (.composite leavesPolygon) "o.cgns"
      CgnsWriterOptions.default [(dsVelocity, "Zone0")] [] (dsPolygonZone, "Zone1") 0
      (fun _ => rfl) (by decide) rfl (by decide) rfl (by decide) rfl rfl
      (fun j hj => absurd hj (Nat.not_lt_zero j))⟩

/-- C21 (counterexample): in the composite of the two triangles of `dsVelocity` and the
polygon of `dsPolygonZone`, a kept cell of the second zone has the unsupported shape code
7; the call fails with the unsupported-shape error for 7, but only after the first zone
was created: the trace holds the `cg_zone_write` of "Zone0". And a structured zone is
written whatever the shape codes of its cells: the image `dsImageVoxel`, whose cell has
the unsupported code 11, is written without error. -/
theorem C21_counterexample :
    (FlattenToZones (some (.composite leavesPolygon)) CgnsWriterOptions.default).map
        (fun z => (z.2, z.1.topo.cells.map fun c => c.cellType))
      = [("Zone0", [5, 5]), ("Zone1", [7])] ∧
    MapVtkCellToCgns 7 = none ∧
    (Write CgEnv.allOk (some (.composite leavesPolygon)) "o.cgns"
        CgnsWriterOptions.default).map (fun o => (o.error, zoneNames o.trace))
      = some (some (.vtkUnsupportedType 7), ["Zone0"]) ∧
    MapVtkCellToCgns 11 = none ∧
    (Write CgEnv.allOk (some (.dataSet dsImageVoxel)) "o.cgns"
        CgnsWriterOptions.default).map (fun o => (o.error, zoneNames o.trace))
      = some (none, ["Zone0"]) := by
  refine ⟨rfl, rfl, rfl, rfl, rfl⟩

end Vtk

namespace Vtk

theorem zone_section_conn (opt : CgnsWriterOptions) (ds : VtkDataSet) (hv : zoneValid opt ds) :
    ∃ zb, buildZone opt ds = .ok zb ∧
      ∀ s ∈ zb.sections,
        s.conn =
          (((List.range ds.cells.length).filter fun j =>
            kept opt ds j && decide (shapeOf ds j = some s.type)).map
            (tupleOf opt ds)).flatten := by
  obtain ⟨zb, hzb, hkeep, _⟩ := zone_table opt ds hv
  refine ⟨zb, hzb, ?_⟩
  intro s hs
  have hmem : (s.type, s.name, s.nodesPerElem, s.vtkCellIds, s.conn) ∈
      zb.sections.map (fun s => (s.type, s.name, s.nodesPerElem, s.vtkCellIds, s.conn)) :=
    List.mem_map.2 ⟨s, hs, rfl⟩
  rw [hkeep] at hmem
  obtain ⟨s1, hs1, e⟩ := List.mem_map.1 hmem
  simp only [Prod.mk.injEq] at e
  obtain ⟨et, _, _, _, econn⟩ := e
  simp only [groupCells, List.mem_map] at hs1
  obtain ⟨t, _, rfl⟩ := hs1
  have ett : s.type = t := et.symm
  have hfil : ((List.range' 0 ds.cells.length).filter fun j =>
        decide ((shapeOf ds j).getD .ElementTypeNull = t) && kept opt ds j)
      = (List.range ds.cells.length).filter fun j =>
          kept opt ds j && decide (shapeOf ds j = some t) := by
    rw [List.range_eq_range']
    apply List.filter_congr
    intro j hj
    simp only [List.mem_range'_1] at hj
    cases hkj : kept opt ds j with
    | false => simp
    | true =>
      obtain ⟨t1, ht1, _, _⟩ := supported_shape ds j (hv j (by omega) hkj)
      simp [ht1]
  rw [← econn, ett]
  simp only [sectionFor, recs_filter_type, List.map_map, hfil]
  rfl

theorem tupleOf_oneBased (opt : CgnsWriterOptions) (ds : VtkDataSet)
    (h1 : opt.oneBasedConnectivity = true) (j : Nat) :
    tupleOf opt ds j = (cellAt ds j).pointIds.map (· + 1) := by
  unfold tupleOf
  apply List.map_congr_left
  intro id _
  rw [if_pos h1]

theorem sectionWrites_append (a b : List CgCall) :
    sectionWrites (a ++ b) = sectionWrites a ++ sectionWrites b := by
  unfold sectionWrites
  rw [List.filter_append]

theorem sectionWrites_none (l : List Step)
    (h : ∀ s ∈ l, ∀ c w, s = .ok (c, w) → sectionWrites [c] = []) :
    sectionWrites (stepCalls l) = [] := by
  induction l with
  | nil => rfl
  | cons a l ih =>
    have ih1 := ih (fun s hs => h s (List.mem_cons_of_mem _ hs))
    cases a with
    | error f => exact ih1
    | ok p =>
      obtain ⟨c, w⟩ := p
      have hc := h _ (List.mem_cons_self _ _) c w rfl
      rw [stepCalls_cons_ok]
      have : c :: stepCalls l = [c] ++ stepCalls l := rfl
      rw [this, sectionWrites_append, hc, ih1]
      rfl

theorem sectionWrites_pointData (ds : DataSet) :
    sectionWrites (stepCalls (WriteFlowSolutionPointData ds)) = [] := by
  apply sectionWrites_none
  unfold WriteFlowSolutionPointData
  cases ds.pointData with
  | none => intro s hs; cases hs
  | some arrays =>
    dsimp only
    intro s hs c w e
    rcases List.mem_cons.1 hs with rfl | hs
    · cases e; rfl
    · obtain ⟨a, ha, hsa⟩ := List.mem_flatten.1 hs
      obtain ⟨p, _, rfl⟩ := List.mem_map.1 ha
      cases hp : p.2 with
      | none => rw [hp] at hsa; cases hsa
      | some arr =>
        rw [hp] at hsa
        dsimp only at hsa
        unfold pointArraySteps at hsa
        obtain ⟨k, _, rfl⟩ := List.mem_map.1 hsa
        cases e; rfl

theorem sectionWrites_cellData (ds : DataSet) (tbl : List Int) (n : Int) :
    sectionWrites (stepCalls (WriteFlowSolutionCellData ds tbl n)) = [] := by
  apply sectionWrites_none
  unfold WriteFlowSolutionCellData
  cases ds.cellData with
  | none => intro s hs; cases hs
  | some arrays =>
    dsimp only
    intro s hs c w e
    rcases List.mem_cons.1 hs with rfl | hs
    · cases e; rfl
    · obtain ⟨a, ha, hsa⟩ := List.mem_flatten.1 hs
      obtain ⟨p, _, rfl⟩ := List.mem_map.1 ha
      cases hp : p.2 with
      | none => rw [hp] at hsa; cases hsa
      | some arr =>
        rw [hp] at hsa
        dsimp only at hsa
        unfold cellArraySteps at hsa
        obtain ⟨k, _, rfl⟩ := List.mem_map.1 hsa
        cases hb : cellFieldValues tbl n (ds.topo.cells.length : Int)
            (fun cid => arr.getComponent cid k) with
        | error f => rw [hb] at e; cases e
        | ok buf => rw [hb] at e; cases e; rfl

theorem sectionWrites_sectionSteps (secs : List Section) :
    sectionWrites (stepCalls (sectionSteps secs))
      = (secs.filter fun s => !s.vtkCellIds.isEmpty).map fun s =>
          CgCall.cg_section_write s.name s.type s.start s.end_ s.conn := by
  unfold sectionSteps
  induction (secs.filter fun s => !s.vtkCellIds.isEmpty) with
  | nil => rfl
  | cons s l ih =>
    rw [List.map_cons, stepCalls_cons_ok, List.map_cons]
    have : ∀ (c : CgCall) (r : List CgCall), c :: r = [c] ++ r := fun _ _ => rfl
    rw [this _ (stepCalls _), sectionWrites_append, ih]
    rfl

theorem sectionWrites_zone (zoneName : String) (ds : DataSet) (opt : CgnsWriterOptions)
    (zb : ZoneBuild) (hzb : buildZone opt ds.topo = .ok zb) :
    sectionWrites (stepCalls (WriteZoneUnstructured zoneName ds opt))
      = (zb.sections.filter fun s => !s.vtkCellIds.isEmpty).map fun s =>
          CgCall.cg_section_write s.name s.type s.start s.end_ s.conn := by
  unfold WriteZoneUnstructured
  rw [hzb]
  dsimp only
  rw [stepCalls_cons_ok]
  have hsplit : ∀ (c : CgCall) (r : List CgCall), c :: r = [c] ++ r := fun _ _ => rfl
  rw [hsplit _ (stepCalls _), sectionWrites_append, stepCalls_append, stepCalls_append,
    stepCalls_append, sectionWrites_append, sectionWrites_append, sectionWrites_append,
    sectionWrites_sectionSteps]
  have hp : sectionWrites (stepCalls
      (if opt.writePointData then WriteFlowSolutionPointData ds else [])) = [] := by
    cases opt.writePointData
    · rfl
    · exact sectionWrites_pointData ds
  have hc : sectionWrites (stepCalls
      (if opt.writeCellData then WriteFlowSolutionCellData ds zb.cellToElem zb.nCellsWritten
        else [])) = [] := by
    cases opt.writeCellData
    · rfl
    · exact sectionWrites_cellData ds _ _
  rw [hp, hc]
  simp only [WriteCoords, List.append_nil]
  rfl

theorem sectionWrites_zone_failed (zoneName : String) (ds : DataSet) (opt : CgnsWriterOptions)
    (f : Fault) (hzb : buildZone opt ds.topo = .error f) :
    sectionWrites (stepCalls (WriteZoneUnstructured zoneName ds opt)) = [] := by
  unfold WriteZoneUnstructured
  rw [hzb]
  rfl

/-- C20 (counterexample): with `oneBasedConnectivity` cleared, the triangle on the points
0, 1, 2 and the quadrilateral on 0, 1, 3, 2 are placed in their sections with the point ids
themselves, not the ids plus one; with the option set they are one-based. -/
theorem C20_counterexample :
    (buildZone optZeroBased dsTriQuad).toOption.map
        (fun zb => zb.sections.map fun s => (s.name, s.conn))
      = some [("Tris", [0, 1, 2]), ("Quads", [0, 1, 3, 2])] ∧
    (buildZone CgnsWriterOptions.default dsTriQuad).toOption.map
        (fun zb => zb.sections.map fun s => (s.name, s.conn))
      = some [("Tris", [1, 2, 3]), ("Quads", [1, 2, 4, 3])] := by
  refine ⟨by decide, by decide⟩

/-- C20 (amended): with `oneBasedConnectivity` set, for every dataset, the connectivity of
every `cg_section_write` that `WriteZoneUnstructured` issues is the concatenation, in cell
order, of the point ids plus one of the kept cells of the section's shape, so every value
in it is a point id of such a cell plus one; and for a zone whose kept cells are supported
these calls are the non-empty sections that the zone writer built. -/
theorem C20_connectivity_is_point_id_plus_one (zoneName : String) (ds : DataSet)
    (opt : CgnsWriterOptions) (h1 : opt.oneBasedConnectivity = true) :
    (∀ name t start end_ conn,
      CgCall.cg_section_write name t start end_ conn
          ∈ stepCalls (WriteZoneUnstructured zoneName ds opt) →
        conn =
          (((List.range ds.topo.cells.length).filter fun j =>
            kept opt ds.topo j && decide (shapeOf ds.topo j = some t)).map
            (fun j => (cellAt ds.topo j).pointIds.map (· + 1))).flatten ∧
        ∀ v ∈ conn, ∃ j, j < ds.topo.cells.length ∧ kept opt ds.topo j = true ∧
          shapeOf ds.topo j = some t ∧ ∃ id ∈ (cellAt ds.topo j).pointIds, v = id + 1) ∧
    (zoneValid opt ds.topo →
      ∃ zb, buildZone opt ds.topo = .ok zb ∧
        sectionWrites (stepCalls (WriteZoneUnstructured zoneName ds opt))
          = (zb.sections.filter fun s => !s.vtkCellIds.isEmpty).map (fun s =>
              CgCall.cg_section_write s.name s.type s.start s.end_ s.conn) ∧
        ∀ s ∈ zb.sections,
          s.conn =
            (((List.range ds.topo.cells.length).filter fun j =>
              kept opt ds.topo j && decide (shapeOf ds.topo j = some s.type)).map
              (fun j => (cellAt ds.topo j).pointIds.map (· + 1))).flatten) := by
  have hsec : zoneValid opt ds.topo →
      ∃ zb, buildZone opt ds.topo = .ok zb ∧
        ∀ s ∈ zb.sections,
          s.conn =
            (((List.range ds.topo.cells.length).filter fun j =>
              kept opt ds.topo j && decide (shapeOf ds.topo j = some s.type)).map
              (fun j => (cellAt ds.topo j).pointIds.map (· + 1))).flatten := by
    intro hv
    obtain ⟨zb, hzb, hconn⟩ := zone_section_conn opt ds.topo hv
    refine ⟨zb, hzb, ?_⟩
    intro s hs
    rw [hconn s hs]
    congr 1
    apply List.map_congr_left
    intro j _
    exact tupleOf_oneBased opt ds.topo h1 j
  refine ⟨?_, ?_⟩
  · intro name t start end_ conn hmem
    have hw : CgCall.cg_section_write name t start end_ conn
        ∈ sectionWrites (stepCalls (WriteZoneUnstructured zoneName ds opt)) := by
      unfold sectionWrites
      exact List.mem_filter.2 ⟨hmem, rfl⟩
    have hspec := buildZone_spec opt ds.topo
    cases hfe : firstErr opt ds.topo ds.topo.cells.length 0 with
    | some e =>
      rw [hfe] at hspec
      dsimp only at hspec
      rw [sectionWrites_zone_failed zoneName ds opt _ hspec] at hw
      cases hw
    | none =>
      have hv := (firstErr_none_iff_valid opt ds.topo).1 hfe
      obtain ⟨zb, hzb, hconn⟩ := hsec hv
      rw [sectionWrites_zone zoneName ds opt zb hzb] at hw
      obtain ⟨s, hs, e⟩ := List.mem_map.1 hw
      have hs1 := (List.mem_filter.1 hs).1
      injection e with _ et _ _ ec
      subst et
      subst ec
      refine ⟨hconn s hs1, ?_⟩
      intro v hvm
      rw [hconn s hs1] at hvm
      obtain ⟨l, hl, hvl⟩ := List.mem_flatten.1 hvm
      obtain ⟨j, hj, rfl⟩ := List.mem_map.1 hl
      obtain ⟨hjr, hjp⟩ := List.mem_filter.1 hj
      simp only [Bool.and_eq_true, decide_eq_true_eq] at hjp
      obtain ⟨id, hid, rfl⟩ := List.mem_map.1 hvl
      exact ⟨j, List.mem_range.1 hjr, hjp.1, hjp.2, id, hid, rfl⟩
  · intro hv
    obtain ⟨zb, hzb, hconn⟩ := hsec hv
    exact ⟨zb, hzb, sectionWrites_zone zoneName ds opt zb hzb, hconn⟩

theorem C20_witness :
    (CgnsWriterOptions.default.oneBasedConnectivity = true ∧
      zoneValid CgnsWriterOptions.default dsTriQuadZone.topo ∧
      sectionWrites (stepCalls
          (WriteZoneUnstructured "Zone0" dsTriQuadZone CgnsWriterOptions.default))
        = [CgCall.cg_section_write "Tris" .TRI_3 1 1 [1, 2, 3],
           CgCall.cg_section_write "Quads" .QUAD_4 2 2 [1, 2, 4, 3]]) ∧
    (∀ name t start end_ conn,
      CgCall.cg_section_write name t start end_ conn
          ∈ stepCalls (WriteZoneUnstructured "Zone0" dsTriQuadZone CgnsWriterOptions.default) →
        conn =
          (((List.range dsTriQuadZone.topo.cells.length).filter fun j =>
            kept CgnsWriterOptions.default dsTriQuadZone.topo j
              && decide (shapeOf dsTriQuadZone.topo j = some t)).map
            (fun j => (cellAt dsTriQuadZone.topo j).pointIds.map (· + 1))).flatten ∧
        ∀ v ∈ conn, ∃ j, j < dsTriQuadZone.topo.cells.length ∧
          kept CgnsWriterOptions.default dsTriQuadZone.topo j = true ∧
          shapeOf dsTriQuadZone.topo j = some t ∧
          ∃ id ∈ (cellAt dsTriQuadZone.topo j).pointIds, v = id + 1) ∧
    (zoneValid CgnsWriterOptions.default dsTriQuadZone.topo →
      ∃ zb, buildZone CgnsWriterOptions.default dsTriQuadZone.topo = .ok zb ∧
        sectionWrites (stepCalls
            (WriteZoneUnstructured "Zone0" dsTriQuadZone CgnsWriterOptions.default))
          = (zb.sections.filter fun s => !s.vtkCellIds.isEmpty).map (fun s =>
              CgCall.cg_section_write s.name s.type s.start s.end_ s.conn) ∧
        ∀ s ∈ zb.sections,
          s.conn =
            (((List.range dsTriQuadZone.topo.cells.length).filter fun j =>
              kept CgnsWriterOptions.default dsTriQuadZone.topo j
                && decide (shapeOf dsTriQuadZone.topo j = some s.type)).map
              (fun j => (cellAt dsTriQuadZone.topo j).pointIds.map (· + 1))).flatten) :=
  ⟨⟨rfl, by decide, by decide⟩,
    C20_connectivity_is_point_id_plus_one "Zone0" dsTriQuadZone CgnsWriterOptions.default rfl⟩

theorem zone_scatter_values (opt : CgnsWriterOptions) (ds : VtkDataSet)
    (hv : zoneValid opt ds) :
    ∃ zb, buildZone opt ds = .ok zb ∧
      (∀ c, c < ds.cells.length → kept opt ds c = false → zb.cellToElem[c]? = some 0) ∧
      ∀ getComponent : Int → Rat, ∃ buf,
        cellFieldValues zb.cellToElem zb.nCellsWritten (ds.cells.length : Int) getComponent
          = .ok buf ∧
        (buf.length : Int) = zb.nCellsWritten ∧
        (∀ c, c < ds.cells.length → kept opt ds c = true →
          ∃ e, zb.cellToElem[c]? = some e ∧ 1 ≤ e ∧ e ≤ zb.nCellsWritten ∧
            buf[(e - 1).toNat]? = some (getComponent c)) ∧
        (∀ p : Nat, p < buf.length →
          ∃ c, (c < ds.cells.length ∧ zb.cellToElem[c]? = some ((p : Int) + 1) ∧
              buf[p]? = some (getComponent c)) ∧
            ∀ c2, c2 < ds.cells.length → zb.cellToElem[c2]? = some ((p : Int) + 1) →
              c2 = c) := by
  obtain ⟨zb, hzb, _, hlen, hN0, _, _, hkept, hdrop, hinj, hsurj⟩ := zone_table opt ds hv
  have hentry : ∀ (i : Nat) (e : Int), zb.cellToElem[i]? = some e →
      i < ds.cells.length ∧ ((kept opt ds i = false ∧ e = 0) ∨
        (kept opt ds i = true ∧ 1 ≤ e ∧ e ≤ zb.nCellsWritten)) := by
    intro i e hie
    have hi : i < ds.cells.length := by
      rw [← hlen]
      exact (List.getElem?_eq_some_iff.1 hie).1
    refine ⟨hi, ?_⟩
    cases hk : kept opt ds i with
    | false =>
      have := hdrop i hi hk
      rw [hie] at this
      exact Or.inl ⟨rfl, Option.some.inj this⟩
    | true =>
      obtain ⟨q, hq, hqe⟩ := hkept i hi hk
      rw [hie] at hqe
      have := Option.some.inj hqe
      exact Or.inr ⟨rfl, by omega, by omega⟩
  have hrange : ∀ (i : Nat) (e : Int), zb.cellToElem[i]? = some e →
      e = 0 ∨ (1 ≤ e ∧ e ≤ ((zb.nCellsWritten.toNat : Nat) : Int)) := by
    intro i e hie
    rcases (hentry i e hie).2 with ⟨_, h⟩ | ⟨_, h1, h2⟩
    · exact Or.inl h
    · exact Or.inr ⟨h1, by omega⟩
  have hinj2 : ∀ (i j : Nat) (e : Int), zb.cellToElem[i]? = some e →
      zb.cellToElem[j]? = some e → e ≠ 0 → i = j := by
    intro i j e hi hj hne
    obtain ⟨hil, hi2⟩ := hentry i e hi
    obtain ⟨hjl, hj2⟩ := hentry j e hj
    rcases hi2 with ⟨_, h⟩ | ⟨hki, _, _⟩
    · exact absurd h hne
    · rcases hj2 with ⟨_, h⟩ | ⟨hkj, _, _⟩
      · exact absurd h hne
      · exact hinj i j hil hjl hki hkj (by rw [hi, hj])
  refine ⟨zb, hzb, hdrop, ?_⟩
  intro getComponent
  obtain ⟨buf, hbuf, hbl, hval, _⟩ :=
    scatterLoop_spec zb.cellToElem getComponent zb.nCellsWritten.toNat hrange hinj2
      ds.cells.length 0 (List.replicate zb.nCellsWritten.toNat 0) (by omega) (by simp)
  refine ⟨buf, ?_, by omega, ?_, ?_⟩
  · simpa [cellFieldValues] using hbuf
  · intro c hc hk
    obtain ⟨q, hq, hqe⟩ := hkept c hc hk
    refine ⟨_, hqe, by omega, by omega, ?_⟩
    exact hval c _ (Nat.zero_le _) (by omega) hqe (by omega)
  · intro p hp
    obtain ⟨c, hc, hk, hce⟩ := hsurj p (by omega)
    have hce2 : zb.cellToElem[c]? = some ((p : Int) + 1) := by rw [hce]; congr 1; ring
    refine ⟨c, ⟨hc, hce2, ?_⟩, ?_⟩
    · have := hval c _ (Nat.zero_le _) (by omega) hce2 (by omega)
      simpa using this
    · intro c2 _ hc2
      exact hinj2 c2 c _ hc2 hce2 (by omega)

theorem cellArraySteps_get (tbl : List Int) (n nCells : Int) (ai : Nat) (arr : VtkDataArray)
    (c : Nat) (hc : c < arr.numberOfComponents.toNat) (buf : List Rat)
    (hbuf : cellFieldValues tbl n nCells (fun cid => arr.getComponent cid c) = .ok buf) :
    (cellArraySteps tbl n nCells ai arr)[c]? =
      some (.ok (CgCall.cg_field_write
          (fieldName (arr.name.getD ("CellArray_" ++ toString ai)) arr.numberOfComponents c) buf,
        "cg_field_write(cell:" ++
          fieldName (arr.name.getD ("CellArray_" ++ toString ai)) arr.numberOfComponents c
          ++ ")")) := by
  simp only [cellArraySteps, liftRange, List.map_map, List.getElem?_map,
    List.getElem?_range hc, Option.map_some', Function.comp_apply, hbuf]

theorem cellArraySteps_length (tbl : List Int) (n nCells : Int) (ai : Nat)
    (arr : VtkDataArray) :
    (cellArraySteps tbl n nCells ai arr).length = arr.numberOfComponents.toNat := by
  simp only [cellArraySteps, liftRange, List.map_map, List.length_map, List.length_range]

theorem cellArraySteps_sub (ds : DataSet) (tbl : List Int) (n : Int)
    (arrays : List (Option VtkDataArray)) (hcd : ds.cellData = some arrays) (ai : Nat)
    (arr : VtkDataArray) (harr : arrays[ai]? = some (some arr)) :
    ∀ s ∈ cellArraySteps tbl n (ds.topo.cells.length : Int) ai arr,
      s ∈ WriteFlowSolutionCellData ds tbl n := by
  intro s hs
  unfold WriteFlowSolutionCellData
  rw [hcd]
  dsimp only
  apply List.mem_cons_of_mem
  apply List.mem_flatten.2
  refine ⟨_, List.mem_map.2 ⟨(ai, some arr), List.mk_mem_enum_iff_getElem?.2 harr, rfl⟩, hs⟩

theorem mem_stepCalls (l : List Step) (c : CgCall) (w : String) (h : .ok (c, w) ∈ l) :
    c ∈ stepCalls l :=
  List.mem_filterMap.2 ⟨_, h, rfl⟩

theorem cellData_sub_zone (zoneName : String) (ds : DataSet) (opt : CgnsWriterOptions)
    (zb : ZoneBuild) (hzb : buildZone opt ds.topo = .ok zb) (hw : opt.writeCellData = true) :
    ∀ s ∈ WriteFlowSolutionCellData ds zb.cellToElem zb.nCellsWritten,
      s ∈ WriteZoneUnstructured zoneName ds opt := by
  intro s hs
  unfold WriteZoneUnstructured
  rw [hzb]
  dsimp only
  rw [if_pos hw]
  apply List.mem_cons_of_mem
  exact List.mem_append_right _ hs

/-- C10: for a zone whose kept cells are supported, with the table and the count that
`WriteZoneUnstructured` builds, the statement of `WriteFlowSolutionCellData` for component
`c` of the cell array `arr` is a `cg_field_write` whose buffer is the scatter of that
component: its length is `nCellsWritten`; a kept cell has a table entry within
`1 .. nCellsWritten` and the buffer holds its value at position `cellToElem[cell] - 1`;
a dropped cell has the entry 0 and writes nothing; and every buffer position is the
target of exactly one cell. When cell data is enabled this call is among the calls of
`WriteZoneUnstructured`. -/
theorem C10_cell_values_scattered_by_table (zoneName : String) (opt : CgnsWriterOptions)
    (ds : DataSet) (arrays : List (Option VtkDataArray)) (ai : Nat) (arr : VtkDataArray)
    (c : Nat) (hv : zoneValid opt ds.topo) (hcd : ds.cellData = some arrays)
    (harr : arrays[ai]? = some (some arr)) (hc : c < arr.numberOfComponents.toNat) :
    ∃ zb buf, buildZone opt ds.topo = .ok zb ∧
      (cellArraySteps zb.cellToElem zb.nCellsWritten (ds.topo.cells.length : Int) ai arr)[c]?
        = some (.ok (CgCall.cg_field_write
            (fieldName (arr.name.getD ("CellArray_" ++ toString ai)) arr.numberOfComponents c)
            buf,
          "cg_field_write(cell:" ++
            fieldName (arr.name.getD ("CellArray_" ++ toString ai)) arr.numberOfComponents c
            ++ ")")) ∧
      (cellArraySteps zb.cellToElem zb.nCellsWritten (ds.topo.cells.length : Int) ai
        arr).length = arr.numberOfComponents.toNat ∧
      (.ok (CgCall.cg_field_write
            (fieldName (arr.name.getD ("CellArray_" ++ toString ai)) arr.numberOfComponents c)
            buf,
          "cg_field_write(cell:" ++
            fieldName (arr.name.getD ("CellArray_" ++ toString ai)) arr.numberOfComponents c
            ++ ")") : Step)
        ∈ WriteFlowSolutionCellData ds zb.cellToElem zb.nCellsWritten ∧
      (opt.writeCellData = true →
        CgCall.cg_field_write
            (fieldName (arr.name.getD ("CellArray_" ++ toString ai)) arr.numberOfComponents c)
            buf
          ∈ stepCalls (WriteZoneUnstructured zoneName ds opt)) ∧
      cellFieldValues zb.cellToElem zb.nCellsWritten (ds.topo.cells.length : Int)
          (fun cid => arr.getComponent cid c)
        = .ok buf ∧
      (buf.length : Int) = zb.nCellsWritten ∧
      (∀ cell, cell < ds.topo.cells.length → kept opt ds.topo cell = true →
        ∃ e, zb.cellToElem[cell]? = some e ∧ 1 ≤ e ∧ e ≤ zb.nCellsWritten ∧
          buf[(e - 1).toNat]? = some (arr.getComponent cell c)) ∧
      (∀ cell, cell < ds.topo.cells.length → kept opt ds.topo cell = false →
        zb.cellToElem[cell]? = some 0) ∧
      (∀ p : Nat, p < buf.length →
        ∃ cell, (cell < ds.topo.cells.length ∧ zb.cellToElem[cell]? = some ((p : Int) + 1) ∧
            buf[p]? = some (arr.getComponent cell c)) ∧
          ∀ c2, c2 < ds.topo.cells.length → zb.cellToElem[c2]? = some ((p : Int) + 1) →
            c2 = cell) := by
  obtain ⟨zb, hzb, hdrop, hall⟩ := zone_scatter_values opt ds.topo hv
  obtain ⟨buf, hbuf, hlen, hkept, hpos⟩ := hall (fun cid => arr.getComponent cid c)
  have hget := cellArraySteps_get zb.cellToElem zb.nCellsWritten (ds.topo.cells.length : Int)
    ai arr c hc buf hbuf
  have hmem := cellArraySteps_sub ds zb.cellToElem zb.nCellsWritten arrays hcd ai arr harr _
    (List.getElem?_mem hget)
  refine ⟨zb, buf, hzb, hget, cellArraySteps_length _ _ _ _ _, hmem, ?_, hbuf, hlen, hkept,
    hdrop, hpos⟩
  intro hw
  exact mem_stepCalls _ _ _ (cellData_sub_zone zoneName ds opt zb hzb hw _ hmem)

theorem C10_witness :
    (zoneValid CgnsWriterOptions.default dsGhostFields.topo ∧
      dsGhostFields.cellData = some [some arrTemperature] ∧
      (buildZone CgnsWriterOptions.default dsGhostFields.topo).toOption.map
          (fun zb => (zb.cellToElem, zb.nCellsWritten))
        = some ([1, 0, 2], 2) ∧
      WriteFlowSolutionCellData dsGhostFields [1, 0, 2] 2
        = [.ok (CgCall.cg_sol_write "CellData" true, "cg_sol_write(CellData)"),
           .ok (CgCall.cg_field_write "Temperature" [10, 12],
             "cg_field_write(cell:Temperature)")]) ∧
    ∃ zb buf, buildZone CgnsWriterOptions.default dsGhostFields.topo = .ok zb ∧
      (cellArraySteps zb.cellToElem zb.nCellsWritten (dsGhostFields.topo.cells.length : Int) 0
          arrTemperature)[0]?
        = some (.ok (CgCall.cg_field_write
            (fieldName (arrTemperature.name.getD ("CellArray_" ++ toString 0))
              arrTemperature.numberOfComponents (0 : Nat))
            buf,
          "cg_field_write(cell:" ++
            fieldName (arrTemperature.name.getD ("CellArray_" ++ toString 0))
              arrTemperature.numberOfComponents (0 : Nat)
            ++ ")")) ∧
      (cellArraySteps zb.cellToElem zb.nCellsWritten (dsGhostFields.topo.cells.length : Int) 0
        arrTemperature).length = arrTemperature.numberOfComponents.toNat ∧
      (.ok (CgCall.cg_field_write
            (fieldName (arrTemperature.name.getD ("CellArray_" ++ toString 0))
              arrTemperature.numberOfComponents (0 : Nat))
            buf,
          "cg_field_write(cell:" ++
            fieldName (arrTemperature.name.getD ("CellArray_" ++ toString 0))
              arrTemperature.numberOfComponents (0 : Nat)
            ++ ")") : Step)
        ∈ WriteFlowSolutionCellData dsGhostFields zb.cellToElem zb.nCellsWritten ∧
      (CgnsWriterOptions.default.writeCellData = true →
        CgCall.cg_field_write
            (fieldName (arrTemperature.name.getD ("CellArray_" ++ toString 0))
              arrTemperature.numberOfComponents (0 : Nat))
            buf
          ∈ stepCalls (WriteZoneUnstructured "Zone0" dsGhostFields CgnsWriterOptions.default)) ∧
      cellFieldValues zb.cellToElem zb.nCellsWritten (dsGhostFields.topo.cells.length : Int)
          (fun cid => arrTemperature.getComponent cid (0 : Nat))
        = .ok buf ∧
      (buf.length : Int) = zb.nCellsWritten ∧
      (∀ cell, cell < dsGhostFields.topo.cells.length →
        kept CgnsWriterOptions.default dsGhostFields.topo cell = true →
        ∃ e, zb.cellToElem[cell]? = some e ∧ 1 ≤ e ∧ e ≤ zb.nCellsWritten ∧
          buf[(e - 1).toNat]? = some (arrTemperature.getComponent cell (0 : Nat))) ∧
      (∀ cell, cell < dsGhostFields.topo.cells.length →
        kept CgnsWriterOptions.default dsGhostFields.topo cell = false →
        zb.cellToElem[cell]? = some 0) ∧
      (∀ p : Nat, p < buf.length →
        ∃ cell, (cell < dsGhostFields.topo.cells.length ∧
            zb.cellToElem[cell]? = some ((p : Int) + 1) ∧
            buf[p]? = some (arrTemperature.getComponent cell (0 : Nat))) ∧
          ∀ c2, c2 < dsGhostFields.topo.cells.length →
            zb.cellToElem[c2]? = some ((p : Int) + 1) → c2 = cell) :=
  ⟨⟨by decide, rfl, by decide, rfl⟩,
    C10_cell_values_scattered_by_table "Zone0" CgnsWriterOptions.default dsGhostFields
      [some arrTemperature] 0 arrTemperature 0 (by decide) rfl rfl (by decide)⟩

end Vtk

end CgnsWriter
